import Mathlib

/-!
# Bifrost send-side congestion control: BBR support components

A shallow embedding of the leaf components of the BBR network controller
(`modules/congestion_controller/bbr`):

* `windowed_filter.h`            : `WindowedFilter`
* `packet_number_indexed_queue.h`: `PacketNumberIndexedQueue`
* `bandwidth_sampler.{h,cc}`     : `BandwidthSampler`

Conventions of the embedding.

* `int64_t` / `size_t` values are unbounded `Int` / `Nat`; wrap-around is not
  modelled (a deque of `2^63` slots cannot be allocated, and packet numbers,
  round counts and microsecond clocks stay far from the `int64_t` limits).
* An object is a structure, a mutating member function returns the new object
  (paired with the C++ return value when there is one).
* A pointer returned by a lookup is the `Option` of the pointee.
* The unit types of `api/units` are not among the sources: sizes and times are
  `Int`s, a rate is finite or infinite, and the division of a size by a
  duration is a parameter of the sampler.
* A call that does not return is `none`.

The file has three parts: the embedding, the invariants and the inputs used to
evaluate it, and the theorems.
-/

namespace Bifrost

/-! ## `windowed_filter.h` -/

/-- The comparison functor `MinFilter<T>`: `lhs <= rhs`. -/
def MinFilter {T : Type} [LinearOrder T] (lhs rhs : T) : Bool := decide (lhs ≤ rhs)

/-- The comparison functor `MaxFilter<T>`: `lhs >= rhs`. -/
def MaxFilter {T : Type} [LinearOrder T] (lhs rhs : T) : Bool := decide (lhs ≥ rhs)

/-- The nested `WindowedFilter::Sample`: a sample and the time it was taken.
`TimeT` is `int64_t` in every instantiation of the controller. -/
structure Sample (T : Type) where
  sample : T
  time : Int
deriving DecidableEq, Repr

/-- The class `WindowedFilter<T, Compare, int64_t, int64_t>`; `estimates_[i]`
is the field `estimates_i`. -/
structure WindowedFilter (T : Type) where
  window_length_ : Int
  zero_value_ : T
  estimates_0 : Sample T
  estimates_1 : Sample T
  estimates_2 : Sample T
deriving DecidableEq, Repr

namespace WindowedFilter

variable {T : Type}

/-- The constructor `WindowedFilter(window_length, zero_value, zero_time)`. -/
def new (window_length : Int) (zero_value : T) (zero_time : Int) : WindowedFilter T :=
  { window_length_ := window_length
    zero_value_ := zero_value
    estimates_0 := ⟨zero_value, zero_time⟩
    estimates_1 := ⟨zero_value, zero_time⟩
    estimates_2 := ⟨zero_value, zero_time⟩ }

/-- `SetWindowLength`. -/
def SetWindowLength (f : WindowedFilter T) (window_length : Int) : WindowedFilter T :=
  { f with window_length_ := window_length }

/-- `Reset`: all three estimates become the new sample. -/
def Reset (f : WindowedFilter T) (new_sample : T) (new_time : Int) : WindowedFilter T :=
  { f with
    estimates_0 := ⟨new_sample, new_time⟩
    estimates_1 := ⟨new_sample, new_time⟩
    estimates_2 := ⟨new_sample, new_time⟩ }

def GetBest (f : WindowedFilter T) : T := f.estimates_0.sample
def GetSecondBest (f : WindowedFilter T) : T := f.estimates_1.sample
def GetThirdBest (f : WindowedFilter T) : T := f.estimates_2.sample

/-- The second and third estimate after the `if / else if` on lines 83-88 of
`Update`. -/
def insertSample (Compare : T → T → Bool) (f : WindowedFilter T)
    (new_sample : T) (new_time : Int) : WindowedFilter T :=
  if Compare new_sample f.estimates_1.sample then
    { f with estimates_1 := ⟨new_sample, new_time⟩, estimates_2 := ⟨new_sample, new_time⟩ }
  else if Compare new_sample f.estimates_2.sample then
    { f with estimates_2 := ⟨new_sample, new_time⟩ }
  else f

/-- The promotion on lines 93-95 of `Update`: the second and third estimate
move up and the new sample becomes the third. -/
def promote (f : WindowedFilter T) (new_sample : T) (new_time : Int) : WindowedFilter T :=
  { f with
    estimates_0 := f.estimates_1
    estimates_1 := f.estimates_2
    estimates_2 := ⟨new_sample, new_time⟩ }

/-- The rest of `Update` (lines 90-115): expiry of the best estimate, with a
second promotion when the promoted best is outside the window too, and the
quarter / half window refresh of the second and third estimate. -/
def expire [DecidableEq T] (f : WindowedFilter T) (new_sample : T) (new_time : Int) :
    WindowedFilter T :=
  if new_time - f.estimates_0.time > f.window_length_ then
    if new_time - (f.promote new_sample new_time).estimates_0.time > f.window_length_ then
      { f.promote new_sample new_time with
        estimates_0 := (f.promote new_sample new_time).estimates_1
        estimates_1 := (f.promote new_sample new_time).estimates_2 }
    else f.promote new_sample new_time
  else if f.estimates_1.sample = f.estimates_0.sample ∧
      new_time - f.estimates_1.time > f.window_length_ >>> 2 then
    { f with estimates_1 := ⟨new_sample, new_time⟩, estimates_2 := ⟨new_sample, new_time⟩ }
  else if f.estimates_2.sample = f.estimates_1.sample ∧
      new_time - f.estimates_2.time > f.window_length_ >>> 1 then
    { f with estimates_2 := ⟨new_sample, new_time⟩ }
  else f

/-- `Update(new_sample, new_time)` for the comparison `Compare`. -/
def Update [DecidableEq T] (Compare : T → T → Bool) (f : WindowedFilter T)
    (new_sample : T) (new_time : Int) : WindowedFilter T :=
  if f.estimates_0.sample = f.zero_value_ ∨
      Compare new_sample f.estimates_0.sample = true ∨
      new_time - f.estimates_2.time > f.window_length_ then
    f.Reset new_sample new_time
  else
    expire (insertSample Compare f new_sample new_time) new_sample new_time

/-- A finite sequence of `Update(sample, time)` calls, in list order. -/
def UpdateAll [DecidableEq T] (Compare : T → T → Bool) (f : WindowedFilter T)
    (calls : List (T × Int)) : WindowedFilter T :=
  calls.foldl (fun g c => g.Update Compare c.1 c.2) f

end WindowedFilter

/-! ## `packet_number_indexed_queue.h` -/

/-- The nested `PacketNumberIndexedQueue::EntryWrapper`: the data and the flag
telling whether the entry is really in the map. -/
structure EntryWrapper (T : Type) where
  data : T
  present : Bool
deriving DecidableEq, Repr

/-- The default constructor `EntryWrapper() : data(), present(false)`. -/
def EntryWrapper.absent {T : Type} [Inhabited T] : EntryWrapper T := ⟨default, false⟩

/-- The class `PacketNumberIndexedQueue<T>`; the deque `entries_` is a list
whose head is the front. -/
structure PacketNumberIndexedQueue (T : Type) where
  entries_ : List (EntryWrapper T)
  number_of_present_entries_ : Nat
  first_packet_ : Int
deriving DecidableEq, Repr

namespace PacketNumberIndexedQueue

variable {T : Type}

/-- The constructor: no entries, `number_of_present_entries_(0)`,
`first_packet_(0)`. -/
def new : PacketNumberIndexedQueue T :=
  { entries_ := [], number_of_present_entries_ := 0, first_packet_ := 0 }

def IsEmpty (q : PacketNumberIndexedQueue T) : Bool := q.number_of_present_entries_ == 0

def number_of_present_entries (q : PacketNumberIndexedQueue T) : Nat :=
  q.number_of_present_entries_

def entry_slots_used (q : PacketNumberIndexedQueue T) : Nat := q.entries_.length

def first_packet (q : PacketNumberIndexedQueue T) : Int := q.first_packet_

/-- `last_packet()`: zero for an empty queue, otherwise
`first_packet_ + entries_.size() - 1`. -/
def last_packet (q : PacketNumberIndexedQueue T) : Int :=
  if q.IsEmpty then 0 else q.first_packet_ + q.entries_.length - 1

/-- `GetEntryWrapper(offset)`: the wrapper at a packet number, `none` for the
null pointer (below `first_packet_`, past the end, or not present). -/
def GetEntryWrapper (q : PacketNumberIndexedQueue T) (offset : Int) : Option (EntryWrapper T) :=
  if offset < q.first_packet_ then none
  else if offset - q.first_packet_ ≥ q.entries_.length then none
  else
    match q.entries_[(offset - q.first_packet_).toNat]? with
    | none => none
    | some entry => if !entry.present then none else some entry

/-- `GetEntry(packet_number)`: the data of the wrapper, `none` for `nullptr`. -/
def GetEntry (q : PacketNumberIndexedQueue T) (packet_number : Int) : Option T :=
  match q.GetEntryWrapper packet_number with
  | none => none
  | some entry => some entry.data

/-- `Emplace(packet_number, args...)` where `v` is the `T` built from `args`;
returns the queue after the call and the `bool` result. `entries_.resize`
appends default-constructed (absent) wrappers. -/
def Emplace [Inhabited T] (q : PacketNumberIndexedQueue T) (packet_number : Int) (v : T) :
    PacketNumberIndexedQueue T × Bool :=
  if q.IsEmpty then
    ({ entries_ := q.entries_ ++ [⟨v, true⟩]
       number_of_present_entries_ := 1
       first_packet_ := packet_number }, true)
  else if packet_number ≤ q.last_packet then (q, false)
  else
    ({ entries_ :=
         (if packet_number - q.first_packet_ > q.entries_.length then
            q.entries_ ++ List.replicate
              ((packet_number - q.first_packet_).toNat - q.entries_.length) EntryWrapper.absent
          else q.entries_) ++ [⟨v, true⟩]
       number_of_present_entries_ := q.number_of_present_entries_ + 1
       first_packet_ := q.first_packet_ }, true)

/-- The loop of `Cleanup()`: pop the front while it is not present, counting
`first_packet_` up; returns the remaining deque and `first_packet_`. -/
def popAbsent : List (EntryWrapper T) → Int → List (EntryWrapper T) × Int
  | [], first => ([], first)
  | e :: es, first => if !e.present then popAbsent es (first + 1) else (e :: es, first)

/-- `Cleanup()`: drop the unused slots at the front; an emptied deque resets
`first_packet_` to zero. -/
def Cleanup (q : PacketNumberIndexedQueue T) : PacketNumberIndexedQueue T :=
  if (popAbsent q.entries_ q.first_packet_).1.isEmpty then
    { q with entries_ := (popAbsent q.entries_ q.first_packet_).1, first_packet_ := 0 }
  else
    { q with
      entries_ := (popAbsent q.entries_ q.first_packet_).1
      first_packet_ := (popAbsent q.entries_ q.first_packet_).2 }

/-- The queue of `Remove` after `entry->present = false` and
`number_of_present_entries_--` for the entry of `packet_number`; the decrement
is executed only after a present entry was found. -/
def markAbsent (q : PacketNumberIndexedQueue T) (packet_number : Int) (entry : EntryWrapper T) :
    PacketNumberIndexedQueue T :=
  { q with
    entries_ := q.entries_.set (packet_number - q.first_packet_).toNat { entry with present := false }
    number_of_present_entries_ := q.number_of_present_entries_ - 1 }

/-- `Remove(packet_number)`: returns the queue after the call and the `bool`
result. -/
def Remove (q : PacketNumberIndexedQueue T) (packet_number : Int) :
    PacketNumberIndexedQueue T × Bool :=
  match q.GetEntryWrapper packet_number with
  | none => (q, false)
  | some entry =>
    if packet_number = (q.markAbsent packet_number entry).first_packet then
      ((q.markAbsent packet_number entry).Cleanup, true)
    else (q.markAbsent packet_number entry, true)

end PacketNumberIndexedQueue

/-- A call on a `PacketNumberIndexedQueue<T>`. -/
inductive QueueCall (T : Type) where
  | emplace (packet_number : Int) (v : T)
  | remove (packet_number : Int)
deriving DecidableEq, Repr

namespace PacketNumberIndexedQueue

variable {T : Type} [Inhabited T]

/-- The queue after one call. -/
def call (q : PacketNumberIndexedQueue T) : QueueCall T → PacketNumberIndexedQueue T
  | .emplace n v => (q.Emplace n v).1
  | .remove n => (q.Remove n).1

/-- The queue after a sequence of calls, in list order. -/
def calls (q : PacketNumberIndexedQueue T) (cs : List (QueueCall T)) : PacketNumberIndexedQueue T :=
  cs.foldl call q

/-- The packet number of the most recent successful `Emplace` of a sequence of
calls on `q`, starting from `last` when there is none. -/
def lastEmplaced (q : PacketNumberIndexedQueue T) (last : Option Int) :
    List (QueueCall T) → Option Int
  | [] => last
  | .emplace n v :: cs =>
    lastEmplaced (q.Emplace n v).1 (if (q.Emplace n v).2 then some n else last) cs
  | .remove n :: cs => lastEmplaced (q.Remove n).1 last cs

end PacketNumberIndexedQueue

/-! ## Units (`api/units`) -/

/-! Modelled from the spec: the unit types of `api/units` are not among the
sources. In the bandwidth sampler a `DataSize` is its number of bytes, a
`Timestamp` and a `TimeDelta` their number of microseconds, all three of type
`Int`; a `DataRate` is a number of bits per second or the infinite rate. Where
the infinite values of a `TimeDelta` matter, as in the round-trip statistics,
it is the type `TimeDelta` below. -/

/-- Modelled from the spec: the sentinel `Timestamp::MinusInfinity()`, the
least `int64_t`. It only fills the default-constructed snapshot of a padded
queue slot, which no lookup returns. -/
def Timestamp.MinusInfinity : Int := -9223372036854775808

/-- Modelled from the spec: the unit type `DataRate` of `api/units`, which is
not among the sources; a number of bits per second, or `DataRate::Infinity()`. -/
inductive DataRate where
  | finite (bps : Int)
  | infinity
deriving DecidableEq, Repr

namespace DataRate

/-- `DataRate::Zero()`. -/
def Zero : DataRate := finite 0

/-- `DataRate::Infinity()`. -/
def Infinity : DataRate := infinity

/-- `operator<` of two rates; the infinite rate is above every finite one. -/
def lt : DataRate → DataRate → Bool
  | finite a, finite b => decide (a < b)
  | finite _, infinity => true
  | infinity, _ => false

/-- `operator<=` of two rates. -/
def le : DataRate → DataRate → Bool
  | finite a, finite b => decide (a ≤ b)
  | _, infinity => true
  | infinity, finite _ => false

/-- `std::min(a, b)`: `b` when `b < a`, otherwise `a`. -/
def min (a b : DataRate) : DataRate := if lt b a then b else a

instance : LE DataRate := ⟨fun a b => le a b = true⟩

instance (a b : DataRate) : Decidable (a ≤ b) := inferInstanceAs (Decidable (le a b = true))

end DataRate

/-- Modelled from the spec: `operator/(DataSize, TimeDelta)` of `api/units`,
which is not among the sources: the rate in bits per second of a number of
bytes over a number of microseconds, truncated as `int64_t` division is. The
sampler takes the division as a parameter; this is the instance used to
evaluate it. -/
def DataSize.div (size : Int) (duration : Int) : DataRate :=
  DataRate.finite (Int.tdiv (size * 8000000) duration)

/-! ## `bandwidth_sampler.{h,cc}` -/

/-- The struct `BandwidthSample`. -/
structure BandwidthSample where
  bandwidth : DataRate
  rtt : Int
  is_app_limited : Bool
deriving DecidableEq, Repr

/-- The constructor `BandwidthSample()`: zero bandwidth, zero rtt, not
app-limited. -/
def BandwidthSample.new : BandwidthSample :=
  { bandwidth := DataRate.Zero, rtt := 0, is_app_limited := false }

/-- The struct `BandwidthSampler::ConnectionStateOnSentPacket`. -/
structure ConnectionStateOnSentPacket where
  sent_time : Int
  size : Int
  total_data_sent : Int
  total_data_sent_at_last_acked_packet : Int
  last_acked_packet_sent_time : Option Int
  last_acked_packet_ack_time : Option Int
  total_data_acked_at_the_last_acked_packet : Int
  is_app_limited : Bool
deriving DecidableEq, Repr

/-- The default constructor `ConnectionStateOnSentPacket()`. -/
def ConnectionStateOnSentPacket.new : ConnectionStateOnSentPacket :=
  { sent_time := Timestamp.MinusInfinity
    size := 0
    total_data_sent := 0
    total_data_sent_at_last_acked_packet := 0
    last_acked_packet_sent_time := none
    last_acked_packet_ack_time := none
    total_data_acked_at_the_last_acked_packet := 0
    is_app_limited := false }

instance : Inhabited ConnectionStateOnSentPacket := ⟨ConnectionStateOnSentPacket.new⟩

/-- The class `BandwidthSampler`. -/
structure BandwidthSampler where
  total_data_sent_ : Int
  total_data_acked_ : Int
  total_data_sent_at_last_acked_packet_ : Int
  last_acked_packet_sent_time_ : Option Int
  last_acked_packet_ack_time_ : Option Int
  last_sent_packet_ : Int
  is_app_limited_ : Bool
  end_of_app_limited_phase_ : Int
  connection_state_map_ : PacketNumberIndexedQueue ConnectionStateOnSentPacket
  bandwidth_sample_ : BandwidthSample
deriving DecidableEq, Repr

/-- The snapshot constructor
`ConnectionStateOnSentPacket(sent_time, size, sampler)`. -/
def ConnectionStateOnSentPacket.snapshot (sent_time : Int) (size : Int)
    (sampler : BandwidthSampler) : ConnectionStateOnSentPacket :=
  { sent_time := sent_time
    size := size
    total_data_sent := sampler.total_data_sent_
    total_data_sent_at_last_acked_packet := sampler.total_data_sent_at_last_acked_packet_
    last_acked_packet_sent_time := sampler.last_acked_packet_sent_time_
    last_acked_packet_ack_time := sampler.last_acked_packet_ack_time_
    total_data_acked_at_the_last_acked_packet := sampler.total_data_acked_
    is_app_limited := sampler.is_app_limited_ }

namespace BandwidthSampler

/-- The constructor `BandwidthSampler()`. -/
def new : BandwidthSampler :=
  { total_data_sent_ := 0
    total_data_acked_ := 0
    total_data_sent_at_last_acked_packet_ := 0
    last_acked_packet_sent_time_ := none
    last_acked_packet_ack_time_ := none
    last_sent_packet_ := 0
    is_app_limited_ := false
    end_of_app_limited_phase_ := 0
    connection_state_map_ := PacketNumberIndexedQueue.new
    bandwidth_sample_ := BandwidthSample.new }

def total_data_acked (s : BandwidthSampler) : Int := s.total_data_acked_
def is_app_limited (s : BandwidthSampler) : Bool := s.is_app_limited_
def end_of_app_limited_phase (s : BandwidthSampler) : Int := s.end_of_app_limited_phase_

/-- Lines 40-49 of `OnPacketSent`: the counters, and the start of a new train
of packets when nothing is in flight. -/
def beforeEmplace (s : BandwidthSampler) (sent_time : Int) (packet_number : Int)
    (data_size data_in_flight : Int) : BandwidthSampler :=
  if data_in_flight = 0 then
    { s with
      last_sent_packet_ := packet_number
      total_data_sent_ := s.total_data_sent_ + data_size
      last_acked_packet_ack_time_ := some sent_time
      total_data_sent_at_last_acked_packet_ := s.total_data_sent_ + data_size
      last_acked_packet_sent_time_ := some sent_time }
  else
    { s with
      last_sent_packet_ := packet_number
      total_data_sent_ := s.total_data_sent_ + data_size }

/-- The local `success` of `OnPacketSent`: whether the snapshot was inserted
in the map. -/
def OnPacketSent_success (s : BandwidthSampler) (sent_time : Int) (packet_number : Int)
    (data_size data_in_flight : Int) : Bool :=
  ((s.beforeEmplace sent_time packet_number data_size data_in_flight).connection_state_map_.Emplace
    packet_number
    (ConnectionStateOnSentPacket.snapshot sent_time data_size
      (s.beforeEmplace sent_time packet_number data_size data_in_flight))).2

/-- `OnPacketSent(sent_time, packet_number, data_size, data_in_flight)`; the
two warnings are only logged. -/
def OnPacketSent (s : BandwidthSampler) (sent_time : Int) (packet_number : Int)
    (data_size data_in_flight : Int) : BandwidthSampler :=
  { s.beforeEmplace sent_time packet_number data_size data_in_flight with
    connection_state_map_ :=
      ((s.beforeEmplace sent_time packet_number data_size
          data_in_flight).connection_state_map_.Emplace packet_number
        (ConnectionStateOnSentPacket.snapshot sent_time data_size
          (s.beforeEmplace sent_time packet_number data_size data_in_flight))).1 }

/-- Lines 111-119 of `OnPacketAcknowledgedInner`: the statistics after the
acknowledgement and the end of the app-limited phase. -/
def acknowledge (s : BandwidthSampler) (ack_time : Int) (packet_number : Int)
    (sent_packet : ConnectionStateOnSentPacket) : BandwidthSampler :=
  { s with
    total_data_acked_ := s.total_data_acked_ + sent_packet.size
    total_data_sent_at_last_acked_packet_ := sent_packet.total_data_sent
    last_acked_packet_sent_time_ := some sent_packet.sent_time
    last_acked_packet_ack_time_ := some ack_time
    is_app_limited_ :=
      if s.is_app_limited_ && decide (packet_number > s.end_of_app_limited_phase_) then false
      else s.is_app_limited_ }

/-- The local `send_rate` of `OnPacketAcknowledgedInner` (lines 127-132) for a
snapshot whose `last_acked_packet_sent_time` is `last_sent`. -/
def send_rate (div : Int → Int → DataRate) (sent_packet : ConnectionStateOnSentPacket)
    (last_sent : Int) : DataRate :=
  if sent_packet.sent_time > last_sent then
    div (sent_packet.total_data_sent - sent_packet.total_data_sent_at_last_acked_packet)
      (sent_packet.sent_time - last_sent)
  else DataRate.Infinity

/-- The local `ack_rate` of `OnPacketAcknowledgedInner` (lines 141-143) for a
snapshot whose `last_acked_packet_ack_time` is `last_ack`; `total_data_acked`
is the counter after the acknowledgement. -/
def ack_rate (div : Int → Int → DataRate) (total_data_acked : Int)
    (ack_time : Int) (sent_packet : ConnectionStateOnSentPacket) (last_ack : Int) :
    DataRate :=
  div (total_data_acked - sent_packet.total_data_acked_at_the_last_acked_packet)
    (ack_time - last_ack)

/-- Lines 121-150 of `OnPacketAcknowledgedInner`: the sample, where
`total_data_acked` is the counter after the acknowledgement. -/
def sample (div : Int → Int → DataRate) (total_data_acked : Int)
    (ack_time : Int) (sent_packet : ConnectionStateOnSentPacket) : BandwidthSample :=
  match sent_packet.last_acked_packet_sent_time, sent_packet.last_acked_packet_ack_time with
  | some last_sent, some last_ack =>
    if ack_time ≤ last_ack then BandwidthSample.new
    else
      { bandwidth := DataRate.min (send_rate div sent_packet last_sent)
          (ack_rate div total_data_acked ack_time sent_packet last_ack)
        rtt := ack_time - sent_packet.sent_time
        is_app_limited := sent_packet.is_app_limited }
  | _, _ => BandwidthSample.new

/-- `OnPacketAcknowledgedInner(ack_time, packet_number, sent_packet)`: the
sample returned and the sampler after the call. -/
def OnPacketAcknowledgedInner (div : Int → Int → DataRate) (s : BandwidthSampler)
    (ack_time : Int) (packet_number : Int) (sent_packet : ConnectionStateOnSentPacket) :
    BandwidthSample × BandwidthSampler :=
  (sample div (s.acknowledge ack_time packet_number sent_packet).total_data_acked_ ack_time
      sent_packet,
    s.acknowledge ack_time packet_number sent_packet)

/-- `OnPacketAcknowledged(ack_time, packet_number)`: the sample returned and
the sampler after the call. -/
def OnPacketAcknowledged (div : Int → Int → DataRate) (s : BandwidthSampler)
    (ack_time : Int) (packet_number : Int) : BandwidthSample × BandwidthSampler :=
  match s.connection_state_map_.GetEntry packet_number with
  | none => (BandwidthSample.new, s)
  | some sent_packet =>
    ((s.OnPacketAcknowledgedInner div ack_time packet_number sent_packet).1,
      { (s.OnPacketAcknowledgedInner div ack_time packet_number sent_packet).2 with
        bandwidth_sample_ := (s.OnPacketAcknowledgedInner div ack_time packet_number sent_packet).1
        connection_state_map_ :=
          ((s.OnPacketAcknowledgedInner div ack_time packet_number
            sent_packet).2.connection_state_map_.Remove packet_number).1 })

/-- `OnPacketLost(packet_number)`. -/
def OnPacketLost (s : BandwidthSampler) (packet_number : Int) : BandwidthSampler :=
  { s with connection_state_map_ := (s.connection_state_map_.Remove packet_number).1 }

/-- `OnAppLimited()`. -/
def OnAppLimited (s : BandwidthSampler) : BandwidthSampler :=
  { s with is_app_limited_ := true, end_of_app_limited_phase_ := s.last_sent_packet_ }

/-- The `while` loop of `RemoveObsoletePackets` on the map, for a number of
iterations; `none` when the loop condition still holds after them. -/
def removeObsoleteLoop (least_unacked : Int) :
    Nat → PacketNumberIndexedQueue ConnectionStateOnSentPacket →
      Option (PacketNumberIndexedQueue ConnectionStateOnSentPacket)
  | 0, q => if !q.IsEmpty && decide (q.first_packet < least_unacked) then none else some q
  | fuel + 1, q =>
    if !q.IsEmpty && decide (q.first_packet < least_unacked) then
      removeObsoleteLoop least_unacked fuel (q.Remove q.first_packet).1
    else some q

/-- `RemoveObsoletePackets(least_unacked)`. The loop is given as many
iterations as there are present entries: an iteration whose `Remove` succeeds
lowers that number by one, and one whose `Remove` fails leaves the map as it
was, so that the loop repeats for ever; `none` is the call that does not
return. -/
def RemoveObsoletePackets (s : BandwidthSampler) (least_unacked : Int) : Option BandwidthSampler :=
  match removeObsoleteLoop least_unacked s.connection_state_map_.number_of_present_entries
      s.connection_state_map_ with
  | none => none
  | some q => some { s with connection_state_map_ := q }

end BandwidthSampler

/-- A call on a `BandwidthSampler`. -/
inductive SamplerCall where
  | sent (sent_time : Int) (packet_number : Int) (data_size data_in_flight : Int)
  | acknowledged (ack_time : Int) (packet_number : Int)
  | lost (packet_number : Int)
  | appLimited
  | removeObsolete (least_unacked : Int)
deriving DecidableEq, Repr

namespace SamplerCall

/-- The call is not an `OnPacketSent` of a negative size. -/
def sizeNonneg : SamplerCall → Bool
  | sent _ _ data_size _ => decide (0 ≤ data_size)
  | _ => true

/-- The call is an `OnPacketSent` of packet number `n`. -/
def sends (n : Int) : SamplerCall → Bool
  | sent _ packet_number _ _ => decide (packet_number = n)
  | _ => false

/-- The call acknowledges packet `n`, declares it lost, or removes it as
obsolete. -/
def releases (n : Int) : SamplerCall → Bool
  | acknowledged _ packet_number => decide (packet_number = n)
  | lost packet_number => decide (packet_number = n)
  | removeObsolete least_unacked => decide (n < least_unacked)
  | _ => false

end SamplerCall

namespace BandwidthSampler

/-- The sampler after one call; `none` when the call does not return. -/
def call (div : Int → Int → DataRate) (s : BandwidthSampler) :
    SamplerCall → Option BandwidthSampler
  | .sent sent_time packet_number data_size data_in_flight =>
    some (s.OnPacketSent sent_time packet_number data_size data_in_flight)
  | .acknowledged ack_time packet_number => some (s.OnPacketAcknowledged div ack_time packet_number).2
  | .lost packet_number => some (s.OnPacketLost packet_number)
  | .appLimited => some s.OnAppLimited
  | .removeObsolete least_unacked => s.RemoveObsoletePackets least_unacked

/-- The sampler after a sequence of calls, in list order. -/
def calls (div : Int → Int → DataRate) (s : BandwidthSampler) :
    List SamplerCall → Option BandwidthSampler
  | [] => some s
  | c :: cs =>
    match s.call div c with
    | none => none
    | some s1 => calls div s1 cs

end BandwidthSampler

/-! ## Units with infinite values, and `double` factors -/

/-- The quotient `n / d` rounded to the nearest integer, halves away from zero,
as `std::round` does. -/
def roundDiv (n : Int) (d : Nat) : Int :=
  if 0 ≤ n then (2 * n + d) / (2 * d) else -((2 * (-n) + d) / (2 * d))

/-- A `double` of the sources, as the exact fraction `num / den`; the rounding
of literals and of sums to binary floating point is not modelled. -/
structure Double where
  num : Int
  den : Nat
deriving DecidableEq, Repr

namespace Double

/-- The `double` of an integer. -/
def ofInt (n : Int) : Double := ⟨n, 1⟩

/-- `a + b`. -/
def add (a b : Double) : Double := ⟨a.num * b.den + b.num * a.den, a.den * b.den⟩

/-- `a - b`. -/
def sub (a b : Double) : Double := ⟨a.num * b.den - b.num * a.den, a.den * b.den⟩

/-- `a < b`. -/
def lt (a b : Double) : Bool := decide (a.num * b.den < b.num * a.den)

/-- `a == b`. -/
def eq (a b : Double) : Bool := decide (a.num * b.den = b.num * a.den)

/-- The product of a `double` and an integer value, rounded by `std::round`. -/
def round (a : Double) (x : Int) : Int := roundDiv (a.num * x) a.den

end Double

/-- Modelled from the spec: the unit type `TimeDelta` of `api/units`, which is
not among the sources, where its infinite values matter: a number of
microseconds, `TimeDelta::PlusInfinity()` or `TimeDelta::MinusInfinity()`. -/
inductive TimeDelta where
  | minusInfinity
  | finite (us : Int)
  | plusInfinity
deriving DecidableEq, Repr

namespace TimeDelta

/-- `TimeDelta::Zero()`. -/
def Zero : TimeDelta := finite 0

/-- `TimeDelta::ms(value)`. -/
def ms (value : Int) : TimeDelta := finite (value * 1000)

/-- `TimeDelta::seconds(value)`. -/
def seconds (value : Int) : TimeDelta := finite (value * 1000000)

/-- `IsZero()`. -/
def IsZero : TimeDelta → Bool
  | finite us => decide (us = 0)
  | _ => false

/-- `IsInfinite()`. -/
def IsInfinite : TimeDelta → Bool
  | finite _ => false
  | _ => true

/-- `operator<=`: minus infinity is below and plus infinity above every finite
value. -/
def le : TimeDelta → TimeDelta → Bool
  | minusInfinity, _ => true
  | finite _, minusInfinity => false
  | finite a, finite b => decide (a ≤ b)
  | finite _, plusInfinity => true
  | plusInfinity, plusInfinity => true
  | plusInfinity, _ => false

instance : LinearOrder TimeDelta where
  le a b := le a b = true
  le_refl := by intro a; cases a <;> simp [le]
  le_trans := by
    intro a b c
    cases a <;> cases b <;> cases c <;> simp [le]
    omega
  le_antisymm := by
    intro a b
    cases a <;> cases b <;> simp [le]
    omega
  le_total := by
    intro a b
    cases a <;> cases b <;> simp [le]
    omega
  decidableLE := fun a b => inferInstanceAs (Decidable (le a b = true))

instance decidableLe (a b : TimeDelta) : Decidable (a ≤ b) :=
  inferInstanceAs (Decidable (le a b = true))

/-- `operator+`: a sum with an infinite term is that infinity. -/
def add : TimeDelta → TimeDelta → TimeDelta
  | plusInfinity, _ => plusInfinity
  | _, plusInfinity => plusInfinity
  | minusInfinity, _ => minusInfinity
  | _, minusInfinity => minusInfinity
  | finite a, finite b => finite (a + b)

/-- `operator-`: a difference with an infinite term is infinite. -/
def sub : TimeDelta → TimeDelta → TimeDelta
  | plusInfinity, _ => plusInfinity
  | _, minusInfinity => plusInfinity
  | minusInfinity, _ => minusInfinity
  | _, plusInfinity => minusInfinity
  | finite a, finite b => finite (a - b)

instance : Add TimeDelta := ⟨add⟩

instance : Sub TimeDelta := ⟨sub⟩

/-- `Abs()`. -/
def Abs : TimeDelta → TimeDelta
  | finite us => finite |us|
  | _ => plusInfinity

/-- Modelled from the spec: the product of a `double` and a `TimeDelta`,
rounded to the microsecond. The sources check that the value is finite; the
model lets an infinite value keep or change its sign with the factor. -/
def scale (a : Double) : TimeDelta → TimeDelta
  | finite us => finite (a.round us)
  | plusInfinity =>
    if Double.lt (Double.ofInt 0) a then plusInfinity
    else if Double.lt a (Double.ofInt 0) then minusInfinity else finite 0
  | minusInfinity =>
    if Double.lt (Double.ofInt 0) a then minusInfinity
    else if Double.lt a (Double.ofInt 0) then plusInfinity else finite 0

/-- Modelled from the spec: the quotient of a `TimeDelta` by an integer,
truncated as `int64_t` division is; an infinite value stays as it is. -/
def divInt (d : TimeDelta) (n : Int) : TimeDelta :=
  match d with
  | finite us => finite (Int.tdiv us n)
  | plusInfinity => plusInfinity
  | minusInfinity => minusInfinity

end TimeDelta

/-! ## `rtt_stats.{h,cc}` -/

/-- `kInitialRttMs`. -/
def kInitialRttMs : Int := 100

/-- `kAlpha`, 0.125. -/
def kAlpha : Double := ⟨1, 8⟩

/-- `kOneMinusAlpha = 1 - kAlpha`. -/
def kOneMinusAlpha : Double := (Double.ofInt 1).sub kAlpha

/-- `kBeta`, 0.25. -/
def kBeta : Double := ⟨1, 4⟩

/-- `kOneMinusBeta = 1 - kBeta`. -/
def kOneMinusBeta : Double := (Double.ofInt 1).sub kBeta

/-- `kNumMicrosPerMilli`. -/
def kNumMicrosPerMilli : Int := 1000

/-- The class `RttStats`. -/
structure RttStats where
  latest_rtt_ : TimeDelta
  min_rtt_ : TimeDelta
  smoothed_rtt_ : TimeDelta
  previous_srtt_ : TimeDelta
  mean_deviation_ : TimeDelta
  initial_rtt_us_ : Int
deriving DecidableEq, Repr

namespace RttStats

/-- The constructor `RttStats()`. -/
def new : RttStats :=
  { latest_rtt_ := TimeDelta.Zero
    min_rtt_ := TimeDelta.Zero
    smoothed_rtt_ := TimeDelta.Zero
    previous_srtt_ := TimeDelta.Zero
    mean_deviation_ := TimeDelta.Zero
    initial_rtt_us_ := kInitialRttMs * kNumMicrosPerMilli }

/-- `smoothed_rtt()`. -/
def smoothed_rtt (s : RttStats) : TimeDelta := s.smoothed_rtt_

/-- `previous_srtt()`. -/
def previous_srtt (s : RttStats) : TimeDelta := s.previous_srtt_

/-- `initial_rtt_us()`. -/
def initial_rtt_us (s : RttStats) : Int := s.initial_rtt_us_

/-- `latest_rtt()`. -/
def latest_rtt (s : RttStats) : TimeDelta := s.latest_rtt_

/-- `min_rtt()`. -/
def min_rtt (s : RttStats) : TimeDelta := s.min_rtt_

/-- `mean_deviation()`. -/
def mean_deviation (s : RttStats) : TimeDelta := s.mean_deviation_

/-- `set_initial_rtt_us(initial_rtt_us)`. -/
def set_initial_rtt_us (s : RttStats) (initial_rtt_us : Int) : RttStats :=
  if initial_rtt_us ≤ 0 then s else { s with initial_rtt_us_ := initial_rtt_us }

/-- `ExpireSmoothedMetrics()`. -/
def ExpireSmoothedMetrics (s : RttStats) : RttStats :=
  { s with
    mean_deviation_ := max s.mean_deviation_ (s.smoothed_rtt_ - s.latest_rtt_).Abs
    smoothed_rtt_ := max s.smoothed_rtt_ s.latest_rtt_ }

/-- The guard of `UpdateRtt`: the `send_delta` is ignored. -/
def ignored (send_delta : TimeDelta) : Bool :=
  send_delta.IsInfinite || decide (send_delta ≤ TimeDelta.Zero)

/-- The local `rtt_sample` of `UpdateRtt` (lines 61-66): the `send_delta`,
corrected by the `ack_delay` when it is above it. -/
def rtt_sample (send_delta ack_delay : TimeDelta) : TimeDelta :=
  if send_delta > ack_delay then send_delta - ack_delay else send_delta

/-- `UpdateRtt(send_delta, ack_delay, now)`. -/
def UpdateRtt (s : RttStats) (send_delta ack_delay : TimeDelta) (now : Int) : RttStats :=
  if ignored send_delta then s
  else if s.smoothed_rtt_.IsZero then
    { s with
      min_rtt_ := if s.min_rtt_.IsZero || decide (s.min_rtt_ > send_delta) then send_delta
        else s.min_rtt_
      previous_srtt_ := s.smoothed_rtt_
      latest_rtt_ := rtt_sample send_delta ack_delay
      smoothed_rtt_ := rtt_sample send_delta ack_delay
      mean_deviation_ := (rtt_sample send_delta ack_delay).divInt 2 }
  else
    { s with
      min_rtt_ := if s.min_rtt_.IsZero || decide (s.min_rtt_ > send_delta) then send_delta
        else s.min_rtt_
      previous_srtt_ := s.smoothed_rtt_
      latest_rtt_ := rtt_sample send_delta ack_delay
      mean_deviation_ := TimeDelta.scale kOneMinusBeta s.mean_deviation_ +
        TimeDelta.scale kBeta (s.smoothed_rtt_ - rtt_sample send_delta ack_delay).Abs
      smoothed_rtt_ := TimeDelta.scale kOneMinusAlpha s.smoothed_rtt_ +
        TimeDelta.scale kAlpha (rtt_sample send_delta ack_delay) }

/-- `OnConnectionMigration()`. -/
def OnConnectionMigration (s : RttStats) : RttStats :=
  { s with
    latest_rtt_ := TimeDelta.Zero
    min_rtt_ := TimeDelta.Zero
    smoothed_rtt_ := TimeDelta.Zero
    mean_deviation_ := TimeDelta.Zero
    initial_rtt_us_ := kInitialRttMs * kNumMicrosPerMilli }

end RttStats

/-- A call on an `RttStats`. -/
inductive RttCall where
  | update (send_delta ack_delay : TimeDelta) (now : Int)
  | expire
  | setInitial (initial_rtt_us : Int)
  | migrate
deriving DecidableEq, Repr

namespace RttStats

/-- The statistics after one call. -/
def call (s : RttStats) : RttCall → RttStats
  | .update send_delta ack_delay now => s.UpdateRtt send_delta ack_delay now
  | .expire => s.ExpireSmoothedMetrics
  | .setInitial initial_rtt_us => s.set_initial_rtt_us initial_rtt_us
  | .migrate => s.OnConnectionMigration

/-- The statistics after a sequence of calls, in list order. -/
def calls (s : RttStats) (cs : List RttCall) : RttStats := cs.foldl call s

/-- The `send_delta` and `ack_delay` of the last `UpdateRtt` of a sequence of
calls that was not ignored, since the last `OnConnectionMigration`; `last` when
there is no such call. -/
def lastAccepted (last : Option (TimeDelta × TimeDelta)) :
    List RttCall → Option (TimeDelta × TimeDelta)
  | [] => last
  | .update send_delta ack_delay _ :: cs =>
    lastAccepted (if ignored send_delta then last else some (send_delta, ack_delay)) cs
  | .migrate :: cs => lastAccepted none cs
  | _ :: cs => lastAccepted last cs

end RttStats

/-! ## Units of the controller -/

namespace Double

/-- `a * b`. -/
def mul (a b : Double) : Double := ⟨a.num * b.num, a.den * b.den⟩

/-- `a / b`; the quotient by zero has the denominator 0. -/
def div (a b : Double) : Double := ⟨a.num * b.den * Int.sign b.num, a.den * b.num.natAbs⟩

end Double

namespace DataRate

instance : LinearOrder DataRate where
  le a b := le a b = true
  le_refl := by intro a; cases a <;> simp [le]
  le_trans := by
    intro a b c
    cases a <;> cases b <;> cases c <;> simp [le]
    omega
  le_antisymm := by
    intro a b
    cases a <;> cases b <;> simp [le]
    omega
  le_total := by
    intro a b
    cases a <;> cases b <;> simp [le]
    omega
  decidableLE := fun a b => inferInstanceAs (Decidable (le a b = true))

/-- `DataRate::bps(value)`. -/
def bps (value : Int) : DataRate := finite value

/-- `DataRate::kbps(value)`. -/
def kbps (value : Int) : DataRate := finite (value * 1000)

/-- `IsZero()`. -/
def IsZero : DataRate → Bool
  | finite bps => decide (bps = 0)
  | infinity => false

/-- Modelled from the spec: the product of a `double` and a `DataRate`, rounded
to the bit per second. The sources check that the rate is finite; the model
leaves the infinite rate infinite. -/
def scale (a : Double) : DataRate → DataRate
  | finite bps => finite (a.round bps)
  | infinity => infinity

/-- Modelled from the spec: the number that represents a rate, the greatest
`int64_t` for the infinite one. -/
def value : DataRate → Int
  | finite bps => bps
  | infinity => 9223372036854775807

end DataRate

namespace TimeDelta

/-- Modelled from the spec: the number that represents a `TimeDelta`, the
greatest and the least `int64_t` for the infinite ones. -/
def value : TimeDelta → Int
  | finite us => us
  | plusInfinity => 9223372036854775807
  | minusInfinity => -9223372036854775808

/-- Modelled from the spec: the product of a `TimeDelta` and a `DataRate`, a
number of bytes: the microbits, rounded to the byte. The sources check that
both are finite; the model computes with the numbers that represent them. -/
def mulRate (d : TimeDelta) (rate : DataRate) : Int :=
  Int.tdiv (rate.value * d.value + 4000000) 8000000

end TimeDelta

/-- Modelled from the spec: the unit type `Timestamp` of `api/units`, which is
not among the sources, where its infinite values matter: a number of
microseconds, `Timestamp::PlusInfinity()` or `Timestamp::MinusInfinity()`. -/
inductive Timestamp where
  | minusInfinity
  | finite (us : Int)
  | plusInfinity
deriving DecidableEq, Repr

namespace Timestamp

/-- `operator<=`. -/
def le : Timestamp → Timestamp → Bool
  | minusInfinity, _ => true
  | finite _, minusInfinity => false
  | finite a, finite b => decide (a ≤ b)
  | finite _, plusInfinity => true
  | plusInfinity, plusInfinity => true
  | plusInfinity, _ => false

instance : LinearOrder Timestamp where
  le a b := le a b = true
  le_refl := by intro a; cases a <;> simp [le]
  le_trans := by
    intro a b c
    cases a <;> cases b <;> cases c <;> simp [le]
    omega
  le_antisymm := by
    intro a b
    cases a <;> cases b <;> simp [le]
    omega
  le_total := by
    intro a b
    cases a <;> cases b <;> simp [le]
    omega
  decidableLE := fun a b => inferInstanceAs (Decidable (le a b = true))

instance decidableLe (a b : Timestamp) : Decidable (a ≤ b) :=
  inferInstanceAs (Decidable (le a b = true))

/-- `operator-` of two timestamps. -/
def sub : Timestamp → Timestamp → TimeDelta
  | plusInfinity, _ => TimeDelta.plusInfinity
  | _, minusInfinity => TimeDelta.plusInfinity
  | minusInfinity, _ => TimeDelta.minusInfinity
  | _, plusInfinity => TimeDelta.minusInfinity
  | finite a, finite b => TimeDelta.finite (a - b)

/-- `operator+` of a timestamp and a `TimeDelta`. -/
def add : Timestamp → TimeDelta → Timestamp
  | plusInfinity, _ => plusInfinity
  | _, TimeDelta.plusInfinity => plusInfinity
  | minusInfinity, _ => minusInfinity
  | _, TimeDelta.minusInfinity => minusInfinity
  | finite a, TimeDelta.finite b => finite (a + b)

/-- `ms()` of a finite timestamp of `us` microseconds: rounded to the nearest
millisecond. -/
def ms (us : Int) : Int := roundDiv us 1000

end Timestamp

/-! ## Messages and helpers of the controller -/

/-- Modelled from the spec: the struct `SentPacket` of
`api/transport/network_types.h`, which is not among the sources, with the
fields the controller reads; times in microseconds, sizes in bytes. -/
structure SentPacket where
  send_time : Int
  size : Int
  sequence_number : Int
  data_in_flight : Int
deriving DecidableEq, Repr

/-- Modelled from the spec: the struct `PacketResult`; a packet without a
`receive_time` is lost. -/
structure PacketResult where
  sent_packet : SentPacket
  receive_time : Option Int
deriving DecidableEq, Repr

/-- Modelled from the spec: the struct `TransportPacketsFeedback`. -/
structure TransportPacketsFeedback where
  feedback_time : Int
  data_in_flight : Int
  prior_in_flight : Int
  packet_feedbacks : List PacketResult
deriving DecidableEq, Repr

namespace TransportPacketsFeedback

/-- `ReceivedWithSendInfo()`: the packets of the batch that were received. -/
def ReceivedWithSendInfo (msg : TransportPacketsFeedback) : List PacketResult :=
  msg.packet_feedbacks.filter (fun fb => fb.receive_time.isSome)

/-- `LostWithSendInfo()`: the packets of the batch that were lost. -/
def LostWithSendInfo (msg : TransportPacketsFeedback) : List PacketResult :=
  msg.packet_feedbacks.filter (fun fb => fb.receive_time.isNone)

/-- `PacketsWithFeedback()`: all packets of the batch. -/
def PacketsWithFeedback (msg : TransportPacketsFeedback) : List PacketResult :=
  msg.packet_feedbacks

end TransportPacketsFeedback

/-- Modelled from the spec: the struct `TargetRateConstraints`. -/
structure TargetRateConstraints where
  at_time : Timestamp
  min_data_rate : Option DataRate
  max_data_rate : Option DataRate
  starting_rate : Option DataRate
deriving DecidableEq, Repr

/-- Modelled from the spec: the struct `NetworkControllerConfig`, with the field
the controller reads. -/
structure NetworkControllerConfig where
  constraints : TargetRateConstraints
deriving DecidableEq, Repr

/-- Modelled from the spec: the struct `NetworkRouteChange`. -/
structure NetworkRouteChange where
  at_time : Timestamp
  constraints : TargetRateConstraints
deriving DecidableEq, Repr

/-- Modelled from the spec: the class `webrtc::Random` of `rtc_base/random.h`,
which is not among the sources, as the sequence of the draws it will make. -/
structure Random where
  draws : List Nat
deriving DecidableEq, Repr

/-- Modelled from the spec: `Rand(t)`, a number in `[0, t]`, and the generator
after the draw. -/
def Random.Rand (r : Random) (t : Nat) : Nat × Random :=
  match r.draws with
  | [] => (0, r)
  | d :: ds => (d % (t + 1), ⟨ds⟩)

/-- Modelled from the spec: the class `LossRateFilter` of `loss_rate_filter.h`,
which is not among the sources; the controller only logs its estimate. The
model keeps the arguments of the `UpdateWithLossStatus` calls, last first. -/
structure LossRateFilter where
  updates : List (Int × Int × Int)
deriving DecidableEq, Repr

/-- Modelled from the spec:
`UpdateWithLossStatus(feedback_time_ms, packets_sent, packets_lost)`. -/
def LossRateFilter.UpdateWithLossStatus (f : LossRateFilter)
    (feedback_time_ms packets_sent packets_lost : Int) : LossRateFilter :=
  ⟨(feedback_time_ms, packets_sent, packets_lost) :: f.updates⟩

/-! ## `bbr_network_controller.{h,cc}` -/

/-- `BbrNetworkController::Mode`. -/
inductive Mode where
  | STARTUP
  | DRAIN
  | PROBE_BW
  | PROBE_RTT
deriving DecidableEq, Repr

/-- `BbrNetworkController::RecoveryState`. -/
inductive RecoveryState where
  | NOT_IN_RECOVERY
  | CONSERVATION
  | MEDIUM_GROWTH
  | GROWTH
deriving DecidableEq, Repr

/-- `kBbrRttVariationWeight`. -/
def kBbrRttVariationWeight : Double := Double.ofInt 0

/-- `kProbeBWCongestionWindowGain`. -/
def kProbeBWCongestionWindowGain : Double := Double.ofInt 2

/-- `kMaxPacketSize`, in bytes. -/
def kMaxPacketSize : Int := 1452

/-- `kDefaultTCPMSS`, in bytes. -/
def kDefaultTCPMSS : Int := 1460

/-- `kMaxSegmentSize`. -/
def kMaxSegmentSize : Int := kDefaultTCPMSS

/-- `kHighGain`, the literal `2.885f` as the fraction 2885 / 1000. -/
def kHighGain : Double := ⟨2885, 1000⟩

/-- `kStartupAfterLossGain`, 1.5. -/
def kStartupAfterLossGain : Double := ⟨3, 2⟩

/-- `kDrainGain = 1.f / kHighGain`. -/
def kDrainGain : Double := (Double.ofInt 1).div kHighGain

/-- `kGainCycleLength`. -/
def kGainCycleLength : Nat := 8

/-- `kBandwidthWindowSize = kGainCycleLength + 2`. -/
def kBandwidthWindowSize : Int := kGainCycleLength + 2

/-- `kMinRttExpirySeconds`. -/
def kMinRttExpirySeconds : Int := 10

/-- `kProbeRttTimeMs`. -/
def kProbeRttTimeMs : Int := 200

/-- `kStartupGrowthTarget`, 1.25. -/
def kStartupGrowthTarget : Double := ⟨5, 4⟩

/-- `kSimilarMinRttThreshold`, 1.125. -/
def kSimilarMinRttThreshold : Double := ⟨9, 8⟩

/-- `kInitialBandwidthKbps`. -/
def kInitialBandwidthKbps : Int := 300

/-- `kInitialCongestionWindowPackets`. -/
def kInitialCongestionWindowPackets : Int := 32

/-- `kDefaultMinCongestionWindowPackets`. -/
def kDefaultMinCongestionWindowPackets : Int := 20

/-- `kDefaultMaxCongestionWindowPackets`. -/
def kDefaultMaxCongestionWindowPackets : Int := 2000

/-- `kTargetMinRtt`. -/
def kTargetMinRtt : TimeDelta := TimeDelta.ms 50

/-- The struct `BbrControllerConfig`; each `FieldTrialParameter` is its value. -/
structure BbrControllerConfig where
  probe_bw_pacing_gain_offset : Double
  encoder_rate_gain : Double
  encoder_rate_gain_in_probe_rtt : Double
  exit_startup_rtt_threshold : TimeDelta
  initial_congestion_window : Int
  min_congestion_window : Int
  max_congestion_window : Int
  probe_rtt_congestion_window_gain : Double
  pacing_rate_as_target : Bool
  exit_startup_on_loss : Bool
  num_startup_rtts : Int
  rate_based_recovery : Bool
  max_aggregation_bytes_multiplier : Double
  slower_startup : Bool
  rate_based_startup : Bool
  initial_conservation_in_startup : RecoveryState
  fully_drain_queue : Bool
  max_ack_height_window_multiplier : Double
  probe_rtt_based_on_bdp : Bool
  probe_rtt_skipped_if_similar_rtt : Bool
  probe_rtt_disabled_if_app_limited : Bool
deriving DecidableEq, Repr

/-- The defaults of the constructor `BbrControllerConfig(field_trial)`, which
the field trial string may override. -/
def BbrControllerConfig.default : BbrControllerConfig :=
  { probe_bw_pacing_gain_offset := ⟨1, 4⟩
    encoder_rate_gain := Double.ofInt 1
    encoder_rate_gain_in_probe_rtt := Double.ofInt 1
    exit_startup_rtt_threshold := TimeDelta.plusInfinity
    initial_congestion_window := kInitialCongestionWindowPackets * kDefaultTCPMSS
    min_congestion_window := kDefaultMinCongestionWindowPackets * kDefaultTCPMSS
    max_congestion_window := kDefaultMaxCongestionWindowPackets * kDefaultTCPMSS
    probe_rtt_congestion_window_gain := ⟨3, 4⟩
    pacing_rate_as_target := false
    exit_startup_on_loss := true
    num_startup_rtts := 3
    rate_based_recovery := false
    max_aggregation_bytes_multiplier := Double.ofInt 0
    slower_startup := false
    rate_based_startup := false
    initial_conservation_in_startup := RecoveryState.CONSERVATION
    fully_drain_queue := false
    max_ack_height_window_multiplier := Double.ofInt 1
    probe_rtt_based_on_bdp := false
    probe_rtt_skipped_if_similar_rtt := false
    probe_rtt_disabled_if_app_limited := false }

/-- The class `BbrNetworkController`. -/
structure BbrNetworkController where
  config_ : BbrControllerConfig
  rtt_stats_ : RttStats
  random_ : Random
  loss_rate_ : LossRateFilter
  constraints_ : Option TargetRateConstraints
  mode_ : Mode
  sampler_ : BandwidthSampler
  round_trip_count_ : Int
  last_sent_packet_ : Int
  current_round_trip_end_ : Int
  max_bandwidth_ : WindowedFilter DataRate
  default_bandwidth_ : DataRate
  max_ack_height_ : WindowedFilter Int
  aggregation_epoch_start_time_ : Option Timestamp
  aggregation_epoch_bytes_ : Int
  bytes_acked_since_queue_drained_ : Int
  max_aggregation_bytes_multiplier_ : Double
  min_rtt_ : TimeDelta
  last_rtt_ : TimeDelta
  min_rtt_timestamp_ : Timestamp
  congestion_window_ : Int
  initial_congestion_window_ : Int
  min_congestion_window_ : Int
  max_congestion_window_ : Int
  pacing_rate_ : DataRate
  pacing_gain_ : Double
  congestion_window_gain_ : Double
  congestion_window_gain_constant_ : Double
  rtt_variance_weight_ : Double
  cycle_current_offset_ : Int
  last_cycle_start_ : Timestamp
  is_at_full_bandwidth_ : Bool
  rounds_without_bandwidth_gain_ : Int
  bandwidth_at_last_round_ : DataRate
  exiting_quiescence_ : Bool
  exit_probe_rtt_at_ : Option Timestamp
  probe_rtt_round_passed_ : Bool
  last_sample_is_app_limited_ : Bool
  recovery_state_ : RecoveryState
  end_recovery_at_ : Option Int
  recovery_window_ : Int
  app_limited_since_last_probe_rtt_ : Bool
  min_rtt_since_last_probe_rtt_ : TimeDelta
deriving DecidableEq, Repr

namespace BbrNetworkController

/-- `InSlowStart()`. -/
def InSlowStart (s : BbrNetworkController) : Bool := s.mode_ = Mode.STARTUP

/-- `InRecovery()`. -/
def InRecovery (s : BbrNetworkController) : Bool :=
  s.recovery_state_ ≠ RecoveryState.NOT_IN_RECOVERY

/-- `BandwidthEstimate()`. -/
def BandwidthEstimate (s : BbrNetworkController) : DataRate := s.max_bandwidth_.GetBest

/-- `GetPacingGain(round_offset)`. -/
def GetPacingGain (s : BbrNetworkController) (round_offset : Int) : Double :=
  if round_offset = 0 then (Double.ofInt 1).add s.config_.probe_bw_pacing_gain_offset
  else if round_offset = 1 then (Double.ofInt 1).sub s.config_.probe_bw_pacing_gain_offset
  else Double.ofInt 1

/-- `IsProbingForMoreBandwidth()`. -/
def IsProbingForMoreBandwidth (s : BbrNetworkController) : Bool :=
  (s.mode_ = Mode.PROBE_BW && (Double.ofInt 1).lt s.pacing_gain_) || s.mode_ = Mode.STARTUP

/-- `GetMinRtt()`. -/
def GetMinRtt (s : BbrNetworkController) : TimeDelta :=
  if !s.min_rtt_.IsZero then s.min_rtt_ else TimeDelta.ms s.rtt_stats_.initial_rtt_us

/-- The local `bdp` of `GetTargetCongestionWindow`. -/
def bdp (s : BbrNetworkController) : Int :=
  (max s.GetMinRtt kTargetMinRtt).mulRate s.BandwidthEstimate

/-- `GetTargetCongestionWindow(gain)`. -/
def GetTargetCongestionWindow (s : BbrNetworkController) (gain : Double) : Int :=
  max (if gain.round s.bdp = 0 then gain.round s.initial_congestion_window_
    else gain.round s.bdp) s.min_congestion_window_

/-- `ProbeRttCongestionWindow()`. -/
def ProbeRttCongestionWindow (s : BbrNetworkController) : Int :=
  if s.config_.probe_rtt_based_on_bdp then
    s.GetTargetCongestionWindow s.config_.probe_rtt_congestion_window_gain
  else s.min_congestion_window_

/-- `GetCongestionWindow()`. -/
def GetCongestionWindow (s : BbrNetworkController) : Int :=
  if s.mode_ = Mode.PROBE_RTT then s.ProbeRttCongestionWindow
  else if s.InRecovery && !s.config_.rate_based_recovery &&
      !(s.config_.rate_based_startup && s.mode_ = Mode.STARTUP) then
    min s.congestion_window_ s.recovery_window_
  else s.congestion_window_

/-- `CanSend(bytes_in_flight)`. -/
def CanSend (s : BbrNetworkController) (bytes_in_flight : Int) : Bool :=
  bytes_in_flight < s.GetCongestionWindow

/-- `EnterStartupMode()`. -/
def EnterStartupMode (s : BbrNetworkController) : BbrNetworkController :=
  { s with mode_ := Mode.STARTUP, pacing_gain_ := kHighGain, congestion_window_gain_ := kHighGain }

/-- The offset of the gain cycle for a draw in `[0, 6]`: 1 is left out. -/
def cycleOffsetOfDraw (draw : Int) : Int := if draw ≥ 1 then draw + 1 else draw

/-- `EnterProbeBandwidthMode(now)`. -/
def EnterProbeBandwidthMode (s : BbrNetworkController) (now : Timestamp) : BbrNetworkController :=
  { s with
    mode_ := Mode.PROBE_BW
    congestion_window_gain_ := s.congestion_window_gain_constant_
    random_ := (s.random_.Rand (kGainCycleLength - 2)).2
    cycle_current_offset_ := cycleOffsetOfDraw (s.random_.Rand (kGainCycleLength - 2)).1
    last_cycle_start_ := now
    pacing_gain_ := s.GetPacingGain (cycleOffsetOfDraw (s.random_.Rand (kGainCycleLength - 2)).1) }

/-- The time `constraints_->at_time` that `Reset` reads. The constructor and
every later assignment set `constraints_`; with none, whose dereference the
sources do not define, the model takes the time of default-constructed
constraints. -/
def resetTime (s : BbrNetworkController) : Timestamp :=
  match s.constraints_ with
  | some c => c.at_time
  | none => Timestamp.plusInfinity

/-- `Reset()`. -/
def Reset (s : BbrNetworkController) : BbrNetworkController :=
  if s.config_.num_startup_rtts > 0 then
    EnterStartupMode
      { s with
        round_trip_count_ := 0
        rounds_without_bandwidth_gain_ := 0
        is_at_full_bandwidth_ := false }
  else
    EnterProbeBandwidthMode
      { s with
        round_trip_count_ := 0
        rounds_without_bandwidth_gain_ := 0
        is_at_full_bandwidth_ := true } s.resetTime

/-- The constructor `BbrNetworkController(config)`, for the `BbrControllerConfig`
read from the field trial and the generator `random_` seeded with 10. The
initialiser list leaves `congestion_window_gain_` out; `Reset` assigns it. -/
def new (config_ : BbrControllerConfig) (random_ : Random) (config : NetworkControllerConfig) :
    BbrNetworkController :=
  Reset
    { config_ := config_
      rtt_stats_ := RttStats.new
      random_ := random_
      loss_rate_ := ⟨[]⟩
      constraints_ := some config.constraints
      mode_ := Mode.STARTUP
      sampler_ := BandwidthSampler.new
      round_trip_count_ := 0
      last_sent_packet_ := 0
      current_round_trip_end_ := 0
      max_bandwidth_ := WindowedFilter.new kBandwidthWindowSize DataRate.Zero 0
      default_bandwidth_ :=
        match config.constraints.starting_rate with
        | some starting_rate => starting_rate
        | none => DataRate.kbps kInitialBandwidthKbps
      max_ack_height_ := WindowedFilter.new kBandwidthWindowSize 0 0
      aggregation_epoch_start_time_ := none
      aggregation_epoch_bytes_ := 0
      bytes_acked_since_queue_drained_ := 0
      max_aggregation_bytes_multiplier_ := Double.ofInt 0
      min_rtt_ := TimeDelta.Zero
      last_rtt_ := TimeDelta.Zero
      min_rtt_timestamp_ := Timestamp.minusInfinity
      congestion_window_ := config_.initial_congestion_window
      initial_congestion_window_ := config_.initial_congestion_window
      min_congestion_window_ := config_.min_congestion_window
      max_congestion_window_ := config_.max_congestion_window
      pacing_rate_ := DataRate.Zero
      pacing_gain_ := Double.ofInt 1
      congestion_window_gain_ := Double.ofInt 1
      congestion_window_gain_constant_ := kProbeBWCongestionWindowGain
      rtt_variance_weight_ := kBbrRttVariationWeight
      cycle_current_offset_ := 0
      last_cycle_start_ := Timestamp.minusInfinity
      is_at_full_bandwidth_ := false
      rounds_without_bandwidth_gain_ := 0
      bandwidth_at_last_round_ := DataRate.Zero
      exiting_quiescence_ := false
      exit_probe_rtt_at_ := none
      probe_rtt_round_passed_ := false
      last_sample_is_app_limited_ := false
      recovery_state_ := RecoveryState.NOT_IN_RECOVERY
      end_recovery_at_ := none
      recovery_window_ := config_.max_congestion_window
      app_limited_since_last_probe_rtt_ := false
      min_rtt_since_last_probe_rtt_ := TimeDelta.plusInfinity }

/-- `OnSentPacket(msg)`, on the state. -/
def OnSentPacket (s : BbrNetworkController) (msg : SentPacket) : BbrNetworkController :=
  { s with
    last_sent_packet_ := msg.sequence_number
    exiting_quiescence_ :=
      if msg.data_in_flight = 0 ∧ s.sampler_.is_app_limited = true then true
      else s.exiting_quiescence_
    aggregation_epoch_start_time_ :=
      if s.aggregation_epoch_start_time_.isNone then some (Timestamp.finite msg.send_time)
      else s.aggregation_epoch_start_time_
    sampler_ :=
      s.sampler_.OnPacketSent msg.send_time msg.sequence_number msg.size msg.data_in_flight }

end BbrNetworkController

namespace BbrNetworkController

/-- `DiscardLostPackets(lost_packets)`. -/
def DiscardLostPackets (s : BbrNetworkController) (lost_packets : List PacketResult) :
    BbrNetworkController :=
  { s with
    sampler_ := lost_packets.foldl
      (fun sampler packet => sampler.OnPacketLost packet.sent_packet.sequence_number) s.sampler_ }

/-- `UpdateRoundTripCounter(last_acked_packet)`: the result and the state. -/
def UpdateRoundTripCounter (s : BbrNetworkController) (last_acked_packet : Int) :
    Bool × BbrNetworkController :=
  if last_acked_packet > s.current_round_trip_end_ then
    (true, { s with
      round_trip_count_ := s.round_trip_count_ + 1
      current_round_trip_end_ := s.last_sent_packet_ })
  else (false, s)

/-- One iteration of the loop of `UpdateBandwidthAndMinRtt` over the
acknowledged packets, on the local `sample_rtt` and the state. -/
def ackPacket (div : Int → Int → DataRate) (now : Int) (acc : TimeDelta × BbrNetworkController)
    (packet : PacketResult) : TimeDelta × BbrNetworkController :=
  (if (acc.2.sampler_.OnPacketAcknowledged div now packet.sent_packet.sequence_number).1.rtt ≠ 0
    then min acc.1 (TimeDelta.finite
      (acc.2.sampler_.OnPacketAcknowledged div now packet.sent_packet.sequence_number).1.rtt)
    else acc.1,
    { acc.2 with
      sampler_ :=
        (acc.2.sampler_.OnPacketAcknowledged div now packet.sent_packet.sequence_number).2
      last_sample_is_app_limited_ :=
        (acc.2.sampler_.OnPacketAcknowledged div now
          packet.sent_packet.sequence_number).1.is_app_limited
      max_bandwidth_ :=
        if (acc.2.sampler_.OnPacketAcknowledged div now
              packet.sent_packet.sequence_number).1.is_app_limited = false ∨
            (acc.2.sampler_.OnPacketAcknowledged div now
              packet.sent_packet.sequence_number).1.bandwidth > acc.2.BandwidthEstimate then
          acc.2.max_bandwidth_.Update MaxFilter
            (acc.2.sampler_.OnPacketAcknowledged div now
              packet.sent_packet.sequence_number).1.bandwidth acc.2.round_trip_count_
        else acc.2.max_bandwidth_ })

/-- `ShouldExtendMinRttExpiry()`. -/
def ShouldExtendMinRttExpiry (s : BbrNetworkController) : Bool :=
  if s.config_.probe_rtt_disabled_if_app_limited && s.app_limited_since_last_probe_rtt_ then true
  else if s.config_.probe_rtt_skipped_if_similar_rtt && s.app_limited_since_last_probe_rtt_ &&
      !decide (s.min_rtt_since_last_probe_rtt_ >
        TimeDelta.scale kSimilarMinRttThreshold s.min_rtt_) then true
  else false

/-- The local `min_rtt_expired` of `UpdateBandwidthAndMinRtt` as first
computed. -/
def minRttExpired (s : BbrNetworkController) (now : Int) : Bool :=
  !s.min_rtt_.IsZero &&
    decide (Timestamp.finite now >
      s.min_rtt_timestamp_.add (TimeDelta.seconds kMinRttExpirySeconds))

/-- The assignments of `last_rtt_` and `min_rtt_since_last_probe_rtt_` in
`UpdateBandwidthAndMinRtt`. -/
def withSampleRtt (s : BbrNetworkController) (sample_rtt : TimeDelta) : BbrNetworkController :=
  { s with
    last_rtt_ := sample_rtt
    min_rtt_since_last_probe_rtt_ := min s.min_rtt_since_last_probe_rtt_ sample_rtt }

/-- The part of `UpdateBandwidthAndMinRtt` after the loop, for the `sample_rtt`
the loop computed. -/
def updateMinRtt (s : BbrNetworkController) (now : Int) (sample_rtt : TimeDelta) :
    Bool × BbrNetworkController :=
  if sample_rtt.IsInfinite then (false, s)
  else if s.minRttExpired now = true ∨ sample_rtt < s.min_rtt_ ∨ s.min_rtt_.IsZero = true then
    if (s.withSampleRtt sample_rtt).ShouldExtendMinRttExpiry then
      (false, { s.withSampleRtt sample_rtt with
        min_rtt_timestamp_ := Timestamp.finite now
        min_rtt_since_last_probe_rtt_ := TimeDelta.plusInfinity
        app_limited_since_last_probe_rtt_ := false })
    else
      (s.minRttExpired now, { s.withSampleRtt sample_rtt with
        min_rtt_ := sample_rtt
        min_rtt_timestamp_ := Timestamp.finite now
        min_rtt_since_last_probe_rtt_ := TimeDelta.plusInfinity
        app_limited_since_last_probe_rtt_ := false })
  else (s.minRttExpired now, s.withSampleRtt sample_rtt)

/-- `UpdateBandwidthAndMinRtt(now, acked_packets)`: the result and the state. -/
def UpdateBandwidthAndMinRtt (div : Int → Int → DataRate) (s : BbrNetworkController) (now : Int)
    (acked_packets : List PacketResult) : Bool × BbrNetworkController :=
  updateMinRtt (acked_packets.foldl (ackPacket div now) (TimeDelta.plusInfinity, s)).2 now
    (acked_packets.foldl (ackPacket div now) (TimeDelta.plusInfinity, s)).1

/-- The exit from recovery at the end of `UpdateRecoveryState` (case `GROWTH`
and the cases that fall through to it). -/
def exitRecovery (s : BbrNetworkController) (last_acked_packet : Int) (has_losses : Bool) :
    BbrNetworkController :=
  if has_losses = false ∧
      (s.end_recovery_at_ = none ∨ ∃ e, s.end_recovery_at_ = some e ∧ last_acked_packet > e) then
    { s with recovery_state_ := RecoveryState.NOT_IN_RECOVERY }
  else s

/-- The `switch` of `UpdateRecoveryState`. -/
def recoverySwitch (s : BbrNetworkController) (last_acked_packet : Int)
    (has_losses is_round_start : Bool) : BbrNetworkController :=
  match s.recovery_state_ with
  | RecoveryState.NOT_IN_RECOVERY =>
    if has_losses then
      { s with
        recovery_state_ :=
          if s.mode_ = Mode.STARTUP then s.config_.initial_conservation_in_startup
          else RecoveryState.CONSERVATION
        recovery_window_ := 0
        current_round_trip_end_ := s.last_sent_packet_ }
    else s
  | RecoveryState.GROWTH => s.exitRecovery last_acked_packet has_losses
  | _ =>
    exitRecovery
      (if is_round_start then { s with recovery_state_ := RecoveryState.GROWTH } else s)
      last_acked_packet has_losses

/-- `UpdateRecoveryState(last_acked_packet, has_losses, is_round_start)`. -/
def UpdateRecoveryState (s : BbrNetworkController) (last_acked_packet : Int)
    (has_losses is_round_start : Bool) : BbrNetworkController :=
  recoverySwitch
    (if has_losses then { s with end_recovery_at_ := some s.last_sent_packet_ } else s)
    last_acked_packet has_losses is_round_start

/-- `UpdateAckAggregationBytes(ack_time, newly_acked_bytes)`. -/
def UpdateAckAggregationBytes (s : BbrNetworkController) (ack_time : Int)
    (newly_acked_bytes : Int) : BbrNetworkController :=
  match s.aggregation_epoch_start_time_ with
  | none => s
  | some start =>
    if s.aggregation_epoch_bytes_ ≤
        ((Timestamp.finite ack_time).sub start).mulRate s.max_bandwidth_.GetBest then
      { s with
        aggregation_epoch_bytes_ := newly_acked_bytes
        aggregation_epoch_start_time_ := some (Timestamp.finite ack_time) }
    else
      { s with
        aggregation_epoch_bytes_ := s.aggregation_epoch_bytes_ + newly_acked_bytes
        max_ack_height_ := s.max_ack_height_.Update MaxFilter
          (s.aggregation_epoch_bytes_ + newly_acked_bytes -
            ((Timestamp.finite ack_time).sub start).mulRate s.max_bandwidth_.GetBest)
          s.round_trip_count_ }

end BbrNetworkController

namespace BbrNetworkController

/-- The local `should_advance_gain_cycling` of `UpdateGainCyclePhase` after its
two adjustments. -/
def shouldAdvanceGainCycling (s : BbrNetworkController) (now : Int) (prior_in_flight : Int)
    (has_losses : Bool) : Bool :=
  if s.pacing_gain_.lt (Double.ofInt 1) = true ∧
      prior_in_flight ≤ s.GetTargetCongestionWindow (Double.ofInt 1) then true
  else if (Double.ofInt 1).lt s.pacing_gain_ = true ∧ has_losses = false ∧
      prior_in_flight < s.GetTargetCongestionWindow s.pacing_gain_ then false
  else decide ((Timestamp.finite now).sub s.last_cycle_start_ > s.GetMinRtt)

/-- The advance of the gain cycle in `UpdateGainCyclePhase`: the offset and the
start of the cycle. -/
def advanceGainCycle (s : BbrNetworkController) (now : Int) : BbrNetworkController :=
  { s with
    cycle_current_offset_ := (s.cycle_current_offset_ + 1) % kGainCycleLength
    last_cycle_start_ := Timestamp.finite now }

/-- `UpdateGainCyclePhase(now, prior_in_flight, has_losses)`. -/
def UpdateGainCyclePhase (s : BbrNetworkController) (now : Int) (prior_in_flight : Int)
    (has_losses : Bool) : BbrNetworkController :=
  if s.shouldAdvanceGainCycling now prior_in_flight has_losses then
    if s.config_.fully_drain_queue = true ∧ s.pacing_gain_.lt (Double.ofInt 1) = true ∧
        (s.GetPacingGain (s.advanceGainCycle now).cycle_current_offset_).eq (Double.ofInt 1) = true ∧
        prior_in_flight > s.GetTargetCongestionWindow (Double.ofInt 1) then
      s.advanceGainCycle now
    else
      { s.advanceGainCycle now with
        pacing_gain_ := s.GetPacingGain (s.advanceGainCycle now).cycle_current_offset_ }
  else s

/-- `CheckIfFullBandwidthReached()`. -/
def CheckIfFullBandwidthReached (s : BbrNetworkController) : BbrNetworkController :=
  if s.last_sample_is_app_limited_ then s
  else if s.BandwidthEstimate ≥ s.bandwidth_at_last_round_.scale kStartupGrowthTarget then
    { s with
      bandwidth_at_last_round_ := s.BandwidthEstimate
      rounds_without_bandwidth_gain_ := 0 }
  else if s.rounds_without_bandwidth_gain_ + 1 ≥ s.config_.num_startup_rtts ∨
      (s.config_.exit_startup_on_loss = true ∧ s.InRecovery = true) then
    { s with
      rounds_without_bandwidth_gain_ := s.rounds_without_bandwidth_gain_ + 1
      is_at_full_bandwidth_ := true }
  else
    { s with rounds_without_bandwidth_gain_ := s.rounds_without_bandwidth_gain_ + 1 }

/-- The first `if` of `MaybeExitStartupOrDrain`: from `STARTUP` to `DRAIN`. -/
def exitStartup (s : BbrNetworkController) : BbrNetworkController :=
  if s.mode_ = Mode.STARTUP ∧
      (s.is_at_full_bandwidth_ = true ∨
        s.last_rtt_ - s.min_rtt_ > s.config_.exit_startup_rtt_threshold) then
    { s with
      mode_ := Mode.DRAIN
      pacing_gain_ := kDrainGain
      congestion_window_gain_ := kHighGain }
  else s

/-- `MaybeExitStartupOrDrain(msg)`. -/
def MaybeExitStartupOrDrain (s : BbrNetworkController) (msg : TransportPacketsFeedback) :
    BbrNetworkController :=
  if s.exitStartup.mode_ = Mode.DRAIN ∧
      msg.data_in_flight ≤ s.exitStartup.GetTargetCongestionWindow (Double.ofInt 1) then
    s.exitStartup.EnterProbeBandwidthMode (Timestamp.finite msg.feedback_time)
  else s.exitStartup

/-- The first `if` of `MaybeEnterOrExitProbeRtt`: the entry into `PROBE_RTT`. -/
def enterProbeRtt (s : BbrNetworkController) (min_rtt_expired : Bool) : BbrNetworkController :=
  if min_rtt_expired = true ∧ s.exiting_quiescence_ = false ∧ s.mode_ ≠ Mode.PROBE_RTT then
    { s with mode_ := Mode.PROBE_RTT, pacing_gain_ := Double.ofInt 1, exit_probe_rtt_at_ := none }
  else s

/-- The assignment of `probe_rtt_round_passed_` on a round start. -/
def markProbeRttRound (s : BbrNetworkController) (is_round_start : Bool) : BbrNetworkController :=
  if is_round_start then { s with probe_rtt_round_passed_ := true } else s

/-- The exit from `PROBE_RTT` once its time and a round have passed. -/
def exitProbeRtt (s : BbrNetworkController) (feedback_time : Int) : BbrNetworkController :=
  if s.is_at_full_bandwidth_ = false then
    EnterStartupMode { s with min_rtt_timestamp_ := Timestamp.finite feedback_time }
  else
    EnterProbeBandwidthMode { s with min_rtt_timestamp_ := Timestamp.finite feedback_time }
      (Timestamp.finite feedback_time)

/-- The body of `if (mode_ == PROBE_RTT)` in `MaybeEnterOrExitProbeRtt`, after
the sampler was told that the connection is app-limited. -/
def inProbeRtt (s : BbrNetworkController) (msg : TransportPacketsFeedback)
    (is_round_start : Bool) : BbrNetworkController :=
  match s.exit_probe_rtt_at_ with
  | none =>
    if msg.data_in_flight < s.ProbeRttCongestionWindow + kMaxPacketSize then
      { s with
        exit_probe_rtt_at_ :=
          some ((Timestamp.finite msg.feedback_time).add (TimeDelta.ms kProbeRttTimeMs))
        probe_rtt_round_passed_ := false }
    else s
  | some exit_at =>
    if Timestamp.finite msg.feedback_time ≥ exit_at ∧
        (s.markProbeRttRound is_round_start).probe_rtt_round_passed_ = true then
      (s.markProbeRttRound is_round_start).exitProbeRtt msg.feedback_time
    else s.markProbeRttRound is_round_start

/-- `MaybeEnterOrExitProbeRtt(msg, is_round_start, min_rtt_expired)`. -/
def MaybeEnterOrExitProbeRtt (s : BbrNetworkController) (msg : TransportPacketsFeedback)
    (is_round_start min_rtt_expired : Bool) : BbrNetworkController :=
  { (if (s.enterProbeRtt min_rtt_expired).mode_ = Mode.PROBE_RTT then
      inProbeRtt
        { s.enterProbeRtt min_rtt_expired with
          sampler_ := (s.enterProbeRtt min_rtt_expired).sampler_.OnAppLimited }
        msg is_round_start
    else s.enterProbeRtt min_rtt_expired) with
    exiting_quiescence_ := false }

/-- The assignment under `rate_based_recovery` in `CalculatePacingRate`. -/
def recoveryPacingRate (s : BbrNetworkController) : BbrNetworkController :=
  if s.config_.rate_based_recovery = true ∧ s.InRecovery = true then
    { s with pacing_rate_ := s.max_bandwidth_.GetThirdBest.scale s.pacing_gain_ }
  else s

/-- `CalculatePacingRate()`. -/
def CalculatePacingRate (s : BbrNetworkController) : BbrNetworkController :=
  if s.BandwidthEstimate.IsZero then s
  else if s.is_at_full_bandwidth_ then
    { s.recoveryPacingRate with pacing_rate_ := s.BandwidthEstimate.scale s.pacing_gain_ }
  else if s.recoveryPacingRate.pacing_rate_.IsZero = true ∧
      s.rtt_stats_.min_rtt.IsZero = false then
    { s.recoveryPacingRate with pacing_rate_ := DataRate.bps 100000 }
  else if s.config_.slower_startup = true ∧ s.end_recovery_at_.isSome = true then
    { s.recoveryPacingRate with
      pacing_rate_ := s.BandwidthEstimate.scale kStartupAfterLossGain }
  else
    { s.recoveryPacingRate with
      pacing_rate_ :=
        max s.recoveryPacingRate.pacing_rate_ (s.BandwidthEstimate.scale s.pacing_gain_) }

/-- The local `target_window` of `CalculateCongestionWindow`. -/
def targetWindow (s : BbrNetworkController) : Int :=
  if (Double.ofInt 0).lt s.rtt_variance_weight_ = true ∧ s.BandwidthEstimate.IsZero = false then
    s.GetTargetCongestionWindow s.congestion_window_gain_ +
      (TimeDelta.scale s.rtt_variance_weight_ s.rtt_stats_.mean_deviation).mulRate
        s.BandwidthEstimate
  else if (Double.ofInt 0).lt s.max_aggregation_bytes_multiplier_ = true ∧
      s.is_at_full_bandwidth_ = true then
    if s.max_aggregation_bytes_multiplier_.round s.max_ack_height_.GetBest >
        Int.tdiv s.bytes_acked_since_queue_drained_ 2 then
      s.GetTargetCongestionWindow s.congestion_window_gain_ +
        (s.max_aggregation_bytes_multiplier_.round s.max_ack_height_.GetBest -
          Int.tdiv s.bytes_acked_since_queue_drained_ 2)
    else s.GetTargetCongestionWindow s.congestion_window_gain_
  else if s.is_at_full_bandwidth_ then
    s.GetTargetCongestionWindow s.congestion_window_gain_ + s.max_ack_height_.GetBest
  else s.GetTargetCongestionWindow s.congestion_window_gain_

/-- The growth of the window in `CalculateCongestionWindow`, before its limits
are enforced. -/
def grownWindow (s : BbrNetworkController) (bytes_acked : Int) : Int :=
  if s.is_at_full_bandwidth_ then min s.targetWindow (s.congestion_window_ + bytes_acked)
  else if s.congestion_window_ < s.targetWindow ∨
      s.sampler_.total_data_acked < s.initial_congestion_window_ then
    s.congestion_window_ + bytes_acked
  else s.congestion_window_

/-- `CalculateCongestionWindow(bytes_acked)`. -/
def CalculateCongestionWindow (s : BbrNetworkController) (bytes_acked : Int) :
    BbrNetworkController :=
  if s.mode_ = Mode.PROBE_RTT then s
  else
    { s with
      congestion_window_ :=
        min (max (s.grownWindow bytes_acked) s.min_congestion_window_) s.max_congestion_window_ }

/-- The window of `CalculateRecoveryWindow` after the losses are removed and the
acknowledged bytes released. -/
def releasedWindow (s : BbrNetworkController) (bytes_acked bytes_lost : Int) : Int :=
  (if s.recovery_window_ ≥ bytes_lost then s.recovery_window_ - bytes_lost else kMaxSegmentSize) +
    (if s.recovery_state_ = RecoveryState.GROWTH then bytes_acked
      else if s.recovery_state_ = RecoveryState.MEDIUM_GROWTH then Int.tdiv bytes_acked 2
      else 0)

/-- `CalculateRecoveryWindow(bytes_acked, bytes_lost, bytes_in_flight)`. -/
def CalculateRecoveryWindow (s : BbrNetworkController)
    (bytes_acked bytes_lost bytes_in_flight : Int) : BbrNetworkController :=
  if s.config_.rate_based_recovery = true ∨
      (s.config_.rate_based_startup = true ∧ s.mode_ = Mode.STARTUP) then s
  else if s.recovery_state_ = RecoveryState.NOT_IN_RECOVERY then s
  else if s.recovery_window_ = 0 then
    { s with recovery_window_ := max s.min_congestion_window_ (bytes_in_flight + bytes_acked) }
  else
    { s with
      recovery_window_ :=
        max s.min_congestion_window_
          (max (s.releasedWindow bytes_acked bytes_lost) (bytes_in_flight + bytes_acked)) }

end BbrNetworkController

namespace BbrNetworkController

/-- The start of `OnTransportPacketsFeedback`, for the last packet `last` of
the batch: the round-trip statistics take the sample, the lost packets are
discarded, and the loss rate filter is updated. -/
def beforeModel (s : BbrNetworkController) (msg : TransportPacketsFeedback)
    (last : PacketResult) : BbrNetworkController :=
  { DiscardLostPackets
      { s with
        rtt_stats_ := s.rtt_stats_.UpdateRtt
          (TimeDelta.finite (msg.feedback_time - last.sent_packet.send_time)) TimeDelta.Zero
          msg.feedback_time }
      msg.LostWithSendInfo with
    loss_rate_ := s.loss_rate_.UpdateWithLossStatus (Timestamp.ms msg.feedback_time)
      (msg.LostWithSendInfo.length + msg.ReceivedWithSendInfo.length)
      msg.LostWithSendInfo.length }

/-- The calls `UpdateRoundTripCounter` and `UpdateBandwidthAndMinRtt` of
`OnTransportPacketsFeedback`: the local `min_rtt_expired` and the state. -/
def roundAndBandwidth (div : Int → Int → DataRate) (s : BbrNetworkController)
    (msg : TransportPacketsFeedback) (last_acked_packet : Int) : Bool × BbrNetworkController :=
  UpdateBandwidthAndMinRtt div (s.UpdateRoundTripCounter last_acked_packet).2 msg.feedback_time
    msg.ReceivedWithSendInfo

/-- The state after the call `UpdateRecoveryState` of
`OnTransportPacketsFeedback`. -/
def afterRecovery (div : Int → Int → DataRate) (s : BbrNetworkController)
    (msg : TransportPacketsFeedback) (last_acked_packet : Int) : BbrNetworkController :=
  (s.roundAndBandwidth div msg last_acked_packet).2.UpdateRecoveryState last_acked_packet
    (!msg.LostWithSendInfo.isEmpty) (s.UpdateRoundTripCounter last_acked_packet).1

/-- The update of `bytes_acked_since_queue_drained_` in
`OnTransportPacketsFeedback`. -/
def drainedBytes (s : BbrNetworkController) (msg : TransportPacketsFeedback)
    (data_acked : Int) : BbrNetworkController :=
  if (Double.ofInt 0).lt s.max_aggregation_bytes_multiplier_ then
    if msg.data_in_flight ≤
        Double.round ⟨5, 4⟩ (s.GetTargetCongestionWindow s.pacing_gain_) then
      { s with bytes_acked_since_queue_drained_ := 0 }
    else
      { s with
        bytes_acked_since_queue_drained_ := s.bytes_acked_since_queue_drained_ + data_acked }
  else s

/-- The block `if (!acked_packets.empty())` of `OnTransportPacketsFeedback`:
the locals `is_round_start` and `min_rtt_expired`, and the state. -/
def feedModel (div : Int → Int → DataRate) (s : BbrNetworkController)
    (msg : TransportPacketsFeedback) (total_data_acked_before : Int) :
    Bool × Bool × BbrNetworkController :=
  match msg.ReceivedWithSendInfo.getLast? with
  | none => (false, false, s)
  | some packet =>
    ((s.UpdateRoundTripCounter packet.sent_packet.sequence_number).1,
      (s.roundAndBandwidth div msg packet.sent_packet.sequence_number).1,
      drainedBytes
        ((s.afterRecovery div msg packet.sent_packet.sequence_number).UpdateAckAggregationBytes
          msg.feedback_time
          ((s.afterRecovery div msg packet.sent_packet.sequence_number).sampler_.total_data_acked -
            total_data_acked_before))
        msg
        ((s.afterRecovery div msg packet.sent_packet.sequence_number).sampler_.total_data_acked -
          total_data_acked_before))

/-- The call `UpdateGainCyclePhase` of `OnTransportPacketsFeedback`, made in
`PROBE_BW`. -/
def gainCycleStage (s : BbrNetworkController) (msg : TransportPacketsFeedback) :
    BbrNetworkController :=
  if s.mode_ = Mode.PROBE_BW then
    s.UpdateGainCyclePhase msg.feedback_time msg.prior_in_flight (!msg.LostWithSendInfo.isEmpty)
  else s

/-- The call `CheckIfFullBandwidthReached` of `OnTransportPacketsFeedback`, made
on a round start while the full bandwidth is not reached. -/
def fullBandwidthStage (s : BbrNetworkController) (is_round_start : Bool) :
    BbrNetworkController :=
  if is_round_start = true ∧ s.is_at_full_bandwidth_ = false then s.CheckIfFullBandwidthReached
  else s

/-- The mode logic of `OnTransportPacketsFeedback`: the gain cycle, the full
bandwidth check, `MaybeExitStartupOrDrain` and `MaybeEnterOrExitProbeRtt`. -/
def updateModes (s : BbrNetworkController) (msg : TransportPacketsFeedback)
    (is_round_start min_rtt_expired : Bool) : BbrNetworkController :=
  MaybeEnterOrExitProbeRtt
    (MaybeExitStartupOrDrain (fullBandwidthStage (s.gainCycleStage msg) is_round_start) msg)
    msg is_round_start min_rtt_expired

/-- The local `data_lost` of `OnTransportPacketsFeedback`. -/
def dataLost (lost_packets : List PacketResult) : Int :=
  lost_packets.foldl (fun data_lost packet => data_lost + packet.sent_packet.size) 0

/-- The calls `CalculatePacingRate`, `CalculateCongestionWindow` and
`CalculateRecoveryWindow` of `OnTransportPacketsFeedback`. -/
def updateWindows (s : BbrNetworkController) (msg : TransportPacketsFeedback)
    (total_data_acked_before : Int) : BbrNetworkController :=
  CalculateRecoveryWindow
    (CalculateCongestionWindow s.CalculatePacingRate
      (s.sampler_.total_data_acked - total_data_acked_before))
    (s.sampler_.total_data_acked - total_data_acked_before)
    (dataLost msg.LostWithSendInfo) msg.data_in_flight

/-- The end of `OnTransportPacketsFeedback`: the sampler forgets the packets
below the last acknowledged one; `none` when that call does not return. -/
def removeObsolete (s : BbrNetworkController) (msg : TransportPacketsFeedback) :
    Option BbrNetworkController :=
  match msg.ReceivedWithSendInfo.getLast? with
  | none => some s
  | some packet =>
    match s.sampler_.RemoveObsoletePackets packet.sent_packet.sequence_number with
    | none => none
    | some sampler => some { s with sampler_ := sampler }

/-- The state after `OnTransportPacketsFeedback(msg)` for a batch whose last
packet is `last`. -/
def feedbackWith (div : Int → Int → DataRate) (s : BbrNetworkController)
    (msg : TransportPacketsFeedback) (last : PacketResult) : Option BbrNetworkController :=
  removeObsolete
    (updateWindows
      (updateModes
        (feedModel div (s.beforeModel msg last) msg s.sampler_.total_data_acked).2.2 msg
        (feedModel div (s.beforeModel msg last) msg s.sampler_.total_data_acked).1
        (feedModel div (s.beforeModel msg last) msg s.sampler_.total_data_acked).2.1)
      msg s.sampler_.total_data_acked)
    msg

/-- `OnTransportPacketsFeedback(msg)`, on the state; `none` when the call does
not return. An empty batch changes nothing. -/
def OnTransportPacketsFeedback (div : Int → Int → DataRate) (s : BbrNetworkController)
    (msg : TransportPacketsFeedback) : Option BbrNetworkController :=
  match msg.PacketsWithFeedback.getLast? with
  | none => some s
  | some last => s.feedbackWith div msg last

/-- `OnNetworkAvailability(msg)`, on the state. -/
def OnNetworkAvailability (s : BbrNetworkController) : BbrNetworkController :=
  { s.Reset with rtt_stats_ := s.Reset.rtt_stats_.OnConnectionMigration }

/-- `OnNetworkRouteChange(msg)`, on the state. -/
def OnNetworkRouteChange (s : BbrNetworkController) (msg : NetworkRouteChange) :
    BbrNetworkController :=
  { Reset { s with constraints_ := some msg.constraints } with
    default_bandwidth_ :=
      match msg.constraints.starting_rate with
      | some starting_rate => starting_rate
      | none => (Reset { s with constraints_ := some msg.constraints }).default_bandwidth_
    rtt_stats_ :=
      (Reset { s with constraints_ := some msg.constraints }).rtt_stats_.OnConnectionMigration }

/-- `OnTargetRateConstraints(msg)`, on the state. -/
def OnTargetRateConstraints (s : BbrNetworkController) (msg : TargetRateConstraints) :
    BbrNetworkController :=
  { s with constraints_ := some msg }

end BbrNetworkController

/-- An event of the controller. `OnProcessInterval` and the reports that the
controller ignores leave the state as it is. -/
inductive ControllerEvent where
  | sent (msg : SentPacket)
  | feedback (msg : TransportPacketsFeedback)
  | availability
  | routeChange (msg : NetworkRouteChange)
  | processInterval
  | constraints (msg : TargetRateConstraints)
deriving DecidableEq, Repr

namespace BbrNetworkController

/-- The state after one event; `none` when the call does not return. -/
def event (div : Int → Int → DataRate) (s : BbrNetworkController) :
    ControllerEvent → Option BbrNetworkController
  | .sent msg => some (s.OnSentPacket msg)
  | .feedback msg => s.OnTransportPacketsFeedback div msg
  | .availability => some s.OnNetworkAvailability
  | .routeChange msg => some (s.OnNetworkRouteChange msg)
  | .processInterval => some s
  | .constraints msg => some (s.OnTargetRateConstraints msg)

/-- The state after a sequence of events, in list order. -/
def events (div : Int → Int → DataRate) (s : BbrNetworkController) :
    List ControllerEvent → Option BbrNetworkController
  | [] => some s
  | e :: es =>
    match s.event div e with
    | none => none
    | some s1 => events div s1 es

end BbrNetworkController

namespace Double

/-- `a <= b`. -/
def le (a b : Double) : Bool := decide (a.num * b.den ≤ b.num * a.den)

end Double

/-! ## The update that the entry points return -/

/-- Modelled from the spec: the product of a `TimeDelta` and an `int64_t`
factor that is positive, as `rtt * kGainCycleLength` is; an infinite value stays
as it is. -/
def TimeDelta.mulInt (d : TimeDelta) (n : Int) : TimeDelta :=
  match d with
  | TimeDelta.finite us => TimeDelta.finite (us * n)
  | TimeDelta.plusInfinity => TimeDelta.plusInfinity
  | TimeDelta.minusInfinity => TimeDelta.minusInfinity

/-- Modelled from the spec: the struct `NetworkEstimate` of
`api/transport/network_types.h`, which is not among the sources, with the
fields that `CreateRateUpdate` assigns. -/
structure NetworkEstimate where
  at_time : Timestamp
  round_trip_time : TimeDelta
  loss_rate_ratio : Double
  bwe_period : TimeDelta
deriving DecidableEq, Repr

/-- Modelled from the spec: the struct `TargetTransferRate`. -/
structure TargetTransferRate where
  at_time : Timestamp
  network_estimate : NetworkEstimate
  target_rate : DataRate
deriving DecidableEq, Repr

/-- Modelled from the spec: the struct `PacerConfig`, with the fields that
`CreateRateUpdate` assigns; sizes in bytes. -/
structure PacerConfig where
  at_time : Timestamp
  data_window : Int
  time_window : TimeDelta
  pad_window : Int
  local_data_rate : DataRate
  local_pad_rate : DataRate
deriving DecidableEq, Repr

/-- Modelled from the spec: the struct `NetworkControlUpdate`; each field is
optional. -/
structure NetworkControlUpdate where
  target_rate : Option TargetTransferRate
  pacer_config : Option PacerConfig
  congestion_window : Option Int
deriving DecidableEq, Repr

/-- The default constructor `NetworkControlUpdate()`: no field is present. -/
def NetworkControlUpdate.empty : NetworkControlUpdate := ⟨none, none, none⟩

namespace BbrNetworkController

/-- `PacingRate()`; the quotient of a size by a `TimeDelta` is `div` on the
numbers that represent them. -/
def PacingRate (div : Int → Int → DataRate) (s : BbrNetworkController) : DataRate :=
  if s.pacing_rate_.IsZero then
    div (kHighGain.round s.initial_congestion_window_) s.GetMinRtt.value
  else s.pacing_rate_

/-- The local `bandwidth` of `CreateRateUpdate`. -/
def rateBandwidth (s : BbrNetworkController) : DataRate :=
  if s.BandwidthEstimate.IsZero then s.default_bandwidth_ else s.BandwidthEstimate

/-- The local `target_rate` of `CreateRateUpdate` before the constraints are
applied. -/
def encoderTarget (div : Int → Int → DataRate) (s : BbrNetworkController) : DataRate :=
  min
    (DataRate.scale
      (if s.mode_ = Mode.PROBE_RTT then s.config_.encoder_rate_gain_in_probe_rtt
        else s.config_.encoder_rate_gain)
      (if s.config_.pacing_rate_as_target then s.PacingRate div else s.rateBandwidth))
    (s.PacingRate div)

/-- The block `if (constraints_)` of `CreateRateUpdate`, which treats the
target rate and the pacing rate alike: the rate is lowered to `max_data_rate`
and then raised to `min_data_rate`, where present. -/
def constrainRate (constraints : Option TargetRateConstraints) (rate : DataRate) : DataRate :=
  match constraints with
  | none => rate
  | some c =>
    match c.min_data_rate with
    | none =>
      (match c.max_data_rate with
        | none => rate
        | some max_data_rate => min rate max_data_rate)
    | some min_data_rate =>
      max
        (match c.max_data_rate with
          | none => rate
          | some max_data_rate => min rate max_data_rate)
        min_data_rate

/-- The `pacer_config` of `CreateRateUpdate(at_time)`. -/
def pacerConfig (div : Int → Int → DataRate) (s : BbrNetworkController) (at_time : Timestamp) :
    PacerConfig :=
  { at_time := at_time
    time_window := TimeDelta.scale ⟨1, 4⟩ s.GetMinRtt
    data_window :=
      (TimeDelta.scale ⟨1, 4⟩ s.GetMinRtt).mulRate (constrainRate s.constraints_ (s.PacingRate div))
    local_data_rate := constrainRate s.constraints_ (s.PacingRate div)
    pad_window :=
      if s.IsProbingForMoreBandwidth then
        (TimeDelta.scale ⟨1, 4⟩ s.GetMinRtt).mulRate
          (constrainRate s.constraints_ (s.PacingRate div))
      else 0
    local_pad_rate :=
      if s.IsProbingForMoreBandwidth then constrainRate s.constraints_ (s.PacingRate div)
      else DataRate.Zero }

/-- `CreateRateUpdate(at_time)`. -/
def CreateRateUpdate (div : Int → Int → DataRate) (s : BbrNetworkController)
    (at_time : Timestamp) : NetworkControlUpdate :=
  { target_rate := some
      { at_time := at_time
        network_estimate :=
          { at_time := at_time
            round_trip_time := s.GetMinRtt
            loss_rate_ratio := Double.ofInt 0
            bwe_period := s.GetMinRtt.mulInt kGainCycleLength }
        target_rate := constrainRate s.constraints_ (s.encoderTarget div) }
    pacer_config := some (s.pacerConfig div at_time)
    congestion_window := some s.GetCongestionWindow }

/-- What `OnNetworkAvailability(msg)` returns, for `msg.at_time`. -/
def updateOnNetworkAvailability (div : Int → Int → DataRate) (s : BbrNetworkController)
    (at_time : Timestamp) : NetworkControlUpdate :=
  s.OnNetworkAvailability.CreateRateUpdate div at_time

/-- What `OnNetworkRouteChange(msg)` returns. -/
def updateOnNetworkRouteChange (div : Int → Int → DataRate) (s : BbrNetworkController)
    (msg : NetworkRouteChange) : NetworkControlUpdate :=
  (s.OnNetworkRouteChange msg).CreateRateUpdate div msg.at_time

/-- What `OnProcessInterval(msg)` returns, for `msg.at_time`. -/
def updateOnProcessInterval (div : Int → Int → DataRate) (s : BbrNetworkController)
    (at_time : Timestamp) : NetworkControlUpdate :=
  s.CreateRateUpdate div at_time

/-- What `OnTargetRateConstraints(msg)` returns. -/
def updateOnTargetRateConstraints (div : Int → Int → DataRate) (s : BbrNetworkController)
    (msg : TargetRateConstraints) : NetworkControlUpdate :=
  (s.OnTargetRateConstraints msg).CreateRateUpdate div msg.at_time

/-- What `OnSentPacket(msg)` returns: `NetworkControlUpdate()`. -/
def updateOnSentPacket (_s : BbrNetworkController) (_msg : SentPacket) : NetworkControlUpdate :=
  NetworkControlUpdate.empty

/-- What `OnTransportPacketsFeedback(msg)` returns: `NetworkControlUpdate()` for
an empty batch, and otherwise the update of the state after the call; `none`
when the call does not return. -/
def updateOnTransportPacketsFeedback (div : Int → Int → DataRate) (s : BbrNetworkController)
    (msg : TransportPacketsFeedback) : Option NetworkControlUpdate :=
  if msg.packet_feedbacks.isEmpty then some NetworkControlUpdate.empty
  else
    match s.OnTransportPacketsFeedback div msg with
    | none => none
    | some t => some (t.CreateRateUpdate div (Timestamp.finite msg.feedback_time))

end BbrNetworkController

/-! ## Invariants -/

namespace WindowedFilter

variable {T : Type} [LinearOrder T]

/-- The three estimates are ordered: samples descending, times ascending. -/
def Ordered (f : WindowedFilter T) : Prop :=
  f.estimates_1.sample ≤ f.estimates_0.sample ∧
  f.estimates_2.sample ≤ f.estimates_1.sample ∧
  f.estimates_0.time ≤ f.estimates_1.time ∧
  f.estimates_1.time ≤ f.estimates_2.time

/-- Ordered, and either still uninitialised or no estimate is newer than `now`. -/
def OrderedAt (f : WindowedFilter T) (now : Int) : Prop :=
  f.Ordered ∧ (f.estimates_0.sample = f.zero_value_ ∨ f.estimates_2.time ≤ now)

end WindowedFilter

namespace PacketNumberIndexedQueue

variable {T : Type}

/-- Consistency of a queue: the counter is the number of present slots, the
front slot (if any) is present, and an empty deque has `first_packet_ = 0`. -/
def Valid (q : PacketNumberIndexedQueue T) : Prop :=
  q.number_of_present_entries_ = q.entries_.countP (fun e => e.present) ∧
  (∀ e, q.entries_.head? = some e → e.present = true) ∧
  (q.entries_ = [] → q.first_packet_ = 0)

/-- The slot of a packet number, present or not. -/
def slot (q : PacketNumberIndexedQueue T) (n : Int) : Option (EntryWrapper T) :=
  if n < q.first_packet_ then none else q.entries_[(n - q.first_packet_).toNat]?

/-- What `GetEntry` returns for the content of a slot. -/
def slotData : Option (EntryWrapper T) → Option T
  | none => none
  | some e => if e.present then some e.data else none

end PacketNumberIndexedQueue

/-- The sum of `f` over the data of the present slots of a deque. -/
def presentSum {T : Type} (f : T → Int) (l : List (EntryWrapper T)) : Int :=
  (l.map (fun e => if e.present then f e.data else 0)).sum

namespace BandwidthSampler

/-- Consistency of a tracked snapshot with the counters of the sampler. -/
def SnapshotOk (s : BandwidthSampler) (d : ConnectionStateOnSentPacket) : Prop :=
  0 ≤ d.size ∧
  d.total_data_sent_at_last_acked_packet ≤ d.total_data_sent ∧
  d.total_data_sent ≤ s.total_data_sent_ ∧
  d.total_data_acked_at_the_last_acked_packet ≤ s.total_data_acked_ ∧
  d.last_acked_packet_ack_time.isSome = d.last_acked_packet_sent_time.isSome

/-- Consistency of a sampler: the map is consistent, every tracked snapshot is
consistent with the counters, and the bytes acknowledged plus the bytes of the
tracked packets do not exceed the bytes sent. -/
def Consistent (s : BandwidthSampler) : Prop :=
  s.connection_state_map_.Valid ∧
  s.total_data_sent_at_last_acked_packet_ ≤ s.total_data_sent_ ∧
  s.last_acked_packet_ack_time_.isSome = s.last_acked_packet_sent_time_.isSome ∧
  (∀ n d, s.connection_state_map_.GetEntry n = some d → s.SnapshotOk d) ∧
  s.total_data_acked_ +
    presentSum (fun d => d.size) s.connection_state_map_.entries_ ≤ s.total_data_sent_

end BandwidthSampler

/-- The statistics `s` agree with `last`, the last accepted sample since
construction or the last migration: with none, the smoothed and the latest
round-trip time are zero; with the sample `(send_delta, ack_delay)`, the latest
round-trip time is its corrected value, the minimum is at most its
`send_delta`, and the smoothed round-trip time is positive. -/
def RttStats.Tracks (s : RttStats) : Option (TimeDelta × TimeDelta) → Prop
  | none => s.smoothed_rtt_ = TimeDelta.Zero ∧ s.latest_rtt_ = TimeDelta.Zero
  | some (send_delta, ack_delay) =>
    RttStats.ignored send_delta = false ∧
    s.latest_rtt_ = RttStats.rtt_sample send_delta ack_delay ∧
    s.min_rtt_ ≤ send_delta ∧
    TimeDelta.Zero < s.smoothed_rtt_

namespace BbrNetworkController

/-- The state `t` has the configuration, the congestion window and the limits
of the window of the state `s`. -/
def SameWindow (s t : BbrNetworkController) : Prop :=
  t.config_ = s.config_ ∧
  t.initial_congestion_window_ = s.initial_congestion_window_ ∧
  t.min_congestion_window_ = s.min_congestion_window_ ∧
  t.max_congestion_window_ = s.max_congestion_window_ ∧
  t.congestion_window_ = s.congestion_window_

/-- The state `t` has the configuration and the startup bookkeeping of the
state `s`. -/
def SameStartup (s t : BbrNetworkController) : Prop :=
  t.config_ = s.config_ ∧
  t.rounds_without_bandwidth_gain_ = s.rounds_without_bandwidth_gain_ ∧
  t.is_at_full_bandwidth_ = s.is_at_full_bandwidth_ ∧
  t.bandwidth_at_last_round_ = s.bandwidth_at_last_round_

/-- The state `t` has the window and the startup bookkeeping of `s`. -/
def Frame (s t : BbrNetworkController) : Prop := SameWindow s t ∧ SameStartup s t

/-- The congestion window is within its limits, and the limits are in order. -/
def WindowBounded (s : BbrNetworkController) : Prop :=
  s.min_congestion_window_ ≤ s.congestion_window_ ∧
  s.congestion_window_ ≤ s.max_congestion_window_

/-- The map of the sampler of the controller is well formed. -/
def SamplerValid (s : BbrNetworkController) : Prop := s.sampler_.connection_state_map_.Valid

end BbrNetworkController

namespace BbrNetworkController

/-- The local `is_round_start` of `OnTransportPacketsFeedback(msg)` on the
state `s`, as the block on the acknowledged packets leaves it. -/
def isRoundStart (div : Int → Int → DataRate) (s : BbrNetworkController)
    (msg : TransportPacketsFeedback) : Bool :=
  match msg.PacketsWithFeedback.getLast? with
  | none => false
  | some last => (feedModel div (s.beforeModel msg last) msg s.sampler_.total_data_acked).1

/-- The state in which `OnTransportPacketsFeedback(msg)`, called on `s`, tests
`is_round_start && !is_at_full_bandwidth_` before
`CheckIfFullBandwidthReached`. -/
def checkState (div : Int → Int → DataRate) (s : BbrNetworkController)
    (msg : TransportPacketsFeedback) : BbrNetworkController :=
  match msg.PacketsWithFeedback.getLast? with
  | none => s
  | some last =>
    gainCycleStage (feedModel div (s.beforeModel msg last) msg s.sampler_.total_data_acked).2.2 msg

/-- The feedback `msg` starts a round on `s` in which the bandwidth estimate
is below `kStartupGrowthTarget` times `bandwidth_at_last_round_`. -/
def roundWithoutGain (div : Int → Int → DataRate) (s : BbrNetworkController)
    (msg : TransportPacketsFeedback) : Bool :=
  isRoundStart div s msg &&
    decide ((checkState div s msg).BandwidthEstimate <
      (checkState div s msg).bandwidth_at_last_round_.scale kStartupGrowthTarget)

/-- The event `e` on `s` neither starts a round nor resets the controller. -/
def quietEvent (div : Int → Int → DataRate) (s : BbrNetworkController) :
    ControllerEvent → Bool
  | .sent _ => true
  | .feedback msg => !isRoundStart div s msg
  | .availability => false
  | .routeChange _ => false
  | .processInterval => true
  | .constraints _ => true

/-- The state after a sequence of events none of which starts a round or
resets the controller; `none` for other sequences. -/
def quietRun (div : Int → Int → DataRate) (s : BbrNetworkController) :
    List ControllerEvent → Option BbrNetworkController
  | [] => some s
  | e :: es =>
    if quietEvent div s e then
      match s.event div e with
      | none => none
      | some s1 => quietRun div s1 es
    else none

end BbrNetworkController

/-- The parts of the state that a step may be known to keep: the round count,
the gain cycle (offset and pacing gain), the pacing rate, the bandwidth filter
and the sampler. -/
structure Kept where
  rounds : Bool
  cycle : Bool
  rate : Bool
  bandwidth : Bool
  sampler : Bool
deriving DecidableEq, Repr

/-- Every part that `j` names is named by `k`. -/
def Kept.le (j k : Kept) : Bool :=
  (!j.rounds || k.rounds) && (!j.cycle || k.cycle) && (!j.rate || k.rate) &&
    (!j.bandwidth || k.bandwidth) && (!j.sampler || k.sampler)

namespace BbrNetworkController

/-- The state `t` has the configuration of `s` and the parts of `s` that `k`
names. -/
def Keeps (k : Kept) (s t : BbrNetworkController) : Prop :=
  t.config_ = s.config_ ∧
  (k.rounds = true → t.round_trip_count_ = s.round_trip_count_) ∧
  (k.cycle = true →
    t.cycle_current_offset_ = s.cycle_current_offset_ ∧ t.pacing_gain_ = s.pacing_gain_) ∧
  (k.rate = true → t.pacing_rate_ = s.pacing_rate_) ∧
  (k.bandwidth = true → t.max_bandwidth_ = s.max_bandwidth_) ∧
  (k.sampler = true → t.sampler_ = s.sampler_)

end BbrNetworkController

namespace BbrNetworkController

/-- The offset of the gain cycle is one of the eight phases. -/
def OffsetInRange (s : BbrNetworkController) : Prop :=
  0 ≤ s.cycle_current_offset_ ∧ s.cycle_current_offset_ ≤ 7

end BbrNetworkController

/-- The three estimates of a filter satisfy `P`. -/
def WindowedFilter.All {T : Type} (P : T → Prop) (f : WindowedFilter T) : Prop :=
  P f.estimates_0.sample ∧ P f.estimates_1.sample ∧ P f.estimates_2.sample

namespace BbrNetworkController

/-- The state of a controller of the default configuration in which no rate is
negative: the sampler is consistent, the pacing gain and the three bandwidth
estimates are not negative, and neither is the pacing rate. -/
def RateSound (s : BbrNetworkController) : Prop :=
  s.config_ = BbrControllerConfig.default ∧
  s.sampler_.Consistent ∧
  0 ≤ s.pacing_gain_.num ∧
  s.max_bandwidth_.All (fun rate => DataRate.Zero ≤ rate) ∧
  DataRate.Zero ≤ s.pacing_rate_

end BbrNetworkController

/-- The packet of a `sent` event has a size that is not negative; the other
events carry no size that the sampler adds up. -/
def ControllerEvent.sizeNonneg : ControllerEvent → Bool
  | .sent msg => decide (0 ≤ msg.size)
  | _ => true

namespace BbrNetworkController

/-- The state of a controller of the default configuration whose pacing gain is
not negative. -/
def GainSound (s : BbrNetworkController) : Prop :=
  s.config_ = BbrControllerConfig.default ∧ 0 ≤ s.pacing_gain_.num

end BbrNetworkController

namespace BbrNetworkController

/-- The `rtt` of the samples that the loop of `UpdateBandwidthAndMinRtt(now,
acked_packets)` on `s` takes, in the order of the packets. -/
def sampleRtts (div : Int → Int → DataRate) (now : Int) :
    BbrNetworkController → List PacketResult → List Int
  | _, [] => []
  | s, packet :: rest =>
    (s.sampler_.OnPacketAcknowledged div now packet.sent_packet.sequence_number).1.rtt ::
      sampleRtts div now (ackPacket div now (TimeDelta.plusInfinity, s) packet).2 rest

end BbrNetworkController

namespace BbrNetworkController

/-- In recovery the recovery window is at least the minimum window. -/
def RecoveryBounded (s : BbrNetworkController) : Prop :=
  s.recovery_state_ = RecoveryState.NOT_IN_RECOVERY ∨
    s.min_congestion_window_ ≤ s.recovery_window_

end BbrNetworkController

namespace BbrNetworkController

/-- The state of a controller of the default configuration to which no packet
was reported as sent: the sampler is the constructed one, no bandwidth, round
trip or pacing rate was measured, and the controller is in `STARTUP`; `r` is its
`rtt_stats_` and `recovery` its `recovery_state_`. -/
structure Unsent (r : RttStats) (recovery : RecoveryState) (s : BbrNetworkController) :
    Prop where
  stats : s.rtt_stats_ = r
  state : s.recovery_state_ = recovery
  config : s.config_ = BbrControllerConfig.default
  sampler : s.sampler_ = BandwidthSampler.new
  zero : s.max_bandwidth_.zero_value_ = DataRate.Zero
  best : s.max_bandwidth_.estimates_0.sample = DataRate.Zero
  mode : s.mode_ = Mode.STARTUP
  full : s.is_at_full_bandwidth_ = false
  minRtt : s.min_rtt_ = TimeDelta.Zero
  lastRtt : s.last_rtt_ = TimeDelta.Zero
  window : s.congestion_window_ = 32 * 1460
  initial : s.initial_congestion_window_ = 32 * 1460
  least : s.min_congestion_window_ = 20 * 1460
  most : s.max_congestion_window_ = 2000 * 1460
  rate : s.pacing_rate_ = DataRate.Zero
  lastSent : s.last_sent_packet_ = 0
  roundEnd : s.current_round_trip_end_ = 0
  epoch : s.aggregation_epoch_start_time_ = none
  multiplier : s.max_aggregation_bytes_multiplier_ = Double.ofInt 0
  appLimited : s.last_sample_is_app_limited_ = false
  lastRound : s.bandwidth_at_last_round_ = DataRate.Zero
  quiescence : s.exiting_quiescence_ = false
  rounds : s.rounds_without_bandwidth_gain_ = 0

end BbrNetworkController

/-! ## Inputs of the witnesses -/

/-- The calls of the witness of C1: six updates over four rounds. -/
def filterWitnessCalls : List (Int × Int) :=
  [(5, 1), (3, 2), (4, 2), (1, 11), (2, 11), (1, 14)]

/-- The calls of the witness of C2: packets 5, 8 and 9 are inserted, an
out-of-order insert of 7 is rejected, and packet 5 is removed. -/
def queueWitnessCalls : List (QueueCall Nat) :=
  [.emplace 5 50, .emplace 8 80, .emplace 7 70, .remove 5, .emplace 9 90]

/-- The sampler of the sampler witnesses: packet 1 of 1000 bytes is sent at
time 10 with nothing in flight. -/
def samplerAfterFirstSend : BandwidthSampler := BandwidthSampler.new.OnPacketSent 10 1 1000 0

/-- The snapshot taken for packet 1 of `samplerAfterFirstSend`. -/
def firstSendSnapshot : ConnectionStateOnSentPacket :=
  ConnectionStateOnSentPacket.snapshot 10 1000 (BandwidthSampler.new.beforeEmplace 10 1 1000 0)

/-- The calls of the witness of C8: two packets are sent, the first is
acknowledged and the second is lost. -/
def samplerWitnessCalls : List SamplerCall :=
  [.sent 10 1 1000 0, .sent 20 2 500 1000, .acknowledged 110 1, .lost 2]

/-- The sampler of the counterexample of C7: packet 1 of `samplerAfterFirstSend`
is declared lost, and the packet number 1 is sent again at time 20 with 500
bytes in flight. -/
def samplerAfterResend : BandwidthSampler :=
  (samplerAfterFirstSend.OnPacketLost 1).OnPacketSent 20 1 1000 500

/-- The calls of the counterexample of C8: packet 1 is sent and acknowledged,
and the packet number 1 is sent again. -/
def samplerResendCalls : List SamplerCall :=
  [.sent 10 1 1000 0, .acknowledged 110 1, .sent 120 1 1000 0]

/-- The sampler after `samplerResendCalls`. -/
def samplerAfterResendCalls : BandwidthSampler :=
  (samplerAfterFirstSend.OnPacketAcknowledged DataSize.div 110 1).2.OnPacketSent 120 1 1000 0

/-- The calls of the witness of C12: packets 1, 2 and 3 are sent. -/
def threeSendsCalls : List SamplerCall :=
  [.sent 10 1 1000 0, .sent 20 2 1000 1000, .sent 30 3 500 2000]

/-- The sampler after `threeSendsCalls`. -/
def samplerAfterThreeSends : BandwidthSampler :=
  ((BandwidthSampler.new.OnPacketSent 10 1 1000 0).OnPacketSent 20 2 1000 1000).OnPacketSent 30 3
    500 2000

/-- The packet number of the last `OnPacketSent` of a sequence of calls, `last`
when there is none. -/
def SamplerCall.lastSent (last : Int) : List SamplerCall → Int
  | [] => last
  | .sent _ packet_number _ _ :: cs => SamplerCall.lastSent packet_number cs
  | _ :: cs => SamplerCall.lastSent last cs

/-- The sampler of the counterexample of C11: after `samplerAfterFirstSend` the
connection becomes app-limited and the packet number 1 is sent again, which the
map rejects. -/
def samplerAfterRejectedSend : BandwidthSampler :=
  samplerAfterFirstSend.OnAppLimited.OnPacketSent 20 1 1000 1000

/-- One sample of 100 µs with an acknowledgement delay of 10 µs. -/
def rttDelayedCalls : List RttCall :=
  [.update (.finite 100) (.finite 10) 0]

/-- Two samples, of 100 µs and of 80 µs, without acknowledgement delay, and an
ignored one between them. -/
def rttPlainCalls : List RttCall :=
  [.update (.finite 100) (.finite 0) 0, .update (.finite 0) (.finite 0) 1,
    .update (.finite 80) (.finite 0) 2]

/-- The statistics after a first sample of 100 µs. -/
def rttAfterSample : RttStats :=
  RttStats.new.UpdateRtt (.finite 100) (.finite 0) 0

/-- Two samples of 100 µs and a connection migration. -/
def rttMigrationCalls : List RttCall :=
  [.update (.finite 100) (.finite 0) 0, .update (.finite 100) (.finite 0) 1, .migrate]

/-- The state after the events `es` on `s`, and `s` itself when they do not
return. -/
def BbrNetworkController.after (div : Int → Int → DataRate) (s : BbrNetworkController)
    (es : List ControllerEvent) : BbrNetworkController :=
  (s.events div es).getD s

/-- A controller of the default configuration. -/
def startupController : BbrNetworkController :=
  BbrNetworkController.new BbrControllerConfig.default ⟨[]⟩
    ⟨⟨Timestamp.finite 0, none, none, none⟩⟩

/-- The feedback at `feedback_time` that the packet `p` was received then, with
nothing left in flight. -/
def ackOf (feedback_time : Int) (p : SentPacket) : TransportPacketsFeedback :=
  ⟨feedback_time, 0, p.size, [⟨p, some feedback_time⟩]⟩

/-- Packets of 1000 bytes sent every 100 ms and acknowledged after 50 ms: the
first two, acknowledged, and the third, sent. -/
def stallEvents1 : List ControllerEvent :=
  [.sent ⟨0, 1000, 1, 1000⟩, .feedback (ackOf 50000 ⟨0, 1000, 1, 1000⟩),
    .sent ⟨100000, 1000, 2, 1000⟩, .feedback (ackOf 150000 ⟨100000, 1000, 2, 1000⟩),
    .sent ⟨200000, 1000, 3, 1000⟩]

/-- The acknowledgements of the third, fourth and fifth packet. -/
def stallRound1 : TransportPacketsFeedback := ackOf 250000 ⟨200000, 1000, 3, 1000⟩

def stallRound2 : TransportPacketsFeedback := ackOf 350000 ⟨300000, 1000, 4, 1000⟩

def stallRound3 : TransportPacketsFeedback := ackOf 450000 ⟨400000, 1000, 5, 1000⟩

/-- The states of that run before and after each of the three rounds. -/
def stallS1 : BbrNetworkController := startupController.after DataSize.div stallEvents1

def stallT1 : BbrNetworkController := stallS1.after DataSize.div [.feedback stallRound1]

def stallS2 : BbrNetworkController := stallT1.after DataSize.div [.sent ⟨300000, 1000, 4, 1000⟩]

def stallT2 : BbrNetworkController := stallS2.after DataSize.div [.feedback stallRound2]

def stallS3 : BbrNetworkController := stallT2.after DataSize.div [.sent ⟨400000, 1000, 5, 1000⟩]

def stallT3 : BbrNetworkController := stallS3.after DataSize.div [.feedback stallRound3]

/-- A run through `PROBE_RTT` back to `STARTUP`: a first sample after 5 s, the
expiry of the minimal round-trip time 10 s later, with a bandwidth gain, and a
packet sent and acknowledged in `PROBE_RTT` 250 ms later; then the fifth packet
is sent while the sampler is app-limited. -/
def appLimitedEvents1 : List ControllerEvent :=
  [.sent ⟨0, 1000, 1, 1000⟩, .feedback (ackOf 50000 ⟨0, 1000, 1, 1000⟩),
    .sent ⟨5000000, 500, 2, 500⟩, .feedback (ackOf 5050000 ⟨5000000, 500, 2, 500⟩),
    .sent ⟨15100000, 1460, 3, 1460⟩, .feedback (ackOf 15150000 ⟨15100000, 1460, 3, 1460⟩),
    .sent ⟨15200000, 10, 4, 10⟩, .feedback (ackOf 15400000 ⟨15200000, 10, 4, 10⟩),
    .sent ⟨15500000, 10, 5, 10⟩]

/-- The acknowledgements of the fifth, sixth and seventh packet. -/
def appLimitedRound1 : TransportPacketsFeedback := ackOf 15550000 ⟨15500000, 10, 5, 10⟩

def appLimitedRound2 : TransportPacketsFeedback := ackOf 15650000 ⟨15600000, 10, 6, 10⟩

def appLimitedRound3 : TransportPacketsFeedback := ackOf 15750000 ⟨15700000, 10, 7, 10⟩

/-- The states of that run before and after each of the three rounds. -/
def appLimitedS1 : BbrNetworkController :=
  startupController.after DataSize.div appLimitedEvents1

def appLimitedT1 : BbrNetworkController :=
  appLimitedS1.after DataSize.div [.feedback appLimitedRound1]

def appLimitedS2 : BbrNetworkController :=
  appLimitedT1.after DataSize.div [.sent ⟨15600000, 10, 6, 10⟩]

def appLimitedT2 : BbrNetworkController :=
  appLimitedS2.after DataSize.div [.feedback appLimitedRound2]

def appLimitedS3 : BbrNetworkController :=
  appLimitedT2.after DataSize.div [.sent ⟨15700000, 10, 7, 10⟩]

def appLimitedT3 : BbrNetworkController :=
  appLimitedS3.after DataSize.div [.feedback appLimitedRound3]

/-- The recovery window after `CalculateRecoveryWindow` as the specification
words it, with `max(recovery_window - bytes_lost, kMaxSegmentSize)` for the
window after the losses are removed. -/
def BbrNetworkController.specRecoveryWindow (s : BbrNetworkController)
    (bytes_acked bytes_lost bytes_in_flight : Int) : Int :=
  if s.recovery_window_ = 0 then max s.min_congestion_window_ (bytes_in_flight + bytes_acked)
  else
    max s.min_congestion_window_
      (max
        (max (s.recovery_window_ - bytes_lost) kMaxSegmentSize +
          (if s.recovery_state_ = RecoveryState.GROWTH then bytes_acked
            else if s.recovery_state_ = RecoveryState.MEDIUM_GROWTH then Int.tdiv bytes_acked 2
            else 0))
        (bytes_in_flight + bytes_acked))

/-- The feedback at `feedback_time` that the packet `lost` was lost and the
packet `acked` received then, with nothing left in flight. -/
def lossOf (feedback_time : Int) (lost acked : SentPacket) : TransportPacketsFeedback :=
  ⟨feedback_time, 0, lost.size + acked.size, [⟨lost, none⟩, ⟨acked, some feedback_time⟩]⟩

/-- Two packets, the first lost and the second acknowledged, and a third packet
sent. -/
def lossEvents : List ControllerEvent :=
  [.sent ⟨0, 1000, 1, 1000⟩, .sent ⟨1000, 1000, 2, 2000⟩,
    .feedback (lossOf 50000 ⟨0, 1000, 1, 1000⟩ ⟨1000, 1000, 2, 2000⟩),
    .sent ⟨100000, 1000, 3, 1000⟩]

/-- The state after these events: in `CONSERVATION`, with
`end_recovery_at_ = 2`. -/
def afterLoss : BbrNetworkController := startupController.after DataSize.div lossEvents

/-- The state after a fourth packet is sent and a second feedback reports the
third packet lost and the fourth received: in `GROWTH`, with a recovery window
of 29200 bytes. -/
def afterSecondLoss : BbrNetworkController :=
  afterLoss.after DataSize.div
    [.sent ⟨101000, 1000, 4, 2000⟩,
      .feedback (lossOf 150000 ⟨100000, 1000, 3, 1000⟩ ⟨101000, 1000, 4, 2000⟩)]

/-- A configuration whose smallest window is four segments, as the field trial
parameter `min_cwnd` may set it. -/
def smallWindowConfig : BbrControllerConfig :=
  { BbrControllerConfig.default with min_congestion_window := 4 * kDefaultTCPMSS }

/-- A controller of `smallWindowConfig` after a packet of 1000 bytes and, five
seconds later, one of 100 bytes, each acknowledged after 50 ms: its bandwidth
estimate is 160 bps and the product with the minimum RTT is one byte. -/
def slowController : BbrNetworkController :=
  (BbrNetworkController.new smallWindowConfig ⟨[]⟩
    ⟨⟨Timestamp.finite 0, none, none, none⟩⟩).after DataSize.div
    [.sent ⟨0, 1000, 1, 1000⟩, .feedback (ackOf 50000 ⟨0, 1000, 1, 1000⟩),
      .sent ⟨5000000, 100, 2, 100⟩, .feedback (ackOf 5050000 ⟨5000000, 100, 2, 100⟩)]

/-- The controller of the default configuration after its first packet was
sent. -/
def firstSent : BbrNetworkController :=
  startupController.after DataSize.div [.sent ⟨0, 1000, 1, 1000⟩]

/-- The controller `firstSent` after the acknowledgement of its packet. -/
def firstAcked : BbrNetworkController :=
  firstSent.after DataSize.div [.feedback (ackOf 50000 ⟨0, 1000, 1, 1000⟩)]

/-- The controller of the default configuration after the feedback that a
packet 1 was received, with no packet reported as sent. -/
def unsentAcked : BbrNetworkController :=
  startupController.after DataSize.div [.feedback (ackOf 50000 ⟨0, 1000, 1, 1000⟩)]

/-! # Theorems -/

/-! ## Theorems: `WindowedFilter` -/

namespace WindowedFilter

variable {T : Type} [LinearOrder T]

theorem orderedAt_new (w : Int) (z : T) (zt now : Int) :
    (WindowedFilter.new w z zt).OrderedAt now := by
  refine ⟨⟨le_refl _, le_refl _, le_refl _, le_refl _⟩, Or.inl rfl⟩

theorem zero_value_Update (f : WindowedFilter T) (s : T) (t : Int) :
    (f.Update MaxFilter s t).zero_value_ = f.zero_value_ := by
  unfold Update Reset expire insertSample promote
  dsimp only
  split_ifs <;> rfl

theorem orderedAt_Update (f : WindowedFilter T) (s : T) (now t : Int)
    (hf : f.OrderedAt now) (hle : now ≤ t) : (f.Update MaxFilter s t).OrderedAt t := by
  obtain ⟨⟨h10, h21, t01, t12⟩, hz⟩ := hf
  unfold Update
  split_ifs with hreset
  · exact ⟨⟨le_refl _, le_refl _, le_refl _, le_refl _⟩, Or.inr (le_refl _)⟩
  · simp only [not_or, MaxFilter, decide_eq_true_eq, ge_iff_le, not_le] at hreset
    obtain ⟨hnz, hlt, -⟩ := hreset
    have h2t : f.estimates_2.time ≤ t := by
      rcases hz with hz | hz
      · exact absurd hz hnz
      · exact le_trans hz hle
    have h0 : s ≤ f.estimates_0.sample := le_of_lt hlt
    unfold expire insertSample promote OrderedAt Ordered MaxFilter
    simp only [decide_eq_true_eq, ge_iff_le]
    by_cases c1 : f.estimates_1.sample ≤ s
    · simp only [c1, if_true]
      split_ifs <;> refine ⟨⟨?_, ?_, ?_, ?_⟩, Or.inr ?_⟩ <;> dsimp only <;>
        first | omega | exact le_refl _ | assumption
    · have h1 : s ≤ f.estimates_1.sample := le_of_lt (not_le.mp c1)
      simp only [c1, if_false]
      by_cases c2 : f.estimates_2.sample ≤ s
      · simp only [c2, if_true]
        split_ifs <;> refine ⟨⟨?_, ?_, ?_, ?_⟩, Or.inr ?_⟩ <;> dsimp only <;>
          first | omega | exact le_refl _ | assumption
      · have h2 : s ≤ f.estimates_2.sample := le_of_lt (not_le.mp c2)
        simp only [c2, if_false]
        split_ifs <;> refine ⟨⟨?_, ?_, ?_, ?_⟩, Or.inr ?_⟩ <;> dsimp only <;>
          first | omega | exact le_refl _ | assumption

theorem orderedAt_UpdateAll (calls : List (T × Int)) :
    ∀ (f : WindowedFilter T) (now : Int), f.OrderedAt now →
      (∀ c ∈ calls, now ≤ c.2) → (calls.map Prod.snd).Sorted (· ≤ ·) →
      (f.UpdateAll MaxFilter calls).Ordered := by
  induction calls with
  | nil => intro f now hf _ _; exact hf.1
  | cons c rest ih =>
    intro f now hf hnow hsorted
    have hstep := orderedAt_Update f c.1 now c.2 hf (hnow c (List.mem_cons_self _ _))
    simp only [List.map_cons, List.sorted_cons] at hsorted
    refine ih (f.Update MaxFilter c.1 c.2) c.2 hstep ?_ hsorted.2
    intro d hd
    exact hsorted.1 d.2 (List.mem_map_of_mem Prod.snd hd)

end WindowedFilter

/-- C1: for the max filter, from the constructed filter and after every finite
sequence of `Update(sample, time)` calls with non-decreasing time keys,
`GetBest() ≥ GetSecondBest() ≥ GetThirdBest()` and the stored times satisfy
`estimates_[0].time ≤ estimates_[1].time ≤ estimates_[2].time`. -/
theorem windowed_filter_max_ordered {T : Type} [LinearOrder T]
    (window_length : Int) (zero_value : T) (zero_time : Int) (calls : List (T × Int))
    (htimes : (calls.map Prod.snd).Sorted (· ≤ ·)) :
    ((WindowedFilter.new window_length zero_value zero_time).UpdateAll MaxFilter calls).GetBest ≥
      ((WindowedFilter.new window_length zero_value zero_time).UpdateAll MaxFilter calls).GetSecondBest ∧
    ((WindowedFilter.new window_length zero_value zero_time).UpdateAll MaxFilter calls).GetSecondBest ≥
      ((WindowedFilter.new window_length zero_value zero_time).UpdateAll MaxFilter calls).GetThirdBest ∧
    ((WindowedFilter.new window_length zero_value zero_time).UpdateAll MaxFilter calls).estimates_0.time ≤
      ((WindowedFilter.new window_length zero_value zero_time).UpdateAll MaxFilter calls).estimates_1.time ∧
    ((WindowedFilter.new window_length zero_value zero_time).UpdateAll MaxFilter calls).estimates_1.time ≤
      ((WindowedFilter.new window_length zero_value zero_time).UpdateAll MaxFilter calls).estimates_2.time := by
  have h : ((WindowedFilter.new window_length zero_value zero_time).UpdateAll MaxFilter
      calls).Ordered := by
    cases calls with
    | nil => exact (WindowedFilter.orderedAt_new window_length zero_value zero_time 0).1
    | cons c rest =>
      refine WindowedFilter.orderedAt_UpdateAll (c :: rest) _ c.2
        (WindowedFilter.orderedAt_new _ _ _ _) ?_ htimes
      intro d hd
      rcases List.mem_cons.mp hd with rfl | hd
      · exact le_refl _
      · simp only [List.map_cons, List.sorted_cons] at htimes
        exact htimes.1 d.2 (List.mem_map_of_mem Prod.snd hd)
  exact h

/-- Witness of C1: a filter of window 10 after `filterWitnessCalls`. -/
theorem windowed_filter_max_ordered_witness :
    (filterWitnessCalls.map Prod.snd).Sorted (· ≤ ·) ∧
    ((WindowedFilter.new 10 (0 : Int) 0).UpdateAll MaxFilter filterWitnessCalls).GetBest ≥
      ((WindowedFilter.new 10 (0 : Int) 0).UpdateAll MaxFilter filterWitnessCalls).GetSecondBest ∧
    ((WindowedFilter.new 10 (0 : Int) 0).UpdateAll MaxFilter filterWitnessCalls).GetSecondBest ≥
      ((WindowedFilter.new 10 (0 : Int) 0).UpdateAll MaxFilter filterWitnessCalls).GetThirdBest ∧
    ((WindowedFilter.new 10 (0 : Int) 0).UpdateAll MaxFilter filterWitnessCalls).estimates_0.time ≤
      ((WindowedFilter.new 10 (0 : Int) 0).UpdateAll MaxFilter filterWitnessCalls).estimates_1.time ∧
    ((WindowedFilter.new 10 (0 : Int) 0).UpdateAll MaxFilter filterWitnessCalls).estimates_1.time ≤
      ((WindowedFilter.new 10 (0 : Int) 0).UpdateAll MaxFilter filterWitnessCalls).estimates_2.time :=
  ⟨by decide, windowed_filter_max_ordered 10 (0 : Int) 0 filterWitnessCalls (by decide)⟩

/-! ## Theorems: `PacketNumberIndexedQueue` -/

namespace PacketNumberIndexedQueue

variable {T : Type}

theorem GetEntryWrapper_eq_some (q : PacketNumberIndexedQueue T) (n : Int) (e : EntryWrapper T) :
    q.GetEntryWrapper n = some e ↔ q.slot n = some e ∧ e.present = true := by
  unfold GetEntryWrapper slot
  by_cases h1 : n < q.first_packet_
  · simp [h1]
  · by_cases h2 : n - q.first_packet_ ≥ q.entries_.length
    · have : q.entries_[(n - q.first_packet_).toNat]? = none := by
        apply List.getElem?_eq_none
        omega
      simp [h1, h2, this]
    · simp only [h1, h2, if_false]
      cases hget : q.entries_[(n - q.first_packet_).toNat]? with
      | none => simp
      | some x =>
        cases hx : x.present <;> simp [hx]
        · rintro rfl; simp [hx]
        · rintro rfl; exact hx

theorem GetEntry_eq_slotData (q : PacketNumberIndexedQueue T) (n : Int) :
    q.GetEntry n = slotData (q.slot n) := by
  unfold GetEntry
  cases hw : q.GetEntryWrapper n with
  | none =>
    cases hs : q.slot n with
    | none => rfl
    | some e =>
      cases hp : e.present with
      | false => simp [slotData, hp]
      | true =>
        have := (GetEntryWrapper_eq_some q n e).mpr ⟨hs, hp⟩
        rw [hw] at this; cases this
  | some e =>
    obtain ⟨hs, hp⟩ := (GetEntryWrapper_eq_some q n e).mp hw
    simp [hs, slotData, hp]

theorem popAbsent_eq_drop (l : List (EntryWrapper T)) :
    ∀ f : Int, ∃ k : Nat, k ≤ l.length ∧ popAbsent l f = (l.drop k, f + k) ∧
      (∀ i, i < k → ∃ e, l[i]? = some e ∧ e.present = false) ∧
      (∀ e, (l.drop k).head? = some e → e.present = true) := by
  induction l with
  | nil =>
    intro f
    exact ⟨0, le_refl _, by simp [popAbsent], by intro i hi; omega, by simp⟩
  | cons e es ih =>
    intro f
    cases hp : e.present with
    | true =>
      refine ⟨0, Nat.zero_le _, by simp [popAbsent, hp], by intro i hi; omega, ?_⟩
      intro x hx
      simp at hx
      rw [← hx]; exact hp
    | false =>
      obtain ⟨k, hk, heq, habs, hhead⟩ := ih (f + 1)
      refine ⟨k + 1, by simp; omega, ?_, ?_, ?_⟩
      · simp only [popAbsent, hp, heq, List.drop_succ_cons]
        simp
        omega
      · intro i hi
        cases i with
        | zero => exact ⟨e, by simp, hp⟩
        | succ j =>
          obtain ⟨x, hx, hxp⟩ := habs j (by omega)
          exact ⟨x, by simpa using hx, hxp⟩
      · simpa using hhead

theorem popAbsent_countP (l : List (EntryWrapper T)) :
    ∀ f : Int, (popAbsent l f).1.countP (fun e => e.present) = l.countP (fun e => e.present) := by
  induction l with
  | nil => intro f; rfl
  | cons e es ih =>
    intro f
    cases hp : e.present with
    | true => simp [popAbsent, hp]
    | false => simp [popAbsent, hp, ih (f + 1)]

theorem countP_set_absent (l : List (EntryWrapper T)) :
    ∀ (i : Nat) (e : EntryWrapper T), l[i]? = some e → e.present = true →
      (l.set i { e with present := false }).countP (fun e => e.present) + 1 =
        l.countP (fun e => e.present) := by
  induction l with
  | nil => intro i e h; simp at h
  | cons x xs ih =>
    intro i e h hp
    cases i with
    | zero =>
      simp at h
      subst h
      simp [List.countP_cons, hp]
    | succ j =>
      simp at h
      have := ih j e h hp
      simp only [List.set_cons_succ, List.countP_cons]
      omega

theorem countP_pos_of_present (l : List (EntryWrapper T)) (i : Nat) (e : EntryWrapper T)
    (h : l[i]? = some e) (hp : e.present = true) : 0 < l.countP (fun e => e.present) := by
  have := countP_set_absent l i e h hp
  omega

/-- `Cleanup` does not change what `GetEntry` sees. -/
theorem slotData_Cleanup (q : PacketNumberIndexedQueue T) (m : Int) :
    slotData (q.Cleanup.slot m) = slotData (q.slot m) := by
  obtain ⟨k, hk, heq, habs, -⟩ := popAbsent_eq_drop q.entries_ q.first_packet_
  have hold : ∀ i, i < k → slotData (q.entries_[i]?) = none := by
    intro i hi
    obtain ⟨e, he, hp⟩ := habs i hi
    simp [he, slotData, hp]
  unfold Cleanup
  rw [heq]
  dsimp only
  by_cases hem : (q.entries_.drop k).isEmpty = true
  · simp only [hem, if_true, slot]
    have hlen : q.entries_.length ≤ k := by
      have := List.isEmpty_iff.mp hem
      simpa using this
    have hkl : k = q.entries_.length := le_antisymm hk hlen
    have hnil : q.entries_.drop k = [] := List.isEmpty_iff.mp hem
    rw [hnil]
    by_cases h1 : m < q.first_packet_
    · simp only [h1, if_true]
      split_ifs <;> simp [slotData]
    · simp only [h1, if_false]
      have : slotData (q.entries_[(m - q.first_packet_).toNat]?) = none := by
        by_cases h2 : (m - q.first_packet_).toNat < k
        · exact hold _ h2
        · have : q.entries_[(m - q.first_packet_).toNat]? = none := by
            apply List.getElem?_eq_none; omega
          rw [this]; rfl
      rw [this]
      split_ifs <;> simp [slotData]
  · simp only [hem, slot]
    simp only [Bool.false_eq_true, if_false]
    by_cases h1 : m < q.first_packet_
    · have h1' : m < q.first_packet_ + k := by omega
      simp [h1, h1']
    · simp only [h1, if_false]
      by_cases h2 : m < q.first_packet_ + k
      · simp only [h2, if_true]
        rw [hold _ (by omega)]
        rfl
      · simp only [h2, if_false]
        rw [List.getElem?_drop]
        congr 2
        omega

theorem GetEntry_Cleanup (q : PacketNumberIndexedQueue T) (m : Int) :
    q.Cleanup.GetEntry m = q.GetEntry m := by
  rw [GetEntry_eq_slotData, GetEntry_eq_slotData, slotData_Cleanup]

theorem slot_markAbsent (q : PacketNumberIndexedQueue T) (n : Int) (e : EntryWrapper T)
    (hs : q.slot n = some e) (m : Int) :
    (q.markAbsent n e).slot m =
      if m = n then some { e with present := false } else q.slot m := by
  unfold slot at hs ⊢
  unfold markAbsent
  dsimp only
  by_cases hn : n < q.first_packet_
  · simp [hn] at hs
  · simp only [hn, if_false] at hs
    by_cases h1 : m < q.first_packet_
    · have : m ≠ n := by omega
      simp [h1, this]
    · simp only [h1, if_false]
      rw [List.getElem?_set]
      by_cases hmn : m = n
      · subst hmn
        have hlt : (m - q.first_packet_).toNat < q.entries_.length := by
          by_contra hc
          rw [List.getElem?_eq_none (by omega)] at hs
          cases hs
        simp [hlt]
      · have : (n - q.first_packet_).toNat ≠ (m - q.first_packet_).toNat := by omega
        simp [this, hmn]

theorem GetEntry_markAbsent (q : PacketNumberIndexedQueue T) (n : Int) (e : EntryWrapper T)
    (hs : q.slot n = some e) (m : Int) :
    (q.markAbsent n e).GetEntry m = if m = n then none else q.GetEntry m := by
  rw [GetEntry_eq_slotData, GetEntry_eq_slotData, slot_markAbsent q n e hs]
  split_ifs <;> simp [slotData]

/-- What `GetEntry` sees after `Remove`. -/
theorem GetEntry_Remove (q : PacketNumberIndexedQueue T) (n m : Int) :
    (q.Remove n).1.GetEntry m = if m = n then none else q.GetEntry m := by
  unfold Remove
  cases hw : q.GetEntryWrapper n with
  | none =>
    dsimp only
    split_ifs with hmn
    · subst hmn; simp [GetEntry, hw]
    · rfl
  | some e =>
    obtain ⟨hs, -⟩ := (GetEntryWrapper_eq_some q n e).mp hw
    dsimp only
    by_cases hc : n = (q.markAbsent n e).first_packet
    · rw [if_pos hc]
      dsimp only
      rw [GetEntry_Cleanup, GetEntry_markAbsent q n e hs]
    · rw [if_neg hc]
      exact GetEntry_markAbsent q n e hs m

theorem Remove_snd (q : PacketNumberIndexedQueue T) (n : Int) :
    (q.Remove n).2 = (q.GetEntry n).isSome := by
  unfold Remove GetEntry
  cases hw : q.GetEntryWrapper n with
  | none => rfl
  | some e => dsimp only; split_ifs <;> rfl

theorem Remove_of_none (q : PacketNumberIndexedQueue T) (n : Int) (h : q.GetEntry n = none) :
    q.Remove n = (q, false) := by
  unfold Remove
  unfold GetEntry at h
  cases hw : q.GetEntryWrapper n with
  | none => rfl
  | some e => rw [hw] at h; cases h

theorem Cleanup_count (q : PacketNumberIndexedQueue T) :
    q.Cleanup.number_of_present_entries_ = q.number_of_present_entries_ := by
  unfold Cleanup
  split_ifs <;> rfl

theorem Valid.Remove_count {q : PacketNumberIndexedQueue T} (hv : q.Valid) (n : Int)
    (h : (q.Remove n).2 = true) :
    (q.Remove n).1.number_of_present_entries + 1 = q.number_of_present_entries := by
  unfold PacketNumberIndexedQueue.Remove at h ⊢
  cases hw : q.GetEntryWrapper n with
  | none => rw [hw] at h; cases h
  | some e =>
    obtain ⟨hs, hp⟩ := (GetEntryWrapper_eq_some q n e).mp hw
    have hn : ¬ n < q.first_packet_ := by
      intro hlt; simp [slot, hlt] at hs
    have hget : q.entries_[(n - q.first_packet_).toNat]? = some e := by
      simpa [slot, hn] using hs
    have hpos := countP_pos_of_present q.entries_ _ e hget hp
    rw [← hv.1] at hpos
    dsimp only
    split_ifs
    · simp only [number_of_present_entries, Cleanup_count, markAbsent]
      omega
    · simp only [number_of_present_entries, markAbsent]
      omega

section EmplaceLemmas
theorem valid_new : (PacketNumberIndexedQueue.new : PacketNumberIndexedQueue T).Valid := by
  refine ⟨rfl, ?_, fun _ => rfl⟩
  intro e h
  cases h

theorem Valid.entries_nil_of_isEmpty {q : PacketNumberIndexedQueue T} (hv : q.Valid)
    (h : q.IsEmpty = true) : q.entries_ = [] := by
  obtain ⟨hc, hh, -⟩ := hv
  have h0 : q.number_of_present_entries_ = 0 := by simpa [IsEmpty] using h
  cases hl : q.entries_ with
  | nil => rfl
  | cons e es =>
    have hp := hh e (by simp [hl])
    rw [hl] at hc
    simp [List.countP_cons, hp] at hc
    omega

theorem Valid.entries_ne_nil {q : PacketNumberIndexedQueue T} (hv : q.Valid)
    (h : q.IsEmpty = false) : q.entries_ ≠ [] := by
  intro hnil
  have h0 : q.number_of_present_entries_ ≠ 0 := by simpa [IsEmpty] using h
  exact h0 (by rw [hv.1, hnil]; rfl)

theorem GetEntry_none_of_lt_first (q : PacketNumberIndexedQueue T) (m : Int)
    (h : m < q.first_packet) : q.GetEntry m = none := by
  rw [GetEntry_eq_slotData]
  unfold first_packet at h
  simp [slot, h, slotData]

theorem Valid.GetEntry_none_of_gt_last {q : PacketNumberIndexedQueue T} (hv : q.Valid) (m : Int)
    (h : q.last_packet < m) : q.GetEntry m = none := by
  rw [GetEntry_eq_slotData]
  unfold slot
  split_ifs with h1
  · rfl
  · have : q.entries_[(m - q.first_packet_).toNat]? = none := by
      apply List.getElem?_eq_none
      unfold last_packet at h
      by_cases he : q.IsEmpty = true
      · rw [hv.entries_nil_of_isEmpty he]; simp
      · simp only [he] at h
        simp only [Bool.false_eq_true, if_false] at h
        omega
    rw [this]; rfl

theorem offset_ge_length (q : PacketNumberIndexedQueue T) (n : Int)
    (h : q.IsEmpty = false) (hn : q.last_packet < n) :
    (q.entries_.length : Int) ≤ n - q.first_packet_ := by
  unfold last_packet at hn
  simp only [h, Bool.false_eq_true, if_false] at hn
  omega

theorem Valid.remove {q : PacketNumberIndexedQueue T} (hv : q.Valid) (n : Int) :
    (q.Remove n).1.Valid := by
  unfold Remove
  cases hw : q.GetEntryWrapper n with
  | none => exact hv
  | some e =>
    obtain ⟨hs, hp⟩ := (GetEntryWrapper_eq_some q n e).mp hw
    obtain ⟨hc, hh, hz⟩ := hv
    have hn : ¬ n < q.first_packet_ := by
      intro hlt; simp [slot, hlt] at hs
    have hget : q.entries_[(n - q.first_packet_).toNat]? = some e := by
      simpa [slot, hn] using hs
    have hcnt := countP_set_absent q.entries_ _ e hget hp
    dsimp only
    by_cases hc1 : n = (q.markAbsent n e).first_packet
    · rw [if_pos hc1]
      dsimp only
      obtain ⟨k, hk, heq, -, hhead⟩ :=
        popAbsent_eq_drop (q.markAbsent n e).entries_ (q.markAbsent n e).first_packet_
      have hcp := popAbsent_countP (q.markAbsent n e).entries_ (q.markAbsent n e).first_packet_
      unfold Cleanup
      split_ifs with hem
      · refine ⟨?_, ?_, fun _ => rfl⟩
        · dsimp only
          rw [hcp]
          simp only [markAbsent]
          omega
        · dsimp only
          rw [heq]
          exact hhead
      · refine ⟨?_, ?_, ?_⟩
        · dsimp only
          rw [hcp]
          simp only [markAbsent]
          omega
        · dsimp only
          rw [heq]
          exact hhead
        · dsimp only
          intro hnil
          rw [hnil] at hem
          simp at hem
    · rw [if_neg hc1]
      dsimp only
      have hne : (n - q.first_packet_).toNat ≠ 0 := by
        simp only [first_packet, markAbsent] at hc1
        omega
      refine ⟨?_, ?_, ?_⟩
      · simp only [markAbsent]
        omega
      · intro x hx
        apply hh x
        simp only [markAbsent] at hx
        cases hl : q.entries_ with
        | nil => rw [hl] at hget; simp at hget
        | cons y ys =>
          rw [hl] at hx
          obtain ⟨j, hj⟩ := Nat.exists_eq_succ_of_ne_zero hne
          rw [hj] at hx
          simpa using hx
      · intro hnil
        simp only [markAbsent] at hnil
        have : q.entries_ = [] := by simpa using hnil
        rw [this] at hget
        simp at hget

variable [Inhabited T]

theorem Emplace_of_isEmpty (q : PacketNumberIndexedQueue T) (n : Int) (v : T)
    (h : q.IsEmpty = true) :
    q.Emplace n v =
      ({ entries_ := q.entries_ ++ [⟨v, true⟩], number_of_present_entries_ := 1,
         first_packet_ := n }, true) := by
  simp [Emplace, h]

theorem Emplace_of_le (q : PacketNumberIndexedQueue T) (n : Int) (v : T)
    (h : q.IsEmpty = false) (hn : n ≤ q.last_packet) : q.Emplace n v = (q, false) := by
  simp [Emplace, h, hn]

theorem Emplace_of_gt (q : PacketNumberIndexedQueue T) (n : Int) (v : T)
    (h : q.IsEmpty = false) (hn : q.last_packet < n) :
    q.Emplace n v =
      ({ entries_ := q.entries_ ++
           List.replicate ((n - q.first_packet_).toNat - q.entries_.length) EntryWrapper.absent ++
           [⟨v, true⟩]
         number_of_present_entries_ := q.number_of_present_entries_ + 1
         first_packet_ := q.first_packet_ }, true) := by
  have hn' : ¬ n ≤ q.last_packet := not_le.mpr hn
  simp only [Emplace, h, hn', Bool.false_eq_true, if_false]
  split_ifs with hgt
  · rfl
  · have : (n - q.first_packet_).toNat - q.entries_.length = 0 := by omega
    rw [this]
    simp

/-- What `GetEntry` sees after an accepted `Emplace` on a consistent queue. -/
theorem Valid.GetEntry_Emplace {q : PacketNumberIndexedQueue T} (hv : q.Valid) (n : Int) (v : T)
    (hacc : q.IsEmpty = true ∨ q.last_packet < n) (m : Int) :
    (q.Emplace n v).1.GetEntry m = if m = n then some v else q.GetEntry m := by
  by_cases he : q.IsEmpty = true
  · have hnil := hv.entries_nil_of_isEmpty he
    rw [Emplace_of_isEmpty q n v he, GetEntry_eq_slotData, GetEntry_eq_slotData]
    simp only [slot, hnil, List.nil_append]
    have hr : slotData (if m < q.first_packet_ then none
        else ([] : List (EntryWrapper T))[(m - q.first_packet_).toNat]?) = none := by
      split_ifs <;> simp [slotData]
    rw [hr]
    by_cases hmn : m = n
    · subst hmn; simp [slotData]
    · simp only [hmn, if_false]
      by_cases h1 : m < n
      · simp [h1, slotData]
      · have : ([⟨v, true⟩] : List (EntryWrapper T))[(m - n).toNat]? = none := by
          apply List.getElem?_eq_none
          simp only [List.length_singleton]
          omega
        simp [h1, this, slotData]
  · have he' : q.IsEmpty = false := by simpa using he
    have hgt : q.last_packet < n := by
      rcases hacc with h | h
      · exact absurd h he
      · exact h
    have hoff := offset_ge_length q n he' hgt
    rw [Emplace_of_gt q n v he' hgt, GetEntry_eq_slotData, GetEntry_eq_slotData]
    simp only [slot]
    by_cases h1 : m < q.first_packet_
    · have : m ≠ n := by omega
      simp [h1, this]
    · simp only [h1, if_false]
      by_cases hmn : m = n
      · subst hmn
        simp only [if_true]
        rw [List.getElem?_append_right (by simp; omega)]
        simp [slotData]
        have : (m - q.first_packet_).toNat -
            (q.entries_.length + ((m - q.first_packet_).toNat - q.entries_.length)) = 0 := by
          omega
        simp [this]
      · simp only [hmn, if_false]
        by_cases h2 : (m - q.first_packet_).toNat < q.entries_.length
        · rw [List.append_assoc, List.getElem?_append_left h2]
        · rw [List.getElem?_eq_none (l := q.entries_) (by omega)]
          by_cases h3 : (m - q.first_packet_).toNat < (n - q.first_packet_).toNat
          · rw [List.getElem?_append_left (by simp; omega),
              List.getElem?_append_right (by omega)]
            rw [List.getElem?_replicate]
            split_ifs <;> simp [slotData, EntryWrapper.absent]
          · rw [List.getElem?_eq_none (by simp; omega)]

theorem Emplace_snd (q : PacketNumberIndexedQueue T) (n : Int) (v : T) :
    (q.Emplace n v).2 = (q.IsEmpty || decide (q.last_packet < n)) := by
  by_cases he : q.IsEmpty = true
  · rw [Emplace_of_isEmpty q n v he]; simp [he]
  · have he' : q.IsEmpty = false := by simpa using he
    by_cases hn : n ≤ q.last_packet
    · rw [Emplace_of_le q n v he' hn]; simp [he', hn]
    · rw [Emplace_of_gt q n v he' (not_le.mp hn)]; simp [he', not_le.mp hn]

theorem Valid.emplace {q : PacketNumberIndexedQueue T} (hv : q.Valid) (n : Int) (v : T) :
    (q.Emplace n v).1.Valid := by
  by_cases he : q.IsEmpty = true
  · have hnil := hv.entries_nil_of_isEmpty he
    rw [Emplace_of_isEmpty q n v he, hnil]
    refine ⟨by simp, ?_, by simp⟩
    intro e h
    simp at h
    rw [← h]
  · have he' : q.IsEmpty = false := by simpa using he
    by_cases hn : n ≤ q.last_packet
    · rw [Emplace_of_le q n v he' hn]; exact hv
    · rw [Emplace_of_gt q n v he' (not_le.mp hn)]
      obtain ⟨x, xs, hl⟩ := List.exists_cons_of_ne_nil (hv.entries_ne_nil he')
      obtain ⟨hc, hh, -⟩ := hv
      refine ⟨?_, ?_, by simp⟩
      · simp [List.countP_append, hc, List.countP_replicate, EntryWrapper.absent]
      · intro e h
        apply hh e
        rw [hl] at h ⊢
        simpa using h

theorem Valid.queue_call {q : PacketNumberIndexedQueue T} (hv : q.Valid) (c : QueueCall T) :
    (q.call c).Valid := by
  cases c with
  | emplace n v => exact hv.emplace n v
  | remove n => exact hv.remove n

theorem Valid.queue_calls (cs : List (QueueCall T)) :
    ∀ {q : PacketNumberIndexedQueue T}, q.Valid → (q.calls cs).Valid := by
  induction cs with
  | nil => intro q hv; exact hv
  | cons c cs ih => intro q hv; exact ih (hv.queue_call c)

end EmplaceLemmas

section LastEmplaced
theorem Cleanup_first_add_length (q : PacketNumberIndexedQueue T)
    (h : q.Cleanup.entries_ ≠ []) :
    q.Cleanup.first_packet_ + q.Cleanup.entries_.length = q.first_packet_ + q.entries_.length := by
  obtain ⟨k, hk, heq, -, -⟩ := popAbsent_eq_drop q.entries_ q.first_packet_
  unfold Cleanup at h ⊢
  rw [heq] at h ⊢
  dsimp only at h ⊢
  split_ifs at h ⊢ with hem
  · exact absurd (List.isEmpty_iff.mp hem) h
  · dsimp only
    rw [List.length_drop]
    omega

/-- A removal that leaves the queue non-empty keeps the packet number one past
the last slot, and the queue was non-empty before. -/
theorem Valid.Remove_first_add_length {q : PacketNumberIndexedQueue T} (hv : q.Valid) (n : Int)
    (hne : (q.Remove n).1.IsEmpty = false) :
    (q.Remove n).1.first_packet_ + (q.Remove n).1.entries_.length =
        q.first_packet_ + q.entries_.length ∧ q.IsEmpty = false := by
  have hv' := hv.remove n
  have hnil := hv'.entries_ne_nil hne
  unfold PacketNumberIndexedQueue.Remove at hne hnil ⊢
  cases hw : q.GetEntryWrapper n with
  | none =>
    rw [hw] at hne
    exact ⟨rfl, hne⟩
  | some e =>
    rw [hw] at hne hnil
    dsimp only at hne hnil ⊢
    obtain ⟨hs, hp⟩ := (GetEntryWrapper_eq_some q n e).mp hw
    have hn : ¬ n < q.first_packet_ := by
      intro hlt; simp [slot, hlt] at hs
    have hget : q.entries_[(n - q.first_packet_).toNat]? = some e := by
      simpa [slot, hn] using hs
    have hpos := countP_pos_of_present q.entries_ _ e hget hp
    have hq : q.IsEmpty = false := by
      simp only [IsEmpty, hv.1, beq_eq_false_iff_ne, ne_eq]
      omega
    refine ⟨?_, hq⟩
    split_ifs at hnil ⊢ with hc1
    · dsimp only at hnil ⊢
      rw [Cleanup_first_add_length _ hnil]
      simp [markAbsent]
    · simp [markAbsent]

variable [Inhabited T]

theorem Valid.Emplace_last {q : PacketNumberIndexedQueue T} (hv : q.Valid) (n : Int) (v : T)
    (h : (q.Emplace n v).2 = true) :
    (q.Emplace n v).1.IsEmpty = false ∧
      (q.Emplace n v).1.first_packet_ + (q.Emplace n v).1.entries_.length - 1 = n := by
  by_cases he : q.IsEmpty = true
  · rw [Emplace_of_isEmpty q n v he, hv.entries_nil_of_isEmpty he]
    simp [IsEmpty]
  · have he' : q.IsEmpty = false := by simpa using he
    by_cases hn : n ≤ q.last_packet
    · rw [Emplace_of_le q n v he' hn] at h; cases h
    · have hoff := offset_ge_length q n he' (not_le.mp hn)
      rw [Emplace_of_gt q n v he' (not_le.mp hn)]
      refine ⟨by simp [IsEmpty], ?_⟩
      simp only [List.length_append, List.length_replicate, List.length_singleton]
      omega

theorem Emplace_of_false (q : PacketNumberIndexedQueue T) (n : Int) (v : T)
    (h : (q.Emplace n v).2 = false) : (q.Emplace n v).1 = q := by
  by_cases he : q.IsEmpty = true
  · rw [Emplace_of_isEmpty q n v he] at h; cases h
  · have he' : q.IsEmpty = false := by simpa using he
    by_cases hn : n ≤ q.last_packet
    · rw [Emplace_of_le q n v he' hn]
    · rw [Emplace_of_gt q n v he' (not_le.mp hn)] at h; cases h

theorem Valid.lastEmplaced_calls (cs : List (QueueCall T)) :
    ∀ (q : PacketNumberIndexedQueue T) (last : Option Int), q.Valid →
      (q.IsEmpty = false → last = some (q.first_packet_ + q.entries_.length - 1)) →
      (q.calls cs).IsEmpty = false →
      q.lastEmplaced last cs =
        some ((q.calls cs).first_packet_ + (q.calls cs).entries_.length - 1) := by
  induction cs with
  | nil => intro q last _ hl hne; exact hl hne
  | cons c cs ih =>
    intro q last hv hl hne
    cases c with
    | emplace n v =>
      refine ih (q.Emplace n v).1 _ (hv.emplace n v) ?_ hne
      intro hne1
      cases hr : (q.Emplace n v).2 with
      | true =>
        rw [(hv.Emplace_last n v hr).2]; rfl
      | false =>
        have := Emplace_of_false q n v hr
        rw [this] at hne1 ⊢
        simpa using hl hne1
    | remove n =>
      refine ih (q.Remove n).1 _ (hv.remove n) ?_ hne
      intro hne1
      obtain ⟨hsum, hq⟩ := hv.Remove_first_add_length n hne1
      rw [hl hq]
      congr 1
      omega

end LastEmplaced

end PacketNumberIndexedQueue

/-- C2: after any sequence of `Emplace` and `Remove` calls from the empty
queue, when the queue is non-empty, `first_packet() + entry_slots_used() - 1`
is the packet number of the most recent successful `Emplace`, the front slot
of the deque is present, and `entry_slots_used()` is the number of packet
numbers from `first_packet()` to that last inserted number inclusive. -/
theorem queue_last_inserted_invariant {T : Type} [Inhabited T] (cs : List (QueueCall T))
    (hne : ((PacketNumberIndexedQueue.new : PacketNumberIndexedQueue T).calls cs).IsEmpty = false) :
    (PacketNumberIndexedQueue.new : PacketNumberIndexedQueue T).lastEmplaced none cs =
      some (((PacketNumberIndexedQueue.new : PacketNumberIndexedQueue T).calls cs).first_packet +
        ((PacketNumberIndexedQueue.new : PacketNumberIndexedQueue T).calls cs).entry_slots_used - 1) ∧
    (∃ e, ((PacketNumberIndexedQueue.new : PacketNumberIndexedQueue T).calls cs).entries_.head? =
      some e ∧ e.present = true) ∧
    ∀ last, (PacketNumberIndexedQueue.new : PacketNumberIndexedQueue T).lastEmplaced none cs =
        some last →
      ((PacketNumberIndexedQueue.new : PacketNumberIndexedQueue T).calls cs).entry_slots_used =
        (Finset.Icc ((PacketNumberIndexedQueue.new : PacketNumberIndexedQueue T).calls
          cs).first_packet last).card := by
  have hv : ((PacketNumberIndexedQueue.new : PacketNumberIndexedQueue T).calls cs).Valid :=
    PacketNumberIndexedQueue.Valid.queue_calls cs PacketNumberIndexedQueue.valid_new
  have hlast := PacketNumberIndexedQueue.Valid.lastEmplaced_calls cs
    (PacketNumberIndexedQueue.new : PacketNumberIndexedQueue T) none
    PacketNumberIndexedQueue.valid_new (by intro h; simp [PacketNumberIndexedQueue.IsEmpty,
      PacketNumberIndexedQueue.new] at h) hne
  refine ⟨hlast, ?_, ?_⟩
  · obtain ⟨x, xs, hl⟩ := List.exists_cons_of_ne_nil (hv.entries_ne_nil hne)
    exact ⟨x, by rw [hl]; rfl, hv.2.1 x (by rw [hl]; rfl)⟩
  · intro last hl
    rw [hlast] at hl
    have hl' := Option.some.inj hl
    rw [Int.card_Icc, ← hl']
    simp only [PacketNumberIndexedQueue.entry_slots_used, PacketNumberIndexedQueue.first_packet]
    omega

/-- Witness of C2. -/
theorem queue_last_inserted_invariant_witness :
    ((PacketNumberIndexedQueue.new : PacketNumberIndexedQueue Nat).calls
      queueWitnessCalls).IsEmpty = false ∧
    (PacketNumberIndexedQueue.new : PacketNumberIndexedQueue Nat).lastEmplaced none
      queueWitnessCalls =
      some (((PacketNumberIndexedQueue.new : PacketNumberIndexedQueue Nat).calls
        queueWitnessCalls).first_packet +
        ((PacketNumberIndexedQueue.new : PacketNumberIndexedQueue Nat).calls
          queueWitnessCalls).entry_slots_used - 1) :=
  ⟨by decide, (queue_last_inserted_invariant queueWitnessCalls (by decide)).1⟩

/-- C3: on a non-empty queue, `Emplace(n, v)` with `n ≤ last_packet()` returns
false and leaves the deque, `first_packet_` and the number of present entries
as they were. -/
theorem emplace_out_of_order_rejected {T : Type} [Inhabited T]
    (q : PacketNumberIndexedQueue T) (n : Int) (v : T)
    (hne : q.IsEmpty = false) (hn : n ≤ q.last_packet) :
    (q.Emplace n v).2 = false ∧
    (q.Emplace n v).1.entries_ = q.entries_ ∧
    (q.Emplace n v).1.first_packet = q.first_packet ∧
    (q.Emplace n v).1.number_of_present_entries = q.number_of_present_entries := by
  rw [PacketNumberIndexedQueue.Emplace_of_le q n v hne hn]
  exact ⟨rfl, rfl, rfl, rfl⟩

/-- Witness of C3: packet 8 is inserted again after 5 and 8. -/
theorem emplace_out_of_order_rejected_witness :
    ((PacketNumberIndexedQueue.new : PacketNumberIndexedQueue Nat).calls
      [.emplace 5 50, .emplace 8 80]).IsEmpty = false ∧
    (8 : Int) ≤ ((PacketNumberIndexedQueue.new : PacketNumberIndexedQueue Nat).calls
      [.emplace 5 50, .emplace 8 80]).last_packet ∧
    ((((PacketNumberIndexedQueue.new : PacketNumberIndexedQueue Nat).calls
      [.emplace 5 50, .emplace 8 80]).Emplace 8 81).2 = false) :=
  ⟨by decide, by decide,
    (emplace_out_of_order_rejected ((PacketNumberIndexedQueue.new :
      PacketNumberIndexedQueue Nat).calls [.emplace 5 50, .emplace 8 80]) 8 81
      (by decide) (by decide)).1⟩

/-- C4: for a queue reachable from the empty queue and a packet number `n`
accepted by `Emplace(n, v)` (the queue is empty, or `n > last_packet()`), the
call succeeds and afterwards `GetEntry(n)` returns `v`, `GetEntry(m)` is absent
for every `m` strictly between the previous `last_packet()` and `n` and for
every `m` outside `[first_packet(), last_packet()]`, and `GetEntry(k)` is
unchanged for every `k` that was present before. -/
theorem emplace_accepted_lookup {T : Type} [Inhabited T] (cs : List (QueueCall T))
    (n : Int) (v : T)
    (hacc : ((PacketNumberIndexedQueue.new : PacketNumberIndexedQueue T).calls cs).IsEmpty = true ∨
      n > ((PacketNumberIndexedQueue.new : PacketNumberIndexedQueue T).calls cs).last_packet) :
    (((PacketNumberIndexedQueue.new : PacketNumberIndexedQueue T).calls cs).Emplace n v).2 = true ∧
    (((PacketNumberIndexedQueue.new : PacketNumberIndexedQueue T).calls cs).Emplace n v).1.GetEntry n =
      some v ∧
    (∀ m, ((PacketNumberIndexedQueue.new : PacketNumberIndexedQueue T).calls cs).last_packet < m →
      m < n →
      (((PacketNumberIndexedQueue.new : PacketNumberIndexedQueue T).calls cs).Emplace n
        v).1.GetEntry m = none) ∧
    (∀ m,
      (m < (((PacketNumberIndexedQueue.new : PacketNumberIndexedQueue T).calls cs).Emplace n
          v).1.first_packet ∨
        (((PacketNumberIndexedQueue.new : PacketNumberIndexedQueue T).calls cs).Emplace n
          v).1.last_packet < m) →
      (((PacketNumberIndexedQueue.new : PacketNumberIndexedQueue T).calls cs).Emplace n
        v).1.GetEntry m = none) ∧
    (∀ k d, ((PacketNumberIndexedQueue.new : PacketNumberIndexedQueue T).calls cs).GetEntry k =
        some d →
      (((PacketNumberIndexedQueue.new : PacketNumberIndexedQueue T).calls cs).Emplace n
        v).1.GetEntry k = some d) := by
  have hv : ((PacketNumberIndexedQueue.new : PacketNumberIndexedQueue T).calls cs).Valid :=
    PacketNumberIndexedQueue.Valid.queue_calls cs PacketNumberIndexedQueue.valid_new
  generalize (PacketNumberIndexedQueue.new : PacketNumberIndexedQueue T).calls cs = q at hv hacc
  have hget := hv.GetEntry_Emplace n v hacc
  have hv' := hv.emplace n v
  refine ⟨?_, ?_, ?_, ?_, ?_⟩
  · rw [PacketNumberIndexedQueue.Emplace_snd]
    rcases hacc with h | h
    · simp [h]
    · simp [h]
  · rw [hget]; simp
  · intro m h1 h2
    rw [hget, if_neg (by omega)]
    exact hv.GetEntry_none_of_gt_last m h1
  · intro m hm
    rcases hm with hm | hm
    · exact PacketNumberIndexedQueue.GetEntry_none_of_lt_first _ m hm
    · exact hv'.GetEntry_none_of_gt_last m hm
  · intro k d hk
    rw [hget]
    split_ifs with hkn
    · subst hkn
      rcases hacc with h | h
      · have := hv.entries_nil_of_isEmpty h
        rw [PacketNumberIndexedQueue.GetEntry_eq_slotData] at hk
        simp only [PacketNumberIndexedQueue.slot, this] at hk
        split_ifs at hk <;> simp [PacketNumberIndexedQueue.slotData] at hk
      · rw [hv.GetEntry_none_of_gt_last k h] at hk
        cases hk
    · exact hk

/-- Witness of C4: packet 11 is inserted after 5 and 8, leaving a gap. -/
theorem emplace_accepted_lookup_witness :
    (((PacketNumberIndexedQueue.new : PacketNumberIndexedQueue Nat).calls
        [.emplace 5 50, .emplace 8 80]).IsEmpty = true ∨
      (11 : Int) > ((PacketNumberIndexedQueue.new : PacketNumberIndexedQueue Nat).calls
        [.emplace 5 50, .emplace 8 80]).last_packet) ∧
    (((PacketNumberIndexedQueue.new : PacketNumberIndexedQueue Nat).calls
      [.emplace 5 50, .emplace 8 80]).Emplace 11 110).1.GetEntry 11 = some 110 :=
  ⟨by decide, (emplace_accepted_lookup [.emplace 5 50, .emplace 8 80] 11 110 (by decide)).2.1⟩

/-- C5: for a queue reachable from the empty queue, `Remove(n)` returns true
exactly when `GetEntry(n)` was present; on success `GetEntry(n)` becomes
absent, the number of present entries decreases by one, `GetEntry(m)` is
unchanged for every `m ≠ n`, and a queue that became empty has
`first_packet() = 0` and no slots; on failure the queue is unchanged; and a
second `Remove(n)` returns false. -/
theorem remove_lookup {T : Type} [Inhabited T] (cs : List (QueueCall T)) (n : Int) :
    ((((PacketNumberIndexedQueue.new : PacketNumberIndexedQueue T).calls cs).Remove n).2 = true ↔
      (((PacketNumberIndexedQueue.new : PacketNumberIndexedQueue T).calls cs).GetEntry n).isSome =
        true) ∧
    ((((PacketNumberIndexedQueue.new : PacketNumberIndexedQueue T).calls cs).Remove n).2 = true →
      (((PacketNumberIndexedQueue.new : PacketNumberIndexedQueue T).calls cs).Remove n).1.GetEntry n =
        none ∧
      (((PacketNumberIndexedQueue.new : PacketNumberIndexedQueue T).calls cs).Remove
        n).1.number_of_present_entries + 1 =
        ((PacketNumberIndexedQueue.new : PacketNumberIndexedQueue T).calls
          cs).number_of_present_entries ∧
      (∀ m, m ≠ n →
        (((PacketNumberIndexedQueue.new : PacketNumberIndexedQueue T).calls cs).Remove
          n).1.GetEntry m =
          ((PacketNumberIndexedQueue.new : PacketNumberIndexedQueue T).calls cs).GetEntry m) ∧
      ((((PacketNumberIndexedQueue.new : PacketNumberIndexedQueue T).calls cs).Remove
          n).1.IsEmpty = true →
        (((PacketNumberIndexedQueue.new : PacketNumberIndexedQueue T).calls cs).Remove
          n).1.first_packet = 0 ∧
        (((PacketNumberIndexedQueue.new : PacketNumberIndexedQueue T).calls cs).Remove
          n).1.entry_slots_used = 0)) ∧
    ((((PacketNumberIndexedQueue.new : PacketNumberIndexedQueue T).calls cs).Remove n).2 = false →
      (((PacketNumberIndexedQueue.new : PacketNumberIndexedQueue T).calls cs).Remove n).1 =
        (PacketNumberIndexedQueue.new : PacketNumberIndexedQueue T).calls cs) ∧
    ((((PacketNumberIndexedQueue.new : PacketNumberIndexedQueue T).calls cs).Remove n).1.Remove
      n).2 = false := by
  have hv : ((PacketNumberIndexedQueue.new : PacketNumberIndexedQueue T).calls cs).Valid :=
    PacketNumberIndexedQueue.Valid.queue_calls cs PacketNumberIndexedQueue.valid_new
  generalize (PacketNumberIndexedQueue.new : PacketNumberIndexedQueue T).calls cs = q at hv
  have hv' := hv.remove n
  refine ⟨?_, ?_, ?_, ?_⟩
  · rw [PacketNumberIndexedQueue.Remove_snd]
  · intro hs
    refine ⟨?_, ?_, ?_, ?_⟩
    · rw [PacketNumberIndexedQueue.GetEntry_Remove]; simp
    · exact hv.Remove_count n hs
    · intro m hm
      rw [PacketNumberIndexedQueue.GetEntry_Remove, if_neg hm]
    · intro he
      have hnil := hv'.entries_nil_of_isEmpty he
      exact ⟨hv'.2.2 hnil, by simp [PacketNumberIndexedQueue.entry_slots_used, hnil]⟩
  · intro hf
    rw [PacketNumberIndexedQueue.Remove_snd] at hf
    rw [PacketNumberIndexedQueue.Remove_of_none q n (by simpa using hf)]
  · rw [PacketNumberIndexedQueue.Remove_snd, PacketNumberIndexedQueue.GetEntry_Remove]
    simp

/-! ## Theorems: `BandwidthSampler` -/

namespace DataRate

theorem le_def (a b : DataRate) : a ≤ b ↔ le a b = true := Iff.rfl

theorem min_le_left (a b : DataRate) : DataRate.min a b ≤ a := by
  cases a with
  | finite x =>
    cases b with
    | finite y =>
      by_cases h : y < x
      · simp only [DataRate.min, lt, h, decide_True, if_true, le_def, le, decide_eq_true_eq]
        omega
      · simp [DataRate.min, lt, h, le_def, le]
    | infinity => simp [DataRate.min, lt, le_def, le]
  | infinity => cases b <;> simp [DataRate.min, lt, le_def, le]

theorem min_le_right (a b : DataRate) : DataRate.min a b ≤ b := by
  cases a with
  | finite x =>
    cases b with
    | finite y =>
      by_cases h : y < x
      · simp [DataRate.min, lt, h, le_def, le]
      · simp only [DataRate.min, lt, h, decide_False, Bool.false_eq_true, if_false, le_def, le,
          decide_eq_true_eq]
        omega
    | infinity => simp [DataRate.min, lt, le_def, le]
  | infinity => cases b <;> simp [DataRate.min, lt, le_def, le]

theorem min_Infinity_left (b : DataRate) : DataRate.min Infinity b = b := by
  cases b <;> simp [DataRate.min, lt, Infinity]

theorem le_Infinity (a : DataRate) : a ≤ Infinity := by
  cases a <;> simp [le_def, le, Infinity]

end DataRate

namespace BandwidthSampler

theorem OnPacketAcknowledged_of_none (div : Int → Int → DataRate)
    (s : BandwidthSampler) (ack_time : Int) (n : Int)
    (h : s.connection_state_map_.GetEntry n = none) :
    s.OnPacketAcknowledged div ack_time n = (BandwidthSample.new, s) := by
  simp [OnPacketAcknowledged, h]

theorem OnPacketAcknowledged_of_some (div : Int → Int → DataRate)
    (s : BandwidthSampler) (ack_time : Int) (n : Int) (d : ConnectionStateOnSentPacket)
    (h : s.connection_state_map_.GetEntry n = some d) :
    s.OnPacketAcknowledged div ack_time n =
      (sample div (s.total_data_acked_ + d.size) ack_time d,
        { s.acknowledge ack_time n d with
          bandwidth_sample_ := sample div (s.total_data_acked_ + d.size) ack_time d
          connection_state_map_ := (s.connection_state_map_.Remove n).1 }) := by
  simp [OnPacketAcknowledged, h, OnPacketAcknowledgedInner, acknowledge]

/-- After `OnPacketAcknowledged(_, n)` packet `n` is not tracked. -/
theorem GetEntry_OnPacketAcknowledged_self (div : Int → Int → DataRate)
    (s : BandwidthSampler) (ack_time : Int) (n : Int) :
    (s.OnPacketAcknowledged div ack_time n).2.connection_state_map_.GetEntry n = none := by
  cases h : s.connection_state_map_.GetEntry n with
  | none => rw [OnPacketAcknowledged_of_none div s ack_time n h]; exact h
  | some d =>
    rw [OnPacketAcknowledged_of_some div s ack_time n d h]
    simp [PacketNumberIndexedQueue.GetEntry_Remove]

/-- The sample does not depend on what the division returns for a duration
that is not positive. -/
theorem sample_congr (div div' : Int → Int → DataRate)
    (hdiv : ∀ a b, 0 < b → div' a b = div a b) (total : Int) (ack_time : Int)
    (d : ConnectionStateOnSentPacket) : sample div' total ack_time d = sample div total ack_time d := by
  unfold sample
  cases d.last_acked_packet_sent_time with
  | none => rfl
  | some last_sent =>
    cases d.last_acked_packet_ack_time with
    | none => rfl
    | some last_ack =>
      dsimp only
      split_ifs with h
      · rfl
      · have h1 : send_rate div' d last_sent = send_rate div d last_sent := by
          unfold send_rate
          split_ifs with hs
          · exact hdiv _ _ (by omega)
          · rfl
        have h2 : ack_rate div' total ack_time d last_ack = ack_rate div total ack_time d last_ack :=
          hdiv _ _ (by omega)
        rw [h1, h2]

theorem OnPacketAcknowledged_congr (div div' : Int → Int → DataRate)
    (hdiv : ∀ a b, 0 < b → div' a b = div a b) (s : BandwidthSampler) (ack_time : Int)
    (n : Int) : s.OnPacketAcknowledged div' ack_time n = s.OnPacketAcknowledged div ack_time n := by
  cases h : s.connection_state_map_.GetEntry n with
  | none => rw [OnPacketAcknowledged_of_none _ s ack_time n h, OnPacketAcknowledged_of_none _ s ack_time n h]
  | some d =>
    rw [OnPacketAcknowledged_of_some _ s ack_time n d h,
      OnPacketAcknowledged_of_some _ s ack_time n d h, sample_congr div div' hdiv]

end BandwidthSampler

section PresentSum

variable {T : Type}

theorem presentSum_nil (f : T → Int) : presentSum f ([] : List (EntryWrapper T)) = 0 := rfl

theorem presentSum_cons (f : T → Int) (e : EntryWrapper T) (l : List (EntryWrapper T)) :
    presentSum f (e :: l) = (if e.present then f e.data else 0) + presentSum f l := by
  simp [presentSum]

theorem presentSum_append (f : T → Int) (l₁ l₂ : List (EntryWrapper T)) :
    presentSum f (l₁ ++ l₂) = presentSum f l₁ + presentSum f l₂ := by
  simp [presentSum]

theorem presentSum_replicate_absent [Inhabited T] (f : T → Int) (k : Nat) :
    presentSum f (List.replicate k (EntryWrapper.absent : EntryWrapper T)) = 0 := by
  induction k with
  | zero => rfl
  | succ k ih => rw [List.replicate_succ, presentSum_cons, ih]; simp [EntryWrapper.absent]

theorem presentSum_set_absent (f : T → Int) (l : List (EntryWrapper T)) :
    ∀ (i : Nat) (e : EntryWrapper T), l[i]? = some e → e.present = true →
      presentSum f (l.set i { e with present := false }) = presentSum f l - f e.data := by
  induction l with
  | nil => intro i e h; simp at h
  | cons x xs ih =>
    intro i e h hp
    cases i with
    | zero =>
      simp at h
      subst h
      simp [presentSum_cons, hp]
    | succ j =>
      simp at h
      have := ih j e h hp
      simp only [List.set_cons_succ, presentSum_cons, this]
      omega

theorem presentSum_popAbsent (f : T → Int) (l : List (EntryWrapper T)) :
    ∀ first : Int, presentSum f (PacketNumberIndexedQueue.popAbsent l first).1 = presentSum f l := by
  induction l with
  | nil => intro first; rfl
  | cons e es ih =>
    intro first
    cases hp : e.present with
    | true => simp [PacketNumberIndexedQueue.popAbsent, hp]
    | false => simp [PacketNumberIndexedQueue.popAbsent, hp, ih (first + 1), presentSum_cons]

theorem presentSum_nonneg (f : T → Int) (l : List (EntryWrapper T))
    (h : ∀ e ∈ l, e.present = true → 0 ≤ f e.data) : 0 ≤ presentSum f l := by
  induction l with
  | nil => simp [presentSum]
  | cons x xs ih =>
    rw [presentSum_cons]
    have h1 := ih (fun e he => h e (List.mem_cons_of_mem _ he))
    have h2 := h x (List.mem_cons_self _ _)
    split_ifs with hp
    · have := h2 hp; omega
    · omega

end PresentSum

namespace PacketNumberIndexedQueue

variable {T : Type}

/-- A present slot of the deque is what `GetEntry` returns for its number. -/
theorem exists_GetEntry_of_mem (q : PacketNumberIndexedQueue T) (e : EntryWrapper T)
    (he : e ∈ q.entries_) (hp : e.present = true) : ∃ n, q.GetEntry n = some e.data := by
  obtain ⟨i, hi, hget⟩ := List.getElem_of_mem he
  refine ⟨q.first_packet_ + i, ?_⟩
  rw [GetEntry_eq_slotData]
  have h1 : ¬ q.first_packet_ + (i : Int) < q.first_packet_ := by omega
  have h2 : (q.first_packet_ + (i : Int) - q.first_packet_).toNat = i := by omega
  simp only [slot, h1, if_false, h2]
  rw [List.getElem?_eq_getElem hi, hget]
  simp [slotData, hp]

theorem Cleanup_presentSum (f : T → Int) (q : PacketNumberIndexedQueue T) :
    presentSum f q.Cleanup.entries_ = presentSum f q.entries_ := by
  unfold Cleanup
  split_ifs <;> exact presentSum_popAbsent f _ _

theorem Remove_presentSum (f : T → Int) (q : PacketNumberIndexedQueue T) (n : Int) (d : T)
    (h : q.GetEntry n = some d) :
    presentSum f (q.Remove n).1.entries_ = presentSum f q.entries_ - f d := by
  unfold GetEntry at h
  unfold PacketNumberIndexedQueue.Remove
  cases hw : q.GetEntryWrapper n with
  | none => rw [hw] at h; cases h
  | some e =>
    rw [hw] at h
    have hd : e.data = d := by simpa using h
    obtain ⟨hs, hp⟩ := (GetEntryWrapper_eq_some q n e).mp hw
    have hn : ¬ n < q.first_packet_ := by
      intro hlt; simp [slot, hlt] at hs
    have hget : q.entries_[(n - q.first_packet_).toNat]? = some e := by
      simpa [slot, hn] using hs
    have hset := presentSum_set_absent f q.entries_ _ e hget hp
    dsimp only
    split_ifs
    · rw [Cleanup_presentSum]
      simp only [markAbsent]
      rw [hset, hd]
    · simp only [markAbsent]
      rw [hset, hd]

theorem Valid.Emplace_presentSum [Inhabited T] (f : T → Int) {q : PacketNumberIndexedQueue T}
    (hv : q.Valid) (n : Int) (v : T) (h : (q.Emplace n v).2 = true) :
    presentSum f (q.Emplace n v).1.entries_ = presentSum f q.entries_ + f v := by
  by_cases he : q.IsEmpty = true
  · rw [Emplace_of_isEmpty q n v he, hv.entries_nil_of_isEmpty he]
    simp [presentSum]
  · have he' : q.IsEmpty = false := by simpa using he
    by_cases hn : n ≤ q.last_packet
    · rw [Emplace_of_le q n v he' hn] at h; cases h
    · rw [Emplace_of_gt q n v he' (not_le.mp hn)]
      simp only [presentSum_append, presentSum_replicate_absent]
      simp [presentSum]

end PacketNumberIndexedQueue

namespace PacketNumberIndexedQueue

variable {T : Type}

theorem Valid.GetEntry_first_isSome {q : PacketNumberIndexedQueue T} (hv : q.Valid)
    (hne : q.IsEmpty = false) : (q.GetEntry q.first_packet).isSome = true := by
  obtain ⟨x, xs, hl⟩ := List.exists_cons_of_ne_nil (hv.entries_ne_nil hne)
  have hp := hv.2.1 x (by rw [hl]; rfl)
  rw [GetEntry_eq_slotData]
  simp [slot, first_packet, hl, slotData, hp]

end PacketNumberIndexedQueue

namespace BandwidthSampler

/-- On a consistent map the loop of `RemoveObsoletePackets` is left within as
many iterations as there are present entries, and it keeps every property that
`Remove` keeps. -/
theorem removeObsoleteLoop_spec
    (P : PacketNumberIndexedQueue ConnectionStateOnSentPacket → Prop)
    (hP : ∀ q n, q.Valid → P q → P (q.Remove n).1) (least_unacked : Int) :
    ∀ (fuel : Nat) (q : PacketNumberIndexedQueue ConnectionStateOnSentPacket),
      q.Valid → P q → q.number_of_present_entries = fuel →
      ∃ q', removeObsoleteLoop least_unacked fuel q = some q' ∧ q'.Valid ∧ P q' ∧
        (q'.IsEmpty = true ∨ least_unacked ≤ q'.first_packet) := by
  intro fuel
  induction fuel with
  | zero =>
    intro q hv hp hfuel
    have he : q.IsEmpty = true := by
      simpa [PacketNumberIndexedQueue.IsEmpty,
        PacketNumberIndexedQueue.number_of_present_entries] using hfuel
    exact ⟨q, by simp [removeObsoleteLoop, he], hv, hp, Or.inl he⟩
  | succ fuel ih =>
    intro q hv hp hfuel
    unfold removeObsoleteLoop
    by_cases hc : (!q.IsEmpty && decide (q.first_packet < least_unacked)) = true
    · rw [if_pos hc]
      have hne : q.IsEmpty = false := by
        cases h : q.IsEmpty <;> simp [h] at hc ⊢
      have hsome := hv.GetEntry_first_isSome hne
      have hrem : (q.Remove q.first_packet).2 = true := by
        rw [PacketNumberIndexedQueue.Remove_snd]; exact hsome
      have hcount := hv.Remove_count q.first_packet hrem
      exact ih (q.Remove q.first_packet).1 (hv.remove _) (hP q _ hv hp) (by omega)
    · rw [if_neg hc]
      refine ⟨q, rfl, hv, hp, ?_⟩
      cases h : q.IsEmpty with
      | true => exact Or.inl rfl
      | false =>
        right
        simp [h] at hc
        exact hc

theorem RemoveObsoletePackets_spec
    (P : PacketNumberIndexedQueue ConnectionStateOnSentPacket → Prop)
    (hP : ∀ q n, q.Valid → P q → P (q.Remove n).1) (s : BandwidthSampler) (least_unacked : Int)
    (hv : s.connection_state_map_.Valid) (hp : P s.connection_state_map_) :
    ∃ q', s.RemoveObsoletePackets least_unacked = some { s with connection_state_map_ := q' } ∧
      q'.Valid ∧ P q' ∧ (q'.IsEmpty = true ∨ least_unacked ≤ q'.first_packet) := by
  obtain ⟨q', hq, hv', hp', hc⟩ := removeObsoleteLoop_spec P hP least_unacked _ _ hv hp rfl
  exact ⟨q', by simp [RemoveObsoletePackets, hq], hv', hp', hc⟩

theorem valid_OnPacketSent (s : BandwidthSampler) (t n size in_flight : Int)
    (hv : s.connection_state_map_.Valid) :
    (s.OnPacketSent t n size in_flight).connection_state_map_.Valid := by
  unfold OnPacketSent
  dsimp only
  apply PacketNumberIndexedQueue.Valid.emplace
  unfold beforeEmplace
  split_ifs <;> exact hv

theorem valid_OnPacketAcknowledged (div : Int → Int → DataRate) (s : BandwidthSampler)
    (t n : Int) (hv : s.connection_state_map_.Valid) :
    (s.OnPacketAcknowledged div t n).2.connection_state_map_.Valid := by
  cases h : s.connection_state_map_.GetEntry n with
  | none => rw [OnPacketAcknowledged_of_none div s t n h]; exact hv
  | some d => rw [OnPacketAcknowledged_of_some div s t n d h]; exact hv.remove n

/-- Every call on a sampler with a consistent map returns, with a consistent
map. -/
theorem call_valid (div : Int → Int → DataRate) (s : BandwidthSampler) (c : SamplerCall)
    (hv : s.connection_state_map_.Valid) :
    ∃ s', s.call div c = some s' ∧ s'.connection_state_map_.Valid := by
  cases c with
  | sent t n size in_flight => exact ⟨_, rfl, valid_OnPacketSent s t n size in_flight hv⟩
  | acknowledged t n => exact ⟨_, rfl, valid_OnPacketAcknowledged div s t n hv⟩
  | lost n => exact ⟨_, rfl, hv.remove n⟩
  | appLimited => exact ⟨_, rfl, hv⟩
  | removeObsolete k =>
    obtain ⟨q', hq, hv', -, -⟩ :=
      RemoveObsoletePackets_spec (fun _ => True) (fun _ _ _ _ => trivial) s k hv trivial
    exact ⟨_, hq, hv'⟩

theorem calls_valid (div : Int → Int → DataRate) (cs : List SamplerCall) :
    ∀ s : BandwidthSampler, s.connection_state_map_.Valid →
      ∃ s', s.calls div cs = some s' ∧ s'.connection_state_map_.Valid := by
  induction cs with
  | nil => intro s hv; exact ⟨s, rfl, hv⟩
  | cons c cs ih =>
    intro s hv
    obtain ⟨s1, h1, hv1⟩ := call_valid div s c hv
    obtain ⟨s2, h2, hv2⟩ := ih s1 hv1
    exact ⟨s2, by simp [calls, h1, h2], hv2⟩

/-- A call that is not an `OnPacketSent` of packet `n` does not start to track
`n`, nor does it change the snapshot of `n`. -/
theorem call_GetEntry_mono (div : Int → Int → DataRate) (s s' : BandwidthSampler)
    (c : SamplerCall) (n : Int) (hv : s.connection_state_map_.Valid)
    (hc : s.call div c = some s') (hn : c.sends n = false) (d : ConnectionStateOnSentPacket)
    (hd : s'.connection_state_map_.GetEntry n = some d) :
    s.connection_state_map_.GetEntry n = some d := by
  cases c with
  | sent t m size in_flight =>
    have hmn : n ≠ m := by
      intro h; simp [SamplerCall.sends, h] at hn
    simp only [call, Option.some.injEq] at hc
    subst hc
    unfold OnPacketSent at hd
    dsimp only at hd
    have hmap : (s.beforeEmplace t m size in_flight).connection_state_map_ =
        s.connection_state_map_ := by
      unfold beforeEmplace; split_ifs <;> rfl
    rw [hmap] at hd
    cases hr : (s.connection_state_map_.Emplace m
        (ConnectionStateOnSentPacket.snapshot t size (s.beforeEmplace t m size in_flight))).2 with
    | false =>
      rw [PacketNumberIndexedQueue.Emplace_of_false _ _ _ hr] at hd
      exact hd
    | true =>
      rw [PacketNumberIndexedQueue.Emplace_snd] at hr
      have hacc : s.connection_state_map_.IsEmpty = true ∨ s.connection_state_map_.last_packet < m := by
        simpa using hr
      rw [hv.GetEntry_Emplace m _ hacc, if_neg hmn] at hd
      exact hd
  | acknowledged t m =>
    simp only [call, Option.some.injEq] at hc
    subst hc
    cases h : s.connection_state_map_.GetEntry m with
    | none => rw [OnPacketAcknowledged_of_none div s t m h] at hd; exact hd
    | some d0 =>
      rw [OnPacketAcknowledged_of_some div s t m d0 h] at hd
      dsimp only at hd
      rw [PacketNumberIndexedQueue.GetEntry_Remove] at hd
      split_ifs at hd
      exact hd
  | lost m =>
    simp only [call, Option.some.injEq] at hc
    subst hc
    simp only [OnPacketLost] at hd
    rw [PacketNumberIndexedQueue.GetEntry_Remove] at hd
    split_ifs at hd
    exact hd
  | appLimited =>
    simp only [call, Option.some.injEq] at hc
    subst hc
    exact hd
  | removeObsolete k =>
    obtain ⟨q', hq, -, hp, -⟩ := RemoveObsoletePackets_spec
      (fun q => q.GetEntry n = some d → s.connection_state_map_.GetEntry n = some d)
      (by
        intro q m _ hq h
        rw [PacketNumberIndexedQueue.GetEntry_Remove] at h
        split_ifs at h
        exact hq h)
      s k hv id
    simp only [call] at hc
    rw [hq] at hc
    cases hc
    exact hp hd

/-- A call that acknowledges packet `n`, declares it lost or removes it as
obsolete leaves `n` untracked. -/
theorem call_releases (div : Int → Int → DataRate) (s s' : BandwidthSampler)
    (c : SamplerCall) (n : Int) (hv : s.connection_state_map_.Valid)
    (hc : s.call div c = some s') (hn : c.releases n = true) :
    s'.connection_state_map_.GetEntry n = none := by
  cases c with
  | sent t m size in_flight => simp [SamplerCall.releases] at hn
  | acknowledged t m =>
    have hmn : m = n := by simpa [SamplerCall.releases] using hn
    subst hmn
    simp only [call, Option.some.injEq] at hc
    subst hc
    exact GetEntry_OnPacketAcknowledged_self div s t m
  | lost m =>
    have hmn : m = n := by simpa [SamplerCall.releases] using hn
    subst hmn
    simp only [call, Option.some.injEq] at hc
    subst hc
    simp [OnPacketLost, PacketNumberIndexedQueue.GetEntry_Remove]
  | appLimited => simp [SamplerCall.releases] at hn
  | removeObsolete k =>
    have hnk : n < k := by simpa [SamplerCall.releases] using hn
    obtain ⟨q', hq, hv', -, hcond⟩ :=
      RemoveObsoletePackets_spec (fun _ => True) (fun _ _ _ _ => trivial) s k hv trivial
    simp only [call] at hc
    rw [hq] at hc
    cases hc
    dsimp only
    rcases hcond with he | hfirst
    · rw [PacketNumberIndexedQueue.GetEntry_eq_slotData]
      simp only [PacketNumberIndexedQueue.slot, hv'.entries_nil_of_isEmpty he]
      split_ifs <;> simp [PacketNumberIndexedQueue.slotData]
    · exact PacketNumberIndexedQueue.GetEntry_none_of_lt_first _ n (by omega)

/-- Over a sequence of calls none of which sends packet `n`, a snapshot
tracked for `n` at the end is the one tracked at the start. -/
theorem calls_GetEntry_mono (div : Int → Int → DataRate) (cs : List SamplerCall) (n : Int) :
    ∀ (s s' : BandwidthSampler), s.connection_state_map_.Valid →
      s.calls div cs = some s' → (∀ c ∈ cs, c.sends n = false) →
      ∀ d, s'.connection_state_map_.GetEntry n = some d →
        s.connection_state_map_.GetEntry n = some d := by
  induction cs with
  | nil =>
    intro s s' _ hc _ d hd
    simp only [calls, Option.some.injEq] at hc
    subst hc
    exact hd
  | cons c cs ih =>
    intro s s' hv hc hn d hd
    obtain ⟨s1, h1, hv1⟩ := call_valid div s c hv
    simp only [calls, h1] at hc
    have h2 := ih s1 s' hv1 hc (fun c' hc' => hn c' (List.mem_cons_of_mem _ hc')) d hd
    exact call_GetEntry_mono div s s1 c n hv h1 (hn c (List.mem_cons_self _ _)) d h2

end BandwidthSampler

namespace BandwidthSampler

theorem beforeEmplace_map (s : BandwidthSampler) (t n size in_flight : Int) :
    (s.beforeEmplace t n size in_flight).connection_state_map_ = s.connection_state_map_ := by
  unfold beforeEmplace; split_ifs <;> rfl

/-- A successfully recorded `OnPacketSent` tracks the snapshot it has taken. -/
theorem GetEntry_OnPacketSent_self (s : BandwidthSampler) (t n size in_flight : Int)
    (hv : s.connection_state_map_.Valid)
    (h : s.OnPacketSent_success t n size in_flight = true) :
    (s.OnPacketSent t n size in_flight).connection_state_map_.GetEntry n =
      some (ConnectionStateOnSentPacket.snapshot t size (s.beforeEmplace t n size in_flight)) := by
  unfold OnPacketSent_success at h
  unfold OnPacketSent
  dsimp only
  rw [beforeEmplace_map] at h ⊢
  rw [PacketNumberIndexedQueue.Emplace_snd] at h
  have hacc : s.connection_state_map_.IsEmpty = true ∨ s.connection_state_map_.last_packet < n := by
    simpa using h
  rw [hv.GetEntry_Emplace n _ hacc, if_pos rfl]

end BandwidthSampler

namespace BandwidthSampler

theorem consistent_new : BandwidthSampler.new.Consistent := by
  refine ⟨PacketNumberIndexedQueue.valid_new, le_refl _, rfl, ?_, ?_⟩
  · intro n d h
    rw [PacketNumberIndexedQueue.GetEntry_eq_slotData] at h
    simp only [PacketNumberIndexedQueue.slot, BandwidthSampler.new,
      PacketNumberIndexedQueue.new] at h
    split_ifs at h <;> simp [PacketNumberIndexedQueue.slotData] at h
  · simp [BandwidthSampler.new, PacketNumberIndexedQueue.new, presentSum]

/-- The bytes of the tracked packets of a consistent sampler are not negative. -/
theorem Consistent.trackedBytes_nonneg {s : BandwidthSampler} (hs : s.Consistent) :
    0 ≤ presentSum (fun d => d.size) s.connection_state_map_.entries_ := by
  apply Bifrost.presentSum_nonneg
  intro e he hp
  obtain ⟨n, hn⟩ := PacketNumberIndexedQueue.exists_GetEntry_of_mem _ e he hp
  exact (hs.2.2.2.1 n e.data hn).1

theorem Consistent.acked_le_sent {s : BandwidthSampler} (hs : s.Consistent) :
    s.total_data_acked_ ≤ s.total_data_sent_ := by
  have h1 := hs.trackedBytes_nonneg
  have h2 := hs.2.2.2.2
  omega

/-- Replacing the map by the one after a `Remove` keeps a sampler consistent. -/
theorem Consistent.removeEntry {s : BandwidthSampler} (hs : s.Consistent) (n : Int) :
    ({ s with connection_state_map_ := (s.connection_state_map_.Remove n).1 } :
      BandwidthSampler).Consistent := by
  obtain ⟨hv, h1, h2, h3, h4⟩ := hs
  refine ⟨hv.remove n, h1, h2, ?_, ?_⟩
  · intro m d hd
    dsimp only at hd
    rw [PacketNumberIndexedQueue.GetEntry_Remove] at hd
    split_ifs at hd
    exact h3 m d hd
  · dsimp only
    cases hget : s.connection_state_map_.GetEntry n with
    | none =>
      rw [PacketNumberIndexedQueue.Remove_of_none _ n hget]
      exact h4
    | some d =>
      rw [PacketNumberIndexedQueue.Remove_presentSum _ _ n d hget]
      have := (h3 n d hget).1
      omega

theorem Consistent.OnPacketLost {s : BandwidthSampler} (hs : s.Consistent) (n : Int) :
    (s.OnPacketLost n).Consistent := hs.removeEntry n

theorem Consistent.OnAppLimited {s : BandwidthSampler} (hs : s.Consistent) :
    s.OnAppLimited.Consistent := hs

theorem Consistent.OnPacketAcknowledged (div : Int → Int → DataRate) {s : BandwidthSampler}
    (hs : s.Consistent) (t n : Int) : (s.OnPacketAcknowledged div t n).2.Consistent := by
  cases hget : s.connection_state_map_.GetEntry n with
  | none => rw [OnPacketAcknowledged_of_none div s t n hget]; exact hs
  | some d =>
    rw [OnPacketAcknowledged_of_some div s t n d hget]
    obtain ⟨hv, h1, h2, h3, h4⟩ := hs
    obtain ⟨d1, d2, d3, d4, d5⟩ := h3 n d hget
    refine ⟨hv.remove n, ?_, rfl, ?_, ?_⟩
    · exact d3
    · intro m e he
      dsimp only at he
      rw [PacketNumberIndexedQueue.GetEntry_Remove] at he
      split_ifs at he
      obtain ⟨e1, e2, e3, e4, e5⟩ := h3 m e he
      refine ⟨e1, e2, e3, ?_, e5⟩
      simp only [acknowledge]
      omega
    · dsimp only
      rw [PacketNumberIndexedQueue.Remove_presentSum _ _ n d hget]
      simp only [acknowledge]
      omega

theorem Consistent.OnPacketSent {s : BandwidthSampler} (hs : s.Consistent)
    (t n size in_flight : Int) (hsize : 0 ≤ size) :
    (s.OnPacketSent t n size in_flight).Consistent := by
  obtain ⟨hv, h1, h2, h3, h4⟩ := hs
  have hmap := beforeEmplace_map s t n size in_flight
  have hsent : (s.beforeEmplace t n size in_flight).total_data_sent_ = s.total_data_sent_ + size := by
    unfold beforeEmplace; split_ifs <;> rfl
  have hacked : (s.beforeEmplace t n size in_flight).total_data_acked_ = s.total_data_acked_ := by
    unfold beforeEmplace; split_ifs <;> rfl
  have hlast : (s.beforeEmplace t n size in_flight).total_data_sent_at_last_acked_packet_ ≤
      s.total_data_sent_ + size := by
    unfold beforeEmplace; split_ifs
    · exact le_refl _
    · dsimp only; omega
  have hopt : (s.beforeEmplace t n size in_flight).last_acked_packet_ack_time_.isSome =
      (s.beforeEmplace t n size in_flight).last_acked_packet_sent_time_.isSome := by
    unfold beforeEmplace; split_ifs
    · rfl
    · exact h2
  unfold BandwidthSampler.OnPacketSent
  refine ⟨?_, ?_, hopt, ?_, ?_⟩
  · dsimp only
    rw [hmap]
    exact hv.emplace n _
  · dsimp only
    rw [hsent]
    exact hlast
  · intro m d hd
    dsimp only at hd
    rw [hmap] at hd
    have hold : ∀ e, s.connection_state_map_.GetEntry m = some e →
        SnapshotOk { s.beforeEmplace t n size in_flight with
          connection_state_map_ := (s.connection_state_map_.Emplace n
            (ConnectionStateOnSentPacket.snapshot t size
              (s.beforeEmplace t n size in_flight))).1 } e := by
      intro e he
      obtain ⟨e1, e2, e3, e4, e5⟩ := h3 m e he
      refine ⟨e1, e2, ?_, ?_, e5⟩
      · dsimp only; rw [hsent]; omega
      · dsimp only; rw [hacked]; exact e4
    rw [hmap]
    cases hr : (s.connection_state_map_.Emplace n
        (ConnectionStateOnSentPacket.snapshot t size (s.beforeEmplace t n size in_flight))).2 with
    | false =>
      rw [PacketNumberIndexedQueue.Emplace_of_false _ _ _ hr] at hd
      exact hold d hd
    | true =>
      rw [PacketNumberIndexedQueue.Emplace_snd] at hr
      have hacc : s.connection_state_map_.IsEmpty = true ∨
          s.connection_state_map_.last_packet < n := by simpa using hr
      rw [hv.GetEntry_Emplace n _ hacc] at hd
      split_ifs at hd with hmn
      · have hd' := (Option.some.inj hd).symm
        subst hd'
        refine ⟨hsize, ?_, ?_, ?_, hopt⟩
        · simp only [ConnectionStateOnSentPacket.snapshot, hsent]; exact hlast
        · simp only [ConnectionStateOnSentPacket.snapshot]; exact le_refl _
        · simp only [ConnectionStateOnSentPacket.snapshot]; exact le_refl _
      · exact hold d hd
  · dsimp only
    rw [hmap, hsent, hacked]
    cases hr : (s.connection_state_map_.Emplace n
        (ConnectionStateOnSentPacket.snapshot t size (s.beforeEmplace t n size in_flight))).2 with
    | false =>
      rw [PacketNumberIndexedQueue.Emplace_of_false _ _ _ hr]
      omega
    | true =>
      rw [hv.Emplace_presentSum _ n _ hr]
      simp only [ConnectionStateOnSentPacket.snapshot]
      omega

/-- A call of a non-negative size on a consistent sampler returns, with a
consistent sampler. -/
theorem Consistent.sampler_call (div : Int → Int → DataRate) {s : BandwidthSampler} (hs : s.Consistent)
    (c : SamplerCall) (hc : c.sizeNonneg = true) :
    ∃ s', s.call div c = some s' ∧ s'.Consistent := by
  cases c with
  | sent t n size in_flight =>
    exact ⟨_, rfl, hs.OnPacketSent t n size in_flight (by simpa [SamplerCall.sizeNonneg] using hc)⟩
  | acknowledged t n => exact ⟨_, rfl, hs.OnPacketAcknowledged div t n⟩
  | lost n => exact ⟨_, rfl, hs.OnPacketLost n⟩
  | appLimited => exact ⟨_, rfl, hs.OnAppLimited⟩
  | removeObsolete k =>
    obtain ⟨q', hq, -, hp, -⟩ := RemoveObsoletePackets_spec
      (fun q => ({ s with connection_state_map_ := q } : BandwidthSampler).Consistent)
      (by
        intro q n _ hq
        exact hq.removeEntry n)
      s k hs.1 hs
    exact ⟨_, hq, hp⟩

theorem Consistent.sampler_calls (div : Int → Int → DataRate) (cs : List SamplerCall) :
    ∀ {s : BandwidthSampler}, s.Consistent → (∀ c ∈ cs, c.sizeNonneg = true) →
      ∃ s', s.calls div cs = some s' ∧ s'.Consistent := by
  induction cs with
  | nil => intro s hs _; exact ⟨s, rfl, hs⟩
  | cons c cs ih =>
    intro s hs hc
    obtain ⟨s1, h1, hs1⟩ := hs.sampler_call div c (hc c (List.mem_cons_self _ _))
    obtain ⟨s2, h2, hs2⟩ := ih hs1 (fun c' hc' => hc c' (List.mem_cons_of_mem _ hc'))
    exact ⟨s2, by simp [BandwidthSampler.calls, h1, h2], hs2⟩

theorem calls_append (div : Int → Int → DataRate) (cs₁ cs₂ : List SamplerCall) :
    ∀ s : BandwidthSampler,
      s.calls div (cs₁ ++ cs₂) = (s.calls div cs₁).bind (fun s1 => s1.calls div cs₂) := by
  induction cs₁ with
  | nil => intro s; rfl
  | cons c cs ih =>
    intro s
    simp only [List.cons_append, calls]
    cases s.call div c with
    | none => rfl
    | some s1 => exact ih s1

end BandwidthSampler

/-- C6, as stated, fails: packet 1 (1000 bytes) is sent at time 10 with nothing
in flight, so its snapshot has `last_acked_packet_ack_time = 10`, and it is
acknowledged at time 5. The guard on the ack time returns the zero sample,
whose bandwidth 0 is above the ack rate of the snapshot,
`1000 B / (5 - 10) µs < 0`. -/
theorem sample_bandwidth_bound_counterexample :
    samplerAfterFirstSend.connection_state_map_.GetEntry 1 = some firstSendSnapshot ∧
    firstSendSnapshot.last_acked_packet_ack_time = some 10 ∧
    (samplerAfterFirstSend.OnPacketAcknowledged DataSize.div 5 1).1.bandwidth = DataRate.finite 0 ∧
    BandwidthSampler.ack_rate DataSize.div
      (samplerAfterFirstSend.OnPacketAcknowledged DataSize.div 5 1).2.total_data_acked 5
      firstSendSnapshot 10 = DataRate.finite (-1600000000) ∧
    ¬ ((samplerAfterFirstSend.OnPacketAcknowledged DataSize.div 5 1).1.bandwidth ≤
      BandwidthSampler.ack_rate DataSize.div
        (samplerAfterFirstSend.OnPacketAcknowledged DataSize.div 5 1).2.total_data_acked 5
        firstSendSnapshot 10) := by
  decide

/-- C6, amended: `n` is a packet tracked by a sampler reached from the
constructed one by calls of non-negative sizes, and the division of a
non-negative size by a positive duration is not negative. Then the sample
returned by `OnPacketAcknowledged(ack_time, n)` has `bandwidth ≤ send_rate`
whenever the snapshot has a `last_acked_packet_sent_time`; when the snapshot
has a `last_acked_packet_ack_time` and `ack_time` is strictly later, the
bandwidth is `min(send_rate, ack_rate)`, hence `≤ ack_rate` too, the rtt is
`ack_time - sent_time` and `is_app_limited` is the flag of the snapshot; and
when `ack_time` is not later than that time, or the snapshot has none, the
sample is the zero sample. -/
theorem sample_bandwidth_bound (div : Int → Int → DataRate)
    (hdiv : ∀ a b, 0 ≤ a → 0 < b → DataRate.Zero ≤ div a b)
    (cs : List SamplerCall) (hsize : ∀ c ∈ cs, c.sizeNonneg = true)
    (s : BandwidthSampler) (hs : BandwidthSampler.new.calls div cs = some s)
    (n : Int) (d : ConnectionStateOnSentPacket)
    (hd : s.connection_state_map_.GetEntry n = some d) (ack_time : Int) :
    (∀ last_sent, d.last_acked_packet_sent_time = some last_sent →
      (s.OnPacketAcknowledged div ack_time n).1.bandwidth ≤
        BandwidthSampler.send_rate div d last_sent) ∧
    (∀ last_ack, d.last_acked_packet_ack_time = some last_ack → last_ack < ack_time →
      ∃ last_sent, d.last_acked_packet_sent_time = some last_sent ∧
        (s.OnPacketAcknowledged div ack_time n).1.bandwidth =
          DataRate.min (BandwidthSampler.send_rate div d last_sent)
            (BandwidthSampler.ack_rate div
              (s.OnPacketAcknowledged div ack_time n).2.total_data_acked ack_time d last_ack) ∧
        (s.OnPacketAcknowledged div ack_time n).1.bandwidth ≤
          BandwidthSampler.ack_rate div
            (s.OnPacketAcknowledged div ack_time n).2.total_data_acked ack_time d last_ack ∧
        (s.OnPacketAcknowledged div ack_time n).1.rtt = ack_time - d.sent_time ∧
        (s.OnPacketAcknowledged div ack_time n).1.is_app_limited = d.is_app_limited) ∧
    (∀ last_ack, d.last_acked_packet_ack_time = some last_ack → ack_time ≤ last_ack →
      (s.OnPacketAcknowledged div ack_time n).1 = BandwidthSample.new) ∧
    (d.last_acked_packet_ack_time = none →
      (s.OnPacketAcknowledged div ack_time n).1 = BandwidthSample.new) := by
  have hcons : s.Consistent := by
    obtain ⟨s', h', hc'⟩ := BandwidthSampler.Consistent.sampler_calls div cs
      BandwidthSampler.consistent_new hsize
    rw [hs] at h'
    cases h'
    exact hc'
  obtain ⟨d1, d2, d3, d4, d5⟩ := hcons.2.2.2.1 n d hd
  rw [BandwidthSampler.OnPacketAcknowledged_of_some div s ack_time n d hd]
  dsimp only
  have hsend : ∀ last_sent, DataRate.Zero ≤ BandwidthSampler.send_rate div d last_sent := by
    intro last_sent
    unfold BandwidthSampler.send_rate
    split_ifs with h
    · exact hdiv _ _ (by omega) (by omega)
    · exact DataRate.le_Infinity _
  refine ⟨?_, ?_, ?_, ?_⟩
  · intro last_sent h1
    unfold BandwidthSampler.sample
    rw [h1]
    cases h2 : d.last_acked_packet_ack_time with
    | none => exact hsend last_sent
    | some last_ack =>
      dsimp only
      split_ifs
      · exact hsend last_sent
      · exact DataRate.min_le_left _ _
  · intro last_ack h2 hlt
    rw [h2] at d5
    cases h1 : d.last_acked_packet_sent_time with
    | none => rw [h1] at d5; cases d5
    | some last_sent =>
      refine ⟨last_sent, rfl, ?_⟩
      have hsample : BandwidthSampler.sample div (s.total_data_acked_ + d.size) ack_time d =
          { bandwidth := DataRate.min (BandwidthSampler.send_rate div d last_sent)
              (BandwidthSampler.ack_rate div (s.total_data_acked_ + d.size) ack_time d last_ack)
            rtt := ack_time - d.sent_time
            is_app_limited := d.is_app_limited } := by
        unfold BandwidthSampler.sample
        rw [h1, h2]
        dsimp only
        rw [if_neg (by omega)]
      rw [hsample]
      exact ⟨rfl, DataRate.min_le_right _ _, rfl, rfl⟩
  · intro last_ack h2 hle
    unfold BandwidthSampler.sample
    rw [h2]
    cases d.last_acked_packet_sent_time with
    | none => rfl
    | some last_sent => simp [hle]
  · intro h2
    unfold BandwidthSampler.sample
    rw [h2]
    cases d.last_acked_packet_sent_time <;> rfl

theorem DataSize.div_nonneg (a b : Int) (ha : 0 ≤ a) (hb : 0 < b) :
    DataRate.Zero ≤ DataSize.div a b := by
  simp only [DataRate.le_def, DataRate.le, DataRate.Zero, DataSize.div, decide_eq_true_eq]
  exact Int.tdiv_nonneg (by omega) (by omega)

/-- Witness of C6 (amended): packet 1 is acknowledged at time 110. -/
theorem sample_bandwidth_bound_witness :
    (∀ c ∈ [SamplerCall.sent 10 1 1000 0], c.sizeNonneg = true) ∧
    BandwidthSampler.new.calls DataSize.div [.sent 10 1 1000 0] = some samplerAfterFirstSend ∧
    samplerAfterFirstSend.connection_state_map_.GetEntry 1 = some firstSendSnapshot ∧
    firstSendSnapshot.last_acked_packet_ack_time = some 10 ∧
    ∃ last_sent, firstSendSnapshot.last_acked_packet_sent_time = some last_sent ∧
      (samplerAfterFirstSend.OnPacketAcknowledged DataSize.div 110 1).1.bandwidth =
        DataRate.min (BandwidthSampler.send_rate DataSize.div firstSendSnapshot last_sent)
          (BandwidthSampler.ack_rate DataSize.div
            (samplerAfterFirstSend.OnPacketAcknowledged DataSize.div 110 1).2.total_data_acked 110
            firstSendSnapshot 10) ∧
      (samplerAfterFirstSend.OnPacketAcknowledged DataSize.div 110 1).1.bandwidth ≤
        BandwidthSampler.ack_rate DataSize.div
          (samplerAfterFirstSend.OnPacketAcknowledged DataSize.div 110 1).2.total_data_acked 110
          firstSendSnapshot 10 ∧
      (samplerAfterFirstSend.OnPacketAcknowledged DataSize.div 110 1).1.rtt =
        110 - firstSendSnapshot.sent_time ∧
      (samplerAfterFirstSend.OnPacketAcknowledged DataSize.div 110 1).1.is_app_limited =
        firstSendSnapshot.is_app_limited :=
  ⟨by decide, by decide, by decide, by decide,
    (sample_bandwidth_bound DataSize.div DataSize.div_nonneg [.sent 10 1 1000 0] (by decide)
      samplerAfterFirstSend (by decide) 1 firstSendSnapshot (by decide) 110).2.1 10 (by decide)
      (by decide)⟩

/-- C7, as stated, fails when the packet number is sent again: packet 1 is sent
at time 10 with nothing in flight and recorded, then declared lost, and the
number 1 is sent again at time 20 with 500 bytes in flight. The sample
returned by `OnPacketAcknowledged(30, 1)` is not the zero sample and its rtt is
`10`, not `30 - 10`. -/
theorem zero_in_flight_sample_counterexample :
    BandwidthSampler.new.OnPacketSent_success 10 1 1000 0 = true ∧
    samplerAfterFirstSend.calls DataSize.div [.lost 1, .sent 20 1 1000 500] =
      some samplerAfterResend ∧
    (samplerAfterResend.OnPacketAcknowledged DataSize.div 30 1).1 ≠ BandwidthSample.new ∧
    (samplerAfterResend.OnPacketAcknowledged DataSize.div 30 1).1.rtt = 10 ∧
    ¬ ((samplerAfterResend.OnPacketAcknowledged DataSize.div 30 1).1 = BandwidthSample.new ∨
      ((samplerAfterResend.OnPacketAcknowledged DataSize.div 30 1).1.rtt = 30 - 10 ∧
        (samplerAfterResend.OnPacketAcknowledged DataSize.div 30 1).1.bandwidth =
          DataSize.div
            ((samplerAfterResend.OnPacketAcknowledged DataSize.div 30 1).2.total_data_acked -
              BandwidthSampler.new.total_data_acked) (30 - 10))) := by
  decide

/-- C7, amended: a packet `n` is passed to `OnPacketSent` at time `t` with
nothing in flight, on a sampler reached from the constructed one, and is
recorded. After any further calls that do not send the packet number `n`
again, the sample returned by `OnPacketAcknowledged(ack_time, n)` is the zero
sample, or it has `rtt = ack_time - t` and its bandwidth is the data
acknowledged since the send of `n` (this acknowledgement included) over
`ack_time - t`. -/
theorem zero_in_flight_sample (div : Int → Int → DataRate) (before : List SamplerCall)
    (s : BandwidthSampler) (hs : BandwidthSampler.new.calls div before = some s)
    (t n size : Int) (hrec : s.OnPacketSent_success t n size 0 = true)
    (later : List SamplerCall) (hlater : ∀ c ∈ later, c.sends n = false)
    (s2 : BandwidthSampler) (hs2 : (s.OnPacketSent t n size 0).calls div later = some s2)
    (ack_time : Int) :
    (s2.OnPacketAcknowledged div ack_time n).1 = BandwidthSample.new ∨
    ((s2.OnPacketAcknowledged div ack_time n).1.rtt = ack_time - t ∧
      (s2.OnPacketAcknowledged div ack_time n).1.bandwidth =
        div ((s2.OnPacketAcknowledged div ack_time n).2.total_data_acked - s.total_data_acked)
          (ack_time - t)) := by
  have hv : s.connection_state_map_.Valid := by
    obtain ⟨s', h', hv'⟩ := BandwidthSampler.calls_valid div before BandwidthSampler.new
      PacketNumberIndexedQueue.valid_new
    rw [hs] at h'
    cases h'
    exact hv'
  have hv1 := BandwidthSampler.valid_OnPacketSent s t n size 0 hv
  have hsnap := BandwidthSampler.GetEntry_OnPacketSent_self s t n size 0 hv hrec
  cases hget : s2.connection_state_map_.GetEntry n with
  | none =>
    left
    rw [BandwidthSampler.OnPacketAcknowledged_of_none div s2 ack_time n hget]
  | some d =>
    have hd := BandwidthSampler.calls_GetEntry_mono div later n _ s2 hv1 hs2 hlater d hget
    rw [hsnap] at hd
    have hd' := (Option.some.inj hd).symm
    rw [BandwidthSampler.OnPacketAcknowledged_of_some div s2 ack_time n d hget]
    by_cases hle : ack_time ≤ t
    · left
      subst hd'
      simp [BandwidthSampler.sample, ConnectionStateOnSentPacket.snapshot,
        BandwidthSampler.beforeEmplace, hle]
    · right
      subst hd'
      simp [BandwidthSampler.sample, ConnectionStateOnSentPacket.snapshot,
        BandwidthSampler.beforeEmplace, hle, BandwidthSampler.send_rate,
        BandwidthSampler.ack_rate, DataRate.min_Infinity_left, BandwidthSampler.acknowledge,
        BandwidthSampler.total_data_acked]

/-- Witness of C7 (amended): packet 1 is sent at time 10 with nothing in flight, packet 2
is sent after it, and packet 1 is acknowledged at time 110. -/
theorem zero_in_flight_sample_witness :
    BandwidthSampler.new.calls DataSize.div [] = some BandwidthSampler.new ∧
    BandwidthSampler.new.OnPacketSent_success 10 1 1000 0 = true ∧
    (∀ c ∈ [SamplerCall.sent 20 2 500 1000], c.sends 1 = false) ∧
    (BandwidthSampler.new.OnPacketSent 10 1 1000 0).calls DataSize.div [.sent 20 2 500 1000] =
      some ((BandwidthSampler.new.OnPacketSent 10 1 1000 0).OnPacketSent 20 2 500 1000) ∧
    ((((BandwidthSampler.new.OnPacketSent 10 1 1000 0).OnPacketSent 20 2 500
        1000).OnPacketAcknowledged DataSize.div 110 1).1 = BandwidthSample.new ∨
      ((((BandwidthSampler.new.OnPacketSent 10 1 1000 0).OnPacketSent 20 2 500
          1000).OnPacketAcknowledged DataSize.div 110 1).1.rtt = 110 - 10 ∧
        (((BandwidthSampler.new.OnPacketSent 10 1 1000 0).OnPacketSent 20 2 500
          1000).OnPacketAcknowledged DataSize.div 110 1).1.bandwidth =
          DataSize.div
            ((((BandwidthSampler.new.OnPacketSent 10 1 1000 0).OnPacketSent 20 2 500
              1000).OnPacketAcknowledged DataSize.div 110 1).2.total_data_acked -
              BandwidthSampler.new.total_data_acked) (110 - 10))) :=
  ⟨by decide, by decide, by decide, by decide,
    zero_in_flight_sample DataSize.div [] BandwidthSampler.new (by decide) 10 1 1000 (by decide)
      [.sent 20 2 500 1000] (by decide) _ (by decide) 110⟩

/-- C8, as stated, fails when a packet number is sent again: packet 1 is sent
and acknowledged, and the number 1 is sent again on the emptied map, which
accepts it. The packet number 1 has been acknowledged and is in the tracking
queue. -/
theorem sampler_acked_le_sent_counterexample :
    (SamplerCall.acknowledged 110 1).releases 1 = true ∧
    (∀ c ∈ samplerResendCalls, c.sizeNonneg = true) ∧
    BandwidthSampler.new.calls DataSize.div samplerResendCalls = some samplerAfterResendCalls ∧
    samplerAfterResendCalls.connection_state_map_.GetEntry 1 ≠ none := by
  decide

/-- C8, amended: after any sequence of `OnPacketSent` (of non-negative sizes),
`OnPacketAcknowledged`, `OnPacketLost`, `OnAppLimited` and
`RemoveObsoletePackets` calls on the constructed sampler, every call has
returned, `total_data_acked ≤ total_data_sent`, and a packet number that a call
of the sequence has acknowledged, declared lost or removed as obsolete, and
that no later call has sent again, is not in the tracking queue. -/
theorem sampler_acked_le_sent (div : Int → Int → DataRate) (cs : List SamplerCall)
    (hsize : ∀ c ∈ cs, c.sizeNonneg = true) :
    ∃ s, BandwidthSampler.new.calls div cs = some s ∧
      s.total_data_acked ≤ s.total_data_sent_ ∧
      ∀ (cs₁ : List SamplerCall) (c : SamplerCall) (cs₂ : List SamplerCall) (n : Int),
        cs = cs₁ ++ c :: cs₂ → c.releases n = true → (∀ c' ∈ cs₂, c'.sends n = false) →
        s.connection_state_map_.GetEntry n = none := by
  obtain ⟨s, hs, hcons⟩ := BandwidthSampler.Consistent.sampler_calls div cs
    BandwidthSampler.consistent_new hsize
  refine ⟨s, hs, hcons.acked_le_sent, ?_⟩
  intro cs₁ c cs₂ n hsplit hrel hsend
  subst hsplit
  rw [BandwidthSampler.calls_append] at hs
  obtain ⟨s1, h1, hv1⟩ := BandwidthSampler.calls_valid div cs₁ BandwidthSampler.new
    PacketNumberIndexedQueue.valid_new
  rw [h1] at hs
  simp only [Option.bind, BandwidthSampler.calls] at hs
  obtain ⟨s2, h2, hv2⟩ := BandwidthSampler.call_valid div s1 c hv1
  rw [h2] at hs
  dsimp only at hs
  have hnone := BandwidthSampler.call_releases div s1 s2 c n hv1 h2 hrel
  cases hget : s.connection_state_map_.GetEntry n with
  | none => rfl
  | some d =>
    have := BandwidthSampler.calls_GetEntry_mono div cs₂ n s2 s hv2 hs hsend d hget
    rw [hnone] at this
    cases this

/-- Witness of C8 (amended). -/
theorem sampler_acked_le_sent_witness :
    (∀ c ∈ samplerWitnessCalls, c.sizeNonneg = true) ∧
    ∃ s, BandwidthSampler.new.calls DataSize.div samplerWitnessCalls = some s ∧
      s.total_data_acked ≤ s.total_data_sent_ ∧
      ∀ (cs₁ : List SamplerCall) (c : SamplerCall) (cs₂ : List SamplerCall) (n : Int),
        samplerWitnessCalls = cs₁ ++ c :: cs₂ → c.releases n = true →
        (∀ c' ∈ cs₂, c'.sends n = false) → s.connection_state_map_.GetEntry n = none :=
  ⟨by decide, sampler_acked_le_sent DataSize.div samplerWitnessCalls (by decide)⟩

/-- C9: for every sampler state and every packet number `n` that is not
tracked, `OnPacketAcknowledged(ack_time, n)` returns the zero sample
(bandwidth 0, rtt 0, not app-limited) and leaves the whole sampler unchanged;
and after any acknowledgement of `n`, a second acknowledgement of `n` returns
the zero sample and changes nothing, so that the bytes of `n` are counted in
`total_data_acked` once. -/
theorem ack_untracked_is_noop (div : Int → Int → DataRate) (s : BandwidthSampler)
    (ack_time : Int) (n : Int) :
    (s.connection_state_map_.GetEntry n = none →
      (s.OnPacketAcknowledged div ack_time n).1 =
        { bandwidth := DataRate.finite 0, rtt := 0, is_app_limited := false } ∧
      (s.OnPacketAcknowledged div ack_time n).2 = s) ∧
    (∀ ack_time2 : Int,
      ((s.OnPacketAcknowledged div ack_time n).2.OnPacketAcknowledged div ack_time2 n).1 =
        { bandwidth := DataRate.finite 0, rtt := 0, is_app_limited := false } ∧
      ((s.OnPacketAcknowledged div ack_time n).2.OnPacketAcknowledged div ack_time2 n).2 =
        (s.OnPacketAcknowledged div ack_time n).2 ∧
      ((s.OnPacketAcknowledged div ack_time n).2.OnPacketAcknowledged div ack_time2
        n).2.total_data_acked = (s.OnPacketAcknowledged div ack_time n).2.total_data_acked) := by
  refine ⟨?_, ?_⟩
  · intro h
    rw [BandwidthSampler.OnPacketAcknowledged_of_none div s ack_time n h]
    exact ⟨rfl, rfl⟩
  · intro ack_time2
    have h := BandwidthSampler.GetEntry_OnPacketAcknowledged_self div s ack_time n
    rw [BandwidthSampler.OnPacketAcknowledged_of_none div _ ack_time2 n h]
    exact ⟨rfl, rfl, rfl⟩

/-- Witness of C9: packet 2 was never sent. -/
theorem ack_untracked_is_noop_witness :
    (BandwidthSampler.new.OnPacketSent 10 1 1000 0).connection_state_map_.GetEntry 2 = none ∧
    ((BandwidthSampler.new.OnPacketSent 10 1 1000 0).OnPacketAcknowledged DataSize.div 50 2).2 =
      BandwidthSampler.new.OnPacketSent 10 1 1000 0 :=
  ⟨by decide,
    ((ack_untracked_is_noop DataSize.div (BandwidthSampler.new.OnPacketSent 10 1 1000 0) 50 2).1
      (by decide)).2⟩

/-- C10: for a tracked packet whose snapshot has a
`last_acked_packet_ack_time`, an `ack_time` not after that time makes
`OnPacketAcknowledged` return the zero sample (bandwidth 0, rtt 0, not
app-limited), which is also the sample it stores; and the call performs no
division by a time delta that is not positive: its result is the same for
every division operator that agrees on the positive durations. -/
theorem ack_time_regression_zero_sample (div : Int → Int → DataRate)
    (s : BandwidthSampler) (ack_time : Int) (n : Int) (d : ConnectionStateOnSentPacket)
    (last_ack : Int) (hd : s.connection_state_map_.GetEntry n = some d)
    (hlast : d.last_acked_packet_ack_time = some last_ack) (hle : ack_time ≤ last_ack) :
    (s.OnPacketAcknowledged div ack_time n).1 =
      { bandwidth := DataRate.finite 0, rtt := 0, is_app_limited := false } ∧
    (s.OnPacketAcknowledged div ack_time n).2.bandwidth_sample_ =
      { bandwidth := DataRate.finite 0, rtt := 0, is_app_limited := false } ∧
    ∀ div' : Int → Int → DataRate, (∀ a b, 0 < b → div' a b = div a b) →
      s.OnPacketAcknowledged div' ack_time n = s.OnPacketAcknowledged div ack_time n := by
  have hz : BandwidthSampler.sample div (s.total_data_acked_ + d.size) ack_time d =
      BandwidthSample.new := by
    unfold BandwidthSampler.sample
    rw [hlast]
    cases d.last_acked_packet_sent_time with
    | none => rfl
    | some last_sent => simp [hle]
  refine ⟨?_, ?_, ?_⟩
  · rw [BandwidthSampler.OnPacketAcknowledged_of_some div s ack_time n d hd, hz]; rfl
  · rw [BandwidthSampler.OnPacketAcknowledged_of_some div s ack_time n d hd, hz]; rfl
  · intro div' hdiv
    exact BandwidthSampler.OnPacketAcknowledged_congr div div' hdiv s ack_time n

/-- Witness of C10: packet 1, sent at time 10 with nothing in flight, is
acknowledged at time 5. -/
theorem ack_time_regression_zero_sample_witness :
    samplerAfterFirstSend.connection_state_map_.GetEntry 1 = some firstSendSnapshot ∧
    firstSendSnapshot.last_acked_packet_ack_time = some 10 ∧ (5 : Int) ≤ 10 ∧
    (samplerAfterFirstSend.OnPacketAcknowledged DataSize.div 5 1).1 =
      { bandwidth := DataRate.finite 0, rtt := 0, is_app_limited := false } :=
  ⟨by decide, by decide, by decide,
    (ack_time_regression_zero_sample DataSize.div samplerAfterFirstSend 5 1 firstSendSnapshot 10
      (by decide) (by decide) (by decide)).1⟩

namespace BandwidthSampler

theorem valid_of_calls (div : Int → Int → DataRate) (cs : List SamplerCall) (s : BandwidthSampler)
    (hs : BandwidthSampler.new.calls div cs = some s) : s.connection_state_map_.Valid := by
  obtain ⟨s', h', hv'⟩ := calls_valid div cs BandwidthSampler.new PacketNumberIndexedQueue.valid_new
  rw [hs] at h'
  cases h'
  exact hv'

theorem last_sent_packet_call (div : Int → Int → DataRate) (s s' : BandwidthSampler)
    (c : SamplerCall) (h : s.call div c = some s') :
    s'.last_sent_packet_ = SamplerCall.lastSent s.last_sent_packet_ [c] := by
  cases c with
  | sent t n size in_flight =>
    simp only [call, Option.some.injEq] at h
    subst h
    simp only [SamplerCall.lastSent, OnPacketSent, beforeEmplace]
    split_ifs <;> rfl
  | acknowledged t n =>
    simp only [call, Option.some.injEq] at h
    subst h
    cases hg : s.connection_state_map_.GetEntry n with
    | none => rw [OnPacketAcknowledged_of_none div s t n hg]; rfl
    | some d => rw [OnPacketAcknowledged_of_some div s t n d hg]; rfl
  | lost n =>
    simp only [call, Option.some.injEq] at h
    subst h
    rfl
  | appLimited =>
    simp only [call, Option.some.injEq] at h
    subst h
    rfl
  | removeObsolete k =>
    simp only [call, RemoveObsoletePackets] at h
    cases hl : removeObsoleteLoop k s.connection_state_map_.number_of_present_entries
        s.connection_state_map_ with
    | none => rw [hl] at h; cases h
    | some q =>
      rw [hl] at h
      simp only [Option.some.injEq] at h
      subst h
      rfl

theorem lastSent_cons (last : Int) (c : SamplerCall) (cs : List SamplerCall) :
    SamplerCall.lastSent last (c :: cs) = SamplerCall.lastSent (SamplerCall.lastSent last [c]) cs := by
  cases c <;> rfl

theorem last_sent_packet_calls (div : Int → Int → DataRate) (cs : List SamplerCall) :
    ∀ (s s' : BandwidthSampler), s.calls div cs = some s' →
      s'.last_sent_packet_ = SamplerCall.lastSent s.last_sent_packet_ cs := by
  induction cs with
  | nil =>
    intro s s' h
    simp only [calls, Option.some.injEq] at h
    subst h
    rfl
  | cons c cs ih =>
    intro s s' h
    simp only [calls] at h
    cases hc : s.call div c with
    | none => rw [hc] at h; cases h
    | some s1 =>
      rw [hc] at h
      rw [ih s1 s' h, last_sent_packet_call div s s1 c hc, ← lastSent_cons]

/-- An acknowledgement of a tracked packet changes the app-limited flag only by
clearing it for a packet past the end of the app-limited phase; the end of the
phase is kept. -/
theorem is_app_limited_OnPacketAcknowledged (div : Int → Int → DataRate) (s : BandwidthSampler)
    (t n : Int) (d : ConnectionStateOnSentPacket)
    (hd : s.connection_state_map_.GetEntry n = some d) :
    (s.OnPacketAcknowledged div t n).2.is_app_limited_ =
        (if s.is_app_limited_ && decide (n > s.end_of_app_limited_phase_) then false
          else s.is_app_limited_) ∧
      (s.OnPacketAcknowledged div t n).2.end_of_app_limited_phase_ =
        s.end_of_app_limited_phase_ := by
  rw [OnPacketAcknowledged_of_some div s t n d hd]
  exact ⟨rfl, rfl⟩

theorem sample_is_app_limited (div : Int → Int → DataRate) (total t : Int)
    (d : ConnectionStateOnSentPacket) :
    sample div total t d = BandwidthSample.new ∨
      (sample div total t d).is_app_limited = d.is_app_limited := by
  unfold sample
  cases d.last_acked_packet_sent_time with
  | none => left; rfl
  | some last_sent =>
    cases d.last_acked_packet_ack_time with
    | none => left; rfl
    | some last_ack =>
      dsimp only
      split_ifs
      · left; rfl
      · right; rfl

theorem beforeEmplace_is_app_limited (s : BandwidthSampler) (t n size in_flight : Int) :
    (s.beforeEmplace t n size in_flight).is_app_limited_ = s.is_app_limited_ := by
  unfold beforeEmplace; split_ifs <;> rfl

end BandwidthSampler

/-- C11, as stated, fails for a packet that is sent while the flag is true but
is not recorded: packet 1 is sent at time 10 while the flag is false, the
connection becomes app-limited, and the number 1 is sent again at time 20,
which the map rejects as out of order. The acknowledgement of 1 at time 30
produces a valid sample (bandwidth 400 Mbps, rtt 20) from the first snapshot,
with `is_app_limited = false`. -/
theorem app_limited_phase_counterexample :
    samplerAfterFirstSend.OnAppLimited.is_app_limited = true ∧
    samplerAfterFirstSend.OnAppLimited.OnPacketSent_success 20 1 1000 1000 = false ∧
    (samplerAfterRejectedSend.OnPacketAcknowledged DataSize.div 30 1).1 =
      { bandwidth := DataRate.finite 400000000, rtt := 20, is_app_limited := false } ∧
    (samplerAfterRejectedSend.OnPacketAcknowledged DataSize.div 30 1).1.is_app_limited ≠ true := by
  decide

/-- C11, amended: on a sampler reached from the constructed one by the calls
`before`, after `OnAppLimited()` the flag `is_app_limited` is true and
`end_of_app_limited_phase` is the number of the last packet sent (0 when none
was); while the flag is true, the acknowledgement of a tracked packet numbered
`≤ end_of_app_limited_phase` keeps it and that of a tracked packet numbered
`> end_of_app_limited_phase` clears it; and a packet that is sent while the
flag is true, is recorded, and whose number is not sent again before its
acknowledgement, yields the zero sample or a sample with
`is_app_limited = true`. -/
theorem app_limited_phase (div : Int → Int → DataRate) (before : List SamplerCall)
    (s : BandwidthSampler) (hs : BandwidthSampler.new.calls div before = some s) :
    (s.OnAppLimited.is_app_limited = true ∧
      s.OnAppLimited.end_of_app_limited_phase = SamplerCall.lastSent 0 before) ∧
    (∀ (ack_time n : Int) (d : ConnectionStateOnSentPacket), s.is_app_limited = true →
      s.connection_state_map_.GetEntry n = some d → n ≤ s.end_of_app_limited_phase →
      (s.OnPacketAcknowledged div ack_time n).2.is_app_limited = true ∧
      (s.OnPacketAcknowledged div ack_time n).2.end_of_app_limited_phase =
        s.end_of_app_limited_phase) ∧
    (∀ (ack_time n : Int) (d : ConnectionStateOnSentPacket), s.is_app_limited = true →
      s.connection_state_map_.GetEntry n = some d → n > s.end_of_app_limited_phase →
      (s.OnPacketAcknowledged div ack_time n).2.is_app_limited = false) ∧
    (∀ (t n size in_flight : Int) (later : List SamplerCall) (s2 : BandwidthSampler)
      (ack_time : Int), s.is_app_limited = true →
      s.OnPacketSent_success t n size in_flight = true →
      (∀ c ∈ later, c.sends n = false) →
      (s.OnPacketSent t n size in_flight).calls div later = some s2 →
      (s2.OnPacketAcknowledged div ack_time n).1 = BandwidthSample.new ∨
        (s2.OnPacketAcknowledged div ack_time n).1.is_app_limited = true) := by
  have hv := BandwidthSampler.valid_of_calls div before s hs
  refine ⟨⟨rfl, ?_⟩, ?_, ?_, ?_⟩
  · have := BandwidthSampler.last_sent_packet_calls div before _ s hs
    simpa [BandwidthSampler.OnAppLimited, BandwidthSampler.end_of_app_limited_phase,
      BandwidthSampler.new] using this
  · intro ack_time n d hflag hd hn
    obtain ⟨h1, h2⟩ := BandwidthSampler.is_app_limited_OnPacketAcknowledged div s ack_time n d hd
    simp only [BandwidthSampler.is_app_limited, BandwidthSampler.end_of_app_limited_phase] at *
    refine ⟨?_, h2⟩
    rw [h1, hflag]
    simp
    omega
  · intro ack_time n d hflag hd hn
    obtain ⟨h1, -⟩ := BandwidthSampler.is_app_limited_OnPacketAcknowledged div s ack_time n d hd
    simp only [BandwidthSampler.is_app_limited, BandwidthSampler.end_of_app_limited_phase] at *
    rw [h1, hflag]
    simp
    omega
  · intro t n size in_flight later s2 ack_time hflag hrec hlater hs2
    have hv1 := BandwidthSampler.valid_OnPacketSent s t n size in_flight hv
    have hsnap := BandwidthSampler.GetEntry_OnPacketSent_self s t n size in_flight hv hrec
    cases hget : s2.connection_state_map_.GetEntry n with
    | none =>
      left
      rw [BandwidthSampler.OnPacketAcknowledged_of_none div s2 ack_time n hget]
    | some d =>
      have hd := BandwidthSampler.calls_GetEntry_mono div later n _ s2 hv1 hs2 hlater d hget
      rw [hsnap] at hd
      have hd' := (Option.some.inj hd).symm
      rw [BandwidthSampler.OnPacketAcknowledged_of_some div s2 ack_time n d hget]
      rcases BandwidthSampler.sample_is_app_limited div (s2.total_data_acked_ + d.size) ack_time d
        with h | h
      · left; exact h
      · right
        dsimp only
        rw [h, hd']
        simp only [ConnectionStateOnSentPacket.snapshot,
          BandwidthSampler.beforeEmplace_is_app_limited]
        exact hflag

/-- Witness of C11 (amended): after `samplerAfterFirstSend` becomes app-limited,
packet 2 is sent and acknowledged at time 110. -/
theorem app_limited_phase_witness :
    BandwidthSampler.new.calls DataSize.div [.sent 10 1 1000 0, .appLimited] =
      some samplerAfterFirstSend.OnAppLimited ∧
    samplerAfterFirstSend.OnAppLimited.is_app_limited = true ∧
    samplerAfterFirstSend.OnAppLimited.OnPacketSent_success 20 2 1000 1000 = true ∧
    ((samplerAfterFirstSend.OnAppLimited.OnPacketSent 20 2 1000 1000).OnPacketAcknowledged
        DataSize.div 110 2).1.is_app_limited = true :=
  ⟨by decide, by decide, by decide,
    ((app_limited_phase DataSize.div [.sent 10 1 1000 0, .appLimited]
      samplerAfterFirstSend.OnAppLimited (by decide)).2.2.2 20 2 1000 1000 []
      (samplerAfterFirstSend.OnAppLimited.OnPacketSent 20 2 1000 1000) 110 (by decide) (by decide)
      (by decide) (by decide)).resolve_left (by decide)⟩

namespace BandwidthSampler

/-- The loop of `RemoveObsoletePackets` keeps every property that is kept by
the removal of a first packet below `least_unacked`. -/
theorem removeObsoleteLoop_first_spec
    (P : PacketNumberIndexedQueue ConnectionStateOnSentPacket → Prop) (least_unacked : Int)
    (hP : ∀ q : PacketNumberIndexedQueue ConnectionStateOnSentPacket, q.Valid →
      q.IsEmpty = false → q.first_packet < least_unacked → P q → P (q.Remove q.first_packet).1) :
    ∀ (fuel : Nat) (q : PacketNumberIndexedQueue ConnectionStateOnSentPacket),
      q.Valid → P q → q.number_of_present_entries = fuel →
      ∃ q', removeObsoleteLoop least_unacked fuel q = some q' ∧ q'.Valid ∧ P q' ∧
        (q'.IsEmpty = true ∨ least_unacked ≤ q'.first_packet) := by
  intro fuel
  induction fuel with
  | zero =>
    intro q hv hp hfuel
    have he : q.IsEmpty = true := by
      simpa [PacketNumberIndexedQueue.IsEmpty,
        PacketNumberIndexedQueue.number_of_present_entries] using hfuel
    exact ⟨q, by simp [removeObsoleteLoop, he], hv, hp, Or.inl he⟩
  | succ fuel ih =>
    intro q hv hp hfuel
    unfold removeObsoleteLoop
    by_cases hc : (!q.IsEmpty && decide (q.first_packet < least_unacked)) = true
    · rw [if_pos hc]
      have hne : q.IsEmpty = false := by
        cases h : q.IsEmpty <;> simp [h] at hc ⊢
      have hlt : q.first_packet < least_unacked := by
        simp [hne] at hc
        exact hc
      have hsome := hv.GetEntry_first_isSome hne
      have hrem : (q.Remove q.first_packet).2 = true := by
        rw [PacketNumberIndexedQueue.Remove_snd]; exact hsome
      have hcount := hv.Remove_count q.first_packet hrem
      exact ih (q.Remove q.first_packet).1 (hv.remove _) (hP q hv hne hlt hp) (by omega)
    · rw [if_neg hc]
      refine ⟨q, rfl, hv, hp, ?_⟩
      cases h : q.IsEmpty with
      | true => exact Or.inl rfl
      | false =>
        right
        simp [h] at hc
        exact hc

end BandwidthSampler

/-- C12: for every sampler reached from the constructed one and every
`least_unacked`, `RemoveObsoletePackets(least_unacked)` returns; afterwards no
packet below `least_unacked` is tracked, every packet number from
`least_unacked` on has the snapshot it had (or none, as before), and nothing
but the map has changed: `total_data_sent`, `total_data_acked`, the app-limited
flag and every other field are as before. -/
theorem remove_obsolete_packets_spec (div : Int → Int → DataRate) (cs : List SamplerCall)
    (s : BandwidthSampler) (hs : BandwidthSampler.new.calls div cs = some s)
    (least_unacked : Int) :
    ∃ s', s.RemoveObsoletePackets least_unacked = some s' ∧
      (∀ m, m < least_unacked → s'.connection_state_map_.GetEntry m = none) ∧
      (∀ m, least_unacked ≤ m →
        s'.connection_state_map_.GetEntry m = s.connection_state_map_.GetEntry m) ∧
      s'.total_data_sent_ = s.total_data_sent_ ∧
      s'.total_data_acked = s.total_data_acked ∧
      s'.is_app_limited = s.is_app_limited ∧
      s' = { s with connection_state_map_ := s'.connection_state_map_ } := by
  have hv := BandwidthSampler.valid_of_calls div cs s hs
  obtain ⟨q', hq, hv', hp, hcond⟩ := BandwidthSampler.removeObsoleteLoop_first_spec
    (fun q => ∀ m, least_unacked ≤ m → q.GetEntry m = s.connection_state_map_.GetEntry m)
    least_unacked
    (by
      intro q _ _ hlt hq m hm
      rw [PacketNumberIndexedQueue.GetEntry_Remove, if_neg (by omega)]
      exact hq m hm)
    _ s.connection_state_map_ hv (fun _ _ => rfl) rfl
  refine ⟨{ s with connection_state_map_ := q' }, by simp [BandwidthSampler.RemoveObsoletePackets, hq],
    ?_, hp, rfl, rfl, rfl, rfl⟩
  intro m hm
  dsimp only
  rcases hcond with he | hfirst
  · rw [PacketNumberIndexedQueue.GetEntry_eq_slotData]
    simp only [PacketNumberIndexedQueue.slot, hv'.entries_nil_of_isEmpty he]
    split_ifs <;> simp [PacketNumberIndexedQueue.slotData]
  · exact PacketNumberIndexedQueue.GetEntry_none_of_lt_first _ m (by omega)

/-- Witness of C12: packets 1, 2 and 3 are sent and the packets below 3 are
removed. -/
theorem remove_obsolete_packets_spec_witness :
    BandwidthSampler.new.calls DataSize.div threeSendsCalls = some samplerAfterThreeSends ∧
    ∃ s', samplerAfterThreeSends.RemoveObsoletePackets 3 = some s' ∧
      (∀ m, m < 3 → s'.connection_state_map_.GetEntry m = none) ∧
      (∀ m, 3 ≤ m →
        s'.connection_state_map_.GetEntry m =
          samplerAfterThreeSends.connection_state_map_.GetEntry m) ∧
      s'.total_data_sent_ = samplerAfterThreeSends.total_data_sent_ ∧
      s'.total_data_acked = samplerAfterThreeSends.total_data_acked ∧
      s'.is_app_limited = samplerAfterThreeSends.is_app_limited ∧
      s' = { samplerAfterThreeSends with connection_state_map_ := s'.connection_state_map_ } :=
  ⟨by decide,
    remove_obsolete_packets_spec DataSize.div threeSendsCalls samplerAfterThreeSends (by decide) 3⟩

/-! ## Round-trip statistics (`rtt_stats.cc`) -/

theorem TimeDelta.le_iff_le (a b : TimeDelta) : a ≤ b ↔ TimeDelta.le a b = true := Iff.rfl

theorem TimeDelta.lt_iff_le (a b : TimeDelta) :
    a < b ↔ TimeDelta.le a b = true ∧ TimeDelta.le b a = false := by
  rw [lt_iff_le_not_le, TimeDelta.le_iff_le, TimeDelta.le_iff_le]
  simp

theorem TimeDelta.sub_eq (a b : TimeDelta) : a - b = TimeDelta.sub a b := rfl

theorem TimeDelta.add_eq (a b : TimeDelta) : a + b = TimeDelta.add a b := rfl

namespace RttStats

theorem ignored_false {send_delta : TimeDelta} (h : ignored send_delta = false) :
    ∃ us, send_delta = TimeDelta.finite us ∧ 0 < us := by
  cases send_delta <;>
    simp [ignored, TimeDelta.IsInfinite, TimeDelta.Zero, TimeDelta.le_iff_le, TimeDelta.le] at h
  exact ⟨_, rfl, h⟩

theorem UpdateRtt_of_ignored (s : RttStats) (send_delta ack_delay : TimeDelta) (now : Int)
    (h : ignored send_delta = true) : s.UpdateRtt send_delta ack_delay now = s := by
  simp [UpdateRtt, h]

theorem UpdateRtt_latest (s : RttStats) (send_delta ack_delay : TimeDelta) (now : Int)
    (h : ignored send_delta = false) :
    (s.UpdateRtt send_delta ack_delay now).latest_rtt_ = rtt_sample send_delta ack_delay := by
  unfold UpdateRtt
  rw [h]
  split_ifs <;> first | rfl | contradiction

theorem UpdateRtt_previous (s : RttStats) (send_delta ack_delay : TimeDelta) (now : Int)
    (h : ignored send_delta = false) :
    (s.UpdateRtt send_delta ack_delay now).previous_srtt_ = s.smoothed_rtt_ := by
  unfold UpdateRtt
  rw [h]
  split_ifs <;> first | rfl | contradiction

theorem UpdateRtt_min (s : RttStats) (send_delta ack_delay : TimeDelta) (now : Int)
    (h : ignored send_delta = false) :
    (s.UpdateRtt send_delta ack_delay now).min_rtt_ =
      if s.min_rtt_.IsZero || decide (s.min_rtt_ > send_delta) then send_delta
      else s.min_rtt_ := by
  unfold UpdateRtt
  rw [h]
  split_ifs <;> first | rfl | contradiction

theorem UpdateRtt_first (s : RttStats) (send_delta ack_delay : TimeDelta) (now : Int)
    (h : ignored send_delta = false) (hz : s.smoothed_rtt_.IsZero = true) :
    (s.UpdateRtt send_delta ack_delay now).smoothed_rtt_ = rtt_sample send_delta ack_delay ∧
    (s.UpdateRtt send_delta ack_delay now).mean_deviation_ =
      (rtt_sample send_delta ack_delay).divInt 2 := by
  unfold UpdateRtt
  rw [h, hz]
  exact ⟨rfl, rfl⟩

theorem UpdateRtt_later (s : RttStats) (send_delta ack_delay : TimeDelta) (now : Int)
    (h : ignored send_delta = false) (hz : s.smoothed_rtt_.IsZero = false) :
    (s.UpdateRtt send_delta ack_delay now).smoothed_rtt_ =
      TimeDelta.scale kOneMinusAlpha s.smoothed_rtt_ +
        TimeDelta.scale kAlpha (rtt_sample send_delta ack_delay) ∧
    (s.UpdateRtt send_delta ack_delay now).mean_deviation_ =
      TimeDelta.scale kOneMinusBeta s.mean_deviation_ +
        TimeDelta.scale kBeta (s.smoothed_rtt_ - rtt_sample send_delta ack_delay).Abs := by
  unfold UpdateRtt
  rw [h, hz]
  exact ⟨rfl, rfl⟩

theorem rtt_sample_finite (a b : Int) :
    rtt_sample (TimeDelta.finite a) (TimeDelta.finite b) =
      if b < a then TimeDelta.finite (a - b) else TimeDelta.finite a := by
  unfold rtt_sample
  by_cases h : b < a
  · rw [if_pos h, if_pos]
    · rfl
    · rw [gt_iff_lt, TimeDelta.lt_iff_le]
      simp [TimeDelta.le]
      omega
  · rw [if_neg h, if_neg]
    rw [gt_iff_lt, TimeDelta.lt_iff_le]
    simp [TimeDelta.le]
    omega

theorem rtt_sample_minusInfinity (a : Int) :
    rtt_sample (TimeDelta.finite a) TimeDelta.minusInfinity = TimeDelta.plusInfinity := by
  unfold rtt_sample
  rw [if_pos]
  · rfl
  · rw [gt_iff_lt, TimeDelta.lt_iff_le]
    simp [TimeDelta.le]

theorem rtt_sample_plusInfinity (a : Int) :
    rtt_sample (TimeDelta.finite a) TimeDelta.plusInfinity = TimeDelta.finite a := by
  unfold rtt_sample
  rw [if_neg]
  rw [gt_iff_lt, TimeDelta.lt_iff_le]
  simp [TimeDelta.le]

theorem rtt_sample_pos {send_delta : TimeDelta} (ack_delay : TimeDelta)
    (h : ignored send_delta = false) : TimeDelta.Zero < rtt_sample send_delta ack_delay := by
  obtain ⟨us, rfl, hus⟩ := ignored_false h
  cases ack_delay with
  | minusInfinity =>
    rw [rtt_sample_minusInfinity, TimeDelta.lt_iff_le]
    simp [TimeDelta.le, TimeDelta.Zero]
  | finite b =>
    rw [rtt_sample_finite, TimeDelta.lt_iff_le]
    split_ifs <;> simp [TimeDelta.le, TimeDelta.Zero] <;> omega
  | plusInfinity =>
    rw [rtt_sample_plusInfinity, TimeDelta.lt_iff_le]
    simp [TimeDelta.le, TimeDelta.Zero]
    omega

theorem rtt_sample_ge {send_delta : TimeDelta} (ack_delay : TimeDelta)
    (h : ignored send_delta = false)
    (hd : ack_delay ≤ TimeDelta.Zero ∨ send_delta ≤ ack_delay) :
    send_delta ≤ rtt_sample send_delta ack_delay := by
  obtain ⟨us, rfl, hus⟩ := ignored_false h
  cases ack_delay with
  | minusInfinity =>
    rw [rtt_sample_minusInfinity, TimeDelta.le_iff_le]
    simp [TimeDelta.le]
  | finite b =>
    rw [rtt_sample_finite, TimeDelta.le_iff_le]
    simp only [TimeDelta.le_iff_le, TimeDelta.le, TimeDelta.Zero, decide_eq_true_eq] at hd
    split_ifs
    · simp [TimeDelta.le]
      omega
    · simp [TimeDelta.le]
  | plusInfinity =>
    rw [rtt_sample_plusInfinity]

theorem smoothed_pos {smoothed sample : TimeDelta} (hs : TimeDelta.Zero < smoothed)
    (hr : TimeDelta.Zero < sample) :
    TimeDelta.Zero <
      TimeDelta.scale kOneMinusAlpha smoothed + TimeDelta.scale kAlpha sample := by
  cases smoothed <;> cases sample <;>
    simp [TimeDelta.lt_iff_le, TimeDelta.le, TimeDelta.Zero, TimeDelta.add_eq, TimeDelta.add,
      TimeDelta.scale, kOneMinusAlpha, kAlpha, Double.lt, Double.ofInt, Double.sub,
      Double.round, roundDiv] at hs hr ⊢
  split_ifs <;> omega

theorem tracks_new : RttStats.new.Tracks none := ⟨rfl, rfl⟩

theorem Tracks.isZero_iff {s : RttStats} {last : Option (TimeDelta × TimeDelta)}
    (h : s.Tracks last) : s.smoothed_rtt_.IsZero = true ↔ last = none := by
  cases last with
  | none => simp [h.1, TimeDelta.IsZero, TimeDelta.Zero]
  | some p =>
    obtain ⟨sd, ad⟩ := p
    have hpos := h.2.2.2
    rw [TimeDelta.lt_iff_le] at hpos
    cases hs : s.smoothed_rtt_ <;>
      simp_all [TimeDelta.IsZero, TimeDelta.Zero, TimeDelta.le]
    omega

theorem Tracks.update_rtt {s : RttStats} {last : Option (TimeDelta × TimeDelta)}
    (h : s.Tracks last) (send_delta ack_delay : TimeDelta) (now : Int) :
    (s.UpdateRtt send_delta ack_delay now).Tracks
      (if ignored send_delta then last else some (send_delta, ack_delay)) := by
  by_cases hi : ignored send_delta = true
  · rw [UpdateRtt_of_ignored _ _ _ _ hi, if_pos hi]
    exact h
  · have hi : ignored send_delta = false := by simpa using hi
    rw [if_neg (by simp [hi])]
    refine ⟨hi, UpdateRtt_latest _ _ _ _ hi, ?_, ?_⟩
    · rw [UpdateRtt_min _ _ _ _ hi]
      split_ifs with hc
      · exact le_refl _
      · simp only [Bool.or_eq_true, decide_eq_true_eq, not_or, gt_iff_lt, not_lt] at hc
        exact hc.2
    · by_cases hz : s.smoothed_rtt_.IsZero = true
      · rw [(UpdateRtt_first _ _ ack_delay now hi hz).1]
        exact rtt_sample_pos ack_delay hi
      · have hz' : s.smoothed_rtt_.IsZero = false := by simpa using hz
        rw [(UpdateRtt_later _ _ ack_delay now hi hz').1]
        refine smoothed_pos ?_ (rtt_sample_pos ack_delay hi)
        cases last with
        | none => exact absurd (h.isZero_iff.2 rfl) hz
        | some p => exact h.2.2.2

theorem Tracks.expire_metrics {s : RttStats} {last : Option (TimeDelta × TimeDelta)}
    (h : s.Tracks last) : s.ExpireSmoothedMetrics.Tracks last := by
  cases last with
  | none =>
    refine ⟨?_, h.2⟩
    show max s.smoothed_rtt_ s.latest_rtt_ = TimeDelta.Zero
    rw [h.1, h.2, max_self]
  | some p =>
    exact ⟨h.1, h.2.1, h.2.2.1, lt_max_of_lt_left h.2.2.2⟩

theorem Tracks.set_initial {s : RttStats} {last : Option (TimeDelta × TimeDelta)}
    (h : s.Tracks last) (initial_rtt_us : Int) :
    (s.set_initial_rtt_us initial_rtt_us).Tracks last := by
  unfold set_initial_rtt_us
  split_ifs
  · exact h
  · cases last with
    | none => exact h
    | some p => exact h

theorem tracks_migrate (s : RttStats) : s.OnConnectionMigration.Tracks none := ⟨rfl, rfl⟩

theorem Tracks.rtt_calls (cs : List RttCall) :
    ∀ (s : RttStats) (last : Option (TimeDelta × TimeDelta)), s.Tracks last →
      (s.calls cs).Tracks (lastAccepted last cs) := by
  induction cs with
  | nil => intro s last h; exact h
  | cons c cs ih =>
    intro s last h
    cases c with
    | update send_delta ack_delay now => exact ih _ _ (h.update_rtt send_delta ack_delay now)
    | expire => exact ih _ _ h.expire_metrics
    | setInitial initial_rtt_us => exact ih _ _ (h.set_initial initial_rtt_us)
    | migrate => exact ih _ _ (tracks_migrate s)

end RttStats

/-- Counterexample to C13 as stated: after the single accepted sample of 100 µs
with an acknowledgement delay of 10 µs, `min_rtt()` is the uncorrected 100 µs
and `latest_rtt()` the corrected 90 µs, so `min_rtt() <= latest_rtt()` fails. -/
theorem rtt_min_le_latest_counterexample :
    RttStats.lastAccepted none rttDelayedCalls = some (.finite 100, .finite 10) ∧
    (RttStats.new.calls rttDelayedCalls).min_rtt = .finite 100 ∧
    (RttStats.new.calls rttDelayedCalls).latest_rtt = .finite 90 ∧
    ¬ (RttStats.new.calls rttDelayedCalls).min_rtt ≤
      (RttStats.new.calls rttDelayedCalls).latest_rtt := by
  decide

/-- C13, amended: after any sequence of calls on a new `RttStats` in which a
sample was accepted since construction or the last `OnConnectionMigration`,
with `send_delta` and `ack_delay` those of the last accepted `UpdateRtt`:
`latest_rtt()` is the corrected sample, `min_rtt() <= send_delta`, and
`min_rtt() <= latest_rtt()` when `ack_delay <= 0` or `send_delta <= ack_delay`,
that is, when the correction does not lower the sample. -/
theorem rtt_min_le_latest (cs : List RttCall) (send_delta ack_delay : TimeDelta)
    (h : RttStats.lastAccepted none cs = some (send_delta, ack_delay)) :
    (RttStats.new.calls cs).latest_rtt = RttStats.rtt_sample send_delta ack_delay ∧
    (RttStats.new.calls cs).min_rtt ≤ send_delta ∧
    (ack_delay ≤ TimeDelta.Zero ∨ send_delta ≤ ack_delay →
      (RttStats.new.calls cs).min_rtt ≤ (RttStats.new.calls cs).latest_rtt) := by
  have ht := RttStats.Tracks.rtt_calls cs _ _ RttStats.tracks_new
  rw [h] at ht
  obtain ⟨hi, hl, hm, _⟩ := ht
  refine ⟨hl, hm, fun hd => ?_⟩
  show (RttStats.new.calls cs).min_rtt_ ≤ (RttStats.new.calls cs).latest_rtt_
  rw [hl]
  exact le_trans hm (RttStats.rtt_sample_ge ack_delay hi hd)

/-- Witness of C13: samples of 100 µs and 80 µs without acknowledgement delay,
and an ignored sample between them. -/
theorem rtt_min_le_latest_witness :
    RttStats.lastAccepted none rttPlainCalls = some (.finite 80, .finite 0) ∧
    (RttStats.new.calls rttPlainCalls).latest_rtt =
      RttStats.rtt_sample (.finite 80) (.finite 0) ∧
    (RttStats.new.calls rttPlainCalls).min_rtt ≤ .finite 80 ∧
    (TimeDelta.finite 0 ≤ TimeDelta.Zero ∨ TimeDelta.finite 80 ≤ TimeDelta.finite 0 →
      (RttStats.new.calls rttPlainCalls).min_rtt ≤ (RttStats.new.calls rttPlainCalls).latest_rtt) :=
  ⟨by decide, rtt_min_le_latest rttPlainCalls (.finite 80) (.finite 0) (by decide)⟩

/-- C14: `UpdateRtt` with a `send_delta` that is infinite, zero or negative
changes nothing: `latest_rtt`, `min_rtt`, `smoothed_rtt`, `previous_srtt` and
`mean_deviation` are as before, and so is the whole state. -/
theorem update_rtt_rejects_invalid (s : RttStats) (send_delta ack_delay : TimeDelta) (now : Int)
    (h : send_delta.IsInfinite = true ∨ send_delta ≤ TimeDelta.Zero) :
    (s.UpdateRtt send_delta ack_delay now).latest_rtt = s.latest_rtt ∧
    (s.UpdateRtt send_delta ack_delay now).min_rtt = s.min_rtt ∧
    (s.UpdateRtt send_delta ack_delay now).smoothed_rtt = s.smoothed_rtt ∧
    (s.UpdateRtt send_delta ack_delay now).previous_srtt = s.previous_srtt ∧
    (s.UpdateRtt send_delta ack_delay now).mean_deviation = s.mean_deviation ∧
    s.UpdateRtt send_delta ack_delay now = s := by
  have hi : RttStats.ignored send_delta = true := by
    simpa [RttStats.ignored] using h
  rw [RttStats.UpdateRtt_of_ignored _ _ _ _ hi]
  exact ⟨rfl, rfl, rfl, rfl, rfl, rfl⟩

/-- Witness of C14: a `send_delta` of -5 µs after a first sample of 100 µs. -/
theorem update_rtt_rejects_invalid_witness :
    ((TimeDelta.finite (-5)).IsInfinite = true ∨ TimeDelta.finite (-5) ≤ TimeDelta.Zero) ∧
    (rttAfterSample.UpdateRtt (.finite (-5)) (.finite 0) 1).latest_rtt =
      rttAfterSample.latest_rtt ∧
    (rttAfterSample.UpdateRtt (.finite (-5)) (.finite 0) 1).min_rtt = rttAfterSample.min_rtt ∧
    (rttAfterSample.UpdateRtt (.finite (-5)) (.finite 0) 1).smoothed_rtt =
      rttAfterSample.smoothed_rtt ∧
    (rttAfterSample.UpdateRtt (.finite (-5)) (.finite 0) 1).previous_srtt =
      rttAfterSample.previous_srtt ∧
    (rttAfterSample.UpdateRtt (.finite (-5)) (.finite 0) 1).mean_deviation =
      rttAfterSample.mean_deviation ∧
    rttAfterSample.UpdateRtt (.finite (-5)) (.finite 0) 1 = rttAfterSample :=
  ⟨by decide,
    update_rtt_rejects_invalid rttAfterSample (.finite (-5)) (.finite 0) 1 (by decide)⟩

/-- C15: for `UpdateRtt` with a valid `send_delta` after any sequence of calls
on a new `RttStats`: `rtt_sample` is `send_delta - ack_delay` when
`send_delta > ack_delay` and `send_delta` otherwise; `latest_rtt` becomes
`rtt_sample` and `previous_srtt` the old `smoothed_rtt`; on the first valid
sample since construction or the last migration `smoothed_rtt = rtt_sample` and
`mean_deviation = rtt_sample / 2`; on a later one `mean_deviation` is
`3/4 * mean_deviation + 1/4 * |smoothed_rtt - rtt_sample|` with the old
`smoothed_rtt`, and `smoothed_rtt` is `7/8 * smoothed_rtt + 1/8 * rtt_sample`,
each product rounded to the microsecond. -/
theorem update_rtt_formulas (cs : List RttCall) (send_delta ack_delay : TimeDelta) (now : Int)
    (hvalid : ¬ (send_delta.IsInfinite = true ∨ send_delta ≤ TimeDelta.Zero)) :
    RttStats.rtt_sample send_delta ack_delay =
      (if send_delta > ack_delay then send_delta - ack_delay else send_delta) ∧
    ((RttStats.new.calls cs).UpdateRtt send_delta ack_delay now).latest_rtt =
      RttStats.rtt_sample send_delta ack_delay ∧
    ((RttStats.new.calls cs).UpdateRtt send_delta ack_delay now).previous_srtt =
      (RttStats.new.calls cs).smoothed_rtt ∧
    (RttStats.lastAccepted none cs = none →
      ((RttStats.new.calls cs).UpdateRtt send_delta ack_delay now).smoothed_rtt =
        RttStats.rtt_sample send_delta ack_delay ∧
      ((RttStats.new.calls cs).UpdateRtt send_delta ack_delay now).mean_deviation =
        (RttStats.rtt_sample send_delta ack_delay).divInt 2) ∧
    (RttStats.lastAccepted none cs ≠ none →
      ((RttStats.new.calls cs).UpdateRtt send_delta ack_delay now).mean_deviation =
        TimeDelta.scale ⟨3, 4⟩ (RttStats.new.calls cs).mean_deviation +
          TimeDelta.scale ⟨1, 4⟩
            ((RttStats.new.calls cs).smoothed_rtt -
              RttStats.rtt_sample send_delta ack_delay).Abs ∧
      ((RttStats.new.calls cs).UpdateRtt send_delta ack_delay now).smoothed_rtt =
        TimeDelta.scale ⟨7, 8⟩ (RttStats.new.calls cs).smoothed_rtt +
          TimeDelta.scale ⟨1, 8⟩ (RttStats.rtt_sample send_delta ack_delay)) := by
  have hi : RttStats.ignored send_delta = false := by
    simpa [RttStats.ignored] using hvalid
  have ht := RttStats.Tracks.rtt_calls cs _ _ RttStats.tracks_new
  refine ⟨rfl, RttStats.UpdateRtt_latest _ _ _ _ hi, RttStats.UpdateRtt_previous _ _ _ _ hi,
    fun hn => ?_, fun hn => ?_⟩
  · exact RttStats.UpdateRtt_first _ _ _ _ hi (ht.isZero_iff.2 hn)
  · have hz : (RttStats.new.calls cs).smoothed_rtt_.IsZero = false := by
      cases hb : (RttStats.new.calls cs).smoothed_rtt_.IsZero
      · rfl
      · exact absurd (ht.isZero_iff.1 hb) hn
    obtain ⟨h1, h2⟩ := RttStats.UpdateRtt_later _ _ ack_delay now hi hz
    exact ⟨h2, h1⟩

/-- Witness of C15: a sample of 200 µs with an acknowledgement delay of 20 µs
after a first sample of 100 µs. -/
theorem update_rtt_formulas_witness :
    ¬ ((TimeDelta.finite 200).IsInfinite = true ∨ TimeDelta.finite 200 ≤ TimeDelta.Zero) ∧
    ((RttStats.new.calls [.update (.finite 100) (.finite 0) 0]).UpdateRtt
      (.finite 200) (.finite 20) 1).smoothed_rtt = .finite 111 ∧
    ((RttStats.new.calls [.update (.finite 100) (.finite 0) 0]).UpdateRtt
      (.finite 200) (.finite 20) 1).mean_deviation = .finite 58 ∧
    ((RttStats.new.calls [.update (.finite 100) (.finite 0) 0]).UpdateRtt
      (.finite 200) (.finite 20) 1).smoothed_rtt =
        TimeDelta.scale ⟨7, 8⟩ (RttStats.new.calls [.update (.finite 100) (.finite 0) 0]).smoothed_rtt +
          TimeDelta.scale ⟨1, 8⟩ (RttStats.rtt_sample (.finite 200) (.finite 20)) :=
  ⟨by decide, by decide, by decide,
    ((update_rtt_formulas [.update (.finite 100) (.finite 0) 0] (.finite 200) (.finite 20) 1
      (by decide)).2.2.2.2 (by decide)).2⟩

/-- C16: `OnConnectionMigration()` zeroes `latest_rtt`, `min_rtt`, `smoothed_rtt`
and `mean_deviation` and resets `initial_rtt_us` to 100000, but it leaves
`previous_srtt` as it was: after two samples of 100 µs and a migration,
`previous_srtt()` is 100 µs, not zero. -/
theorem migration_keeps_previous_srtt :
    (∀ s : RttStats,
      s.OnConnectionMigration.latest_rtt = TimeDelta.Zero ∧
      s.OnConnectionMigration.min_rtt = TimeDelta.Zero ∧
      s.OnConnectionMigration.smoothed_rtt = TimeDelta.Zero ∧
      s.OnConnectionMigration.mean_deviation = TimeDelta.Zero ∧
      s.OnConnectionMigration.initial_rtt_us = 100000 ∧
      s.OnConnectionMigration.previous_srtt = s.previous_srtt) ∧
    (RttStats.new.calls rttMigrationCalls).previous_srtt = TimeDelta.finite 100 ∧
    (RttStats.new.calls rttMigrationCalls).previous_srtt ≠ TimeDelta.Zero :=
  ⟨fun _ => ⟨rfl, rfl, rfl, rfl, rfl, rfl⟩, by decide, by decide⟩

/-! ## The controller (`bbr_network_controller.cc`) -/

namespace BbrNetworkController

theorem SameWindow.refl_window (s : BbrNetworkController) : SameWindow s s :=
  ⟨rfl, rfl, rfl, rfl, rfl⟩

theorem SameWindow.trans_window {s t u : BbrNetworkController} (h1 : SameWindow s t)
    (h2 : SameWindow t u) : SameWindow s u := by
  obtain ⟨a1, a2, a3, a4, a5⟩ := h1
  obtain ⟨b1, b2, b3, b4, b5⟩ := h2
  exact ⟨b1.trans a1, b2.trans a2, b3.trans a3, b4.trans a4, b5.trans a5⟩

theorem SameStartup.refl_startup (s : BbrNetworkController) : SameStartup s s :=
  ⟨rfl, rfl, rfl, rfl⟩

theorem SameStartup.trans_startup {s t u : BbrNetworkController} (h1 : SameStartup s t)
    (h2 : SameStartup t u) : SameStartup s u := by
  obtain ⟨a1, a2, a3, a4⟩ := h1
  obtain ⟨b1, b2, b3, b4⟩ := h2
  exact ⟨b1.trans a1, b2.trans a2, b3.trans a3, b4.trans a4⟩

theorem Frame.refl (s : BbrNetworkController) : Frame s s :=
  ⟨SameWindow.refl_window s, SameStartup.refl_startup s⟩

theorem Frame.trans {s t u : BbrNetworkController} (h1 : Frame s t) (h2 : Frame t u) :
    Frame s u :=
  ⟨h1.1.trans_window h2.1, h1.2.trans_startup h2.2⟩

theorem frame_OnSentPacket (s : BbrNetworkController) (msg : SentPacket) :
    Frame s (s.OnSentPacket msg) := Frame.refl s

theorem frame_EnterStartupMode (s : BbrNetworkController) : Frame s s.EnterStartupMode :=
  Frame.refl s

theorem frame_EnterProbeBandwidthMode (s : BbrNetworkController) (now : Timestamp) :
    Frame s (s.EnterProbeBandwidthMode now) := Frame.refl s

theorem frame_DiscardLostPackets (s : BbrNetworkController) (lost_packets : List PacketResult) :
    Frame s (s.DiscardLostPackets lost_packets) := Frame.refl s

theorem frame_beforeModel (s : BbrNetworkController) (msg : TransportPacketsFeedback)
    (last : PacketResult) : Frame s (s.beforeModel msg last) := Frame.refl s

theorem frame_UpdateRoundTripCounter (s : BbrNetworkController) (last_acked_packet : Int) :
    Frame s (s.UpdateRoundTripCounter last_acked_packet).2 := by
  unfold UpdateRoundTripCounter
  split_ifs <;> exact Frame.refl s

theorem frame_ackPacket (div : Int → Int → DataRate) (now : Int)
    (acc : TimeDelta × BbrNetworkController) (packet : PacketResult) :
    Frame acc.2 (ackPacket div now acc packet).2 := Frame.refl acc.2

theorem frame_ackPackets (div : Int → Int → DataRate) (now : Int)
    (acked_packets : List PacketResult) :
    ∀ acc : TimeDelta × BbrNetworkController,
      Frame acc.2 (acked_packets.foldl (ackPacket div now) acc).2 := by
  induction acked_packets with
  | nil => intro acc; exact Frame.refl _
  | cons packet rest ih =>
    intro acc
    exact (frame_ackPacket div now acc packet).trans (ih _)

theorem frame_updateMinRtt (s : BbrNetworkController) (now : Int) (sample_rtt : TimeDelta) :
    Frame s (s.updateMinRtt now sample_rtt).2 := by
  unfold updateMinRtt
  split_ifs <;> exact Frame.refl s

theorem frame_UpdateBandwidthAndMinRtt (div : Int → Int → DataRate) (s : BbrNetworkController)
    (now : Int) (acked_packets : List PacketResult) :
    Frame s (s.UpdateBandwidthAndMinRtt div now acked_packets).2 :=
  (frame_ackPackets div now acked_packets (TimeDelta.plusInfinity, s)).trans
    (frame_updateMinRtt _ now _)

theorem frame_exitRecovery (s : BbrNetworkController) (last_acked_packet : Int)
    (has_losses : Bool) : Frame s (s.exitRecovery last_acked_packet has_losses) := by
  unfold exitRecovery
  split_ifs <;> exact Frame.refl s

theorem frame_recoverySwitch (s : BbrNetworkController) (last_acked_packet : Int)
    (has_losses is_round_start : Bool) :
    Frame s (s.recoverySwitch last_acked_packet has_losses is_round_start) := by
  unfold recoverySwitch
  split
  · split_ifs <;> exact Frame.refl s
  · exact frame_exitRecovery s _ _
  · split_ifs
    · exact Frame.trans (Frame.refl s) (frame_exitRecovery _ _ _)
    · exact frame_exitRecovery s _ _

theorem frame_UpdateRecoveryState (s : BbrNetworkController) (last_acked_packet : Int)
    (has_losses is_round_start : Bool) :
    Frame s (s.UpdateRecoveryState last_acked_packet has_losses is_round_start) := by
  unfold UpdateRecoveryState
  split_ifs
  · exact Frame.trans (Frame.refl s) (frame_recoverySwitch _ _ _ _)
  · exact frame_recoverySwitch s _ _ _

theorem frame_UpdateAckAggregationBytes (s : BbrNetworkController) (ack_time : Int)
    (newly_acked_bytes : Int) :
    Frame s (s.UpdateAckAggregationBytes ack_time newly_acked_bytes) := by
  unfold UpdateAckAggregationBytes
  split
  · exact Frame.refl s
  · split_ifs <;> exact Frame.refl s

theorem frame_drainedBytes (s : BbrNetworkController) (msg : TransportPacketsFeedback)
    (data_acked : Int) : Frame s (s.drainedBytes msg data_acked) := by
  unfold drainedBytes
  split_ifs <;> exact Frame.refl s

theorem frame_feedModel (div : Int → Int → DataRate) (s : BbrNetworkController)
    (msg : TransportPacketsFeedback) (total_data_acked_before : Int) :
    Frame s (s.feedModel div msg total_data_acked_before).2.2 := by
  unfold feedModel
  split
  · exact Frame.refl s
  · refine Frame.trans ?_ (frame_drainedBytes _ _ _)
    refine Frame.trans ?_ (frame_UpdateAckAggregationBytes _ _ _)
    unfold afterRecovery
    refine Frame.trans ?_ (frame_UpdateRecoveryState _ _ _ _)
    unfold roundAndBandwidth
    exact (frame_UpdateRoundTripCounter s _).trans (frame_UpdateBandwidthAndMinRtt div _ _ _)

theorem frame_UpdateGainCyclePhase (s : BbrNetworkController) (now : Int)
    (prior_in_flight : Int) (has_losses : Bool) :
    Frame s (s.UpdateGainCyclePhase now prior_in_flight has_losses) := by
  unfold UpdateGainCyclePhase
  split_ifs <;> exact Frame.refl s

theorem frame_gainCycleStage (s : BbrNetworkController) (msg : TransportPacketsFeedback) :
    Frame s (s.gainCycleStage msg) := by
  unfold gainCycleStage
  split_ifs
  · exact frame_UpdateGainCyclePhase s _ _ _
  · exact Frame.refl s

theorem sameWindow_CheckIfFullBandwidthReached (s : BbrNetworkController) :
    SameWindow s s.CheckIfFullBandwidthReached := by
  unfold CheckIfFullBandwidthReached
  split_ifs <;> exact SameWindow.refl_window s

theorem sameWindow_fullBandwidthStage (s : BbrNetworkController) (is_round_start : Bool) :
    SameWindow s (s.fullBandwidthStage is_round_start) := by
  unfold fullBandwidthStage
  split_ifs
  · exact sameWindow_CheckIfFullBandwidthReached s
  · exact SameWindow.refl_window s

theorem frame_exitStartup (s : BbrNetworkController) : Frame s s.exitStartup := by
  unfold exitStartup
  split_ifs <;> exact Frame.refl s

theorem frame_MaybeExitStartupOrDrain (s : BbrNetworkController)
    (msg : TransportPacketsFeedback) : Frame s (s.MaybeExitStartupOrDrain msg) := by
  unfold MaybeExitStartupOrDrain
  split_ifs
  · exact (frame_exitStartup s).trans (frame_EnterProbeBandwidthMode _ _)
  · exact frame_exitStartup s

theorem frame_enterProbeRtt (s : BbrNetworkController) (min_rtt_expired : Bool) :
    Frame s (s.enterProbeRtt min_rtt_expired) := by
  unfold enterProbeRtt
  split_ifs <;> exact Frame.refl s

theorem frame_markProbeRttRound (s : BbrNetworkController) (is_round_start : Bool) :
    Frame s (s.markProbeRttRound is_round_start) := by
  unfold markProbeRttRound
  split_ifs <;> exact Frame.refl s

theorem frame_exitProbeRtt (s : BbrNetworkController) (feedback_time : Int) :
    Frame s (s.exitProbeRtt feedback_time) := by
  unfold exitProbeRtt
  split_ifs <;> exact Frame.refl s

theorem frame_inProbeRtt (s : BbrNetworkController) (msg : TransportPacketsFeedback)
    (is_round_start : Bool) : Frame s (s.inProbeRtt msg is_round_start) := by
  unfold inProbeRtt
  split
  · split_ifs <;> exact Frame.refl s
  · split_ifs
    · exact (frame_markProbeRttRound s _).trans (frame_exitProbeRtt _ _)
    · exact frame_markProbeRttRound s _

theorem frame_MaybeEnterOrExitProbeRtt (s : BbrNetworkController)
    (msg : TransportPacketsFeedback) (is_round_start min_rtt_expired : Bool) :
    Frame s (s.MaybeEnterOrExitProbeRtt msg is_round_start min_rtt_expired) := by
  unfold MaybeEnterOrExitProbeRtt
  split_ifs
  · refine Frame.trans ?_ (Frame.refl _)
    exact ((frame_enterProbeRtt s _).trans (Frame.refl _)).trans (frame_inProbeRtt _ _ _)
  · exact (frame_enterProbeRtt s _).trans (Frame.refl _)

theorem frame_recoveryPacingRate (s : BbrNetworkController) : Frame s s.recoveryPacingRate := by
  unfold recoveryPacingRate
  split_ifs <;> exact Frame.refl s

theorem frame_CalculatePacingRate (s : BbrNetworkController) : Frame s s.CalculatePacingRate := by
  unfold CalculatePacingRate
  split_ifs <;> first
    | exact Frame.refl s
    | exact (frame_recoveryPacingRate s).trans (Frame.refl _)

theorem frame_CalculateRecoveryWindow (s : BbrNetworkController)
    (bytes_acked bytes_lost bytes_in_flight : Int) :
    Frame s (s.CalculateRecoveryWindow bytes_acked bytes_lost bytes_in_flight) := by
  unfold CalculateRecoveryWindow
  split_ifs <;> exact Frame.refl s

end BbrNetworkController

namespace BbrNetworkController

theorem samplerValid_OnSentPacket {s : BbrNetworkController} (h : s.SamplerValid)
    (msg : SentPacket) : (s.OnSentPacket msg).SamplerValid :=
  BandwidthSampler.valid_OnPacketSent s.sampler_ _ _ _ _ h

theorem valid_lostPackets (lost_packets : List PacketResult) :
    ∀ sampler : BandwidthSampler, sampler.connection_state_map_.Valid →
      (lost_packets.foldl
        (fun sampler packet => sampler.OnPacketLost packet.sent_packet.sequence_number)
        sampler).connection_state_map_.Valid := by
  induction lost_packets with
  | nil => intro sampler h; exact h
  | cons packet rest ih =>
    intro sampler h
    exact ih _ (h.remove _)

theorem samplerValid_beforeModel {s : BbrNetworkController} (h : s.SamplerValid)
    (msg : TransportPacketsFeedback) (last : PacketResult) :
    (s.beforeModel msg last).SamplerValid :=
  valid_lostPackets _ _ h

theorem samplerValid_UpdateRoundTripCounter {s : BbrNetworkController} (h : s.SamplerValid)
    (last_acked_packet : Int) : (s.UpdateRoundTripCounter last_acked_packet).2.SamplerValid := by
  unfold UpdateRoundTripCounter
  split_ifs <;> exact h

theorem samplerValid_ackPackets (div : Int → Int → DataRate) (now : Int)
    (acked_packets : List PacketResult) :
    ∀ acc : TimeDelta × BbrNetworkController, acc.2.SamplerValid →
      (acked_packets.foldl (ackPacket div now) acc).2.SamplerValid := by
  induction acked_packets with
  | nil => intro acc h; exact h
  | cons packet rest ih =>
    intro acc h
    exact ih _ (BandwidthSampler.valid_OnPacketAcknowledged div acc.2.sampler_ _ _ h)

theorem samplerValid_updateMinRtt {s : BbrNetworkController} (h : s.SamplerValid) (now : Int)
    (sample_rtt : TimeDelta) : (s.updateMinRtt now sample_rtt).2.SamplerValid := by
  unfold updateMinRtt
  split_ifs <;> exact h

theorem samplerValid_exitRecovery {s : BbrNetworkController} (h : s.SamplerValid)
    (last_acked_packet : Int) (has_losses : Bool) :
    (s.exitRecovery last_acked_packet has_losses).SamplerValid := by
  unfold exitRecovery
  split_ifs <;> exact h

theorem samplerValid_UpdateRecoveryState {s : BbrNetworkController} (h : s.SamplerValid)
    (last_acked_packet : Int) (has_losses is_round_start : Bool) :
    (s.UpdateRecoveryState last_acked_packet has_losses is_round_start).SamplerValid := by
  unfold UpdateRecoveryState recoverySwitch
  split_ifs <;> split <;>
    first
      | exact h
      | exact samplerValid_exitRecovery (by exact h) _ _

theorem samplerValid_UpdateAckAggregationBytes {s : BbrNetworkController} (h : s.SamplerValid)
    (ack_time : Int) (newly_acked_bytes : Int) :
    (s.UpdateAckAggregationBytes ack_time newly_acked_bytes).SamplerValid := by
  unfold UpdateAckAggregationBytes
  split
  · exact h
  · split_ifs <;> exact h

theorem samplerValid_drainedBytes {s : BbrNetworkController} (h : s.SamplerValid)
    (msg : TransportPacketsFeedback) (data_acked : Int) :
    (s.drainedBytes msg data_acked).SamplerValid := by
  unfold drainedBytes
  split_ifs <;> exact h

theorem samplerValid_feedModel (div : Int → Int → DataRate) {s : BbrNetworkController}
    (h : s.SamplerValid) (msg : TransportPacketsFeedback) (total_data_acked_before : Int) :
    (s.feedModel div msg total_data_acked_before).2.2.SamplerValid := by
  unfold feedModel
  split
  · exact h
  · apply samplerValid_drainedBytes
    apply samplerValid_UpdateAckAggregationBytes
    unfold afterRecovery
    apply samplerValid_UpdateRecoveryState
    unfold roundAndBandwidth UpdateBandwidthAndMinRtt
    apply samplerValid_updateMinRtt
    apply samplerValid_ackPackets
    exact samplerValid_UpdateRoundTripCounter h _

theorem samplerValid_gainCycleStage {s : BbrNetworkController} (h : s.SamplerValid)
    (msg : TransportPacketsFeedback) : (s.gainCycleStage msg).SamplerValid := by
  unfold gainCycleStage UpdateGainCyclePhase
  split_ifs <;> exact h

theorem samplerValid_fullBandwidthStage {s : BbrNetworkController} (h : s.SamplerValid)
    (is_round_start : Bool) : (s.fullBandwidthStage is_round_start).SamplerValid := by
  unfold fullBandwidthStage CheckIfFullBandwidthReached
  split_ifs <;> exact h

theorem samplerValid_MaybeExitStartupOrDrain {s : BbrNetworkController} (h : s.SamplerValid)
    (msg : TransportPacketsFeedback) : (s.MaybeExitStartupOrDrain msg).SamplerValid := by
  have he : s.exitStartup.SamplerValid := by
    unfold exitStartup
    split_ifs <;> exact h
  unfold MaybeExitStartupOrDrain
  split_ifs <;> exact he

theorem samplerValid_inProbeRtt {s : BbrNetworkController} (h : s.SamplerValid)
    (msg : TransportPacketsFeedback) (is_round_start : Bool) :
    (s.inProbeRtt msg is_round_start).SamplerValid := by
  have hm : (s.markProbeRttRound is_round_start).SamplerValid := by
    unfold markProbeRttRound
    split_ifs <;> exact h
  unfold inProbeRtt
  split
  · split_ifs <;> exact h
  · split_ifs
    · unfold exitProbeRtt
      split_ifs <;> exact hm
    · exact hm

theorem samplerValid_MaybeEnterOrExitProbeRtt {s : BbrNetworkController} (h : s.SamplerValid)
    (msg : TransportPacketsFeedback) (is_round_start min_rtt_expired : Bool) :
    (s.MaybeEnterOrExitProbeRtt msg is_round_start min_rtt_expired).SamplerValid := by
  have he : (s.enterProbeRtt min_rtt_expired).SamplerValid := by
    unfold enterProbeRtt
    split_ifs <;> exact h
  unfold MaybeEnterOrExitProbeRtt
  split_ifs
  · exact samplerValid_inProbeRtt (s := { s.enterProbeRtt min_rtt_expired with
      sampler_ := (s.enterProbeRtt min_rtt_expired).sampler_.OnAppLimited }) he _ _
  · exact he

theorem samplerValid_updateModes {s : BbrNetworkController} (h : s.SamplerValid)
    (msg : TransportPacketsFeedback) (is_round_start min_rtt_expired : Bool) :
    (s.updateModes msg is_round_start min_rtt_expired).SamplerValid :=
  samplerValid_MaybeEnterOrExitProbeRtt
    (samplerValid_MaybeExitStartupOrDrain
      (samplerValid_fullBandwidthStage (samplerValid_gainCycleStage h msg) _) msg) _ _ _

theorem samplerValid_updateWindows {s : BbrNetworkController} (h : s.SamplerValid)
    (msg : TransportPacketsFeedback) (total_data_acked_before : Int) :
    (s.updateWindows msg total_data_acked_before).SamplerValid := by
  have hp : s.CalculatePacingRate.SamplerValid := by
    unfold CalculatePacingRate recoveryPacingRate
    split_ifs <;> exact h
  have hc : ∀ b, (s.CalculatePacingRate.CalculateCongestionWindow b).SamplerValid := by
    intro b
    unfold CalculateCongestionWindow
    split_ifs <;> exact hp
  unfold updateWindows CalculateRecoveryWindow
  split_ifs <;> exact hc _

theorem removeObsolete_returns {s : BbrNetworkController} (h : s.SamplerValid)
    (msg : TransportPacketsFeedback) :
    ∃ t, s.removeObsolete msg = some t ∧ t.SamplerValid ∧ Frame s t ∧ t.mode_ = s.mode_ := by
  unfold removeObsolete
  split
  · exact ⟨s, rfl, h, Frame.refl s, rfl⟩
  · rename_i packet _
    obtain ⟨q', hq, hv', -, -⟩ :=
      BandwidthSampler.RemoveObsoletePackets_spec (fun _ => True) (fun _ _ _ _ => trivial)
        s.sampler_ packet.sent_packet.sequence_number h trivial
    rw [hq]
    exact ⟨_, rfl, hv', Frame.refl s, rfl⟩

end BbrNetworkController

namespace BbrNetworkController

theorem WindowBounded.of_sameWindow {s t : BbrNetworkController} (h : s.WindowBounded)
    (hst : SameWindow s t) : t.WindowBounded := by
  obtain ⟨-, -, h3, h4, h5⟩ := hst
  unfold WindowBounded
  rw [h3, h4, h5]
  exact h

theorem WindowBounded.calculateCongestionWindow {s : BbrNetworkController}
    (h : s.WindowBounded) (bytes_acked : Int) :
    (s.CalculateCongestionWindow bytes_acked).WindowBounded ∧
    (s.CalculateCongestionWindow bytes_acked).config_ = s.config_ ∧
    (s.CalculateCongestionWindow bytes_acked).initial_congestion_window_ =
      s.initial_congestion_window_ ∧
    (s.CalculateCongestionWindow bytes_acked).min_congestion_window_ =
      s.min_congestion_window_ ∧
    (s.CalculateCongestionWindow bytes_acked).max_congestion_window_ =
      s.max_congestion_window_ := by
  unfold CalculateCongestionWindow
  split_ifs
  · exact ⟨h, rfl, rfl, rfl, rfl⟩
  · refine ⟨?_, rfl, rfl, rfl, rfl⟩
    obtain ⟨h1, h2⟩ := h
    have hle : s.min_congestion_window_ ≤ s.max_congestion_window_ := le_trans h1 h2
    exact ⟨le_min (le_max_right _ _) hle, min_le_right _ _⟩

theorem sameStartup_CalculateCongestionWindow (s : BbrNetworkController) (bytes_acked : Int) :
    SameStartup s (s.CalculateCongestionWindow bytes_acked) := by
  unfold CalculateCongestionWindow
  split_ifs <;> exact SameStartup.refl_startup s

theorem sameWindow_updateModes (s : BbrNetworkController) (msg : TransportPacketsFeedback)
    (is_round_start min_rtt_expired : Bool) :
    SameWindow s (s.updateModes msg is_round_start min_rtt_expired) := by
  unfold updateModes
  exact (((frame_gainCycleStage s msg).1.trans_window
    (sameWindow_fullBandwidthStage _ _)).trans_window
      (frame_MaybeExitStartupOrDrain _ _).1).trans_window
        (frame_MaybeEnterOrExitProbeRtt _ _ _ _).1

/-- The limits of the window and the configuration are those of `s`, and the
window is within the limits. -/
theorem WindowBounded.updateWindows {s : BbrNetworkController} (h : s.WindowBounded)
    (msg : TransportPacketsFeedback) (total_data_acked_before : Int) :
    (s.updateWindows msg total_data_acked_before).WindowBounded ∧
    (s.updateWindows msg total_data_acked_before).config_ = s.config_ ∧
    (s.updateWindows msg total_data_acked_before).initial_congestion_window_ =
      s.initial_congestion_window_ ∧
    (s.updateWindows msg total_data_acked_before).min_congestion_window_ =
      s.min_congestion_window_ ∧
    (s.updateWindows msg total_data_acked_before).max_congestion_window_ =
      s.max_congestion_window_ := by
  have hp := frame_CalculatePacingRate s
  obtain ⟨hb, h1, h2, h3, h4⟩ :=
    (h.of_sameWindow hp.1).calculateCongestionWindow
      (s.sampler_.total_data_acked - total_data_acked_before)
  have hr := frame_CalculateRecoveryWindow
    (s.CalculatePacingRate.CalculateCongestionWindow
      (s.sampler_.total_data_acked - total_data_acked_before))
    (s.sampler_.total_data_acked - total_data_acked_before)
    (dataLost msg.LostWithSendInfo) msg.data_in_flight
  obtain ⟨p1, p2, p3, p4, -⟩ := hp.1
  obtain ⟨r1, r2, r3, r4, -⟩ := hr.1
  unfold BbrNetworkController.updateWindows
  exact ⟨hb.of_sameWindow hr.1, r1.trans (h1.trans p1), r2.trans (h2.trans p2),
    r3.trans (h3.trans p3), r4.trans (h4.trans p4)⟩

/-- A feedback batch on a state whose sampler map is well formed and whose
window is within its limits returns, and leaves a state of the same kind with
the same configuration and limits. -/
theorem WindowBounded.feedback (div : Int → Int → DataRate) {s : BbrNetworkController}
    (hv : s.SamplerValid) (h : s.WindowBounded) (msg : TransportPacketsFeedback) :
    ∃ t, s.OnTransportPacketsFeedback div msg = some t ∧ t.SamplerValid ∧ t.WindowBounded ∧
      t.config_ = s.config_ ∧
      t.initial_congestion_window_ = s.initial_congestion_window_ ∧
      t.min_congestion_window_ = s.min_congestion_window_ ∧
      t.max_congestion_window_ = s.max_congestion_window_ := by
  unfold OnTransportPacketsFeedback
  split
  · exact ⟨s, rfl, hv, h, rfl, rfl, rfl, rfl⟩
  · rename_i last _
    have hb := frame_beforeModel s msg last
    have hf := frame_feedModel div (s.beforeModel msg last) msg s.sampler_.total_data_acked
    have hm := sameWindow_updateModes
      (feedModel div (s.beforeModel msg last) msg s.sampler_.total_data_acked).2.2 msg
      (feedModel div (s.beforeModel msg last) msg s.sampler_.total_data_acked).1
      (feedModel div (s.beforeModel msg last) msg s.sampler_.total_data_acked).2.1
    have hsw := (hb.1.trans_window hf.1).trans_window hm
    obtain ⟨hw, w1, w2, w3, w4⟩ :=
      (h.of_sameWindow hsw).updateWindows msg s.sampler_.total_data_acked
    have hvalid := samplerValid_updateWindows
      (samplerValid_updateModes
        (samplerValid_feedModel div (samplerValid_beforeModel hv msg last) msg
          s.sampler_.total_data_acked) msg
        (feedModel div (s.beforeModel msg last) msg s.sampler_.total_data_acked).1
        (feedModel div (s.beforeModel msg last) msg s.sampler_.total_data_acked).2.1)
      msg s.sampler_.total_data_acked
    obtain ⟨t, ht, htv, htf, -⟩ := removeObsolete_returns hvalid msg
    obtain ⟨s1, s2, s3, s4, -⟩ := hsw
    obtain ⟨f1, f2, f3, f4, -⟩ := htf.1
    refine ⟨t, ht, htv, hw.of_sameWindow htf.1, ?_, ?_, ?_, ?_⟩
    · exact f1.trans (w1.trans s1)
    · exact f2.trans (w2.trans s2)
    · exact f3.trans (w3.trans s3)
    · exact f4.trans (w4.trans s4)

theorem sameWindow_Reset (s : BbrNetworkController) : SameWindow s s.Reset := by
  unfold Reset
  split_ifs <;> exact SameWindow.refl_window s

theorem sampler_Reset (s : BbrNetworkController) : s.Reset.sampler_ = s.sampler_ := by
  unfold Reset
  split_ifs <;> rfl

theorem WindowBounded.controller_event (div : Int → Int → DataRate) {s : BbrNetworkController}
    (hv : s.SamplerValid) (h : s.WindowBounded) (e : ControllerEvent) :
    ∃ t, s.event div e = some t ∧ t.SamplerValid ∧ t.WindowBounded ∧
      t.config_ = s.config_ ∧
      t.initial_congestion_window_ = s.initial_congestion_window_ ∧
      t.min_congestion_window_ = s.min_congestion_window_ ∧
      t.max_congestion_window_ = s.max_congestion_window_ := by
  cases e with
  | sent msg => exact ⟨_, rfl, samplerValid_OnSentPacket hv msg, h, rfl, rfl, rfl, rfl⟩
  | feedback msg => exact h.feedback div hv msg
  | availability =>
    have hr := sameWindow_Reset s
    refine ⟨_, rfl, ?_, h.of_sameWindow hr, hr.1, hr.2.1, hr.2.2.1, hr.2.2.2.1⟩
    show s.Reset.sampler_.connection_state_map_.Valid
    rw [sampler_Reset]
    exact hv
  | routeChange msg =>
    have hr := sameWindow_Reset { s with constraints_ := some msg.constraints }
    refine ⟨_, rfl, ?_, h.of_sameWindow hr, hr.1, hr.2.1, hr.2.2.1, hr.2.2.2.1⟩
    show (Reset { s with constraints_ := some msg.constraints }).sampler_.connection_state_map_.Valid
    rw [sampler_Reset]
    exact hv
  | processInterval => exact ⟨s, rfl, hv, h, rfl, rfl, rfl, rfl⟩
  | constraints msg => exact ⟨_, rfl, hv, h, rfl, rfl, rfl, rfl⟩

theorem WindowBounded.controller_events (div : Int → Int → DataRate)
    (es : List ControllerEvent) :
    ∀ s : BbrNetworkController, s.SamplerValid → s.WindowBounded →
      ∃ t, s.events div es = some t ∧ t.SamplerValid ∧ t.WindowBounded ∧
        t.config_ = s.config_ ∧
        t.initial_congestion_window_ = s.initial_congestion_window_ ∧
        t.min_congestion_window_ = s.min_congestion_window_ ∧
        t.max_congestion_window_ = s.max_congestion_window_ := by
  induction es with
  | nil => intro s hv h; exact ⟨s, rfl, hv, h, rfl, rfl, rfl, rfl⟩
  | cons e es ih =>
    intro s hv h
    obtain ⟨s1, h1, hv1, hb1, a1, a2, a3, a4⟩ := h.controller_event div hv e
    obtain ⟨t, ht, hvt, hbt, b1, b2, b3, b4⟩ := ih s1 hv1 hb1
    refine ⟨t, ?_, hvt, hbt, b1.trans a1, b2.trans a2, b3.trans a3, b4.trans a4⟩
    simp [events, h1, ht]

theorem sameWindow_new (config_ : BbrControllerConfig) (random_ : Random)
    (config : NetworkControllerConfig) :
    (new config_ random_ config).config_ = config_ ∧
    (new config_ random_ config).initial_congestion_window_ = config_.initial_congestion_window ∧
    (new config_ random_ config).min_congestion_window_ = config_.min_congestion_window ∧
    (new config_ random_ config).max_congestion_window_ = config_.max_congestion_window ∧
    (new config_ random_ config).congestion_window_ = config_.initial_congestion_window ∧
    (new config_ random_ config).sampler_ = BandwidthSampler.new := by
  unfold new Reset
  split_ifs <;> exact ⟨rfl, rfl, rfl, rfl, rfl, rfl⟩

end BbrNetworkController

namespace BbrNetworkController

theorem offset_advanceGainCycle (s : BbrNetworkController) (now : Int) :
    (s.advanceGainCycle now).cycle_current_offset_ = (s.cycle_current_offset_ + 1) % 8 := by
  simp [advanceGainCycle, kGainCycleLength]

theorem offset_advanceGainCycle_iterate (now : Int) (i : Nat) (s : BbrNetworkController)
    (h0 : 0 ≤ s.cycle_current_offset_) (h7 : s.cycle_current_offset_ ≤ 7) :
    ((fun t : BbrNetworkController => t.advanceGainCycle now)^[i] s).cycle_current_offset_ =
      (s.cycle_current_offset_ + i) % 8 := by
  induction i with
  | zero =>
    simp only [Function.iterate_zero, id_eq, Nat.cast_zero, add_zero]
    omega
  | succ i ih =>
    rw [Function.iterate_succ_apply', offset_advanceGainCycle, ih]
    push_cast
    omega

end BbrNetworkController

/-- C20: with `probe_bw_pacing_gain_offset = 0.25`, `GetPacingGain` maps the
offset 0 to 1.25, the offset 1 to 0.75 and every other offset to 1; an advance
of `UpdateGainCyclePhase` takes the offset to `(offset + 1) mod 8` and, unless
`fully_drain_queue` is set, the pacing gain to that of the new offset; and from
every offset in `[0, 7]` the gains after 1, 2, ..., 8 successive advances are a
rotation of `[1.25, 0.75, 1, 1, 1, 1, 1, 1]`. -/
theorem pacing_gain_cycle (s : BbrNetworkController) (now : Int)
    (h : s.config_.probe_bw_pacing_gain_offset = ⟨1, 4⟩) :
    s.GetPacingGain 0 = ⟨5, 4⟩ ∧ s.GetPacingGain 1 = ⟨3, 4⟩ ∧
    (∀ k : Int, k ≠ 0 → k ≠ 1 → s.GetPacingGain k = ⟨1, 1⟩) ∧
    (∀ prior_in_flight has_losses, s.config_.fully_drain_queue = false →
      s.shouldAdvanceGainCycling now prior_in_flight has_losses = true →
      (s.UpdateGainCyclePhase now prior_in_flight has_losses).cycle_current_offset_ =
        (s.cycle_current_offset_ + 1) % 8 ∧
      (s.UpdateGainCyclePhase now prior_in_flight has_losses).pacing_gain_ =
        s.GetPacingGain ((s.cycle_current_offset_ + 1) % 8)) ∧
    (0 ≤ s.cycle_current_offset_ → s.cycle_current_offset_ ≤ 7 →
      (List.range 8).map (fun i => s.GetPacingGain
        ((fun t : BbrNetworkController => t.advanceGainCycle now)^[i + 1]
          s).cycle_current_offset_) =
      ([⟨5, 4⟩, ⟨3, 4⟩, ⟨1, 1⟩, ⟨1, 1⟩, ⟨1, 1⟩, ⟨1, 1⟩, ⟨1, 1⟩, ⟨1, 1⟩] : List Double).rotate
        (s.cycle_current_offset_.toNat + 1)) := by
  have g0 : s.GetPacingGain 0 = ⟨5, 4⟩ := by
    simp [BbrNetworkController.GetPacingGain, h, Double.add, Double.ofInt]
  have g1 : s.GetPacingGain 1 = ⟨3, 4⟩ := by
    simp [BbrNetworkController.GetPacingGain, h, Double.sub, Double.ofInt]
  have gk : ∀ k : Int, k ≠ 0 → k ≠ 1 → s.GetPacingGain k = ⟨1, 1⟩ := by
    intro k hk0 hk1
    simp [BbrNetworkController.GetPacingGain, hk0, hk1, Double.ofInt]
  refine ⟨g0, g1, gk, ?_, ?_⟩
  · intro prior_in_flight has_losses hf ha
    unfold BbrNetworkController.UpdateGainCyclePhase
    rw [if_pos ha, if_neg (by simp [hf])]
    simp [BbrNetworkController.advanceGainCycle, kGainCycleLength]
  · intro h0 h7
    have hr : List.range 8 = [0, 1, 2, 3, 4, 5, 6, 7] := by decide
    rw [hr]
    simp only [List.map, BbrNetworkController.offset_advanceGainCycle_iterate now _ s h0 h7]
    obtain ⟨o, ho⟩ : ∃ o : Nat, s.cycle_current_offset_ = o := ⟨s.cycle_current_offset_.toNat, by omega⟩
    rw [ho] at h7 ⊢
    have ho7 : o ≤ 7 := by omega
    interval_cases o <;> simp [g0, g1, gk] <;> decide

/-- Witness of C20: the controller of the default configuration, whose gain
cycle starts at the offset 0. -/
theorem pacing_gain_cycle_witness :
    (BbrNetworkController.new BbrControllerConfig.default ⟨[]⟩
      ⟨⟨Timestamp.finite 0, none, none, none⟩⟩).config_.probe_bw_pacing_gain_offset = ⟨1, 4⟩ ∧
    (List.range 8).map (fun i =>
      (BbrNetworkController.new BbrControllerConfig.default ⟨[]⟩
        ⟨⟨Timestamp.finite 0, none, none, none⟩⟩).GetPacingGain
        ((fun t : BbrNetworkController => t.advanceGainCycle 0)^[i + 1]
          (BbrNetworkController.new BbrControllerConfig.default ⟨[]⟩
            ⟨⟨Timestamp.finite 0, none, none, none⟩⟩)).cycle_current_offset_) =
      ([⟨5, 4⟩, ⟨3, 4⟩, ⟨1, 1⟩, ⟨1, 1⟩, ⟨1, 1⟩, ⟨1, 1⟩, ⟨1, 1⟩, ⟨1, 1⟩] : List Double).rotate
        ((BbrNetworkController.new BbrControllerConfig.default ⟨[]⟩
          ⟨⟨Timestamp.finite 0, none, none, none⟩⟩).cycle_current_offset_.toNat + 1) :=
  ⟨by decide, (pacing_gain_cycle _ 0 (by decide)).2.2.2.2 (by decide) (by decide)⟩

/-- C17: for the controller constructed with the default configuration, whose
window starts at 32 * 1460 bytes with the limits 20 * 1460 and 2000 * 1460
bytes, every sequence of events returns, and after it the congestion window is
within the limits; in particular after every `OnTransportPacketsFeedback` of a
sequence of `OnSentPacket` and `OnTransportPacketsFeedback` events. -/
theorem congestion_window_clamped (div : Int → Int → DataRate) (random_ : Random)
    (config : NetworkControllerConfig) (es : List ControllerEvent) :
    (BbrNetworkController.new BbrControllerConfig.default random_ config).congestion_window_ =
      32 * 1460 ∧
    ∃ t, (BbrNetworkController.new BbrControllerConfig.default random_ config).events div es =
        some t ∧
      t.min_congestion_window_ = 20 * 1460 ∧ t.max_congestion_window_ = 2000 * 1460 ∧
      t.min_congestion_window_ ≤ t.congestion_window_ ∧
      t.congestion_window_ ≤ t.max_congestion_window_ := by
  obtain ⟨-, -, n3, n4, n5, n6⟩ :=
    BbrNetworkController.sameWindow_new BbrControllerConfig.default random_ config
  have hv : (BbrNetworkController.new BbrControllerConfig.default random_ config).SamplerValid := by
    unfold BbrNetworkController.SamplerValid
    rw [n6]
    exact PacketNumberIndexedQueue.valid_new
  have hb : (BbrNetworkController.new BbrControllerConfig.default random_ config).WindowBounded := by
    unfold BbrNetworkController.WindowBounded
    rw [n3, n4, n5]
    decide
  obtain ⟨t, ht, -, hbt, -, -, t3, t4⟩ :=
    BbrNetworkController.WindowBounded.controller_events div es _ hv hb
  refine ⟨by rw [n5]; decide, t, ht, ?_, ?_, hbt.1, hbt.2⟩
  · rw [t3, n3]; decide
  · rw [t4, n4]; decide

/-- C19: `MaybeExitStartupOrDrain` in `STARTUP` at full bandwidth sets the mode
to `DRAIN`, the pacing gain to `kDrainGain` and the window gain to `kHighGain`;
then, in `DRAIN`, it enters `PROBE_BW` when `data_in_flight` is at most
`GetTargetCongestionWindow(1)` and stays in `DRAIN` otherwise; with the default,
infinite `exit_startup_rtt_threshold` it leaves a controller in `STARTUP` that
is not at full bandwidth as it is; and it leaves a controller in `PROBE_BW` or
`PROBE_RTT` as it is. -/
theorem maybe_exit_startup_or_drain_spec (s : BbrNetworkController)
    (msg : TransportPacketsFeedback) :
    (s.mode_ = Mode.STARTUP → s.is_at_full_bandwidth_ = true →
      s.exitStartup =
        { s with
          mode_ := Mode.DRAIN
          pacing_gain_ := kDrainGain
          congestion_window_gain_ := kHighGain } ∧
      (msg.data_in_flight ≤ s.GetTargetCongestionWindow (Double.ofInt 1) →
        s.MaybeExitStartupOrDrain msg =
          s.exitStartup.EnterProbeBandwidthMode (Timestamp.finite msg.feedback_time) ∧
        (s.MaybeExitStartupOrDrain msg).mode_ = Mode.PROBE_BW) ∧
      (¬ msg.data_in_flight ≤ s.GetTargetCongestionWindow (Double.ofInt 1) →
        s.MaybeExitStartupOrDrain msg = s.exitStartup ∧
        (s.MaybeExitStartupOrDrain msg).mode_ = Mode.DRAIN)) ∧
    (s.mode_ = Mode.DRAIN →
      (msg.data_in_flight ≤ s.GetTargetCongestionWindow (Double.ofInt 1) →
        s.MaybeExitStartupOrDrain msg =
          s.EnterProbeBandwidthMode (Timestamp.finite msg.feedback_time) ∧
        (s.MaybeExitStartupOrDrain msg).mode_ = Mode.PROBE_BW) ∧
      (¬ msg.data_in_flight ≤ s.GetTargetCongestionWindow (Double.ofInt 1) →
        s.MaybeExitStartupOrDrain msg = s)) ∧
    (s.config_.exit_startup_rtt_threshold = TimeDelta.plusInfinity →
      s.mode_ = Mode.STARTUP → s.is_at_full_bandwidth_ = false →
      s.MaybeExitStartupOrDrain msg = s) ∧
    (s.mode_ = Mode.PROBE_BW ∨ s.mode_ = Mode.PROBE_RTT → s.MaybeExitStartupOrDrain msg = s) := by
  refine ⟨fun hm hf => ?_, fun hm => ?_, fun ht hm hf => ?_, fun hm => ?_⟩
  · have he : s.exitStartup =
        { s with
          mode_ := Mode.DRAIN
          pacing_gain_ := kDrainGain
          congestion_window_gain_ := kHighGain } := by
      unfold BbrNetworkController.exitStartup
      rw [if_pos ⟨hm, Or.inl hf⟩]
    have htarget : s.exitStartup.GetTargetCongestionWindow (Double.ofInt 1) =
        s.GetTargetCongestionWindow (Double.ofInt 1) := by
      rw [he]
      rfl
    have hmode : s.exitStartup.mode_ = Mode.DRAIN := by rw [he]
    refine ⟨he, fun hle => ?_, fun hgt => ?_⟩
    · unfold BbrNetworkController.MaybeExitStartupOrDrain
      rw [if_pos ⟨hmode, by rw [htarget]; exact hle⟩]
      exact ⟨rfl, rfl⟩
    · unfold BbrNetworkController.MaybeExitStartupOrDrain
      rw [if_neg (by rw [htarget]; exact fun h => hgt h.2)]
      exact ⟨rfl, hmode⟩
  · have he : s.exitStartup = s := by
      unfold BbrNetworkController.exitStartup
      rw [if_neg (by simp [hm])]
    refine ⟨fun hle => ?_, fun hgt => ?_⟩
    · unfold BbrNetworkController.MaybeExitStartupOrDrain
      rw [he, if_pos ⟨hm, hle⟩]
      exact ⟨rfl, rfl⟩
    · unfold BbrNetworkController.MaybeExitStartupOrDrain
      rw [he, if_neg (fun h => hgt h.2)]
  · have hnot : ¬ s.last_rtt_ - s.min_rtt_ > s.config_.exit_startup_rtt_threshold := by
      rw [ht, gt_iff_lt, TimeDelta.lt_iff_le]
      cases s.last_rtt_ - s.min_rtt_ <;> simp [TimeDelta.le]
    have he : s.exitStartup = s := by
      unfold BbrNetworkController.exitStartup
      rw [if_neg (by simp [hf, hnot])]
    unfold BbrNetworkController.MaybeExitStartupOrDrain
    rw [he, if_neg (by simp [hm])]
  · have he : s.exitStartup = s := by
      unfold BbrNetworkController.exitStartup
      rw [if_neg (by rcases hm with hm | hm <;> simp [hm])]
    unfold BbrNetworkController.MaybeExitStartupOrDrain
    rw [he, if_neg (by rcases hm with hm | hm <;> simp [hm])]

namespace BbrNetworkController

theorem mode_feedModel (div : Int → Int → DataRate) (s : BbrNetworkController)
    (msg : TransportPacketsFeedback) (total_data_acked_before : Int) :
    (s.feedModel div msg total_data_acked_before).2.2.mode_ = s.mode_ := by
  have hack : ∀ (l : List PacketResult) (acc : TimeDelta × BbrNetworkController),
      (l.foldl (ackPacket div msg.feedback_time) acc).2.mode_ = acc.2.mode_ := by
    intro l
    induction l with
    | nil => intro acc; rfl
    | cons packet rest ih => intro acc; exact (ih _).trans rfl
  have hmin : ∀ (x : BbrNetworkController) (now : Int) (r : TimeDelta),
      (x.updateMinRtt now r).2.mode_ = x.mode_ := by
    intro x now r
    unfold updateMinRtt
    split_ifs <;> rfl
  have hexit : ∀ (x : BbrNetworkController) (n : Int) (b : Bool),
      (x.exitRecovery n b).mode_ = x.mode_ := by
    intro x n b
    unfold exitRecovery
    split_ifs <;> rfl
  have hsw : ∀ (x : BbrNetworkController) (n : Int) (b c : Bool),
      (x.recoverySwitch n b c).mode_ = x.mode_ := by
    intro x n b c
    unfold recoverySwitch
    split
    · split_ifs <;> rfl
    · exact hexit _ _ _
    · split_ifs
      · exact hexit _ _ _
      · exact hexit _ _ _
  have hrec : ∀ (x : BbrNetworkController) (n : Int) (b c : Bool),
      (x.UpdateRecoveryState n b c).mode_ = x.mode_ := by
    intro x n b c
    unfold UpdateRecoveryState
    split_ifs
    · exact hsw _ _ _ _
    · exact hsw _ _ _ _
  have hagg : ∀ (x : BbrNetworkController) (n m : Int),
      (x.UpdateAckAggregationBytes n m).mode_ = x.mode_ := by
    intro x n m
    unfold UpdateAckAggregationBytes
    split
    · rfl
    · split_ifs <;> rfl
  have hdr : ∀ (x : BbrNetworkController) (m : TransportPacketsFeedback) (n : Int),
      (x.drainedBytes m n).mode_ = x.mode_ := by
    intro x m n
    unfold drainedBytes
    split_ifs <;> rfl
  have hround : ∀ (x : BbrNetworkController) (n : Int),
      (x.UpdateRoundTripCounter n).2.mode_ = x.mode_ := by
    intro x n
    unfold UpdateRoundTripCounter
    split_ifs <;> rfl
  unfold feedModel
  split
  · rfl
  · rw [hdr, hagg]
    unfold afterRecovery
    rw [hrec]
    unfold roundAndBandwidth UpdateBandwidthAndMinRtt
    rw [hmin, hack, hround]

theorem mode_gainCycleStage (s : BbrNetworkController) (msg : TransportPacketsFeedback) :
    (s.gainCycleStage msg).mode_ = s.mode_ := by
  unfold gainCycleStage UpdateGainCyclePhase
  split_ifs <;> rfl

theorem mode_fullBandwidthStage (s : BbrNetworkController) (is_round_start : Bool) :
    (s.fullBandwidthStage is_round_start).mode_ = s.mode_ := by
  unfold fullBandwidthStage CheckIfFullBandwidthReached
  split_ifs <;> rfl

theorem mode_updateWindows (s : BbrNetworkController) (msg : TransportPacketsFeedback)
    (total_data_acked_before : Int) :
    (s.updateWindows msg total_data_acked_before).mode_ = s.mode_ := by
  have hp : s.CalculatePacingRate.mode_ = s.mode_ := by
    unfold CalculatePacingRate recoveryPacingRate
    split_ifs <;> rfl
  have hc : ∀ b, (s.CalculatePacingRate.CalculateCongestionWindow b).mode_ = s.mode_ := by
    intro b
    unfold CalculateCongestionWindow
    split_ifs <;> exact hp
  unfold updateWindows CalculateRecoveryWindow
  split_ifs <;> exact hc _

theorem removeObsolete_some {s t : BbrNetworkController} {msg : TransportPacketsFeedback}
    (h : s.removeObsolete msg = some t) : Frame s t ∧ t.mode_ = s.mode_ := by
  unfold removeObsolete at h
  split at h
  · cases h
    exact ⟨Frame.refl s, rfl⟩
  · split at h
    · cases h
    · cases h
      exact ⟨Frame.refl s, rfl⟩

theorem sameStartup_updateWindows (s : BbrNetworkController) (msg : TransportPacketsFeedback)
    (total_data_acked_before : Int) :
    SameStartup s (s.updateWindows msg total_data_acked_before) := by
  unfold updateWindows
  exact ((frame_CalculatePacingRate s).2.trans_startup
    (sameStartup_CalculateCongestionWindow _ _)).trans_startup
      (frame_CalculateRecoveryWindow _ _ _ _).2

/-- At full bandwidth `MaybeExitStartupOrDrain` leaves `STARTUP`. -/
theorem notStartup_MaybeExitStartupOrDrain (s : BbrNetworkController)
    (msg : TransportPacketsFeedback) (hf : s.is_at_full_bandwidth_ = true) :
    (s.MaybeExitStartupOrDrain msg).mode_ ≠ Mode.STARTUP := by
  have he : s.exitStartup.mode_ ≠ Mode.STARTUP := by
    unfold exitStartup
    split_ifs with hc
    · simp
    · intro hm
      exact hc ⟨hm, Or.inl hf⟩
  unfold MaybeExitStartupOrDrain
  split_ifs
  · simp [EnterProbeBandwidthMode]
  · exact he

/-- At full bandwidth `MaybeEnterOrExitProbeRtt` does not enter `STARTUP`. -/
theorem notStartup_MaybeEnterOrExitProbeRtt (s : BbrNetworkController)
    (msg : TransportPacketsFeedback) (is_round_start min_rtt_expired : Bool)
    (hf : s.is_at_full_bandwidth_ = true) (hm : s.mode_ ≠ Mode.STARTUP) :
    (s.MaybeEnterOrExitProbeRtt msg is_round_start min_rtt_expired).mode_ ≠ Mode.STARTUP := by
  have he : (s.enterProbeRtt min_rtt_expired).mode_ ≠ Mode.STARTUP := by
    unfold enterProbeRtt
    split_ifs
    · simp
    · exact hm
  have hfe : (s.enterProbeRtt min_rtt_expired).is_at_full_bandwidth_ = true :=
    (frame_enterProbeRtt s min_rtt_expired).2.2.2.1.trans hf
  have hin : ∀ x : BbrNetworkController, x.is_at_full_bandwidth_ = true →
      x.mode_ ≠ Mode.STARTUP → (x.inProbeRtt msg is_round_start).mode_ ≠ Mode.STARTUP := by
    intro x hx hxm
    have hmark : (x.markProbeRttRound is_round_start).mode_ ≠ Mode.STARTUP := by
      unfold markProbeRttRound
      split_ifs <;> exact hxm
    have hmf : (x.markProbeRttRound is_round_start).is_at_full_bandwidth_ = true :=
      (frame_markProbeRttRound x is_round_start).2.2.2.1.trans hx
    unfold inProbeRtt
    split
    · split_ifs <;> exact hxm
    · split_ifs
      · unfold exitProbeRtt
        rw [if_neg (by simp [hmf])]
        simp [EnterProbeBandwidthMode]
      · exact hmark
  unfold MaybeEnterOrExitProbeRtt
  split_ifs
  · exact hin _ hfe he
  · exact he

end BbrNetworkController

namespace BbrNetworkController

theorem checkState_some (div : Int → Int → DataRate) (s : BbrNetworkController)
    (msg : TransportPacketsFeedback) (last : PacketResult)
    (hl : msg.PacketsWithFeedback.getLast? = some last) :
    checkState div s msg =
      gainCycleStage
        (feedModel div (s.beforeModel msg last) msg s.sampler_.total_data_acked).2.2 msg ∧
    isRoundStart div s msg =
      (feedModel div (s.beforeModel msg last) msg s.sampler_.total_data_acked).1 := by
  simp [checkState, isRoundStart, hl]

theorem checkState_none (div : Int → Int → DataRate) (s : BbrNetworkController)
    (msg : TransportPacketsFeedback) (hl : msg.PacketsWithFeedback.getLast? = none) :
    checkState div s msg = s ∧ isRoundStart div s msg = false := by
  simp [checkState, isRoundStart, hl]

theorem fullBandwidthStage_false (s : BbrNetworkController) :
    s.fullBandwidthStage false = s := by
  unfold fullBandwidthStage
  rw [if_neg (by simp)]

/-- The startup bookkeeping after a feedback batch is that of the state after
the full bandwidth check, and at full bandwidth a round start ends outside
`STARTUP`. -/
theorem feedback_startup (div : Int → Int → DataRate) {s t : BbrNetworkController}
    {msg : TransportPacketsFeedback} (h : s.OnTransportPacketsFeedback div msg = some t) :
    SameStartup s (checkState div s msg) ∧ (checkState div s msg).mode_ = s.mode_ ∧
    SameStartup (fullBandwidthStage (checkState div s msg) (isRoundStart div s msg)) t ∧
    (isRoundStart div s msg = true →
      (fullBandwidthStage (checkState div s msg) true).is_at_full_bandwidth_ = true →
      t.mode_ ≠ Mode.STARTUP) := by
  cases hl : msg.PacketsWithFeedback.getLast? with
  | none =>
    obtain ⟨hc, hr⟩ := checkState_none div s msg hl
    simp only [OnTransportPacketsFeedback, hl, Option.some.injEq] at h
    subst h
    rw [hc, hr, fullBandwidthStage_false]
    exact ⟨SameStartup.refl_startup s, rfl, SameStartup.refl_startup s, fun hf => by cases hf⟩
  | some last =>
    obtain ⟨hc, hr⟩ := checkState_some div s msg last hl
    simp only [OnTransportPacketsFeedback, hl] at h
    unfold feedbackWith at h
    obtain ⟨hrem, hmode⟩ := removeObsolete_some h
    rw [hc, hr]
    have hpre : Frame s
        (gainCycleStage
          (feedModel div (s.beforeModel msg last) msg s.sampler_.total_data_acked).2.2 msg) :=
      ((frame_beforeModel s msg last).trans (frame_feedModel div _ msg _)).trans
        (frame_gainCycleStage _ msg)
    have hpm : (gainCycleStage
        (feedModel div (s.beforeModel msg last) msg s.sampler_.total_data_acked).2.2 msg).mode_ =
        s.mode_ := by
      rw [mode_gainCycleStage, mode_feedModel]
      rfl
    refine ⟨hpre.2, hpm, ?_, ?_⟩
    · refine SameStartup.trans_startup ?_ hrem.2
      refine SameStartup.trans_startup ?_ (sameStartup_updateWindows _ _ _)
      unfold updateModes
      exact (frame_MaybeExitStartupOrDrain _ _).2.trans_startup
        (frame_MaybeEnterOrExitProbeRtt _ _ _ _).2
    · intro hirs hfull
      rw [hmode, mode_updateWindows]
      unfold updateModes
      rw [hirs]
      apply notStartup_MaybeEnterOrExitProbeRtt
      · exact (frame_MaybeExitStartupOrDrain _ _).2.2.2.1.trans hfull
      · exact notStartup_MaybeExitStartupOrDrain _ _ hfull

/-- A round without gain whose last sample is not app-limited counts: the
check raises the counter by one, or the full bandwidth is reached. -/
theorem fullBandwidthStage_stalled (c : BbrNetworkController) (k : Int)
    (hn : c.config_.num_startup_rtts = 3)
    (hp : c.is_at_full_bandwidth_ = true ∨ k ≤ c.rounds_without_bandwidth_gain_)
    (happ : c.last_sample_is_app_limited_ = false)
    (hbw : c.BandwidthEstimate < c.bandwidth_at_last_round_.scale kStartupGrowthTarget) :
    (c.fullBandwidthStage true).config_ = c.config_ ∧
    ((c.fullBandwidthStage true).is_at_full_bandwidth_ = true ∨
      k + 1 ≤ (c.fullBandwidthStage true).rounds_without_bandwidth_gain_) ∧
    (2 ≤ k → (c.fullBandwidthStage true).is_at_full_bandwidth_ = true) := by
  unfold fullBandwidthStage
  by_cases hf : c.is_at_full_bandwidth_ = true
  · rw [if_neg (by simp [hf])]
    exact ⟨rfl, Or.inl hf, fun _ => hf⟩
  · have hf' : c.is_at_full_bandwidth_ = false := by simpa using hf
    have hk : k ≤ c.rounds_without_bandwidth_gain_ := by
      rcases hp with hp | hp
      · exact absurd hp hf
      · exact hp
    rw [if_pos ⟨rfl, hf'⟩]
    unfold CheckIfFullBandwidthReached
    rw [if_neg (by simp [happ]), if_neg (not_le.mpr hbw)]
    split_ifs with hc
    · exact ⟨rfl, Or.inl rfl, fun _ => rfl⟩
    · refine ⟨rfl, Or.inr (by show k + 1 ≤ c.rounds_without_bandwidth_gain_ + 1; omega), ?_⟩
      intro h2
      exfalso
      apply hc
      left
      rw [hn]
      omega

theorem fullBandwidthStage_nonneg (c : BbrNetworkController) (is_round_start : Bool)
    (h0 : 0 ≤ c.rounds_without_bandwidth_gain_) :
    (c.fullBandwidthStage is_round_start).config_ = c.config_ ∧
    0 ≤ (c.fullBandwidthStage is_round_start).rounds_without_bandwidth_gain_ := by
  unfold fullBandwidthStage CheckIfFullBandwidthReached
  split_ifs <;> refine ⟨rfl, ?_⟩ <;> first
    | exact h0
    | exact le_refl _
    | (show 0 ≤ c.rounds_without_bandwidth_gain_ + 1; omega)

theorem rounds_Reset (s : BbrNetworkController) :
    s.Reset.config_ = s.config_ ∧ s.Reset.rounds_without_bandwidth_gain_ = 0 := by
  unfold Reset
  split_ifs <;> exact ⟨rfl, rfl⟩

theorem rounds_nonneg_event (div : Int → Int → DataRate) {s t : BbrNetworkController}
    (e : ControllerEvent) (h : s.event div e = some t)
    (h0 : 0 ≤ s.rounds_without_bandwidth_gain_) :
    t.config_ = s.config_ ∧ 0 ≤ t.rounds_without_bandwidth_gain_ := by
  cases e with
  | sent msg => cases h; exact ⟨rfl, h0⟩
  | feedback msg =>
    obtain ⟨hc, -, ht, -⟩ := feedback_startup div h
    obtain ⟨hu, hu0⟩ := fullBandwidthStage_nonneg (checkState div s msg)
      (isRoundStart div s msg) (by rw [hc.2.1]; exact h0)
    exact ⟨ht.1.trans (hu.trans hc.1), by rw [ht.2.1]; exact hu0⟩
  | availability =>
    cases h
    obtain ⟨h1, h2⟩ := rounds_Reset s
    exact ⟨h1, le_of_eq h2.symm⟩
  | routeChange msg =>
    cases h
    obtain ⟨h1, h2⟩ := rounds_Reset { s with constraints_ := some msg.constraints }
    exact ⟨h1, le_of_eq h2.symm⟩
  | processInterval => cases h; exact ⟨rfl, h0⟩
  | constraints msg => cases h; exact ⟨rfl, h0⟩

theorem rounds_nonneg_events (div : Int → Int → DataRate) (es : List ControllerEvent) :
    ∀ s t : BbrNetworkController, s.events div es = some t →
      0 ≤ s.rounds_without_bandwidth_gain_ →
      t.config_ = s.config_ ∧ 0 ≤ t.rounds_without_bandwidth_gain_ := by
  induction es with
  | nil =>
    intro s t h h0
    cases h
    exact ⟨rfl, h0⟩
  | cons e es ih =>
    intro s t h h0
    unfold events at h
    cases he : s.event div e with
    | none => rw [he] at h; cases h
    | some s1 =>
      rw [he] at h
      obtain ⟨a1, a2⟩ := rounds_nonneg_event div e he h0
      obtain ⟨b1, b2⟩ := ih s1 t h a2
      exact ⟨b1.trans a1, b2⟩

theorem rounds_new (config_ : BbrControllerConfig) (random_ : Random)
    (config : NetworkControllerConfig) :
    (new config_ random_ config).config_ = config_ ∧
    (new config_ random_ config).rounds_without_bandwidth_gain_ = 0 := by
  unfold new
  exact rounds_Reset _

theorem quietEvent_sameStartup (div : Int → Int → DataRate) {s t : BbrNetworkController}
    (e : ControllerEvent) (hq : quietEvent div s e = true) (h : s.event div e = some t) :
    SameStartup s t := by
  cases e with
  | sent msg => cases h; exact SameStartup.refl_startup s
  | feedback msg =>
    have hr : isRoundStart div s msg = false := by simpa [quietEvent] using hq
    obtain ⟨hc, -, ht, -⟩ := feedback_startup div h
    rw [hr, fullBandwidthStage_false] at ht
    exact hc.trans_startup ht
  | availability => simp [quietEvent] at hq
  | routeChange msg => simp [quietEvent] at hq
  | processInterval => cases h; exact SameStartup.refl_startup s
  | constraints msg => cases h; exact SameStartup.refl_startup s

theorem quietRun_sameStartup (div : Int → Int → DataRate) (es : List ControllerEvent) :
    ∀ s t : BbrNetworkController, quietRun div s es = some t → SameStartup s t := by
  induction es with
  | nil =>
    intro s t h
    cases h
    exact SameStartup.refl_startup s
  | cons e es ih =>
    intro s t h
    unfold quietRun at h
    by_cases hq : quietEvent div s e = true
    · rw [if_pos hq] at h
      cases he : s.event div e with
      | none => rw [he] at h; cases h
      | some s1 =>
        rw [he] at h
        exact (quietEvent_sameStartup div e hq he).trans_startup (ih s1 t h)
    · rw [if_neg hq] at h
      cases h

/-- One round without gain that counts, from a state with the configured
`num_startup_rtts = 3` whose counter is at least `k` unless the full bandwidth
is reached. -/
theorem stalled_round_step (div : Int → Int → DataRate) {s t : BbrNetworkController}
    {msg : TransportPacketsFeedback} (k : Int) (hn : s.config_.num_startup_rtts = 3)
    (hp : s.is_at_full_bandwidth_ = true ∨ k ≤ s.rounds_without_bandwidth_gain_)
    (hr : roundWithoutGain div s msg = true)
    (ha : (checkState div s msg).last_sample_is_app_limited_ = false)
    (ht : s.OnTransportPacketsFeedback div msg = some t) :
    t.config_.num_startup_rtts = 3 ∧
    (t.is_at_full_bandwidth_ = true ∨ k + 1 ≤ t.rounds_without_bandwidth_gain_) ∧
    (2 ≤ k → t.is_at_full_bandwidth_ = true ∧ t.mode_ ≠ Mode.STARTUP) := by
  obtain ⟨hc, -, hu, hmode⟩ := feedback_startup div ht
  have hirs : isRoundStart div s msg = true := by
    unfold roundWithoutGain at hr
    simp only [Bool.and_eq_true] at hr
    exact hr.1
  have hbw : (checkState div s msg).BandwidthEstimate <
      (checkState div s msg).bandwidth_at_last_round_.scale kStartupGrowthTarget := by
    unfold roundWithoutGain at hr
    simp only [Bool.and_eq_true, decide_eq_true_eq] at hr
    exact hr.2
  rw [hirs] at hu
  obtain ⟨g1, g2, g3⟩ := fullBandwidthStage_stalled (checkState div s msg) k
    (by rw [hc.1]; exact hn) (by rw [hc.2.2.1, hc.2.1]; exact hp) ha hbw
  refine ⟨?_, ?_, ?_⟩
  · rw [hu.1, g1, hc.1]; exact hn
  · rw [hu.2.2.1, hu.2.1]; exact g2
  · intro h2
    exact ⟨by rw [hu.2.2.1]; exact g3 h2, hmode hirs (g3 h2)⟩

end BbrNetworkController

/-- Counterexample to C18 as stated: a controller of the default
configuration (`num_startup_rtts = 3`) comes back from `PROBE_RTT` to `STARTUP`
with an app-limited sampler; the next three feedback batches each find it in
`STARTUP`, start a round and see the bandwidth estimate below 1.25 times
`bandwidth_at_last_round_`, but the last sample of the first is app-limited, so
that `CheckIfFullBandwidthReached` returns before it counts the round: after
the three rounds the counter is 2, `is_at_full_bandwidth_` is false and the
mode is still `STARTUP`. -/
theorem startup_exit_after_three_rounds_counterexample :
    startupController.config_.num_startup_rtts = 3 ∧
    startupController.events DataSize.div appLimitedEvents1 = some appLimitedS1 ∧
    appLimitedS1.mode_ = Mode.STARTUP ∧
    BbrNetworkController.roundWithoutGain DataSize.div appLimitedS1 appLimitedRound1 = true ∧
    (BbrNetworkController.checkState DataSize.div appLimitedS1
      appLimitedRound1).last_sample_is_app_limited_ = true ∧
    appLimitedS1.OnTransportPacketsFeedback DataSize.div appLimitedRound1 = some appLimitedT1 ∧
    BbrNetworkController.quietRun DataSize.div appLimitedT1 [.sent ⟨15600000, 10, 6, 10⟩] =
      some appLimitedS2 ∧
    appLimitedS2.mode_ = Mode.STARTUP ∧
    BbrNetworkController.roundWithoutGain DataSize.div appLimitedS2 appLimitedRound2 = true ∧
    appLimitedS2.OnTransportPacketsFeedback DataSize.div appLimitedRound2 = some appLimitedT2 ∧
    BbrNetworkController.quietRun DataSize.div appLimitedT2 [.sent ⟨15700000, 10, 7, 10⟩] =
      some appLimitedS3 ∧
    appLimitedS3.mode_ = Mode.STARTUP ∧
    BbrNetworkController.roundWithoutGain DataSize.div appLimitedS3 appLimitedRound3 = true ∧
    appLimitedS3.OnTransportPacketsFeedback DataSize.div appLimitedRound3 = some appLimitedT3 ∧
    appLimitedT3.rounds_without_bandwidth_gain_ = 2 ∧
    appLimitedT3.is_at_full_bandwidth_ = false ∧
    appLimitedT3.mode_ = Mode.STARTUP := by
  decide

/-- C18, amended: for a controller constructed with `num_startup_rtts = 3`,
after any events, let three feedback batches follow, with only events between
them that neither start a round nor reset the controller, each of which starts
a round in which the bandwidth estimate is below 1.25 times
`bandwidth_at_last_round_` and the last sample is not app-limited. Then after
the third `is_at_full_bandwidth_` is true and the mode is not `STARTUP`; and
when the third finds the controller in `STARTUP` and not at full bandwidth,
its `MaybeExitStartupOrDrain` takes the mode from `STARTUP` to `DRAIN` with the
pacing gain `kDrainGain = 1 / 2.885`. -/
theorem startup_exit_after_three_rounds (div : Int → Int → DataRate)
    (config_ : BbrControllerConfig) (random_ : Random) (config : NetworkControllerConfig)
    (es1 es2 es3 : List ControllerEvent) (m1 m2 m3 : TransportPacketsFeedback)
    (s1 t1 s2 t2 s3 t3 : BbrNetworkController)
    (hn : config_.num_startup_rtts = 3)
    (h1 : (BbrNetworkController.new config_ random_ config).events div es1 = some s1)
    (hr1 : BbrNetworkController.roundWithoutGain div s1 m1 = true)
    (ha1 : (BbrNetworkController.checkState div s1 m1).last_sample_is_app_limited_ = false)
    (ht1 : s1.OnTransportPacketsFeedback div m1 = some t1)
    (hq2 : BbrNetworkController.quietRun div t1 es2 = some s2)
    (hr2 : BbrNetworkController.roundWithoutGain div s2 m2 = true)
    (ha2 : (BbrNetworkController.checkState div s2 m2).last_sample_is_app_limited_ = false)
    (ht2 : s2.OnTransportPacketsFeedback div m2 = some t2)
    (hq3 : BbrNetworkController.quietRun div t2 es3 = some s3)
    (hr3 : BbrNetworkController.roundWithoutGain div s3 m3 = true)
    (ha3 : (BbrNetworkController.checkState div s3 m3).last_sample_is_app_limited_ = false)
    (ht3 : s3.OnTransportPacketsFeedback div m3 = some t3) :
    t3.is_at_full_bandwidth_ = true ∧ t3.mode_ ≠ Mode.STARTUP ∧
    (s3.mode_ = Mode.STARTUP → s3.is_at_full_bandwidth_ = false →
      ((BbrNetworkController.checkState div s3 m3).fullBandwidthStage true).mode_ =
        Mode.STARTUP ∧
      ((BbrNetworkController.checkState div s3 m3).fullBandwidthStage
        true).exitStartup.mode_ = Mode.DRAIN ∧
      ((BbrNetworkController.checkState div s3 m3).fullBandwidthStage
        true).exitStartup.pacing_gain_ = kDrainGain ∧
      kDrainGain = ⟨1000, 2885⟩) := by
  obtain ⟨n1, n2⟩ := BbrNetworkController.rounds_new config_ random_ config
  obtain ⟨c1, r1⟩ := BbrNetworkController.rounds_nonneg_events div es1 _ _ h1
    (le_of_eq n2.symm)
  have hn1 : s1.config_.num_startup_rtts = 3 := by rw [c1, n1]; exact hn
  obtain ⟨a1, a2, -⟩ := BbrNetworkController.stalled_round_step div 0 hn1 (Or.inr r1)
    hr1 ha1 ht1
  have q2 := BbrNetworkController.quietRun_sameStartup div es2 _ _ hq2
  obtain ⟨b1, b2, -⟩ := BbrNetworkController.stalled_round_step div 1
    (by rw [q2.1]; exact a1) (by rw [q2.2.2.1, q2.2.1]; exact a2) hr2 ha2 ht2
  have q3 := BbrNetworkController.quietRun_sameStartup div es3 _ _ hq3
  have hn3 : s3.config_.num_startup_rtts = 3 := by rw [q3.1]; exact b1
  have hp3 : s3.is_at_full_bandwidth_ = true ∨ 2 ≤ s3.rounds_without_bandwidth_gain_ := by
    rw [q3.2.2.1, q3.2.1]; exact b2
  obtain ⟨-, -, d3⟩ := BbrNetworkController.stalled_round_step div 2 hn3 hp3 hr3 ha3 ht3
  refine ⟨(d3 (le_refl _)).1, (d3 (le_refl _)).2, fun hm hf => ?_⟩
  obtain ⟨hc, hcm, -, -⟩ := BbrNetworkController.feedback_startup div ht3
  have hbw : (BbrNetworkController.checkState div s3 m3).BandwidthEstimate <
      (BbrNetworkController.checkState div s3 m3).bandwidth_at_last_round_.scale
        kStartupGrowthTarget := by
    unfold BbrNetworkController.roundWithoutGain at hr3
    simp only [Bool.and_eq_true, decide_eq_true_eq] at hr3
    exact hr3.2
  obtain ⟨-, -, g3⟩ := BbrNetworkController.fullBandwidthStage_stalled
    (BbrNetworkController.checkState div s3 m3) 2 (by rw [hc.1]; exact hn3)
    (by rw [hc.2.2.1, hc.2.1]; exact hp3) ha3 hbw
  have hum : ((BbrNetworkController.checkState div s3 m3).fullBandwidthStage true).mode_ =
      Mode.STARTUP := by
    rw [BbrNetworkController.mode_fullBandwidthStage, hcm]; exact hm
  have he : ((BbrNetworkController.checkState div s3 m3).fullBandwidthStage true).exitStartup =
      { (BbrNetworkController.checkState div s3 m3).fullBandwidthStage true with
        mode_ := Mode.DRAIN
        pacing_gain_ := kDrainGain
        congestion_window_gain_ := kHighGain } := by
    unfold BbrNetworkController.exitStartup
    rw [if_pos ⟨hum, Or.inl (g3 (le_refl _))⟩]
  refine ⟨hum, ?_, ?_, by decide⟩
  · rw [he]
  · rw [he]

/-- Witness of C18: packets of 1000 bytes sent every 100 ms and acknowledged
after 50 ms; the third, fourth and fifth acknowledgement start rounds without
gain, and the fifth ends at full bandwidth, outside `STARTUP`. -/
theorem startup_exit_after_three_rounds_witness :
    BbrControllerConfig.default.num_startup_rtts = 3 ∧
    BbrNetworkController.roundWithoutGain DataSize.div stallS1 stallRound1 = true ∧
    BbrNetworkController.roundWithoutGain DataSize.div stallS2 stallRound2 = true ∧
    BbrNetworkController.roundWithoutGain DataSize.div stallS3 stallRound3 = true ∧
    stallS3.mode_ = Mode.STARTUP ∧ stallS3.is_at_full_bandwidth_ = false ∧
    stallT3.is_at_full_bandwidth_ = true ∧ stallT3.mode_ ≠ Mode.STARTUP :=
  ⟨by decide, by decide, by decide, by decide, by decide, by decide,
    (startup_exit_after_three_rounds DataSize.div BbrControllerConfig.default ⟨[]⟩
      ⟨⟨Timestamp.finite 0, none, none, none⟩⟩ stallEvents1 [.sent ⟨300000, 1000, 4, 1000⟩]
      [.sent ⟨400000, 1000, 5, 1000⟩] stallRound1 stallRound2 stallRound3
      stallS1 stallT1 stallS2 stallT2 stallS3 stallT3
      (by decide) (by decide) (by decide) (by decide) (by decide) (by decide) (by decide)
      (by decide) (by decide) (by decide) (by decide) (by decide) (by decide)).1,
    (startup_exit_after_three_rounds DataSize.div BbrControllerConfig.default ⟨[]⟩
      ⟨⟨Timestamp.finite 0, none, none, none⟩⟩ stallEvents1 [.sent ⟨300000, 1000, 4, 1000⟩]
      [.sent ⟨400000, 1000, 5, 1000⟩] stallRound1 stallRound2 stallRound3
      stallS1 stallT1 stallS2 stallT2 stallS3 stallT3
      (by decide) (by decide) (by decide) (by decide) (by decide) (by decide) (by decide)
      (by decide) (by decide) (by decide) (by decide) (by decide) (by decide)).2.1⟩

/-! ## Recovery and the congestion window -/

/-- C23: `UpdateRecoveryState` on a state with `recovery_state_ =
NOT_IN_RECOVERY`: with `has_losses` it sets `recovery_state_` to `CONSERVATION`,
or to `initial_conservation_in_startup` when the mode is `STARTUP`, sets
`recovery_window_` to 0 and sets `current_round_trip_end_` and
`end_recovery_at_` to `last_sent_packet_`, and changes nothing else; without
losses it leaves the whole state as it is. -/
theorem update_recovery_state_not_in_recovery (s : BbrNetworkController)
    (last_acked_packet : Int) (is_round_start : Bool)
    (h : s.recovery_state_ = RecoveryState.NOT_IN_RECOVERY) :
    s.UpdateRecoveryState last_acked_packet true is_round_start =
      { s with
        end_recovery_at_ := some s.last_sent_packet_
        recovery_state_ :=
          if s.mode_ = Mode.STARTUP then s.config_.initial_conservation_in_startup
          else RecoveryState.CONSERVATION
        recovery_window_ := 0
        current_round_trip_end_ := s.last_sent_packet_ } ∧
    ((s.UpdateRecoveryState last_acked_packet true is_round_start).recovery_state_ =
      if s.mode_ = Mode.STARTUP then s.config_.initial_conservation_in_startup
      else RecoveryState.CONSERVATION) ∧
    (s.UpdateRecoveryState last_acked_packet true is_round_start).recovery_window_ = 0 ∧
    (s.UpdateRecoveryState last_acked_packet true is_round_start).current_round_trip_end_ =
      s.last_sent_packet_ ∧
    (s.UpdateRecoveryState last_acked_packet true is_round_start).end_recovery_at_ =
      some s.last_sent_packet_ ∧
    s.UpdateRecoveryState last_acked_packet false is_round_start = s := by
  have h1 : s.UpdateRecoveryState last_acked_packet true is_round_start =
      { s with
        end_recovery_at_ := some s.last_sent_packet_
        recovery_state_ :=
          if s.mode_ = Mode.STARTUP then s.config_.initial_conservation_in_startup
          else RecoveryState.CONSERVATION
        recovery_window_ := 0
        current_round_trip_end_ := s.last_sent_packet_ } := by
    simp [BbrNetworkController.UpdateRecoveryState, BbrNetworkController.recoverySwitch, h]
  refine ⟨h1, ?_, ?_, ?_, ?_, ?_⟩
  · rw [h1]
  · rw [h1]
  · rw [h1]
  · rw [h1]
  · simp [BbrNetworkController.UpdateRecoveryState, BbrNetworkController.recoverySwitch, h]

/-- Witness of C23: the constructed controller, which is not in recovery. -/
theorem update_recovery_state_not_in_recovery_witness :
    startupController.recovery_state_ = RecoveryState.NOT_IN_RECOVERY ∧
    (startupController.UpdateRecoveryState 1 true true).recovery_state_ =
      RecoveryState.CONSERVATION ∧
    startupController.UpdateRecoveryState 1 false true = startupController :=
  ⟨by decide,
    ((update_recovery_state_not_in_recovery startupController 1 true (by decide)).2.1).trans
      (by decide),
    (update_recovery_state_not_in_recovery startupController 1 true (by decide)).2.2.2.2.2⟩

/-- Counterexample to C24 as stated: after a loss the controller is in
`CONSERVATION` with `end_recovery_at_ = 2`; the next feedback acknowledges
packet 3 without losses and starts a round, and `UpdateRecoveryState`, whose
case for `CONSERVATION` falls through to the exit from recovery, leaves
`NOT_IN_RECOVERY`, not `GROWTH`. -/
theorem update_recovery_state_growth_counterexample :
    startupController.events DataSize.div lossEvents = some afterLoss ∧
    afterLoss.recovery_state_ = RecoveryState.CONSERVATION ∧
    afterLoss.end_recovery_at_ = some 2 ∧
    (afterLoss.UpdateRecoveryState 3 false true).recovery_state_ =
      RecoveryState.NOT_IN_RECOVERY ∧
    BbrNetworkController.isRoundStart DataSize.div afterLoss
      (ackOf 150000 ⟨100000, 1000, 3, 1000⟩) = true ∧
    (afterLoss.after DataSize.div
      [.feedback (ackOf 150000 ⟨100000, 1000, 3, 1000⟩)]).recovery_state_ =
      RecoveryState.NOT_IN_RECOVERY := by
  decide

/-- C24, amended: on a state in `CONSERVATION` or `MEDIUM_GROWTH`,
`UpdateRecoveryState` with `is_round_start` leaves `GROWTH` unless there are no
losses and `end_recovery_at_` is absent or below `last_acked_packet`, in which
case it falls through to the exit and leaves `NOT_IN_RECOVERY`; on a state in
`GROWTH` it leaves `NOT_IN_RECOVERY` exactly when there are no losses and
`end_recovery_at_` is absent or below `last_acked_packet`, and `GROWTH`
otherwise. -/
theorem update_recovery_state_growth (s : BbrNetworkController) (last_acked_packet : Int)
    (has_losses is_round_start : Bool) :
    (s.recovery_state_ = RecoveryState.CONSERVATION ∨
        s.recovery_state_ = RecoveryState.MEDIUM_GROWTH →
      (s.UpdateRecoveryState last_acked_packet has_losses true).recovery_state_ =
        if has_losses = false ∧
            (s.end_recovery_at_ = none ∨
              ∃ e, s.end_recovery_at_ = some e ∧ last_acked_packet > e) then
          RecoveryState.NOT_IN_RECOVERY
        else RecoveryState.GROWTH) ∧
    (s.recovery_state_ = RecoveryState.GROWTH →
      ((s.UpdateRecoveryState last_acked_packet has_losses is_round_start).recovery_state_ =
          RecoveryState.NOT_IN_RECOVERY ↔
        has_losses = false ∧
          (s.end_recovery_at_ = none ∨
            ∃ e, s.end_recovery_at_ = some e ∧ last_acked_packet > e)) ∧
      ((s.UpdateRecoveryState last_acked_packet has_losses is_round_start).recovery_state_ =
          RecoveryState.NOT_IN_RECOVERY ∨
        (s.UpdateRecoveryState last_acked_packet has_losses is_round_start).recovery_state_ =
          RecoveryState.GROWTH)) := by
  refine ⟨fun h => ?_, fun h => ?_⟩
  · cases has_losses <;> rcases h with h | h <;>
      simp [BbrNetworkController.UpdateRecoveryState, BbrNetworkController.recoverySwitch,
        BbrNetworkController.exitRecovery, h] <;>
      split_ifs <;> simp_all
  · cases has_losses <;>
      simp [BbrNetworkController.UpdateRecoveryState, BbrNetworkController.recoverySwitch,
        BbrNetworkController.exitRecovery, h] <;>
      split_ifs <;> simp_all

/-- Witness of C24: in `CONSERVATION` after a loss, a round start with further
losses leaves `GROWTH`. -/
theorem update_recovery_state_growth_witness :
    afterLoss.recovery_state_ = RecoveryState.CONSERVATION ∧
    (afterLoss.UpdateRecoveryState 3 true true).recovery_state_ = RecoveryState.GROWTH :=
  ⟨by decide,
    ((update_recovery_state_growth afterLoss 3 true true).1 (Or.inl (by decide))).trans
      (by decide)⟩

/-- Counterexample to C25 as stated: the controller is in `GROWTH` with a
recovery window of 29200 bytes after two feedback batches with losses. For
28000 bytes acknowledged, 28000 bytes lost and nothing in flight,
`CalculateRecoveryWindow` removes the losses, which leaves 1200 bytes, below
`kMaxSegmentSize`, and ends at 29200 bytes; the stated formula takes
`max(1200, 1460)` and ends at 29460 bytes. -/
theorem calculate_recovery_window_counterexample :
    startupController.events DataSize.div lossEvents = some afterLoss ∧
    afterLoss.events DataSize.div
      [.sent ⟨101000, 1000, 4, 2000⟩,
        .feedback (lossOf 150000 ⟨100000, 1000, 3, 1000⟩ ⟨101000, 1000, 4, 2000⟩)] =
      some afterSecondLoss ∧
    afterSecondLoss.recovery_state_ = RecoveryState.GROWTH ∧
    afterSecondLoss.recovery_window_ = 29200 ∧
    afterSecondLoss.config_.rate_based_recovery = false ∧
    afterSecondLoss.config_.rate_based_startup = false ∧
    (afterSecondLoss.CalculateRecoveryWindow 28000 28000 0).recovery_window_ = 29200 ∧
    afterSecondLoss.specRecoveryWindow 28000 28000 0 = 29460 := by
  decide

/-- C25, amended: for a state in recovery whose recovery is not rate-based,
`CalculateRecoveryWindow` changes only `recovery_window_`: from 0 it becomes
`max(min_cwnd, in_flight + bytes_acked)`; otherwise it becomes
`max(min_cwnd, max(w, in_flight + bytes_acked))`, where `w` is
`recovery_window - bytes_lost` when `recovery_window >= bytes_lost` and
`kMaxSegmentSize` when it is less, plus `bytes_acked` in `GROWTH` or
`bytes_acked / 2` in `MEDIUM_GROWTH`. This is the stated
`max(recovery_window - bytes_lost, kMaxSegmentSize)` when the losses exceed the
window or leave at least `kMaxSegmentSize`. When not in recovery the state is
unchanged. -/
theorem calculate_recovery_window_spec (s : BbrNetworkController)
    (bytes_acked bytes_lost bytes_in_flight : Int)
    (hrate : s.config_.rate_based_recovery = false)
    (hstart : ¬ (s.config_.rate_based_startup = true ∧ s.mode_ = Mode.STARTUP)) :
    (s.recovery_state_ ≠ RecoveryState.NOT_IN_RECOVERY →
      s.CalculateRecoveryWindow bytes_acked bytes_lost bytes_in_flight =
        { s with
          recovery_window_ :=
            if s.recovery_window_ = 0 then
              max s.min_congestion_window_ (bytes_in_flight + bytes_acked)
            else
              max s.min_congestion_window_
                (max
                  ((if s.recovery_window_ ≥ bytes_lost then s.recovery_window_ - bytes_lost
                    else kMaxSegmentSize) +
                    (if s.recovery_state_ = RecoveryState.GROWTH then bytes_acked
                      else if s.recovery_state_ = RecoveryState.MEDIUM_GROWTH then
                        Int.tdiv bytes_acked 2
                      else 0))
                  (bytes_in_flight + bytes_acked)) } ∧
      (s.recovery_window_ = 0 ∨ s.recovery_window_ < bytes_lost ∨
          kMaxSegmentSize ≤ s.recovery_window_ - bytes_lost →
        (s.CalculateRecoveryWindow bytes_acked bytes_lost bytes_in_flight).recovery_window_ =
          s.specRecoveryWindow bytes_acked bytes_lost bytes_in_flight)) ∧
    (s.recovery_state_ = RecoveryState.NOT_IN_RECOVERY →
      s.CalculateRecoveryWindow bytes_acked bytes_lost bytes_in_flight = s) := by
  have hc : ¬ (s.config_.rate_based_recovery = true ∨
      (s.config_.rate_based_startup = true ∧ s.mode_ = Mode.STARTUP)) := by
    rintro (h | h)
    · rw [hrate] at h; cases h
    · exact hstart h
  refine ⟨fun hr => ?_, fun hr => ?_⟩
  · have heq : s.CalculateRecoveryWindow bytes_acked bytes_lost bytes_in_flight =
        { s with
          recovery_window_ :=
            if s.recovery_window_ = 0 then
              max s.min_congestion_window_ (bytes_in_flight + bytes_acked)
            else
              max s.min_congestion_window_
                (max
                  ((if s.recovery_window_ ≥ bytes_lost then s.recovery_window_ - bytes_lost
                    else kMaxSegmentSize) +
                    (if s.recovery_state_ = RecoveryState.GROWTH then bytes_acked
                      else if s.recovery_state_ = RecoveryState.MEDIUM_GROWTH then
                        Int.tdiv bytes_acked 2
                      else 0))
                  (bytes_in_flight + bytes_acked)) } := by
      unfold BbrNetworkController.CalculateRecoveryWindow
      rw [if_neg hc, if_neg hr]
      unfold BbrNetworkController.releasedWindow
      split_ifs <;> rfl
    refine ⟨heq, fun hw => ?_⟩
    rw [heq]
    unfold BbrNetworkController.specRecoveryWindow
    by_cases h0 : s.recovery_window_ = 0
    · simp only [h0, if_true]
    · simp only [if_neg h0]
      have hw' : s.recovery_window_ < bytes_lost ∨
          kMaxSegmentSize ≤ s.recovery_window_ - bytes_lost := by
        rcases hw with hw | hw
        · exact absurd hw h0
        · exact hw
      have hk : (if s.recovery_window_ ≥ bytes_lost then s.recovery_window_ - bytes_lost
          else kMaxSegmentSize) = max (s.recovery_window_ - bytes_lost) kMaxSegmentSize := by
        rcases hw' with hw' | hw'
        · rw [if_neg (by omega), max_eq_right]
          have : kMaxSegmentSize = 1460 := rfl
          omega
        · have hk0 : (0 : Int) ≤ kMaxSegmentSize := by decide
          rw [if_pos (by omega), max_eq_left hw']
      rw [hk]
  · unfold BbrNetworkController.CalculateRecoveryWindow
    rw [if_neg hc, if_pos hr]

/-- Witness of C25: the controller in `CONSERVATION` after a loss, with 1000
bytes acknowledged, 1000 lost and none in flight. -/
theorem calculate_recovery_window_spec_witness :
    afterLoss.config_.rate_based_recovery = false ∧
    afterLoss.recovery_state_ ≠ RecoveryState.NOT_IN_RECOVERY ∧
    (afterLoss.CalculateRecoveryWindow 1000 1000 0).recovery_window_ =
      afterLoss.specRecoveryWindow 1000 1000 0 :=
  ⟨by decide, by decide,
    ((calculate_recovery_window_spec afterLoss 1000 1000 0 (by decide) (by decide)).1
      (by decide)).2 (by decide)⟩

/-- C26: `GetCongestionWindow` returns `ProbeRttCongestionWindow()` in
`PROBE_RTT`, which is `min_congestion_window_` unless `probe_rtt_based_on_bdp` is
set; otherwise `min(congestion_window_, recovery_window_)` when in recovery
with `rate_based_recovery` false and not `rate_based_startup` in `STARTUP`;
otherwise `congestion_window_`. Outside `PROBE_RTT` the result is at most
`congestion_window_`. -/
theorem get_congestion_window_spec (s : BbrNetworkController) :
    (s.mode_ = Mode.PROBE_RTT →
      s.GetCongestionWindow = s.ProbeRttCongestionWindow ∧
      (s.config_.probe_rtt_based_on_bdp = false →
        s.GetCongestionWindow = s.min_congestion_window_) ∧
      (s.config_.probe_rtt_based_on_bdp = true →
        s.GetCongestionWindow =
          s.GetTargetCongestionWindow s.config_.probe_rtt_congestion_window_gain)) ∧
    (s.mode_ ≠ Mode.PROBE_RTT →
      (s.recovery_state_ ≠ RecoveryState.NOT_IN_RECOVERY ∧
          s.config_.rate_based_recovery = false ∧
          ¬ (s.config_.rate_based_startup = true ∧ s.mode_ = Mode.STARTUP) →
        s.GetCongestionWindow = min s.congestion_window_ s.recovery_window_) ∧
      (¬ (s.recovery_state_ ≠ RecoveryState.NOT_IN_RECOVERY ∧
          s.config_.rate_based_recovery = false ∧
          ¬ (s.config_.rate_based_startup = true ∧ s.mode_ = Mode.STARTUP)) →
        s.GetCongestionWindow = s.congestion_window_) ∧
      s.GetCongestionWindow ≤ s.congestion_window_) := by
  refine ⟨fun hm => ?_, fun hm => ?_⟩
  · have hg : s.GetCongestionWindow = s.ProbeRttCongestionWindow := by
      unfold BbrNetworkController.GetCongestionWindow
      rw [if_pos hm]
    refine ⟨hg, fun hb => ?_, fun hb => ?_⟩
    · rw [hg]
      unfold BbrNetworkController.ProbeRttCongestionWindow
      rw [if_neg (by simp [hb])]
    · rw [hg]
      unfold BbrNetworkController.ProbeRttCongestionWindow
      rw [if_pos hb]
  · have hcond : (s.InRecovery && !s.config_.rate_based_recovery &&
        !(s.config_.rate_based_startup && decide (s.mode_ = Mode.STARTUP))) = true ↔
        (s.recovery_state_ ≠ RecoveryState.NOT_IN_RECOVERY ∧
          s.config_.rate_based_recovery = false ∧
          ¬ (s.config_.rate_based_startup = true ∧ s.mode_ = Mode.STARTUP)) := by
      cases h1 : s.config_.rate_based_recovery <;> cases h2 : s.config_.rate_based_startup <;>
        simp [BbrNetworkController.InRecovery, h1, h2]
    refine ⟨fun hr => ?_, fun hr => ?_, ?_⟩
    · unfold BbrNetworkController.GetCongestionWindow
      rw [if_neg hm, if_pos (hcond.2 hr)]
    · unfold BbrNetworkController.GetCongestionWindow
      rw [if_neg hm, if_neg (fun h => hr (hcond.1 h))]
    · unfold BbrNetworkController.GetCongestionWindow
      rw [if_neg hm]
      split_ifs
      · exact min_le_left _ _
      · exact le_refl _

/-! ## `PROBE_RTT` -/

namespace BbrNetworkController

theorem enterProbeRtt_fields (s : BbrNetworkController) (min_rtt_expired : Bool) :
    (s.enterProbeRtt min_rtt_expired).is_at_full_bandwidth_ = s.is_at_full_bandwidth_ ∧
    (s.enterProbeRtt min_rtt_expired).probe_rtt_round_passed_ = s.probe_rtt_round_passed_ ∧
    (s.enterProbeRtt min_rtt_expired).ProbeRttCongestionWindow = s.ProbeRttCongestionWindow := by
  unfold enterProbeRtt
  split_ifs <;> exact ⟨rfl, rfl, rfl⟩

theorem inProbeRtt_none (y : BbrNetworkController) (msg : TransportPacketsFeedback)
    (is_round_start : Bool) (he : y.exit_probe_rtt_at_ = none) :
    y.inProbeRtt msg is_round_start =
      if msg.data_in_flight < y.ProbeRttCongestionWindow + kMaxPacketSize then
        { y with
          exit_probe_rtt_at_ :=
            some ((Timestamp.finite msg.feedback_time).add (TimeDelta.ms kProbeRttTimeMs))
          probe_rtt_round_passed_ := false }
      else y := by
  simp only [inProbeRtt, he]

theorem inProbeRtt_some (y : BbrNetworkController) (msg : TransportPacketsFeedback)
    (is_round_start : Bool) (exit_at : Timestamp) (he : y.exit_probe_rtt_at_ = some exit_at) :
    y.inProbeRtt msg is_round_start =
      if Timestamp.finite msg.feedback_time ≥ exit_at ∧
          (y.markProbeRttRound is_round_start).probe_rtt_round_passed_ = true then
        (y.markProbeRttRound is_round_start).exitProbeRtt msg.feedback_time
      else y.markProbeRttRound is_round_start := by
  simp only [inProbeRtt, he]

theorem markProbeRttRound_fields (y : BbrNetworkController) (is_round_start : Bool) :
    ((y.markProbeRttRound is_round_start).probe_rtt_round_passed_ = true ↔
      (is_round_start = true ∨ y.probe_rtt_round_passed_ = true)) ∧
    (y.markProbeRttRound is_round_start).mode_ = y.mode_ ∧
    (y.markProbeRttRound is_round_start).exit_probe_rtt_at_ = y.exit_probe_rtt_at_ ∧
    (y.markProbeRttRound is_round_start).is_at_full_bandwidth_ = y.is_at_full_bandwidth_ := by
  unfold markProbeRttRound
  cases is_round_start <;> simp

theorem exitProbeRtt_fields (y : BbrNetworkController) (feedback_time : Int) :
    (y.exitProbeRtt feedback_time).mode_ =
      (if y.is_at_full_bandwidth_ = true then Mode.PROBE_BW else Mode.STARTUP) ∧
    (y.exitProbeRtt feedback_time).min_rtt_timestamp_ = Timestamp.finite feedback_time ∧
    (y.exitProbeRtt feedback_time).exit_probe_rtt_at_ = y.exit_probe_rtt_at_ := by
  unfold exitProbeRtt
  cases hb : y.is_at_full_bandwidth_ <;> simp [EnterStartupMode, EnterProbeBandwidthMode]

/-- The call on a state that is in `PROBE_RTT` after the entry test, in terms
of the state `y` in which the sampler was told that the connection is
app-limited. -/
theorem probeRtt_inside (s : BbrNetworkController) (msg : TransportPacketsFeedback)
    (is_round_start min_rtt_expired : Bool)
    (hm : (s.enterProbeRtt min_rtt_expired).mode_ = Mode.PROBE_RTT) :
    ∃ y : BbrNetworkController,
      y.mode_ = Mode.PROBE_RTT ∧
      y.exit_probe_rtt_at_ = (s.enterProbeRtt min_rtt_expired).exit_probe_rtt_at_ ∧
      y.pacing_gain_ = (s.enterProbeRtt min_rtt_expired).pacing_gain_ ∧
      y.is_at_full_bandwidth_ = s.is_at_full_bandwidth_ ∧
      y.probe_rtt_round_passed_ = s.probe_rtt_round_passed_ ∧
      y.ProbeRttCongestionWindow = s.ProbeRttCongestionWindow ∧
      s.MaybeEnterOrExitProbeRtt msg is_round_start min_rtt_expired =
        { y.inProbeRtt msg is_round_start with exiting_quiescence_ := false } := by
  obtain ⟨hf, hp, hw⟩ := enterProbeRtt_fields s min_rtt_expired
  refine ⟨{ s.enterProbeRtt min_rtt_expired with
    sampler_ := (s.enterProbeRtt min_rtt_expired).sampler_.OnAppLimited }, hm, rfl, rfl, hf, hp,
    hw, ?_⟩
  unfold MaybeEnterOrExitProbeRtt
  rw [if_pos hm]

/-- The call on a state that is not in `PROBE_RTT` after the entry test only
clears `exiting_quiescence_`. -/
theorem probeRtt_outside (s : BbrNetworkController) (msg : TransportPacketsFeedback)
    (is_round_start min_rtt_expired : Bool)
    (h : (s.enterProbeRtt min_rtt_expired).mode_ ≠ Mode.PROBE_RTT) :
    s.MaybeEnterOrExitProbeRtt msg is_round_start min_rtt_expired =
      { s.enterProbeRtt min_rtt_expired with exiting_quiescence_ := false } := by
  unfold MaybeEnterOrExitProbeRtt
  rw [if_neg h]

/-- The call on a state in `PROBE_RTT` without an exit time: the exit time is
set when little enough is in flight, and the mode stays `PROBE_RTT`. -/
theorem probeRtt_schedule (s : BbrNetworkController) (msg : TransportPacketsFeedback)
    (is_round_start min_rtt_expired : Bool)
    (hm : (s.enterProbeRtt min_rtt_expired).mode_ = Mode.PROBE_RTT)
    (he : (s.enterProbeRtt min_rtt_expired).exit_probe_rtt_at_ = none) :
    (s.MaybeEnterOrExitProbeRtt msg is_round_start min_rtt_expired).mode_ = Mode.PROBE_RTT ∧
    (s.MaybeEnterOrExitProbeRtt msg is_round_start min_rtt_expired).pacing_gain_ =
      (s.enterProbeRtt min_rtt_expired).pacing_gain_ ∧
    (msg.data_in_flight < s.ProbeRttCongestionWindow + kMaxPacketSize →
      (s.MaybeEnterOrExitProbeRtt msg is_round_start min_rtt_expired).exit_probe_rtt_at_ =
        some ((Timestamp.finite msg.feedback_time).add (TimeDelta.ms kProbeRttTimeMs)) ∧
      (s.MaybeEnterOrExitProbeRtt msg is_round_start min_rtt_expired).probe_rtt_round_passed_ =
        false) ∧
    (¬ msg.data_in_flight < s.ProbeRttCongestionWindow + kMaxPacketSize →
      (s.MaybeEnterOrExitProbeRtt msg is_round_start min_rtt_expired).exit_probe_rtt_at_ =
        none) := by
  obtain ⟨y, y1, y2, y3, -, -, y6, hy⟩ := probeRtt_inside s msg is_round_start min_rtt_expired hm
  rw [hy, inProbeRtt_none y msg is_round_start (y2.trans he), y6]
  split_ifs with hc
  · exact ⟨y1, y3, fun _ => ⟨rfl, rfl⟩, fun h => absurd hc h⟩
  · exact ⟨y1, y3, fun h => absurd h hc, fun _ => y2.trans he⟩

/-- The call on a state in `PROBE_RTT` with the exit time `exit_at`: the
controller leaves `PROBE_RTT` exactly when the feedback time has reached it and
a round has passed. -/
theorem probeRtt_exit (s : BbrNetworkController) (msg : TransportPacketsFeedback)
    (is_round_start min_rtt_expired : Bool) (exit_at : Timestamp)
    (hm : (s.enterProbeRtt min_rtt_expired).mode_ = Mode.PROBE_RTT)
    (he : (s.enterProbeRtt min_rtt_expired).exit_probe_rtt_at_ = some exit_at) :
    (s.MaybeEnterOrExitProbeRtt msg is_round_start min_rtt_expired).exit_probe_rtt_at_ =
      some exit_at ∧
    ((Timestamp.finite msg.feedback_time ≥ exit_at ∧
        (is_round_start = true ∨ s.probe_rtt_round_passed_ = true)) →
      (s.MaybeEnterOrExitProbeRtt msg is_round_start min_rtt_expired).mode_ =
        (if s.is_at_full_bandwidth_ = true then Mode.PROBE_BW else Mode.STARTUP) ∧
      (s.MaybeEnterOrExitProbeRtt msg is_round_start min_rtt_expired).min_rtt_timestamp_ =
        Timestamp.finite msg.feedback_time) ∧
    (¬ (Timestamp.finite msg.feedback_time ≥ exit_at ∧
        (is_round_start = true ∨ s.probe_rtt_round_passed_ = true)) →
      (s.MaybeEnterOrExitProbeRtt msg is_round_start min_rtt_expired).mode_ =
        Mode.PROBE_RTT) := by
  obtain ⟨y, y1, y2, -, y4, y5, -, hy⟩ := probeRtt_inside s msg is_round_start min_rtt_expired hm
  obtain ⟨m0, m1, m2, m3⟩ := markProbeRttRound_fields y is_round_start
  obtain ⟨x1, x2, x3⟩ := exitProbeRtt_fields (y.markProbeRttRound is_round_start)
    msg.feedback_time
  rw [hy, inProbeRtt_some y msg is_round_start exit_at (y2.trans he)]
  rw [y5] at m0
  by_cases hc : Timestamp.finite msg.feedback_time ≥ exit_at ∧
      (y.markProbeRttRound is_round_start).probe_rtt_round_passed_ = true
  · rw [if_pos hc]
    refine ⟨x3.trans (m2.trans (y2.trans he)), fun _ => ⟨?_, x2⟩,
      fun h => absurd ⟨hc.1, m0.1 hc.2⟩ h⟩
    show (exitProbeRtt _ _).mode_ = _
    rw [x1, m3, y4]
  · rw [if_neg hc]
    exact ⟨m2.trans (y2.trans he), fun h => absurd ⟨h.1, m0.2 h.2⟩ hc, fun _ => m1.trans y1⟩

end BbrNetworkController

/-- C27: `MaybeEnterOrExitProbeRtt`. When the minimum RTT has expired, the
controller is not leaving quiescence and is not in `PROBE_RTT`, the entry step
sets the mode to `PROBE_RTT`, the pacing gain to 1 and clears the exit time, and
the call ends in `PROBE_RTT` with pacing gain 1 and either no exit time or the
one scheduled in this call. A call that changes the exit time ends in
`PROBE_RTT`. A call that ends with an exit time other than the one it started
with had `data_in_flight < ProbeRttCongestionWindow() + 1452` and set it to
`feedback_time + 200 ms`, clearing `probe_rtt_round_passed_`. A call that starts
in `PROBE_RTT` and ends elsewhere had an exit time no later than
`feedback_time` and a round start seen, now or recorded in
`probe_rtt_round_passed_`, and ends in `STARTUP` when not at full bandwidth and
in `PROBE_BW` otherwise; and such a call does leave `PROBE_RTT` when these
conditions hold. -/
theorem maybe_enter_or_exit_probe_rtt_spec (s : BbrNetworkController)
    (msg : TransportPacketsFeedback) (is_round_start min_rtt_expired : Bool) :
    (min_rtt_expired = true → s.exiting_quiescence_ = false → s.mode_ ≠ Mode.PROBE_RTT →
      s.enterProbeRtt min_rtt_expired =
        { s with
          mode_ := Mode.PROBE_RTT
          pacing_gain_ := Double.ofInt 1
          exit_probe_rtt_at_ := none } ∧
      (s.MaybeEnterOrExitProbeRtt msg is_round_start min_rtt_expired).mode_ = Mode.PROBE_RTT ∧
      (s.MaybeEnterOrExitProbeRtt msg is_round_start min_rtt_expired).pacing_gain_ =
        Double.ofInt 1 ∧
      (s.MaybeEnterOrExitProbeRtt msg is_round_start min_rtt_expired).exit_probe_rtt_at_ =
        (if msg.data_in_flight < s.ProbeRttCongestionWindow + 1452 then
          some ((Timestamp.finite msg.feedback_time).add (TimeDelta.ms 200))
        else none)) ∧
    ((s.MaybeEnterOrExitProbeRtt msg is_round_start min_rtt_expired).exit_probe_rtt_at_ ≠
        s.exit_probe_rtt_at_ →
      (s.MaybeEnterOrExitProbeRtt msg is_round_start min_rtt_expired).mode_ = Mode.PROBE_RTT) ∧
    (∀ exit_at : Timestamp,
      (s.MaybeEnterOrExitProbeRtt msg is_round_start min_rtt_expired).exit_probe_rtt_at_ =
        some exit_at →
      s.exit_probe_rtt_at_ ≠ some exit_at →
      msg.data_in_flight < s.ProbeRttCongestionWindow + 1452 ∧
      exit_at = (Timestamp.finite msg.feedback_time).add (TimeDelta.ms 200) ∧
      (s.MaybeEnterOrExitProbeRtt msg is_round_start min_rtt_expired).probe_rtt_round_passed_ =
        false) ∧
    (s.mode_ = Mode.PROBE_RTT →
      ((s.MaybeEnterOrExitProbeRtt msg is_round_start min_rtt_expired).mode_ ≠ Mode.PROBE_RTT ↔
        ∃ exit_at : Timestamp, s.exit_probe_rtt_at_ = some exit_at ∧
          Timestamp.finite msg.feedback_time ≥ exit_at ∧
          (is_round_start = true ∨ s.probe_rtt_round_passed_ = true)) ∧
      ((s.MaybeEnterOrExitProbeRtt msg is_round_start min_rtt_expired).mode_ ≠ Mode.PROBE_RTT →
        (s.MaybeEnterOrExitProbeRtt msg is_round_start min_rtt_expired).mode_ =
          (if s.is_at_full_bandwidth_ = true then Mode.PROBE_BW else Mode.STARTUP))) ∧
    (s.MaybeEnterOrExitProbeRtt msg is_round_start min_rtt_expired).exiting_quiescence_ =
      false := by
  -- the entry step either fires, or leaves the state as it is
  have henter : (s.enterProbeRtt min_rtt_expired =
        { s with
          mode_ := Mode.PROBE_RTT
          pacing_gain_ := Double.ofInt 1
          exit_probe_rtt_at_ := none } ∧
        min_rtt_expired = true ∧ s.exiting_quiescence_ = false ∧ s.mode_ ≠ Mode.PROBE_RTT) ∨
      (s.enterProbeRtt min_rtt_expired = s ∧
        ¬ (min_rtt_expired = true ∧ s.exiting_quiescence_ = false ∧
          s.mode_ ≠ Mode.PROBE_RTT)) := by
    unfold BbrNetworkController.enterProbeRtt
    by_cases hc : min_rtt_expired = true ∧ s.exiting_quiescence_ = false ∧
        s.mode_ ≠ Mode.PROBE_RTT
    · rw [if_pos hc]
      exact Or.inl ⟨rfl, hc⟩
    · rw [if_neg hc]
      exact Or.inr ⟨rfl, hc⟩
  have hk : s.ProbeRttCongestionWindow + 1452 = s.ProbeRttCongestionWindow + kMaxPacketSize :=
    rfl
  have hp : TimeDelta.ms 200 = TimeDelta.ms kProbeRttTimeMs := rfl
  rw [hk, hp]
  refine ⟨fun h1 h2 h3 => ?_, ?_, ?_, fun hm => ?_, ?_⟩
  · rcases henter with ⟨he, -⟩ | ⟨-, hn⟩
    · have hmode : (s.enterProbeRtt min_rtt_expired).mode_ = Mode.PROBE_RTT := by rw [he]
      have hexit : (s.enterProbeRtt min_rtt_expired).exit_probe_rtt_at_ = none := by rw [he]
      have hgain : (s.enterProbeRtt min_rtt_expired).pacing_gain_ = Double.ofInt 1 := by rw [he]
      obtain ⟨a, b, c, d⟩ :=
        BbrNetworkController.probeRtt_schedule s msg is_round_start min_rtt_expired hmode hexit
      refine ⟨he, a, b.trans hgain, ?_⟩
      by_cases hc : msg.data_in_flight < s.ProbeRttCongestionWindow + kMaxPacketSize
      · rw [if_pos hc]
        exact (c hc).1
      · rw [if_neg hc]
        exact d hc
    · exact absurd ⟨h1, h2, h3⟩ hn
  · intro hne
    by_cases hmode : (s.enterProbeRtt min_rtt_expired).mode_ = Mode.PROBE_RTT
    · cases hexit : (s.enterProbeRtt min_rtt_expired).exit_probe_rtt_at_ with
      | none =>
        exact (BbrNetworkController.probeRtt_schedule s msg is_round_start min_rtt_expired
          hmode hexit).1
      | some e =>
        exfalso
        apply hne
        rw [(BbrNetworkController.probeRtt_exit s msg is_round_start min_rtt_expired e hmode
          hexit).1]
        rcases henter with ⟨he, -⟩ | ⟨he, -⟩
        · rw [he] at hexit
          cases hexit
        · rw [he] at hexit
          exact hexit.symm
    · exfalso
      apply hne
      rw [BbrNetworkController.probeRtt_outside s msg is_round_start min_rtt_expired hmode]
      rcases henter with ⟨he, -⟩ | ⟨he, -⟩
      · rw [he] at hmode
        exact absurd rfl hmode
      · show (s.enterProbeRtt min_rtt_expired).exit_probe_rtt_at_ = _
        rw [he]
  · intro exit_at hfin hne
    by_cases hmode : (s.enterProbeRtt min_rtt_expired).mode_ = Mode.PROBE_RTT
    · cases hexit : (s.enterProbeRtt min_rtt_expired).exit_probe_rtt_at_ with
      | none =>
        obtain ⟨-, -, c, d⟩ :=
          BbrNetworkController.probeRtt_schedule s msg is_round_start min_rtt_expired hmode hexit
        by_cases hc : msg.data_in_flight < s.ProbeRttCongestionWindow + kMaxPacketSize
        · refine ⟨hc, ?_, (c hc).2⟩
          have := (c hc).1
          rw [hfin] at this
          exact Option.some.inj this
        · rw [d hc] at hfin
          cases hfin
      | some e =>
        exfalso
        rw [(BbrNetworkController.probeRtt_exit s msg is_round_start min_rtt_expired e hmode
          hexit).1] at hfin
        rcases henter with ⟨he, -⟩ | ⟨he, -⟩
        · rw [he] at hexit
          cases hexit
        · rw [he] at hexit
          exact hne (hexit.trans hfin)
    · exfalso
      rw [BbrNetworkController.probeRtt_outside s msg is_round_start min_rtt_expired hmode]
        at hfin
      rcases henter with ⟨he, -⟩ | ⟨he, -⟩
      · rw [he] at hmode
        exact absurd rfl hmode
      · apply hne
        rw [← hfin]
        show _ = (s.enterProbeRtt min_rtt_expired).exit_probe_rtt_at_
        rw [he]
  · have he : s.enterProbeRtt min_rtt_expired = s := by
      rcases henter with ⟨-, -, -, h⟩ | ⟨he, -⟩
      · exact absurd hm h
      · exact he
    have hmode : (s.enterProbeRtt min_rtt_expired).mode_ = Mode.PROBE_RTT := by rw [he]; exact hm
    cases hexit : s.exit_probe_rtt_at_ with
    | none =>
      have a := (BbrNetworkController.probeRtt_schedule s msg is_round_start min_rtt_expired
        hmode (by rw [he]; exact hexit)).1
      refine ⟨⟨fun h => absurd a h, fun ⟨e, h, _⟩ => by cases h⟩, fun h => absurd a h⟩
    | some e =>
      obtain ⟨-, b, c⟩ := BbrNetworkController.probeRtt_exit s msg is_round_start
        min_rtt_expired e hmode (by rw [he]; exact hexit)
      by_cases hc : Timestamp.finite msg.feedback_time ≥ e ∧
          (is_round_start = true ∨ s.probe_rtt_round_passed_ = true)
      · have hb := (b hc).1
        refine ⟨⟨fun _ => ⟨e, rfl, hc⟩, fun _ => ?_⟩, fun _ => hb⟩
        rw [hb]
        split_ifs <;> decide
      · refine ⟨⟨fun h => absurd (c hc) h, fun ⟨e1, h1, h2⟩ => ?_⟩, fun h => absurd (c hc) h⟩
        cases h1
        exact absurd h2 hc
  · unfold BbrNetworkController.MaybeEnterOrExitProbeRtt
    rfl

/-! ## The target window -/

theorem roundDiv_nonneg (n : Int) (d : Nat) (hn : 0 ≤ n) : 0 ≤ roundDiv n d := by
  unfold roundDiv
  rw [if_pos hn]
  exact Int.ediv_nonneg (by positivity) (by positivity)

/-- The rounded product is monotone in the factor. -/
theorem roundDiv_mono (n1 n2 x : Int) (d1 d2 : Nat) (h1 : 0 ≤ n1) (hd1 : 0 < d1)
    (hd2 : 0 < d2) (hx : 0 ≤ x) (hle : n1 * d2 ≤ n2 * d1) :
    roundDiv (n1 * x) d1 ≤ roundDiv (n2 * x) d2 := by
  have hd1z : (0 : Int) < d1 := by exact_mod_cast hd1
  have hd2z : (0 : Int) < d2 := by exact_mod_cast hd2
  have h2 : 0 ≤ n2 := by
    by_contra hneg
    push_neg at hneg
    have : n2 * d1 < 0 := mul_neg_of_neg_of_pos hneg hd1z
    have : 0 ≤ n1 * d2 := mul_nonneg h1 hd2z.le
    omega
  unfold roundDiv
  rw [if_pos (mul_nonneg h1 hx), if_pos (mul_nonneg h2 hx)]
  rw [Int.le_ediv_iff_mul_le (by positivity)]
  have hq := Int.ediv_mul_le (2 * (n1 * x) + d1) (show (2 * (d1 : Int)) ≠ 0 by positivity)
  have hq0 : 0 ≤ (2 * (n1 * x) + d1) / (2 * (d1 : Int)) :=
    Int.ediv_nonneg (by positivity) (by positivity)
  have hm : n1 * x * d2 ≤ n2 * x * d1 := by
    have := mul_le_mul_of_nonneg_right hle hx
    nlinarith
  have key : (2 * (n1 * x) + d1) / (2 * (d1 : Int)) * (2 * d2) * d1 ≤
      (2 * (n2 * x) + d2) * d1 := by
    have := mul_le_mul_of_nonneg_right hq hd2z.le
    nlinarith
  exact le_of_mul_le_mul_right key hd1z

/-- A factor whose product with a positive value rounds to zero is below one
half. -/
theorem roundDiv_eq_zero (n x : Int) (d : Nat) (hn : 0 ≤ n) (hx : 0 < x)
    (h : roundDiv (n * x) d = 0) (hd : 0 < d) : 2 * n < d := by
  have hdz : (0 : Int) < d := by exact_mod_cast hd
  unfold roundDiv at h
  rw [if_pos (mul_nonneg hn hx.le)] at h
  have hlt := Int.lt_ediv_add_one_mul_self (2 * (n * x) + d) (show (0 : Int) < 2 * d by positivity)
  rw [h] at hlt
  nlinarith

/-- A factor below one half of a value that is at most `2 * m` rounds to at
most `m`. -/
theorem roundDiv_le_half (n x m : Int) (d : Nat) (hn : 0 ≤ n) (hx : 0 ≤ x) (hd : 0 < d)
    (hlt : 2 * n < d) (hm : x ≤ 2 * m) : roundDiv (n * x) d ≤ m := by
  have hdz : (0 : Int) < d := by exact_mod_cast hd
  unfold roundDiv
  rw [if_pos (mul_nonneg hn hx)]
  have : (2 * (n * x) + d) / (2 * (d : Int)) < m + 1 := by
    apply Int.ediv_lt_of_lt_mul (by positivity)
    nlinarith
  omega

/-- C29: for gains `g1 <= g2` that are not negative, on a state whose product
of bandwidth and minimum RTT and whose initial window are not negative,
`GetTargetCongestionWindow(g1)` is the larger of `min_congestion_window_` and
`g1 * bdp`, where `bdp` is the bandwidth estimate times the larger of
`GetMinRtt()` and 50 ms, or of `min_congestion_window_` and
`g1 * initial_congestion_window_` when `g1 * bdp` is zero; and it is at least
`min_congestion_window_`. When moreover `bdp` is zero, or `g1 * bdp` is not
zero, or the initial window is at most twice the minimum window, it is at most
`GetTargetCongestionWindow(g2)`. -/
theorem get_target_congestion_window_spec (s : BbrNetworkController) (g1 g2 : Double)
    (h1 : 0 ≤ g1.num) (hd1 : 0 < g1.den) (hd2 : 0 < g2.den) (hle : g1.le g2 = true)
    (hb : 0 ≤ s.bdp) (hi : 0 ≤ s.initial_congestion_window_) :
    s.bdp = (max s.GetMinRtt (TimeDelta.ms 50)).mulRate s.BandwidthEstimate ∧
    s.GetTargetCongestionWindow g1 =
      (if g1.round s.bdp = 0 then
        max s.min_congestion_window_ (g1.round s.initial_congestion_window_)
      else max s.min_congestion_window_ (g1.round s.bdp)) ∧
    s.min_congestion_window_ ≤ s.GetTargetCongestionWindow g1 ∧
    ((s.bdp = 0 ∨ g1.round s.bdp ≠ 0 ∨
        s.initial_congestion_window_ ≤ 2 * s.min_congestion_window_) →
      s.GetTargetCongestionWindow g1 ≤ s.GetTargetCongestionWindow g2) := by
  have hle1 : g1.num * g2.den ≤ g2.num * g1.den := by
    simpa [Double.le] using hle
  have hr : g1.round s.bdp ≤ g2.round s.bdp :=
    roundDiv_mono g1.num g2.num s.bdp g1.den g2.den h1 hd1 hd2 hb hle1
  have hri : g1.round s.initial_congestion_window_ ≤ g2.round s.initial_congestion_window_ :=
    roundDiv_mono g1.num g2.num s.initial_congestion_window_ g1.den g2.den h1 hd1 hd2 hi hle1
  have hr0 : 0 ≤ g1.round s.bdp := roundDiv_nonneg _ _ (mul_nonneg h1 hb)
  refine ⟨rfl, ?_, ?_, ?_⟩
  · unfold BbrNetworkController.GetTargetCongestionWindow
    split_ifs <;> exact max_comm _ _
  · unfold BbrNetworkController.GetTargetCongestionWindow
    exact le_max_right _ _
  · intro hz
    unfold BbrNetworkController.GetTargetCongestionWindow
    by_cases hz1 : g1.round s.bdp = 0
    · rw [if_pos hz1]
      by_cases hz2 : g2.round s.bdp = 0
      · rw [if_pos hz2]
        exact max_le_max hri le_rfl
      · rw [if_neg hz2]
        have hpos : 0 < s.bdp := by
          rcases lt_or_eq_of_le hb with h | h
          · exact h
          · exfalso
            apply hz2
            rw [← h]
            have hd2z : (0 : Int) < g2.den := by exact_mod_cast hd2
            simp only [Double.round, roundDiv, mul_zero, le_refl, if_true, zero_add]
            exact Int.ediv_eq_zero_of_lt hd2z.le (by omega)
        rcases hz with h | h | h
        · omega
        · exact absurd hz1 h
        · have hhalf := roundDiv_eq_zero g1.num s.bdp g1.den h1 hpos hz1 hd1
          have := roundDiv_le_half g1.num s.initial_congestion_window_
            s.min_congestion_window_ g1.den h1 hi hd1 hhalf h
          exact max_le (le_trans this (le_max_right _ _)) (le_max_right _ _)
    · rw [if_neg hz1]
      have hz2 : g2.round s.bdp ≠ 0 := by omega
      rw [if_neg hz2]
      exact max_le_max hr le_rfl

/-- The property of C29 at the controller `slowController`: for the gains 2/5
and 1 the product `g1 * bdp` is zero and the target window is the larger of
the minimum window and 2/5 of the initial window; for the gains 3/5 and 1 the
product is not zero and the target window of 3/5 is at most that of 1. -/
theorem get_target_congestion_window_spec_witness :
    ((0 : Int) ≤ (Double.mk 2 5).num ∧ Double.le ⟨2, 5⟩ ⟨1, 1⟩ = true ∧
      slowController.bdp = 1 ∧ Double.round ⟨2, 5⟩ slowController.bdp = 0 ∧
      slowController.GetTargetCongestionWindow ⟨2, 5⟩ =
        max slowController.min_congestion_window_
          (Double.round ⟨2, 5⟩ slowController.initial_congestion_window_) ∧
      slowController.min_congestion_window_ ≤
        slowController.GetTargetCongestionWindow ⟨2, 5⟩) ∧
    ((0 : Int) ≤ (Double.mk 3 5).num ∧ Double.le ⟨3, 5⟩ ⟨1, 1⟩ = true ∧
      Double.round ⟨3, 5⟩ slowController.bdp = 1 ∧
      slowController.GetTargetCongestionWindow ⟨3, 5⟩ ≤
        slowController.GetTargetCongestionWindow ⟨1, 1⟩) :=
  ⟨⟨by decide, by decide, by decide, by decide,
      ((get_target_congestion_window_spec slowController ⟨2, 5⟩ ⟨1, 1⟩ (by decide) (by decide)
        (by decide) (by decide) (by decide) (by decide)).2.1).trans
        (if_pos (show Double.round ⟨2, 5⟩ slowController.bdp = 0 by decide)),
      (get_target_congestion_window_spec slowController ⟨2, 5⟩ ⟨1, 1⟩ (by decide) (by decide)
        (by decide) (by decide) (by decide) (by decide)).2.2.1⟩,
    ⟨by decide, by decide, by decide,
      (get_target_congestion_window_spec slowController ⟨3, 5⟩ ⟨1, 1⟩ (by decide) (by decide)
        (by decide) (by decide) (by decide) (by decide)).2.2.2 (Or.inr (Or.inl (by decide)))⟩⟩

/-- The controller `slowController`, reached from a new controller whose
minimum window is four segments, has a target window of 18688 bytes for the
gain 2/5 and of 5840 bytes for the gain 1: the target window is not monotone in
the gain. -/
theorem get_target_congestion_window_counterexample :
    (0 : Int) ≤ (Double.mk 2 5).num ∧ Double.le ⟨2, 5⟩ ⟨1, 1⟩ = true ∧
    slowController.bdp = 1 ∧
    slowController.GetTargetCongestionWindow ⟨2, 5⟩ = 18688 ∧
    slowController.GetTargetCongestionWindow ⟨1, 1⟩ = 5840 ∧
    ¬ slowController.GetTargetCongestionWindow ⟨2, 5⟩ ≤
      slowController.GetTargetCongestionWindow ⟨1, 1⟩ := by
  decide

/-! ## The bandwidth filter in `UpdateBandwidthAndMinRtt` -/

namespace BbrNetworkController

theorem rounds_ackPackets (div : Int → Int → DataRate) (now : Int)
    (acked_packets : List PacketResult) :
    ∀ acc : TimeDelta × BbrNetworkController,
      (acked_packets.foldl (ackPacket div now) acc).2.round_trip_count_ =
        acc.2.round_trip_count_ := by
  induction acked_packets with
  | nil => intro acc; rfl
  | cons packet rest ih =>
    intro acc
    rw [List.foldl_cons, ih]
    rfl

theorem bandwidth_updateMinRtt (s : BbrNetworkController) (now : Int) (sample_rtt : TimeDelta) :
    (s.updateMinRtt now sample_rtt).2.max_bandwidth_ = s.max_bandwidth_ ∧
    (s.updateMinRtt now sample_rtt).2.round_trip_count_ = s.round_trip_count_ := by
  unfold updateMinRtt
  split_ifs <;> exact ⟨rfl, rfl⟩

end BbrNetworkController

/-- C30: in `UpdateBandwidthAndMinRtt`, for every acknowledged packet, with
`acc` the state of the loop before it: when its sample is app-limited and its
bandwidth is not greater than the best estimate of the filter, the
max-bandwidth filter is left as it is; otherwise the filter is updated with the
bandwidth of the sample at the key `round_trip_count_`, which is the round
count at the call. The filter after the call is the filter after the loop. -/
theorem update_bandwidth_filter_spec (div : Int → Int → DataRate) (s : BbrNetworkController)
    (now : Int) (acked_packets : List PacketResult) :
    (∀ (before after : List PacketResult) (packet : PacketResult)
      (acc : TimeDelta × BbrNetworkController),
      acked_packets = before ++ packet :: after →
      acc = before.foldl (BbrNetworkController.ackPacket div now) (TimeDelta.plusInfinity, s) →
      (before ++ [packet]).foldl (BbrNetworkController.ackPacket div now)
          (TimeDelta.plusInfinity, s) = BbrNetworkController.ackPacket div now acc packet ∧
      ((acc.2.sampler_.OnPacketAcknowledged div now
            packet.sent_packet.sequence_number).1.is_app_limited = true ∧
          ¬ (acc.2.sampler_.OnPacketAcknowledged div now
            packet.sent_packet.sequence_number).1.bandwidth > acc.2.max_bandwidth_.GetBest →
        (BbrNetworkController.ackPacket div now acc packet).2.max_bandwidth_ =
          acc.2.max_bandwidth_) ∧
      (¬ ((acc.2.sampler_.OnPacketAcknowledged div now
            packet.sent_packet.sequence_number).1.is_app_limited = true ∧
          ¬ (acc.2.sampler_.OnPacketAcknowledged div now
            packet.sent_packet.sequence_number).1.bandwidth > acc.2.max_bandwidth_.GetBest) →
        (BbrNetworkController.ackPacket div now acc packet).2.max_bandwidth_ =
          acc.2.max_bandwidth_.Update MaxFilter
            (acc.2.sampler_.OnPacketAcknowledged div now
              packet.sent_packet.sequence_number).1.bandwidth s.round_trip_count_)) ∧
    (s.UpdateBandwidthAndMinRtt div now acked_packets).2.max_bandwidth_ =
      (acked_packets.foldl (BbrNetworkController.ackPacket div now)
        (TimeDelta.plusInfinity, s)).2.max_bandwidth_ ∧
    (s.UpdateBandwidthAndMinRtt div now acked_packets).2.round_trip_count_ =
      s.round_trip_count_ := by
  refine ⟨fun before after packet acc _ hacc => ?_, ?_, ?_⟩
  · have hr := BbrNetworkController.rounds_ackPackets div now before (TimeDelta.plusInfinity, s)
    rw [← hacc] at hr
    simp only at hr
    rw [List.foldl_append, List.foldl_cons, List.foldl_nil, ← hacc, ← hr]
    refine ⟨rfl, ?_, ?_⟩
    · rintro ⟨ha, hb⟩
      unfold BbrNetworkController.ackPacket
      simp only [BbrNetworkController.BandwidthEstimate]
      rw [if_neg]
      rintro (h | h)
      · rw [ha] at h
        cases h
      · exact hb h
    · intro hn
      unfold BbrNetworkController.ackPacket
      simp only [BbrNetworkController.BandwidthEstimate]
      rw [if_pos]
      by_contra hc
      push_neg at hc
      apply hn
      refine ⟨?_, not_lt.mpr hc.2⟩
      cases hl : (acc.2.sampler_.OnPacketAcknowledged div now
        packet.sent_packet.sequence_number).1.is_app_limited
      · exact absurd hl hc.1
      · rfl
  · exact (BbrNetworkController.bandwidth_updateMinRtt _ now _).1
  · unfold BbrNetworkController.UpdateBandwidthAndMinRtt
    rw [(BbrNetworkController.bandwidth_updateMinRtt _ now _).2]
    exact BbrNetworkController.rounds_ackPackets div now acked_packets _

/-! ## The parts of the state that the steps keep -/

namespace BbrNetworkController

theorem Keeps.refl_keeps (k : Kept) (s : BbrNetworkController) : Keeps k s s :=
  ⟨rfl, fun _ => rfl, fun _ => ⟨rfl, rfl⟩, fun _ => rfl, fun _ => rfl, fun _ => rfl⟩

theorem Keeps.trans_keeps {k : Kept} {s t u : BbrNetworkController} (h1 : Keeps k s t)
    (h2 : Keeps k t u) : Keeps k s u :=
  ⟨h2.1.trans h1.1, fun h => (h2.2.1 h).trans (h1.2.1 h),
    fun h => ⟨(h2.2.2.1 h).1.trans (h1.2.2.1 h).1, (h2.2.2.1 h).2.trans (h1.2.2.1 h).2⟩,
    fun h => (h2.2.2.2.1 h).trans (h1.2.2.2.1 h),
    fun h => (h2.2.2.2.2.1 h).trans (h1.2.2.2.2.1 h),
    fun h => (h2.2.2.2.2.2 h).trans (h1.2.2.2.2.2 h)⟩

theorem Keeps.mono {j k : Kept} {s t : BbrNetworkController} (h : Keeps k s t)
    (hle : j.le k = true) : Keeps j s t := by
  simp only [Kept.le, Bool.and_eq_true, Bool.or_eq_true, Bool.not_eq_true'] at hle
  obtain ⟨⟨⟨⟨l1, l2⟩, l3⟩, l4⟩, l5⟩ := hle
  refine ⟨h.1, fun hj => h.2.1 ?_, fun hj => h.2.2.1 ?_, fun hj => h.2.2.2.1 ?_,
    fun hj => h.2.2.2.2.1 ?_, fun hj => h.2.2.2.2.2 ?_⟩
  · rcases l1 with l | l
    · rw [hj] at l; cases l
    · exact l
  · rcases l2 with l | l
    · rw [hj] at l; cases l
    · exact l
  · rcases l3 with l | l
    · rw [hj] at l; cases l
    · exact l
  · rcases l4 with l | l
    · rw [hj] at l; cases l
    · exact l
  · rcases l5 with l | l
    · rw [hj] at l; cases l
    · exact l

theorem keeps_all (s : BbrNetworkController) (k : Kept) (t : BbrNetworkController)
    (h0 : t.config_ = s.config_) (h1 : t.round_trip_count_ = s.round_trip_count_)
    (h2 : t.cycle_current_offset_ = s.cycle_current_offset_)
    (h3 : t.pacing_gain_ = s.pacing_gain_) (h4 : t.pacing_rate_ = s.pacing_rate_)
    (h5 : t.max_bandwidth_ = s.max_bandwidth_) (h6 : t.sampler_ = s.sampler_) : Keeps k s t :=
  ⟨h0, fun _ => h1, fun _ => ⟨h2, h3⟩, fun _ => h4, fun _ => h5, fun _ => h6⟩

theorem keeps_OnSentPacket (s : BbrNetworkController) (msg : SentPacket) :
    Keeps ⟨true, true, true, true, false⟩ s (s.OnSentPacket msg) :=
  ⟨rfl, fun _ => rfl, fun _ => ⟨rfl, rfl⟩, fun _ => rfl, fun _ => rfl, fun h => by cases h⟩

theorem keeps_OnTargetRateConstraints (s : BbrNetworkController) (msg : TargetRateConstraints)
    (k : Kept) : Keeps k s (s.OnTargetRateConstraints msg) :=
  keeps_all s k _ rfl rfl rfl rfl rfl rfl rfl

theorem keeps_beforeModel (s : BbrNetworkController) (msg : TransportPacketsFeedback)
    (last : PacketResult) : Keeps ⟨true, true, true, true, false⟩ s (s.beforeModel msg last) :=
  ⟨rfl, fun _ => rfl, fun _ => ⟨rfl, rfl⟩, fun _ => rfl, fun _ => rfl, fun h => by cases h⟩

theorem keeps_UpdateRoundTripCounter (s : BbrNetworkController) (last_acked_packet : Int) :
    Keeps ⟨false, true, true, true, true⟩ s (s.UpdateRoundTripCounter last_acked_packet).2 := by
  unfold UpdateRoundTripCounter
  split_ifs
  · exact ⟨rfl, fun h => (by cases h), fun _ => ⟨rfl, rfl⟩, fun _ => rfl, fun _ => rfl,
      fun _ => rfl⟩
  · exact Keeps.refl_keeps _ s

theorem keeps_ackPacket (div : Int → Int → DataRate) (now : Int)
    (acc : TimeDelta × BbrNetworkController) (packet : PacketResult) :
    Keeps ⟨true, true, true, false, false⟩ acc.2 (ackPacket div now acc packet).2 :=
  ⟨rfl, fun _ => rfl, fun _ => ⟨rfl, rfl⟩, fun _ => rfl, fun h => (by cases h),
    fun h => by cases h⟩

theorem keeps_ackPackets (div : Int → Int → DataRate) (now : Int)
    (acked_packets : List PacketResult) :
    ∀ acc : TimeDelta × BbrNetworkController,
      Keeps ⟨true, true, true, false, false⟩ acc.2
        (acked_packets.foldl (ackPacket div now) acc).2 := by
  induction acked_packets with
  | nil => intro acc; exact Keeps.refl_keeps _ _
  | cons packet rest ih =>
    intro acc
    exact (keeps_ackPacket div now acc packet).trans_keeps (ih _)

theorem keeps_updateMinRtt (s : BbrNetworkController) (now : Int) (sample_rtt : TimeDelta)
    (k : Kept) : Keeps k s (s.updateMinRtt now sample_rtt).2 := by
  unfold updateMinRtt
  split_ifs <;> exact keeps_all s k _ rfl rfl rfl rfl rfl rfl rfl

theorem keeps_UpdateBandwidthAndMinRtt (div : Int → Int → DataRate) (s : BbrNetworkController)
    (now : Int) (acked_packets : List PacketResult) :
    Keeps ⟨true, true, true, false, false⟩ s
      (s.UpdateBandwidthAndMinRtt div now acked_packets).2 :=
  (keeps_ackPackets div now acked_packets (TimeDelta.plusInfinity, s)).trans_keeps
    (keeps_updateMinRtt _ now _ _)

theorem keeps_exitRecovery (s : BbrNetworkController) (last_acked_packet : Int)
    (has_losses : Bool) (k : Kept) : Keeps k s (s.exitRecovery last_acked_packet has_losses) := by
  unfold exitRecovery
  split_ifs <;> exact keeps_all s k _ rfl rfl rfl rfl rfl rfl rfl

theorem keeps_recoverySwitch (s : BbrNetworkController) (last_acked_packet : Int)
    (has_losses is_round_start : Bool) (k : Kept) :
    Keeps k s (s.recoverySwitch last_acked_packet has_losses is_round_start) := by
  unfold recoverySwitch
  split
  · split_ifs <;> exact keeps_all s k _ rfl rfl rfl rfl rfl rfl rfl
  · exact keeps_exitRecovery s _ _ k
  · cases is_round_start
    · exact keeps_exitRecovery s _ _ k
    · exact Keeps.trans_keeps (keeps_all s k _ rfl rfl rfl rfl rfl rfl rfl)
        (keeps_exitRecovery _ _ _ k)

theorem keeps_UpdateRecoveryState (s : BbrNetworkController) (last_acked_packet : Int)
    (has_losses is_round_start : Bool) (k : Kept) :
    Keeps k s (s.UpdateRecoveryState last_acked_packet has_losses is_round_start) := by
  unfold UpdateRecoveryState
  cases has_losses
  · exact keeps_recoverySwitch s _ _ _ k
  · exact Keeps.trans_keeps (keeps_all s k _ rfl rfl rfl rfl rfl rfl rfl)
      (keeps_recoverySwitch _ _ _ _ k)

theorem keeps_UpdateAckAggregationBytes (s : BbrNetworkController) (ack_time : Int)
    (newly_acked_bytes : Int) (k : Kept) :
    Keeps k s (s.UpdateAckAggregationBytes ack_time newly_acked_bytes) := by
  unfold UpdateAckAggregationBytes
  split
  · exact Keeps.refl_keeps k s
  · split_ifs <;> exact keeps_all s k _ rfl rfl rfl rfl rfl rfl rfl

theorem keeps_drainedBytes (s : BbrNetworkController) (msg : TransportPacketsFeedback)
    (data_acked : Int) (k : Kept) : Keeps k s (s.drainedBytes msg data_acked) := by
  unfold drainedBytes
  split_ifs <;> exact keeps_all s k _ rfl rfl rfl rfl rfl rfl rfl

end BbrNetworkController

namespace BbrNetworkController

theorem keeps_afterCounter (div : Int → Int → DataRate) (s : BbrNetworkController)
    (msg : TransportPacketsFeedback) (total_data_acked_before : Int) (packet : PacketResult)
    (h : msg.ReceivedWithSendInfo.getLast? = some packet) :
    (s.feedModel div msg total_data_acked_before).1 =
      (s.UpdateRoundTripCounter packet.sent_packet.sequence_number).1 ∧
    Keeps ⟨true, true, true, false, false⟩
      (s.UpdateRoundTripCounter packet.sent_packet.sequence_number).2
      (s.feedModel div msg total_data_acked_before).2.2 := by
  unfold feedModel
  rw [h]
  refine ⟨rfl, ?_⟩
  refine Keeps.trans_keeps ?_ (keeps_drainedBytes _ _ _ _)
  refine Keeps.trans_keeps ?_ (keeps_UpdateAckAggregationBytes _ _ _ _)
  unfold afterRecovery
  refine Keeps.trans_keeps ?_ (keeps_UpdateRecoveryState _ _ _ _ _)
  unfold roundAndBandwidth
  exact keeps_UpdateBandwidthAndMinRtt div _ _ _

theorem keeps_feedModel (div : Int → Int → DataRate) (s : BbrNetworkController)
    (msg : TransportPacketsFeedback) (total_data_acked_before : Int) :
    Keeps ⟨false, true, true, false, false⟩ s
      (s.feedModel div msg total_data_acked_before).2.2 := by
  cases h : msg.ReceivedWithSendInfo.getLast? with
  | none =>
    unfold feedModel
    rw [h]
    exact Keeps.refl_keeps _ s
  | some packet =>
    exact ((keeps_UpdateRoundTripCounter s _).mono (by decide)).trans_keeps
      ((keeps_afterCounter div s msg total_data_acked_before packet h).2.mono (by decide))

theorem keeps_UpdateGainCyclePhase (s : BbrNetworkController) (now : Int)
    (prior_in_flight : Int) (has_losses : Bool) :
    Keeps ⟨true, false, true, true, true⟩ s
      (s.UpdateGainCyclePhase now prior_in_flight has_losses) := by
  unfold UpdateGainCyclePhase
  split_ifs
  · exact ⟨rfl, fun _ => rfl, fun h => (by cases h), fun _ => rfl, fun _ => rfl, fun _ => rfl⟩
  · exact ⟨rfl, fun _ => rfl, fun h => (by cases h), fun _ => rfl, fun _ => rfl, fun _ => rfl⟩
  · exact Keeps.refl_keeps _ s

theorem keeps_gainCycleStage (s : BbrNetworkController) (msg : TransportPacketsFeedback) :
    Keeps ⟨true, false, true, true, true⟩ s (s.gainCycleStage msg) := by
  unfold gainCycleStage
  split_ifs
  · exact keeps_UpdateGainCyclePhase s _ _ _
  · exact Keeps.refl_keeps _ s

theorem keeps_fullBandwidthStage (s : BbrNetworkController) (is_round_start : Bool)
    (k : Kept) : Keeps k s (s.fullBandwidthStage is_round_start) := by
  unfold fullBandwidthStage CheckIfFullBandwidthReached
  split_ifs <;> exact keeps_all s k _ rfl rfl rfl rfl rfl rfl rfl

theorem keeps_EnterStartupMode (s : BbrNetworkController) :
    Keeps ⟨true, false, true, true, true⟩ s s.EnterStartupMode :=
  ⟨rfl, fun _ => rfl, fun h => (by cases h), fun _ => rfl, fun _ => rfl, fun _ => rfl⟩

theorem keeps_EnterProbeBandwidthMode (s : BbrNetworkController) (now : Timestamp) :
    Keeps ⟨true, false, true, true, true⟩ s (s.EnterProbeBandwidthMode now) :=
  ⟨rfl, fun _ => rfl, fun h => (by cases h), fun _ => rfl, fun _ => rfl, fun _ => rfl⟩

theorem keeps_exitStartup (s : BbrNetworkController) :
    Keeps ⟨true, false, true, true, true⟩ s s.exitStartup := by
  unfold exitStartup
  split_ifs
  · exact ⟨rfl, fun _ => rfl, fun h => (by cases h), fun _ => rfl, fun _ => rfl, fun _ => rfl⟩
  · exact Keeps.refl_keeps _ s

theorem keeps_MaybeExitStartupOrDrain (s : BbrNetworkController)
    (msg : TransportPacketsFeedback) :
    Keeps ⟨true, false, true, true, true⟩ s (s.MaybeExitStartupOrDrain msg) := by
  unfold MaybeExitStartupOrDrain
  split_ifs
  · exact (keeps_exitStartup s).trans_keeps (keeps_EnterProbeBandwidthMode _ _)
  · exact keeps_exitStartup s

theorem keeps_enterProbeRtt (s : BbrNetworkController) (min_rtt_expired : Bool) :
    Keeps ⟨true, false, true, true, true⟩ s (s.enterProbeRtt min_rtt_expired) := by
  unfold enterProbeRtt
  split_ifs
  · exact ⟨rfl, fun _ => rfl, fun h => (by cases h), fun _ => rfl, fun _ => rfl, fun _ => rfl⟩
  · exact Keeps.refl_keeps _ s

theorem keeps_markProbeRttRound (s : BbrNetworkController) (is_round_start : Bool) (k : Kept) :
    Keeps k s (s.markProbeRttRound is_round_start) := by
  unfold markProbeRttRound
  split_ifs <;> exact keeps_all s k _ rfl rfl rfl rfl rfl rfl rfl

theorem keeps_exitProbeRtt (s : BbrNetworkController) (feedback_time : Int) :
    Keeps ⟨true, false, true, true, true⟩ s (s.exitProbeRtt feedback_time) := by
  unfold exitProbeRtt
  split_ifs
  · exact Keeps.trans_keeps (keeps_all s _ _ rfl rfl rfl rfl rfl rfl rfl) (keeps_EnterStartupMode _)
  · exact Keeps.trans_keeps (keeps_all s _ _ rfl rfl rfl rfl rfl rfl rfl)
      (keeps_EnterProbeBandwidthMode _ _)

theorem keeps_inProbeRtt (s : BbrNetworkController) (msg : TransportPacketsFeedback)
    (is_round_start : Bool) :
    Keeps ⟨true, false, true, true, true⟩ s (s.inProbeRtt msg is_round_start) := by
  unfold inProbeRtt
  split
  · split_ifs
    · exact keeps_all s _ _ rfl rfl rfl rfl rfl rfl rfl
    · exact Keeps.refl_keeps _ s
  · split_ifs
    · exact (keeps_markProbeRttRound s _ _).trans_keeps (keeps_exitProbeRtt _ _)
    · exact keeps_markProbeRttRound s _ _

theorem keeps_MaybeEnterOrExitProbeRtt (s : BbrNetworkController)
    (msg : TransportPacketsFeedback) (is_round_start min_rtt_expired : Bool) :
    Keeps ⟨true, false, true, true, false⟩ s
      (s.MaybeEnterOrExitProbeRtt msg is_round_start min_rtt_expired) := by
  have h1 := (keeps_enterProbeRtt s min_rtt_expired).mono
    (show Kept.le ⟨true, false, true, true, false⟩ _ = true by decide)
  by_cases hm : (s.enterProbeRtt min_rtt_expired).mode_ = Mode.PROBE_RTT
  · have h2 : Keeps ⟨true, false, true, true, false⟩ (s.enterProbeRtt min_rtt_expired)
        { s.enterProbeRtt min_rtt_expired with
          sampler_ := (s.enterProbeRtt min_rtt_expired).sampler_.OnAppLimited } :=
      ⟨rfl, fun _ => rfl, fun h => (by cases h), fun _ => rfl, fun _ => rfl,
        fun h => (by cases h)⟩
    have h3 := (keeps_inProbeRtt
      { s.enterProbeRtt min_rtt_expired with
        sampler_ := (s.enterProbeRtt min_rtt_expired).sampler_.OnAppLimited }
      msg is_round_start).mono (show Kept.le ⟨true, false, true, true, false⟩ _ = true by decide)
    unfold MaybeEnterOrExitProbeRtt
    rw [if_pos hm]
    exact (h1.trans_keeps (h2.trans_keeps h3)).trans_keeps (keeps_all _ _ _ rfl rfl rfl rfl rfl rfl rfl)
  · rw [probeRtt_outside s msg is_round_start min_rtt_expired hm]
    exact h1.trans_keeps (keeps_all _ _ _ rfl rfl rfl rfl rfl rfl rfl)

theorem keeps_updateModes (s : BbrNetworkController) (msg : TransportPacketsFeedback)
    (is_round_start min_rtt_expired : Bool) :
    Keeps ⟨true, false, true, true, false⟩ s
      (s.updateModes msg is_round_start min_rtt_expired) := by
  unfold updateModes
  refine Keeps.trans_keeps ?_ (keeps_MaybeEnterOrExitProbeRtt _ _ _ _)
  refine Keeps.trans_keeps ?_ ((keeps_MaybeExitStartupOrDrain _ _).mono (by decide))
  exact ((keeps_gainCycleStage s msg).mono (by decide)).trans_keeps (keeps_fullBandwidthStage _ _ _)

theorem keeps_CalculatePacingRate (s : BbrNetworkController) :
    Keeps ⟨true, true, false, true, true⟩ s s.CalculatePacingRate := by
  have hr : Keeps ⟨true, true, false, true, true⟩ s s.recoveryPacingRate := by
    unfold recoveryPacingRate
    split_ifs
    · exact ⟨rfl, fun _ => rfl, fun _ => ⟨rfl, rfl⟩, fun h => (by cases h), fun _ => rfl,
        fun _ => rfl⟩
    · exact Keeps.refl_keeps _ s
  have hs : ∀ rate : DataRate, Keeps ⟨true, true, false, true, true⟩ s.recoveryPacingRate
      { s.recoveryPacingRate with pacing_rate_ := rate } := fun rate =>
    ⟨rfl, fun _ => rfl, fun _ => ⟨rfl, rfl⟩, fun h => (by cases h), fun _ => rfl, fun _ => rfl⟩
  unfold CalculatePacingRate
  split_ifs
  · exact Keeps.refl_keeps _ s
  · exact hr.trans_keeps (hs _)
  · exact hr.trans_keeps (hs _)
  · exact hr.trans_keeps (hs _)
  · exact hr.trans_keeps (hs _)

theorem keeps_CalculateCongestionWindow (s : BbrNetworkController) (bytes_acked : Int)
    (k : Kept) : Keeps k s (s.CalculateCongestionWindow bytes_acked) := by
  unfold CalculateCongestionWindow
  split_ifs <;> exact keeps_all s k _ rfl rfl rfl rfl rfl rfl rfl

theorem keeps_CalculateRecoveryWindow (s : BbrNetworkController)
    (bytes_acked bytes_lost bytes_in_flight : Int) (k : Kept) :
    Keeps k s (s.CalculateRecoveryWindow bytes_acked bytes_lost bytes_in_flight) := by
  unfold CalculateRecoveryWindow
  split_ifs <;> exact keeps_all s k _ rfl rfl rfl rfl rfl rfl rfl

theorem keeps_updateWindows (s : BbrNetworkController) (msg : TransportPacketsFeedback)
    (total_data_acked_before : Int) :
    Keeps ⟨true, true, false, true, true⟩ s (s.updateWindows msg total_data_acked_before) := by
  unfold updateWindows
  refine Keeps.trans_keeps ?_ (keeps_CalculateRecoveryWindow _ _ _ _ _)
  exact (keeps_CalculatePacingRate s).trans_keeps (keeps_CalculateCongestionWindow _ _ _)

theorem keeps_removeObsolete (s t : BbrNetworkController) (msg : TransportPacketsFeedback)
    (h : s.removeObsolete msg = some t) : Keeps ⟨true, true, true, true, false⟩ s t := by
  unfold removeObsolete at h
  split at h
  · cases h
    exact Keeps.refl_keeps _ s
  · split at h
    · cases h
    · cases h
      exact ⟨rfl, fun _ => rfl, fun _ => ⟨rfl, rfl⟩, fun _ => rfl, fun _ => rfl,
        fun h => (by cases h)⟩

theorem keeps_Reset (s : BbrNetworkController) :
    Keeps ⟨false, false, true, true, true⟩ s s.Reset := by
  unfold Reset
  split_ifs
  · exact ⟨rfl, fun h => (by cases h), fun h => (by cases h), fun _ => rfl, fun _ => rfl,
      fun _ => rfl⟩
  · exact ⟨rfl, fun h => (by cases h), fun h => (by cases h), fun _ => rfl, fun _ => rfl,
      fun _ => rfl⟩

theorem keeps_OnNetworkAvailability (s : BbrNetworkController) :
    Keeps ⟨false, false, true, true, true⟩ s s.OnNetworkAvailability :=
  (keeps_Reset s).trans_keeps (keeps_all _ _ _ rfl rfl rfl rfl rfl rfl rfl)

theorem keeps_OnNetworkRouteChange (s : BbrNetworkController) (msg : NetworkRouteChange) :
    Keeps ⟨false, false, true, true, true⟩ s (s.OnNetworkRouteChange msg) :=
  Keeps.trans_keeps (keeps_all s _ _ rfl rfl rfl rfl rfl rfl rfl)
    ((keeps_Reset { s with constraints_ := some msg.constraints }).trans_keeps
      (keeps_all _ _ _ rfl rfl rfl rfl rfl rfl rfl))

end BbrNetworkController

/-! ## The round count -/

namespace BbrNetworkController

/-- The round count after a feedback: it advances by one exactly on a round
start, which is a batch whose last acknowledged packet is above
`current_round_trip_end_`. -/
theorem roundCount_feedback (div : Int → Int → DataRate) (s t : BbrNetworkController)
    (msg : TransportPacketsFeedback) (h : s.OnTransportPacketsFeedback div msg = some t) :
    t.round_trip_count_ = s.round_trip_count_ + (if isRoundStart div s msg = true then 1 else 0) ∧
    (isRoundStart div s msg = true ↔
      ∃ packet, msg.ReceivedWithSendInfo.getLast? = some packet ∧
        packet.sent_packet.sequence_number > s.current_round_trip_end_) := by
  unfold OnTransportPacketsFeedback at h
  unfold isRoundStart
  cases hl : msg.PacketsWithFeedback.getLast? with
  | none =>
    rw [hl] at h
    cases h
    have he : msg.ReceivedWithSendInfo = [] := by
      have : msg.packet_feedbacks = [] := List.getLast?_eq_none_iff.mp hl
      unfold TransportPacketsFeedback.ReceivedWithSendInfo
      rw [this]
      rfl
    refine ⟨by simp, ?_⟩
    rw [he]
    simp
  | some last =>
    rw [hl] at h
    dsimp only at h ⊢
    unfold feedbackWith at h
    have k1 := (keeps_updateModes
      (feedModel div (s.beforeModel msg last) msg s.sampler_.total_data_acked).2.2 msg
      (feedModel div (s.beforeModel msg last) msg s.sampler_.total_data_acked).1
      (feedModel div (s.beforeModel msg last) msg s.sampler_.total_data_acked).2.1).2.1 rfl
    have k2 := (keeps_updateWindows
      (updateModes
        (feedModel div (s.beforeModel msg last) msg s.sampler_.total_data_acked).2.2 msg
        (feedModel div (s.beforeModel msg last) msg s.sampler_.total_data_acked).1
        (feedModel div (s.beforeModel msg last) msg s.sampler_.total_data_acked).2.1)
      msg s.sampler_.total_data_acked).2.1 rfl
    have k3 := (keeps_removeObsolete _ t msg h).2.1 rfl
    rw [k3, k2, k1]
    cases hr : msg.ReceivedWithSendInfo.getLast? with
    | none =>
      have hf : feedModel div (s.beforeModel msg last) msg s.sampler_.total_data_acked =
          (false, false, s.beforeModel msg last) := by
        unfold feedModel
        rw [hr]
      rw [hf]
      refine ⟨?_, ?_⟩
      · show s.round_trip_count_ = _
        simp
      · simp
    | some packet =>
      obtain ⟨f1, f2⟩ := keeps_afterCounter div (s.beforeModel msg last) msg
        s.sampler_.total_data_acked packet hr
      rw [f1, f2.2.1 rfl]
      have hend : (s.beforeModel msg last).current_round_trip_end_ = s.current_round_trip_end_ :=
        rfl
      have hcount : (s.beforeModel msg last).round_trip_count_ = s.round_trip_count_ := rfl
      unfold UpdateRoundTripCounter
      rw [hend]
      by_cases hc : packet.sent_packet.sequence_number > s.current_round_trip_end_
      · rw [if_pos hc]
        refine ⟨?_, ?_⟩
        · show (s.beforeModel msg last).round_trip_count_ + 1 = _
          rw [hcount]
          simp
        · simp [hc]
      · rw [if_neg hc]
        refine ⟨?_, ?_⟩
        · show (s.beforeModel msg last).round_trip_count_ = _
          rw [hcount]
          simp
        · simp [hc]

end BbrNetworkController

/-- C22: `UpdateRoundTripCounter(last_acked_packet)` returns true, adds one to
`round_trip_count_` and sets `current_round_trip_end_` to `last_sent_packet_`
when `last_acked_packet > current_round_trip_end_`, and otherwise returns false
and changes nothing; so after a call a further call with a packet at most the
new `current_round_trip_end_` changes nothing. An `OnTransportPacketsFeedback`
that returns leaves the round count as it was when the last acknowledged packet
of the batch is at most `current_round_trip_end_` (or the batch acknowledges
none), and adds one to it otherwise. -/
theorem update_round_trip_counter_spec (div : Int → Int → DataRate) (s : BbrNetworkController)
    (last_acked_packet : Int) (msg : TransportPacketsFeedback) :
    (last_acked_packet > s.current_round_trip_end_ →
      s.UpdateRoundTripCounter last_acked_packet =
        (true, { s with
          round_trip_count_ := s.round_trip_count_ + 1
          current_round_trip_end_ := s.last_sent_packet_ })) ∧
    (¬ last_acked_packet > s.current_round_trip_end_ →
      s.UpdateRoundTripCounter last_acked_packet = (false, s)) ∧
    ((s.UpdateRoundTripCounter last_acked_packet).1 = true ↔
      last_acked_packet > s.current_round_trip_end_) ∧
    (∀ next : Int,
      next ≤ (s.UpdateRoundTripCounter last_acked_packet).2.current_round_trip_end_ →
      (s.UpdateRoundTripCounter last_acked_packet).2.UpdateRoundTripCounter next =
        (false, (s.UpdateRoundTripCounter last_acked_packet).2)) ∧
    (∀ t, s.OnTransportPacketsFeedback div msg = some t →
      ((∀ packet, msg.ReceivedWithSendInfo.getLast? = some packet →
          packet.sent_packet.sequence_number ≤ s.current_round_trip_end_) →
        t.round_trip_count_ = s.round_trip_count_) ∧
      (∀ packet, msg.ReceivedWithSendInfo.getLast? = some packet →
          packet.sent_packet.sequence_number > s.current_round_trip_end_ →
        t.round_trip_count_ = s.round_trip_count_ + 1)) := by
  have hpos : ∀ (x : BbrNetworkController) (n : Int), n > x.current_round_trip_end_ →
      x.UpdateRoundTripCounter n =
        (true, { x with
          round_trip_count_ := x.round_trip_count_ + 1
          current_round_trip_end_ := x.last_sent_packet_ }) := by
    intro x n h
    unfold BbrNetworkController.UpdateRoundTripCounter
    rw [if_pos h]
  have hneg : ∀ (x : BbrNetworkController) (n : Int), ¬ n > x.current_round_trip_end_ →
      x.UpdateRoundTripCounter n = (false, x) := by
    intro x n h
    unfold BbrNetworkController.UpdateRoundTripCounter
    rw [if_neg h]
  refine ⟨hpos s _, hneg s _, ?_, fun next hn => hneg _ _ (not_lt.mpr hn), fun t ht => ?_⟩
  · by_cases hc : last_acked_packet > s.current_round_trip_end_
    · rw [hpos s _ hc]
      simp [hc]
    · rw [hneg s _ hc]
      simp [hc]
  · obtain ⟨h1, h2⟩ := BbrNetworkController.roundCount_feedback div s t msg ht
    refine ⟨fun hle => ?_, fun packet hp hgt => ?_⟩
    · have hn : ¬ BbrNetworkController.isRoundStart div s msg = true := by
        rw [h2]
        rintro ⟨packet, hp, hgt⟩
        have := hle packet hp
        omega
      rw [h1, if_neg hn, add_zero]
    · have hy : BbrNetworkController.isRoundStart div s msg = true := h2.mpr ⟨packet, hp, hgt⟩
      rw [h1, if_pos hy]

/-- Witness of C22: the acknowledgement of the first packet, which is above the
initial `current_round_trip_end_ = 0`, starts the first round. -/
theorem update_round_trip_counter_spec_witness :
    firstSent.OnTransportPacketsFeedback DataSize.div (ackOf 50000 ⟨0, 1000, 1, 1000⟩) =
      some firstAcked ∧
    firstSent.current_round_trip_end_ = 0 ∧ firstSent.round_trip_count_ = 0 ∧
    firstAcked.round_trip_count_ = firstSent.round_trip_count_ + 1 :=
  ⟨by decide, by decide, by decide,
    ((update_round_trip_counter_spec DataSize.div firstSent 1
      (ackOf 50000 ⟨0, 1000, 1, 1000⟩)).2.2.2.2 firstAcked (by decide)).2
      ⟨⟨0, 1000, 1, 1000⟩, some 50000⟩ (by decide) (by decide)⟩

/-! ## The offset of the gain cycle -/

theorem Random.Rand_le (r : Random) (t : Nat) : (r.Rand t).1 ≤ t := by
  unfold Random.Rand
  split
  · exact Nat.zero_le t
  · exact Nat.lt_succ_iff.mp (Nat.mod_lt _ (Nat.succ_pos t))

namespace BbrNetworkController

theorem OffsetInRange.offset_of_keeps {k : Kept} {s t : BbrNetworkController} (h : s.OffsetInRange)
    (hk : Keeps k s t) (hc : k.cycle = true) : t.OffsetInRange := by
  unfold OffsetInRange
  rw [(hk.2.2.1 hc).1]
  exact h

theorem offset_EnterProbeBandwidthMode (s : BbrNetworkController) (now : Timestamp) :
    (s.EnterProbeBandwidthMode now).cycle_current_offset_ =
      cycleOffsetOfDraw ((s.random_.Rand 6).1 : Int) ∧
    (s.EnterProbeBandwidthMode now).OffsetInRange ∧
    (s.EnterProbeBandwidthMode now).cycle_current_offset_ ≠ 1 := by
  have hd := Random.Rand_le s.random_ 6
  have ho : (s.EnterProbeBandwidthMode now).cycle_current_offset_ =
      cycleOffsetOfDraw ((s.random_.Rand 6).1 : Int) := rfl
  refine ⟨ho, ?_, ?_⟩
  · unfold OffsetInRange
    rw [ho]
    unfold cycleOffsetOfDraw
    split_ifs <;> omega
  · rw [ho]
    unfold cycleOffsetOfDraw
    split_ifs <;> omega

theorem OffsetInRange.offset_gainCyclePhase {s : BbrNetworkController} (h : s.OffsetInRange)
    (now : Int) (prior_in_flight : Int) (has_losses : Bool) :
    (s.UpdateGainCyclePhase now prior_in_flight has_losses).OffsetInRange := by
  have ha : (s.advanceGainCycle now).OffsetInRange := by
    unfold OffsetInRange
    rw [offset_advanceGainCycle]
    omega
  unfold UpdateGainCyclePhase
  split_ifs
  · exact ha
  · exact ha
  · exact h

theorem OffsetInRange.offset_exitStartupOrDrain {s : BbrNetworkController} (h : s.OffsetInRange)
    (msg : TransportPacketsFeedback) : (s.MaybeExitStartupOrDrain msg).OffsetInRange := by
  have he : s.exitStartup.OffsetInRange := by
    unfold exitStartup
    split_ifs
    · exact h
    · exact h
  unfold MaybeExitStartupOrDrain
  split_ifs
  · exact (offset_EnterProbeBandwidthMode _ _).2.1
  · exact he

theorem OffsetInRange.offset_probeRtt {s : BbrNetworkController} (h : s.OffsetInRange)
    (msg : TransportPacketsFeedback) (is_round_start min_rtt_expired : Bool) :
    (s.MaybeEnterOrExitProbeRtt msg is_round_start min_rtt_expired).OffsetInRange := by
  have he : (s.enterProbeRtt min_rtt_expired).OffsetInRange := by
    unfold enterProbeRtt
    split_ifs
    · exact h
    · exact h
  have hx : ∀ (y : BbrNetworkController) (feedback_time : Int), y.OffsetInRange →
      (y.exitProbeRtt feedback_time).OffsetInRange := by
    intro y feedback_time hy
    unfold exitProbeRtt
    split_ifs
    · exact hy
    · exact (offset_EnterProbeBandwidthMode _ _).2.1
  have hi : ∀ y : BbrNetworkController, y.OffsetInRange →
      (y.inProbeRtt msg is_round_start).OffsetInRange := by
    intro y hy
    have hm : (y.markProbeRttRound is_round_start).OffsetInRange :=
      hy.offset_of_keeps (keeps_markProbeRttRound y is_round_start ⟨true, true, true, true, true⟩) rfl
    unfold inProbeRtt
    split
    · split_ifs
      · exact hy
      · exact hy
    · split_ifs
      · exact hx _ _ hm
      · exact hm
  unfold MaybeEnterOrExitProbeRtt
  split_ifs
  · exact hi _ he
  · exact he

theorem OffsetInRange.offset_reset {s : BbrNetworkController} (h : s.OffsetInRange) :
    s.Reset.OffsetInRange := by
  unfold Reset
  split_ifs
  · exact h
  · exact (offset_EnterProbeBandwidthMode _ _).2.1

theorem OffsetInRange.offset_feedback (div : Int → Int → DataRate) {s t : BbrNetworkController}
    (h : s.OffsetInRange) (msg : TransportPacketsFeedback)
    (ht : s.OnTransportPacketsFeedback div msg = some t) : t.OffsetInRange := by
  unfold OnTransportPacketsFeedback at ht
  split at ht
  · cases ht
    exact h
  · rename_i last _
    unfold feedbackWith at ht
    refine OffsetInRange.offset_of_keeps ?_ (keeps_removeObsolete _ t msg ht) rfl
    refine OffsetInRange.offset_of_keeps ?_ (keeps_updateWindows _ _ _) rfl
    unfold updateModes
    apply OffsetInRange.offset_probeRtt
    apply OffsetInRange.offset_exitStartupOrDrain
    refine OffsetInRange.offset_of_keeps ?_ (keeps_fullBandwidthStage _ _ ⟨true, true, true, true, true⟩)
      rfl
    have hf : (feedModel div (s.beforeModel msg last) msg
        s.sampler_.total_data_acked).2.2.OffsetInRange :=
      (h.offset_of_keeps (keeps_beforeModel s msg last) rfl).offset_of_keeps (keeps_feedModel div _ msg _) rfl
    unfold gainCycleStage
    split_ifs
    · exact hf.offset_gainCyclePhase _ _ _
    · exact hf

theorem OffsetInRange.offset_event (div : Int → Int → DataRate) {s t : BbrNetworkController}
    (h : s.OffsetInRange) (e : ControllerEvent) (ht : s.event div e = some t) :
    t.OffsetInRange := by
  cases e with
  | sent msg =>
    cases ht
    exact h.offset_of_keeps (keeps_OnSentPacket s msg) rfl
  | feedback msg => exact h.offset_feedback div msg ht
  | availability =>
    cases ht
    exact h.offset_reset
  | routeChange msg =>
    cases ht
    exact OffsetInRange.offset_reset (s := { s with constraints_ := some msg.constraints }) h
  | processInterval =>
    cases ht
    exact h
  | constraints msg =>
    cases ht
    exact h

theorem OffsetInRange.offset_events (div : Int → Int → DataRate)
    (es : List ControllerEvent) :
    ∀ {s t : BbrNetworkController}, s.OffsetInRange → s.events div es = some t →
      t.OffsetInRange := by
  induction es with
  | nil =>
    intro s t h ht
    cases ht
    exact h
  | cons e es ih =>
    intro s t h ht
    unfold events at ht
    cases he : s.event div e with
    | none => rw [he] at ht; cases ht
    | some s1 =>
      rw [he] at ht
      exact ih (h.offset_event div e he) ht

theorem offsetInRange_new (config_ : BbrControllerConfig) (random_ : Random)
    (config : NetworkControllerConfig) : (new config_ random_ config).OffsetInRange := by
  unfold new
  apply OffsetInRange.offset_reset
  exact ⟨le_refl (0 : Int), show (0 : Int) ≤ 7 by omega⟩

end BbrNetworkController

/-- C21: in every state that a sequence of events reaches from a newly
constructed controller, `cycle_current_offset_` is in `[0, 7]`; after
`EnterProbeBandwidthMode` the offset is the draw of `Rand(6)`, which is in
`[0, 6]`, raised by one when it is at least 1, so that it is in `[0, 7]` and is
not 1, and `pacing_gain_` is `GetPacingGain` of that offset; and
`UpdateGainCyclePhase` keeps an offset in `[0, 7]` in `[0, 7]`. -/
theorem cycle_offset_in_range (div : Int → Int → DataRate) (config_ : BbrControllerConfig)
    (random_ : Random) (config : NetworkControllerConfig) (es : List ControllerEvent)
    (s : BbrNetworkController) (now : Timestamp) (time prior_in_flight : Int)
    (has_losses : Bool) :
    (∀ t, (BbrNetworkController.new config_ random_ config).events div es = some t →
      0 ≤ t.cycle_current_offset_ ∧ t.cycle_current_offset_ ≤ 7) ∧
    ((s.random_.Rand 6).1 ≤ 6 ∧
      (s.EnterProbeBandwidthMode now).cycle_current_offset_ =
        (if (s.random_.Rand 6).1 ≥ 1 then ((s.random_.Rand 6).1 : Int) + 1
          else ((s.random_.Rand 6).1 : Int)) ∧
      0 ≤ (s.EnterProbeBandwidthMode now).cycle_current_offset_ ∧
      (s.EnterProbeBandwidthMode now).cycle_current_offset_ ≤ 7 ∧
      (s.EnterProbeBandwidthMode now).cycle_current_offset_ ≠ 1 ∧
      (s.EnterProbeBandwidthMode now).pacing_gain_ =
        (s.EnterProbeBandwidthMode now).GetPacingGain
          (s.EnterProbeBandwidthMode now).cycle_current_offset_) ∧
    (0 ≤ s.cycle_current_offset_ ∧ s.cycle_current_offset_ ≤ 7 →
      0 ≤ (s.UpdateGainCyclePhase time prior_in_flight has_losses).cycle_current_offset_ ∧
      (s.UpdateGainCyclePhase time prior_in_flight has_losses).cycle_current_offset_ ≤ 7) := by
  refine ⟨fun t ht => ?_, ⟨Random.Rand_le _ _, ?_, ?_, ?_, ?_, rfl⟩, fun h => ?_⟩
  · exact BbrNetworkController.OffsetInRange.offset_events div es
      (BbrNetworkController.offsetInRange_new config_ random_ config) ht
  · rw [(BbrNetworkController.offset_EnterProbeBandwidthMode s now).1]
    unfold BbrNetworkController.cycleOffsetOfDraw
    split_ifs <;> first | rfl | omega
  · exact (BbrNetworkController.offset_EnterProbeBandwidthMode s now).2.1.1
  · exact (BbrNetworkController.offset_EnterProbeBandwidthMode s now).2.1.2
  · exact (BbrNetworkController.offset_EnterProbeBandwidthMode s now).2.2
  · exact BbrNetworkController.OffsetInRange.offset_gainCyclePhase h _ _ _

/-! ## The pacing rate -/

theorem WindowedFilter.All.update {T : Type} [DecidableEq T] {P : T → Prop}
    {f : WindowedFilter T} (h : f.All P) (Compare : T → T → Bool) (new_sample : T)
    (new_time : Int) (hn : P new_sample) : (f.Update Compare new_sample new_time).All P := by
  obtain ⟨h0, h1, h2⟩ := h
  have hi : (f.insertSample Compare new_sample new_time).All P := by
    unfold WindowedFilter.insertSample
    split_ifs
    · exact ⟨h0, hn, hn⟩
    · exact ⟨h0, h1, hn⟩
    · exact ⟨h0, h1, h2⟩
  have he : ∀ g : WindowedFilter T, g.All P → (g.expire new_sample new_time).All P := by
    intro g hg
    obtain ⟨g0, g1, g2⟩ := hg
    unfold WindowedFilter.expire
    split_ifs
    · exact ⟨g2, hn, hn⟩
    · exact ⟨g1, g2, hn⟩
    · exact ⟨g0, hn, hn⟩
    · exact ⟨g0, g1, hn⟩
    · exact ⟨g0, g1, g2⟩
  unfold WindowedFilter.Update
  split_ifs
  · exact ⟨hn, hn, hn⟩
  · exact he _ hi

theorem DataRate.zero_le_min (a b : DataRate) (ha : DataRate.Zero ≤ a) (hb : DataRate.Zero ≤ b) :
    DataRate.Zero ≤ DataRate.min a b := by
  unfold DataRate.min
  split_ifs
  · exact hb
  · exact ha

theorem DataRate.zero_le_scale (a : Double) (rate : DataRate) (ha : 0 ≤ a.num)
    (hr : DataRate.Zero ≤ rate) : DataRate.Zero ≤ rate.scale a := by
  cases rate with
  | infinity => exact DataRate.le_Infinity _
  | finite bps =>
    have hb : 0 ≤ bps := by
      simpa [DataRate.le_def, DataRate.le, DataRate.Zero] using hr
    simp only [DataRate.scale, DataRate.le_def, DataRate.le, DataRate.Zero, decide_eq_true_eq]
    exact roundDiv_nonneg _ _ (mul_nonneg ha hb)

/-- The bandwidth of the sample that a consistent sampler returns is not
negative. -/
theorem BandwidthSampler.Consistent.bandwidth_nonneg (div : Int → Int → DataRate)
    (hdiv : ∀ a b, 0 ≤ a → 0 < b → DataRate.Zero ≤ div a b) {s : BandwidthSampler}
    (hs : s.Consistent) (ack_time n : Int) :
    DataRate.Zero ≤ (s.OnPacketAcknowledged div ack_time n).1.bandwidth := by
  have hz : DataRate.Zero ≤ BandwidthSample.new.bandwidth := le_refl _
  cases hget : s.connection_state_map_.GetEntry n with
  | none =>
    rw [BandwidthSampler.OnPacketAcknowledged_of_none div s ack_time n hget]
    exact hz
  | some d =>
    rw [BandwidthSampler.OnPacketAcknowledged_of_some div s ack_time n d hget]
    obtain ⟨d1, d2, d3, d4, d5⟩ := hs.2.2.2.1 n d hget
    dsimp only
    unfold BandwidthSampler.sample
    split
    · rename_i last_sent last_ack _ _
      split_ifs with hle
      · exact hz
      · apply DataRate.zero_le_min
        · unfold BandwidthSampler.send_rate
          split_ifs
          · exact hdiv _ _ (by omega) (by omega)
          · exact DataRate.le_Infinity _
        · unfold BandwidthSampler.ack_rate
          exact hdiv _ _ (by omega) (by omega)
    · exact hz

namespace BbrNetworkController

theorem gain_nonneg_default (s : BbrNetworkController)
    (hc : s.config_ = BbrControllerConfig.default) (round_offset : Int) :
    0 ≤ (s.GetPacingGain round_offset).num := by
  unfold GetPacingGain
  rw [hc]
  split_ifs <;> decide

end BbrNetworkController

namespace BbrNetworkController

theorem GainSound.gain_of_keeps {k : Kept} {s t : BbrNetworkController} (h : s.GainSound)
    (hk : Keeps k s t) (hc : k.cycle = true) : t.GainSound :=
  ⟨hk.1.trans h.1, by rw [(hk.2.2.1 hc).2]; exact h.2⟩

theorem kHighGain_nonneg : 0 ≤ kHighGain.num := by decide

theorem kDrainGain_nonneg : 0 ≤ kDrainGain.num := by decide

theorem unitGain_nonneg : 0 ≤ (Double.ofInt 1).num := by decide

theorem GainSound.enterStartupMode {s : BbrNetworkController} (h : s.GainSound) :
    s.EnterStartupMode.GainSound := ⟨h.1, kHighGain_nonneg⟩

theorem GainSound.enterProbeBandwidthMode {s : BbrNetworkController} (h : s.GainSound)
    (now : Timestamp) : (s.EnterProbeBandwidthMode now).GainSound :=
  ⟨h.1, gain_nonneg_default s h.1 _⟩

theorem GainSound.gain_gainCyclePhase {s : BbrNetworkController} (h : s.GainSound)
    (now : Int) (prior_in_flight : Int) (has_losses : Bool) :
    (s.UpdateGainCyclePhase now prior_in_flight has_losses).GainSound := by
  unfold UpdateGainCyclePhase
  split_ifs
  · exact h
  · exact ⟨h.1, gain_nonneg_default s h.1 _⟩
  · exact h

theorem GainSound.gainCycleStage {s : BbrNetworkController} (h : s.GainSound)
    (msg : TransportPacketsFeedback) : (s.gainCycleStage msg).GainSound := by
  unfold BbrNetworkController.gainCycleStage
  split_ifs
  · exact h.gain_gainCyclePhase _ _ _
  · exact h

theorem GainSound.gain_exitStartupOrDrain {s : BbrNetworkController} (h : s.GainSound)
    (msg : TransportPacketsFeedback) : (s.MaybeExitStartupOrDrain msg).GainSound := by
  have he : s.exitStartup.GainSound := by
    unfold exitStartup
    split_ifs
    · exact ⟨h.1, kDrainGain_nonneg⟩
    · exact h
  unfold MaybeExitStartupOrDrain
  split_ifs
  · exact he.enterProbeBandwidthMode _
  · exact he

theorem GainSound.gain_probeRtt {s : BbrNetworkController} (h : s.GainSound)
    (msg : TransportPacketsFeedback) (is_round_start min_rtt_expired : Bool) :
    (s.MaybeEnterOrExitProbeRtt msg is_round_start min_rtt_expired).GainSound := by
  have he : (s.enterProbeRtt min_rtt_expired).GainSound := by
    unfold enterProbeRtt
    split_ifs
    · exact ⟨h.1, unitGain_nonneg⟩
    · exact h
  have hx : ∀ (y : BbrNetworkController) (feedback_time : Int), y.GainSound →
      (y.exitProbeRtt feedback_time).GainSound := by
    intro y feedback_time hy
    unfold exitProbeRtt
    split_ifs
    · exact GainSound.enterStartupMode (s := { y with
        min_rtt_timestamp_ := Timestamp.finite feedback_time }) hy
    · exact GainSound.enterProbeBandwidthMode (s := { y with
        min_rtt_timestamp_ := Timestamp.finite feedback_time }) hy _
  have hi : ∀ y : BbrNetworkController, y.GainSound →
      (y.inProbeRtt msg is_round_start).GainSound := by
    intro y hy
    have hm : (y.markProbeRttRound is_round_start).GainSound :=
      hy.gain_of_keeps (keeps_markProbeRttRound y is_round_start ⟨true, true, true, true, true⟩) rfl
    unfold inProbeRtt
    split
    · split_ifs
      · exact hy
      · exact hy
    · split_ifs
      · exact hx _ _ hm
      · exact hm
  unfold MaybeEnterOrExitProbeRtt
  split_ifs
  · exact hi _ he
  · exact he

theorem GainSound.gain_updateModes {s : BbrNetworkController} (h : s.GainSound)
    (msg : TransportPacketsFeedback) (is_round_start min_rtt_expired : Bool) :
    (s.updateModes msg is_round_start min_rtt_expired).GainSound := by
  unfold BbrNetworkController.updateModes
  apply GainSound.gain_probeRtt
  apply GainSound.gain_exitStartupOrDrain
  exact (h.gainCycleStage msg).gain_of_keeps
    (keeps_fullBandwidthStage _ _ ⟨true, true, true, true, true⟩) rfl

theorem GainSound.gain_reset {s : BbrNetworkController} (h : s.GainSound) : s.Reset.GainSound := by
  unfold Reset
  split_ifs
  · exact ⟨h.1, kHighGain_nonneg⟩
  · exact ⟨h.1, gain_nonneg_default _ h.1 _⟩

theorem RateSound.rate_of_keeps {k : Kept} {s t : BbrNetworkController} (h : s.RateSound)
    (hk : Keeps k s t) (hs : k.sampler = true ∨ t.sampler_.Consistent)
    (hg : k.cycle = true ∨ 0 ≤ t.pacing_gain_.num)
    (hb : k.bandwidth = true ∨ t.max_bandwidth_.All (fun rate => DataRate.Zero ≤ rate))
    (hr : k.rate = true ∨ DataRate.Zero ≤ t.pacing_rate_) : t.RateSound := by
  obtain ⟨h1, h2, h3, h4, h5⟩ := h
  refine ⟨hk.1.trans h1, ?_, ?_, ?_, ?_⟩
  · rcases hs with hs | hs
    · rw [hk.2.2.2.2.2 hs]; exact h2
    · exact hs
  · rcases hg with hg | hg
    · rw [(hk.2.2.1 hg).2]; exact h3
    · exact hg
  · rcases hb with hb | hb
    · rw [hk.2.2.2.2.1 hb]; exact h4
    · exact hb
  · rcases hr with hr | hr
    · rw [hk.2.2.2.1 hr]; exact h5
    · exact hr

theorem RateSound.kept {s t : BbrNetworkController} (h : s.RateSound)
    (hk : Keeps ⟨true, true, true, true, true⟩ s t) : t.RateSound :=
  h.rate_of_keeps hk (Or.inl rfl) (Or.inl rfl) (Or.inl rfl) (Or.inl rfl)

theorem RateSound.gainSound {s : BbrNetworkController} (h : s.RateSound) : s.GainSound :=
  ⟨h.1, h.2.2.1⟩

theorem RateSound.onSentPacket {s : BbrNetworkController} (h : s.RateSound) (msg : SentPacket)
    (hsize : 0 ≤ msg.size) : (s.OnSentPacket msg).RateSound :=
  h.rate_of_keeps (keeps_OnSentPacket s msg)
    (Or.inr (h.2.1.OnPacketSent msg.send_time msg.sequence_number msg.size msg.data_in_flight
      hsize))
    (Or.inl rfl) (Or.inl rfl) (Or.inl rfl)

theorem consistent_lostPackets (lost_packets : List PacketResult) :
    ∀ sampler : BandwidthSampler, sampler.Consistent →
      (lost_packets.foldl
        (fun sampler packet => sampler.OnPacketLost packet.sent_packet.sequence_number)
        sampler).Consistent := by
  induction lost_packets with
  | nil => intro sampler h; exact h
  | cons packet rest ih =>
    intro sampler h
    exact ih _ (h.OnPacketLost _)

theorem RateSound.beforeModel {s : BbrNetworkController} (h : s.RateSound)
    (msg : TransportPacketsFeedback) (last : PacketResult) :
    (s.beforeModel msg last).RateSound :=
  h.rate_of_keeps (keeps_beforeModel s msg last)
    (Or.inr (consistent_lostPackets _ _ h.2.1)) (Or.inl rfl) (Or.inl rfl) (Or.inl rfl)

theorem RateSound.ackPackets (div : Int → Int → DataRate)
    (hdiv : ∀ a b, 0 ≤ a → 0 < b → DataRate.Zero ≤ div a b) (now : Int)
    (acked_packets : List PacketResult) :
    ∀ acc : TimeDelta × BbrNetworkController, acc.2.RateSound →
      (acked_packets.foldl (ackPacket div now) acc).2.RateSound := by
  induction acked_packets with
  | nil => intro acc h; exact h
  | cons packet rest ih =>
    intro acc h
    rw [List.foldl_cons]
    apply ih
    refine h.rate_of_keeps (keeps_ackPacket div now acc packet)
      (Or.inr (h.2.1.OnPacketAcknowledged div _ _)) (Or.inl rfl) (Or.inr ?_) (Or.inl rfl)
    show WindowedFilter.All _ (if _ then _ else _)
    split_ifs
    · exact h.2.2.2.1.update _ _ _ (h.2.1.bandwidth_nonneg div hdiv _ _)
    · exact h.2.2.2.1

theorem RateSound.feedModel (div : Int → Int → DataRate)
    (hdiv : ∀ a b, 0 ≤ a → 0 < b → DataRate.Zero ≤ div a b) {s : BbrNetworkController}
    (h : s.RateSound) (msg : TransportPacketsFeedback) (total_data_acked_before : Int) :
    (s.feedModel div msg total_data_acked_before).2.2.RateSound := by
  unfold BbrNetworkController.feedModel
  split
  · exact h
  · refine RateSound.kept ?_ (keeps_drainedBytes _ _ _ _)
    refine RateSound.kept ?_ (keeps_UpdateAckAggregationBytes _ _ _ _)
    unfold afterRecovery
    refine RateSound.kept ?_ (keeps_UpdateRecoveryState _ _ _ _ _)
    unfold roundAndBandwidth UpdateBandwidthAndMinRtt
    refine RateSound.kept ?_ (keeps_updateMinRtt _ _ _ _)
    apply RateSound.ackPackets div hdiv
    exact h.rate_of_keeps (keeps_UpdateRoundTripCounter s _) (Or.inl rfl) (Or.inl rfl) (Or.inl rfl)
      (Or.inl rfl)

end BbrNetworkController

namespace BbrNetworkController

theorem consistent_MaybeEnterOrExitProbeRtt {s : BbrNetworkController}
    (h : s.sampler_.Consistent) (msg : TransportPacketsFeedback)
    (is_round_start min_rtt_expired : Bool) :
    (s.MaybeEnterOrExitProbeRtt msg is_round_start min_rtt_expired).sampler_.Consistent := by
  have he : (s.enterProbeRtt min_rtt_expired).sampler_ = s.sampler_ :=
    (keeps_enterProbeRtt s min_rtt_expired).2.2.2.2.2 rfl
  by_cases hm : (s.enterProbeRtt min_rtt_expired).mode_ = Mode.PROBE_RTT
  · have hi := (keeps_inProbeRtt
      { s.enterProbeRtt min_rtt_expired with
        sampler_ := (s.enterProbeRtt min_rtt_expired).sampler_.OnAppLimited }
      msg is_round_start).2.2.2.2.2 rfl
    unfold MaybeEnterOrExitProbeRtt
    rw [if_pos hm]
    show (inProbeRtt _ msg is_round_start).sampler_.Consistent
    rw [hi]
    show (s.enterProbeRtt min_rtt_expired).sampler_.OnAppLimited.Consistent
    rw [he]
    exact h.OnAppLimited
  · rw [probeRtt_outside s msg is_round_start min_rtt_expired hm]
    show (s.enterProbeRtt min_rtt_expired).sampler_.Consistent
    rw [he]
    exact h

theorem RateSound.rate_updateModes {s : BbrNetworkController} (h : s.RateSound)
    (msg : TransportPacketsFeedback) (is_round_start min_rtt_expired : Bool) :
    (s.updateModes msg is_round_start min_rtt_expired).RateSound := by
  refine h.rate_of_keeps (keeps_updateModes s msg is_round_start min_rtt_expired) (Or.inr ?_)
    (Or.inr (h.gainSound.gain_updateModes msg is_round_start min_rtt_expired).2) (Or.inl rfl)
    (Or.inl rfl)
  unfold BbrNetworkController.updateModes
  apply consistent_MaybeEnterOrExitProbeRtt
  rw [(keeps_MaybeExitStartupOrDrain _ msg).2.2.2.2.2 rfl,
    (keeps_fullBandwidthStage _ is_round_start ⟨true, true, true, true, true⟩).2.2.2.2.2 rfl,
    (keeps_gainCycleStage s msg).2.2.2.2.2 rfl]
  exact h.2.1

theorem recoveryPacingRate_default (s : BbrNetworkController)
    (hr : s.config_.rate_based_recovery = false) : s.recoveryPacingRate = s := by
  unfold recoveryPacingRate
  rw [if_neg]
  rw [hr]
  rintro ⟨h, -⟩
  cases h

/-- `CalculatePacingRate()` without `rate_based_recovery` and `slower_startup`,
by cases. -/
theorem CalculatePacingRate_default (s : BbrNetworkController)
    (hr : s.config_.rate_based_recovery = false) (hs : s.config_.slower_startup = false) :
    s.CalculatePacingRate.pacing_rate_ =
      (if s.BandwidthEstimate.IsZero = true then s.pacing_rate_
      else if s.is_at_full_bandwidth_ = true then s.BandwidthEstimate.scale s.pacing_gain_
      else if s.pacing_rate_.IsZero = true ∧ s.rtt_stats_.min_rtt.IsZero = false then
        DataRate.bps 100000
      else max s.pacing_rate_ (s.BandwidthEstimate.scale s.pacing_gain_)) := by
  unfold CalculatePacingRate
  rw [recoveryPacingRate_default s hr]
  split_ifs with h1 h2 h3 h4
  · rfl
  · rfl
  · rfl
  · rw [hs] at h4
    cases h4.1
  · rfl

theorem isZero_le_startRate (rate : DataRate) (h : rate.IsZero = true) :
    rate ≤ DataRate.bps 100000 := by
  cases rate with
  | infinity => cases h
  | finite bps =>
    have : bps = 0 := by simpa [DataRate.IsZero] using h
    subst this
    decide

theorem RateSound.calculatePacingRate {s : BbrNetworkController} (h : s.RateSound) :
    s.CalculatePacingRate.RateSound := by
  refine h.rate_of_keeps (keeps_CalculatePacingRate s) (Or.inl rfl) (Or.inl rfl) (Or.inl rfl)
    (Or.inr ?_)
  have hr : s.config_.rate_based_recovery = false := by rw [h.1]; rfl
  have hs : s.config_.slower_startup = false := by rw [h.1]; rfl
  rw [CalculatePacingRate_default s hr hs]
  split_ifs
  · exact h.2.2.2.2
  · exact DataRate.zero_le_scale _ _ h.2.2.1 h.2.2.2.1.1
  · decide
  · exact le_trans h.2.2.2.2 (le_max_left _ _)

theorem RateSound.rate_updateWindows {s : BbrNetworkController} (h : s.RateSound)
    (msg : TransportPacketsFeedback) (total_data_acked_before : Int) :
    (s.updateWindows msg total_data_acked_before).RateSound := by
  unfold BbrNetworkController.updateWindows
  refine RateSound.kept ?_ (keeps_CalculateRecoveryWindow _ _ _ _ _)
  exact h.calculatePacingRate.kept (keeps_CalculateCongestionWindow _ _ _)

theorem RateSound.removeObsolete {s t : BbrNetworkController} (h : s.RateSound)
    (msg : TransportPacketsFeedback) (ht : s.removeObsolete msg = some t) : t.RateSound := by
  refine h.rate_of_keeps (keeps_removeObsolete s t msg ht) (Or.inr ?_) (Or.inl rfl) (Or.inl rfl)
    (Or.inl rfl)
  unfold BbrNetworkController.removeObsolete at ht
  split at ht
  · cases ht
    exact h.2.1
  · rename_i packet _
    obtain ⟨q', hq, -, hp, -⟩ := BandwidthSampler.RemoveObsoletePackets_spec
      (fun q => ({ s.sampler_ with connection_state_map_ := q } : BandwidthSampler).Consistent)
      (by
        intro q n _ hq
        exact hq.removeEntry n)
      s.sampler_ packet.sent_packet.sequence_number h.2.1.1 h.2.1
    rw [hq] at ht
    cases ht
    exact hp

theorem RateSound.rate_feedback (div : Int → Int → DataRate)
    (hdiv : ∀ a b, 0 ≤ a → 0 < b → DataRate.Zero ≤ div a b) {s t : BbrNetworkController}
    (h : s.RateSound) (msg : TransportPacketsFeedback)
    (ht : s.OnTransportPacketsFeedback div msg = some t) : t.RateSound := by
  unfold OnTransportPacketsFeedback at ht
  split at ht
  · cases ht
    exact h
  · rename_i last _
    unfold feedbackWith at ht
    refine RateSound.removeObsolete ?_ msg ht
    apply RateSound.rate_updateWindows
    apply RateSound.rate_updateModes
    exact (h.beforeModel msg last).feedModel div hdiv msg _

theorem RateSound.rate_reset {s : BbrNetworkController} (h : s.RateSound) : s.Reset.RateSound :=
  h.rate_of_keeps (keeps_Reset s) (Or.inl rfl) (Or.inr h.gainSound.gain_reset.2) (Or.inl rfl) (Or.inl rfl)

theorem RateSound.rate_event (div : Int → Int → DataRate)
    (hdiv : ∀ a b, 0 ≤ a → 0 < b → DataRate.Zero ≤ div a b) {s t : BbrNetworkController}
    (h : s.RateSound) (e : ControllerEvent) (he : e.sizeNonneg = true)
    (ht : s.event div e = some t) : t.RateSound := by
  cases e with
  | sent msg =>
    cases ht
    exact h.onSentPacket msg (by simpa [ControllerEvent.sizeNonneg] using he)
  | feedback msg => exact h.rate_feedback div hdiv msg ht
  | availability =>
    cases ht
    exact h.rate_reset.kept (keeps_all _ _ _ rfl rfl rfl rfl rfl rfl rfl)
  | routeChange msg =>
    cases ht
    exact (RateSound.rate_reset (s := { s with constraints_ := some msg.constraints }) h).kept
      (keeps_all _ _ _ rfl rfl rfl rfl rfl rfl rfl)
  | processInterval =>
    cases ht
    exact h
  | constraints msg =>
    cases ht
    exact h

theorem RateSound.rate_events (div : Int → Int → DataRate)
    (hdiv : ∀ a b, 0 ≤ a → 0 < b → DataRate.Zero ≤ div a b) (es : List ControllerEvent) :
    ∀ {s t : BbrNetworkController}, s.RateSound → (∀ e ∈ es, e.sizeNonneg = true) →
      s.events div es = some t → t.RateSound := by
  induction es with
  | nil =>
    intro s t h _ ht
    cases ht
    exact h
  | cons e es ih =>
    intro s t h hsize ht
    unfold events at ht
    cases he : s.event div e with
    | none => rw [he] at ht; cases ht
    | some s1 =>
      rw [he] at ht
      exact ih (h.rate_event div hdiv e (hsize e (List.mem_cons_self _ _)) he)
        (fun e' he' => hsize e' (List.mem_cons_of_mem _ he')) ht

theorem rateSound_new (random_ : Random) (config : NetworkControllerConfig) :
    (new BbrControllerConfig.default random_ config).RateSound := by
  unfold new
  apply RateSound.rate_reset
  exact ⟨rfl, BandwidthSampler.consistent_new, unitGain_nonneg,
    ⟨le_refl _, le_refl _, le_refl _⟩, le_refl _⟩

end BbrNetworkController

/-- C28: `CalculatePacingRate()` without `rate_based_recovery` and
`slower_startup`, as in the default configuration. At full bandwidth with a
bandwidth estimate that is not zero, `pacing_rate_` becomes `pacing_gain_`
times the estimate. Not at full bandwidth, `pacing_rate_` does not decrease: it
is kept when the estimate is zero, becomes 100 kbps when it is zero and the
round-trip statistics have a minimum, and otherwise becomes the larger of
itself and `pacing_gain_` times the estimate. In every state that a sequence of
events with packets of non-negative sizes reaches from a controller constructed
with the default configuration, `pacing_rate_` is not negative, the division of
a non-negative size by a positive duration being non-negative. -/
theorem calculate_pacing_rate_spec (div : Int → Int → DataRate)
    (hdiv : ∀ a b, 0 ≤ a → 0 < b → DataRate.Zero ≤ div a b) (random_ : Random)
    (config : NetworkControllerConfig) (es : List ControllerEvent)
    (hsize : ∀ e ∈ es, e.sizeNonneg = true) (s : BbrNetworkController)
    (hr : s.config_.rate_based_recovery = false) (hs : s.config_.slower_startup = false) :
    (s.is_at_full_bandwidth_ = true → s.BandwidthEstimate.IsZero = false →
      s.CalculatePacingRate.pacing_rate_ = s.BandwidthEstimate.scale s.pacing_gain_) ∧
    (s.is_at_full_bandwidth_ = false →
      s.pacing_rate_ ≤ s.CalculatePacingRate.pacing_rate_ ∧
      s.CalculatePacingRate.pacing_rate_ =
        (if s.BandwidthEstimate.IsZero = true then s.pacing_rate_
        else if s.pacing_rate_.IsZero = true ∧ s.rtt_stats_.min_rtt.IsZero = false then
          DataRate.kbps 100
        else max s.pacing_rate_ (s.BandwidthEstimate.scale s.pacing_gain_))) ∧
    (∀ t, (BbrNetworkController.new BbrControllerConfig.default random_ config).events div es =
        some t →
      DataRate.Zero ≤ t.pacing_rate_) := by
  have hc := BbrNetworkController.CalculatePacingRate_default s hr hs
  refine ⟨fun hf hz => ?_, fun hf => ?_, fun t ht => ?_⟩
  · rw [hc, if_neg (by rw [hz]; decide), if_pos hf]
  · have hk : DataRate.kbps 100 = DataRate.bps 100000 := rfl
    rw [hc, hk, if_neg (show ¬ s.is_at_full_bandwidth_ = true by rw [hf]; decide)]
    refine ⟨?_, rfl⟩
    split_ifs with h1 h2
    · exact le_refl _
    · exact BbrNetworkController.isZero_le_startRate _ h2.1
    · exact le_max_left _ _
  · exact (BbrNetworkController.RateSound.rate_events div hdiv es
      (BbrNetworkController.rateSound_new random_ config) hsize ht).2.2.2.2

/-- Witness of C28: the controller of the default configuration after two
packets of 1000 bytes were acknowledged and a third was sent. -/
theorem calculate_pacing_rate_spec_witness :
    (∀ e ∈ stallEvents1, e.sizeNonneg = true) ∧
    startupController.events DataSize.div stallEvents1 = some stallS1 ∧
    stallS1.config_.rate_based_recovery = false ∧ stallS1.config_.slower_startup = false ∧
    stallS1.is_at_full_bandwidth_ = false ∧
    stallS1.pacing_rate_ ≤ stallS1.CalculatePacingRate.pacing_rate_ ∧
    DataRate.Zero ≤ stallS1.pacing_rate_ :=
  ⟨by decide, by decide, by decide, by decide, by decide,
    ((calculate_pacing_rate_spec DataSize.div DataSize.div_nonneg ⟨[]⟩
      ⟨⟨Timestamp.finite 0, none, none, none⟩⟩ stallEvents1 (by decide) stallS1 (by decide)
      (by decide)).2.1 (by decide)).1,
    (calculate_pacing_rate_spec DataSize.div DataSize.div_nonneg ⟨[]⟩
      ⟨⟨Timestamp.finite 0, none, none, none⟩⟩ stallEvents1 (by decide) stallS1 (by decide)
      (by decide)).2.2 stallS1 (by decide)⟩

/-! ## The filter after an `Update` -/

namespace WindowedFilter

variable {T : Type} [LinearOrder T]

theorem OrderedAt.later {f : WindowedFilter T} {now u : Int} (h : f.OrderedAt now)
    (hle : now ≤ u) : f.OrderedAt u := by
  refine ⟨h.1, ?_⟩
  rcases h.2 with h2 | h2
  · exact Or.inl h2
  · exact Or.inr (le_trans h2 hle)

theorem orderedAt_UpdateAll_at (calls : List (T × Int)) :
    ∀ (f : WindowedFilter T) (now u : Int), f.OrderedAt now →
      (∀ c ∈ calls, now ≤ c.2) → (calls.map Prod.snd).Sorted (· ≤ ·) → now ≤ u →
      (∀ c ∈ calls, c.2 ≤ u) → (f.UpdateAll MaxFilter calls).OrderedAt u := by
  induction calls with
  | nil => intro f now u hf _ _ hu _; exact hf.later hu
  | cons c rest ih =>
    intro f now u hf hnow hsorted _ hup
    have hstep := orderedAt_Update f c.1 now c.2 hf (hnow c (List.mem_cons_self _ _))
    simp only [List.map_cons, List.sorted_cons] at hsorted
    refine ih (f.Update MaxFilter c.1 c.2) c.2 u hstep ?_ hsorted.2
      (hup c (List.mem_cons_self _ _)) (fun d hd => hup d (List.mem_cons_of_mem _ hd))
    intro d hd
    exact hsorted.1 d.2 (List.mem_map_of_mem Prod.snd hd)

/-- The third estimate after an `Update` of an ordered max filter is at least
the sample supplied. -/
theorem sample_le_third (f : WindowedFilter T) (s : T) (now t : Int) (hf : f.OrderedAt now) :
    s ≤ (f.Update MaxFilter s t).estimates_2.sample := by
  unfold Update
  split_ifs with hreset
  · exact le_refl _
  · simp only [not_or, MaxFilter, decide_eq_true_eq, ge_iff_le, not_le] at hreset
    obtain ⟨-, hlt, -⟩ := hreset
    have hi : s ≤ (f.insertSample MaxFilter s t).estimates_2.sample := by
      unfold insertSample MaxFilter
      simp only [decide_eq_true_eq, ge_iff_le]
      split_ifs with c1 c2
      · exact le_refl _
      · exact le_refl _
      · exact le_of_lt (not_le.mp c2)
    unfold expire promote
    split_ifs
    · exact le_refl _
    · exact le_refl _
    · exact le_refl _
    · exact le_refl _
    · exact hi

theorem Update_of_reset (Compare : T → T → Bool) (f : WindowedFilter T) (s : T)
    (t : Int)
    (h : f.estimates_0.sample = f.zero_value_ ∨ Compare s f.estimates_0.sample = true) :
    f.Update Compare s t = f.Reset s t := by
  unfold Update
  rw [if_pos]
  rcases h with h | h
  · exact Or.inl h
  · exact Or.inr (Or.inl h)

/-- The best estimate after an `Update` is within the window. -/
theorem best_within_window (Compare : T → T → Bool) (f : WindowedFilter T) (s : T) (t : Int)
    (hw : 0 ≤ f.window_length_) :
    t - (f.Update Compare s t).estimates_0.time ≤ f.window_length_ := by
  unfold Update
  split_ifs with hreset
  · show t - t ≤ _
    omega
  · simp only [not_or, not_lt] at hreset
    obtain ⟨-, -, h2⟩ := hreset
    have hi : t - (f.insertSample Compare s t).estimates_2.time ≤ f.window_length_ := by
      unfold insertSample
      split_ifs
      · show t - t ≤ _
        omega
      · show t - t ≤ _
        omega
      · exact h2
    have hwl : (f.insertSample Compare s t).window_length_ = f.window_length_ := by
      unfold insertSample
      split_ifs <;> rfl
    unfold expire promote
    rw [hwl]
    dsimp only
    split_ifs with c1 c2
    · exact hi
    · exact not_lt.mp c2
    · exact not_lt.mp c1
    · exact not_lt.mp c1
    · exact not_lt.mp c1

theorem window_length_Update (Compare : T → T → Bool) (f : WindowedFilter T) (s : T)
    (t : Int) : (f.Update Compare s t).window_length_ = f.window_length_ := by
  unfold Update Reset expire insertSample promote
  dsimp only
  split_ifs <;> rfl

end WindowedFilter

/-- C36: for the max filter reached from the constructed one by `Update` calls
with non-decreasing time keys, after a further `Update(s, t)` with `t` not
before them, `GetBest() >= GetSecondBest() >= GetThirdBest() >= s`; and when
`s` is at least the previous best estimate, or the best estimate was the zero
value, all three estimates are `(s, t)`. -/
theorem windowed_filter_update_bounds {T : Type} [LinearOrder T]
    (window_length : Int) (zero_value : T) (zero_time : Int) (calls : List (T × Int))
    (s : T) (t : Int) (htimes : ((calls ++ [(s, t)]).map Prod.snd).Sorted (· ≤ ·)) :
    (((WindowedFilter.new window_length zero_value zero_time).UpdateAll MaxFilter calls).Update
        MaxFilter s t).GetBest ≥
      (((WindowedFilter.new window_length zero_value zero_time).UpdateAll MaxFilter calls).Update
        MaxFilter s t).GetSecondBest ∧
    (((WindowedFilter.new window_length zero_value zero_time).UpdateAll MaxFilter calls).Update
        MaxFilter s t).GetSecondBest ≥
      (((WindowedFilter.new window_length zero_value zero_time).UpdateAll MaxFilter calls).Update
        MaxFilter s t).GetThirdBest ∧
    (((WindowedFilter.new window_length zero_value zero_time).UpdateAll MaxFilter calls).Update
        MaxFilter s t).GetThirdBest ≥ s ∧
    (s ≥ ((WindowedFilter.new window_length zero_value zero_time).UpdateAll MaxFilter
          calls).GetBest ∨
        ((WindowedFilter.new window_length zero_value zero_time).UpdateAll MaxFilter
          calls).GetBest = zero_value →
      (((WindowedFilter.new window_length zero_value zero_time).UpdateAll MaxFilter calls).Update
        MaxFilter s t).estimates_0 = ⟨s, t⟩ ∧
      (((WindowedFilter.new window_length zero_value zero_time).UpdateAll MaxFilter calls).Update
        MaxFilter s t).estimates_1 = ⟨s, t⟩ ∧
      (((WindowedFilter.new window_length zero_value zero_time).UpdateAll MaxFilter calls).Update
        MaxFilter s t).estimates_2 = ⟨s, t⟩) := by
  have hsplit : (calls.map Prod.snd).Sorted (· ≤ ·) ∧ ∀ c ∈ calls, c.2 ≤ t := by
    rw [List.map_append, List.Sorted, List.pairwise_append] at htimes
    refine ⟨htimes.1, fun c hc => ?_⟩
    exact htimes.2.2 c.2 (List.mem_map_of_mem Prod.snd hc) t (by simp)
  obtain ⟨hsorted, hbound⟩ := hsplit
  have hf : ((WindowedFilter.new window_length zero_value zero_time).UpdateAll MaxFilter
      calls).OrderedAt t := by
    cases calls with
    | nil => exact WindowedFilter.orderedAt_new _ _ _ _
    | cons c rest =>
      refine WindowedFilter.orderedAt_UpdateAll_at (c :: rest) _ c.2 t
        (WindowedFilter.orderedAt_new _ _ _ _) ?_ hsorted (hbound c (List.mem_cons_self _ _))
        hbound
      intro d hd
      rcases List.mem_cons.mp hd with rfl | hd
      · exact le_refl _
      · simp only [List.map_cons, List.sorted_cons] at hsorted
        exact hsorted.1 d.2 (List.mem_map_of_mem Prod.snd hd)
  have hz : ∀ (cs : List (T × Int)) (g : WindowedFilter T),
      (g.UpdateAll MaxFilter cs).zero_value_ = g.zero_value_ := by
    intro cs
    induction cs with
    | nil => intro g; rfl
    | cons c rest ih =>
      intro g
      show ((g.Update MaxFilter c.1 c.2).UpdateAll MaxFilter rest).zero_value_ = _
      rw [ih, WindowedFilter.zero_value_Update]
  have ho := (WindowedFilter.orderedAt_Update _ s t t hf (le_refl t)).1
  refine ⟨ho.1, ho.2.1, WindowedFilter.sample_le_third _ s t t hf, fun h => ?_⟩
  rw [WindowedFilter.Update_of_reset]
  · exact ⟨rfl, rfl, rfl⟩
  · rcases h with h | h
    · right
      simpa [MaxFilter] using h
    · left
      rw [hz]
      exact h

/-- Witness of C36: the filter of window 10 after `filterWitnessCalls`, updated
with the sample 1 at the time 40. -/
theorem windowed_filter_update_bounds_witness :
    ((filterWitnessCalls ++ [((1 : Int), (40 : Int))]).map Prod.snd).Sorted (· ≤ ·) ∧
    (((WindowedFilter.new 10 (0 : Int) 0).UpdateAll MaxFilter filterWitnessCalls).Update
      MaxFilter 1 40).GetThirdBest ≥ 1 :=
  ⟨by decide, (windowed_filter_update_bounds 10 (0 : Int) 0 filterWitnessCalls 1 40
    (by decide)).2.2.1⟩

/-- C37: for every filter with a window length that is not negative, every
comparison and every `Update(s, t)`, the best estimate after the call is within
the window, `t - estimates_[0].time <= window_length_`; so a best estimate older
than the window is replaced by a later one. The window length is unchanged. -/
theorem windowed_filter_best_not_expired {T : Type} [LinearOrder T] (Compare : T → T → Bool)
    (f : WindowedFilter T) (s : T) (t : Int) (hw : 0 ≤ f.window_length_) :
    t - (f.Update Compare s t).estimates_0.time ≤ (f.Update Compare s t).window_length_ ∧
    (f.Update Compare s t).window_length_ = f.window_length_ ∧
    (t - f.estimates_0.time > f.window_length_ →
      f.estimates_0.time < (f.Update Compare s t).estimates_0.time) := by
  have h := WindowedFilter.best_within_window Compare f s t hw
  rw [WindowedFilter.window_length_Update]
  refine ⟨h, rfl, fun hold => ?_⟩
  omega

/-- Witness of C37: the filter of window 10 after `filterWitnessCalls`, updated
with the sample 1 at the time 100. -/
theorem windowed_filter_best_not_expired_witness :
    (0 : Int) ≤ ((WindowedFilter.new 10 (0 : Int) 0).UpdateAll MaxFilter
      filterWitnessCalls).window_length_ ∧
    100 - (((WindowedFilter.new 10 (0 : Int) 0).UpdateAll MaxFilter filterWitnessCalls).Update
      MaxFilter 1 100).estimates_0.time ≤
      (((WindowedFilter.new 10 (0 : Int) 0).UpdateAll MaxFilter filterWitnessCalls).Update
        MaxFilter 1 100).window_length_ :=
  ⟨by decide, (windowed_filter_best_not_expired MaxFilter
    ((WindowedFilter.new 10 (0 : Int) 0).UpdateAll MaxFilter filterWitnessCalls) 1 100
    (by decide)).1⟩

/-- C31: `OnNetworkAvailability` and `OnNetworkRouteChange` reset the
controller: afterwards `round_trip_count_` and `rounds_without_bandwidth_gain_`
are 0; with `num_startup_rtts > 0` the mode is `STARTUP`, the controller is not
at full bandwidth and both gains are `kHighGain = 2.885`, and otherwise the mode
is `PROBE_BW` and the controller is at full bandwidth; and the round-trip
statistics are those after `OnConnectionMigration()`, whose latest, minimum and
smoothed round-trip time and mean deviation are zero. `OnNetworkRouteChange`
also stores the constraints of the message. -/
theorem network_reset_spec (s : BbrNetworkController) (msg : NetworkRouteChange) :
    (∀ t : BbrNetworkController, t = s.OnNetworkAvailability ∨ t = s.OnNetworkRouteChange msg →
      t.round_trip_count_ = 0 ∧ t.rounds_without_bandwidth_gain_ = 0 ∧
      (s.config_.num_startup_rtts > 0 →
        t.mode_ = Mode.STARTUP ∧ t.is_at_full_bandwidth_ = false ∧
        t.pacing_gain_ = ⟨2885, 1000⟩ ∧ t.congestion_window_gain_ = ⟨2885, 1000⟩) ∧
      (¬ s.config_.num_startup_rtts > 0 →
        t.mode_ = Mode.PROBE_BW ∧ t.is_at_full_bandwidth_ = true) ∧
      t.rtt_stats_ = s.rtt_stats_.OnConnectionMigration ∧
      t.rtt_stats_.latest_rtt = TimeDelta.Zero ∧ t.rtt_stats_.min_rtt = TimeDelta.Zero ∧
      t.rtt_stats_.smoothed_rtt = TimeDelta.Zero ∧
      t.rtt_stats_.mean_deviation = TimeDelta.Zero) ∧
    (s.OnNetworkRouteChange msg).constraints_ = some msg.constraints := by
  refine ⟨fun t ht => ?_, ?_⟩
  · rcases ht with ht | ht
    · subst ht
      unfold BbrNetworkController.OnNetworkAvailability BbrNetworkController.Reset
      by_cases hc : s.config_.num_startup_rtts > 0
      · rw [if_pos hc]
        exact ⟨rfl, rfl, fun _ => ⟨rfl, rfl, rfl, rfl⟩, fun h => absurd hc h, rfl, rfl, rfl, rfl,
          rfl⟩
      · rw [if_neg hc]
        exact ⟨rfl, rfl, fun h => absurd h hc, fun _ => ⟨rfl, rfl⟩, rfl, rfl, rfl, rfl, rfl⟩
    · subst ht
      unfold BbrNetworkController.OnNetworkRouteChange BbrNetworkController.Reset
      by_cases hc : s.config_.num_startup_rtts > 0
      · rw [if_pos hc]
        exact ⟨rfl, rfl, fun _ => ⟨rfl, rfl, rfl, rfl⟩, fun h => absurd hc h, rfl, rfl, rfl, rfl,
          rfl⟩
      · rw [if_neg hc]
        exact ⟨rfl, rfl, fun h => absurd h hc, fun _ => ⟨rfl, rfl⟩, rfl, rfl, rfl, rfl, rfl⟩
  · unfold BbrNetworkController.OnNetworkRouteChange BbrNetworkController.Reset
    dsimp only
    split_ifs <;> rfl

/-- C40: `CalculateCongestionWindow(bytes_acked)` on a controller that is not at
full bandwidth and not in `PROBE_RTT`, whose window is within its limits, for
`bytes_acked >= 0`, leaves `congestion_window_` at least as large as it was; in
`PROBE_RTT` the call leaves the state as it is. -/
theorem calculate_congestion_window_monotone (s : BbrNetworkController) (bytes_acked : Int) :
    (s.is_at_full_bandwidth_ = false → s.mode_ ≠ Mode.PROBE_RTT →
      s.min_congestion_window_ ≤ s.congestion_window_ →
      s.congestion_window_ ≤ s.max_congestion_window_ → 0 ≤ bytes_acked →
      s.congestion_window_ ≤ (s.CalculateCongestionWindow bytes_acked).congestion_window_) ∧
    (s.mode_ = Mode.PROBE_RTT → s.CalculateCongestionWindow bytes_acked = s) := by
  refine ⟨fun hf hm hmin hmax hb => ?_, fun hm => ?_⟩
  · unfold BbrNetworkController.CalculateCongestionWindow
    rw [if_neg hm]
    have hg : s.congestion_window_ ≤ s.grownWindow bytes_acked := by
      unfold BbrNetworkController.grownWindow
      rw [hf]
      simp only [Bool.false_eq_true, if_false]
      split_ifs
      · omega
      · exact le_refl _
    show s.congestion_window_ ≤ min (max _ _) _
    exact le_min (le_trans hg (le_max_left _ _)) hmax
  · unfold BbrNetworkController.CalculateCongestionWindow
    rw [if_pos hm]

/-! ## The minimum RTT in `UpdateBandwidthAndMinRtt` -/

namespace BbrNetworkController

theorem ackPacket_state (div : Int → Int → DataRate) (now : Int) (a b : TimeDelta)
    (s : BbrNetworkController) (packet : PacketResult) :
    (ackPacket div now (a, s) packet).2 = (ackPacket div now (b, s) packet).2 := rfl

theorem ackPackets_sample (div : Int → Int → DataRate) (now : Int)
    (acked_packets : List PacketResult) :
    ∀ acc : TimeDelta × BbrNetworkController,
      (acked_packets.foldl (ackPacket div now) acc).1 =
        (sampleRtts div now acc.2 acked_packets).foldl
          (fun a x => if x ≠ 0 then min a (TimeDelta.finite x) else a) acc.1 := by
  induction acked_packets with
  | nil => intro acc; rfl
  | cons packet rest ih =>
    intro acc
    rw [List.foldl_cons, ih]
    rfl

theorem minRtt_fold (l : List Int) :
    ∀ a : TimeDelta,
      (l.foldl (fun a x => if x ≠ 0 then min a (TimeDelta.finite x) else a) a = a ∧
        ∀ x ∈ l, x ≠ 0 → a ≤ TimeDelta.finite x) ∨
      ∃ m ∈ l, m ≠ 0 ∧
        l.foldl (fun a x => if x ≠ 0 then min a (TimeDelta.finite x) else a) a =
          TimeDelta.finite m ∧
        TimeDelta.finite m ≤ a ∧ ∀ x ∈ l, x ≠ 0 → m ≤ x := by
  induction l with
  | nil => intro a; exact Or.inl ⟨rfl, fun x hx => by cases hx⟩
  | cons y rest ih =>
    intro a
    rw [List.foldl_cons]
    by_cases hy : y ≠ 0
    · rw [if_pos hy]
      rcases ih (min a (TimeDelta.finite y)) with ⟨h1, h2⟩ | ⟨m, hm, hm0, h1, h2, h3⟩
      · by_cases hay : a ≤ TimeDelta.finite y
        · left
          rw [h1, min_eq_left hay]
          refine ⟨rfl, fun x hx hx0 => ?_⟩
          rcases List.mem_cons.mp hx with rfl | hx
          · exact hay
          · exact le_trans (by rw [min_eq_left hay]) (h2 x hx hx0)
        · right
          have hya : TimeDelta.finite y ≤ a := le_of_lt (not_le.mp hay)
          refine ⟨y, List.mem_cons_self _ _, hy, ?_, hya, fun x hx hx0 => ?_⟩
          · rw [h1, min_eq_right hya]
          · rcases List.mem_cons.mp hx with rfl | hx
            · exact le_refl _
            · have := h2 x hx hx0
              rw [min_eq_right hya] at this
              simpa [TimeDelta.le_iff_le, TimeDelta.le] using this
      · right
        refine ⟨m, List.mem_cons_of_mem _ hm, hm0, h1, le_trans h2 (min_le_left _ _),
          fun x hx hx0 => ?_⟩
        rcases List.mem_cons.mp hx with rfl | hx
        · have := le_trans h2 (min_le_right _ _)
          simpa [TimeDelta.le_iff_le, TimeDelta.le] using this
        · exact h3 x hx hx0
    · rw [if_neg hy]
      rcases ih a with ⟨h1, h2⟩ | ⟨m, hm, hm0, h1, h2, h3⟩
      · left
        refine ⟨h1, fun x hx hx0 => ?_⟩
        rcases List.mem_cons.mp hx with rfl | hx
        · exact absurd hx0 hy
        · exact h2 x hx hx0
      · right
        refine ⟨m, List.mem_cons_of_mem _ hm, hm0, h1, h2, fun x hx hx0 => ?_⟩
        rcases List.mem_cons.mp hx with rfl | hx
        · exact absurd hx0 hy
        · exact h3 x hx hx0

theorem minRtt_ackPackets (div : Int → Int → DataRate) (now : Int)
    (acked_packets : List PacketResult) :
    ∀ acc : TimeDelta × BbrNetworkController,
      (acked_packets.foldl (ackPacket div now) acc).2.min_rtt_ = acc.2.min_rtt_ ∧
      (acked_packets.foldl (ackPacket div now) acc).2.min_rtt_timestamp_ =
        acc.2.min_rtt_timestamp_ ∧
      (acked_packets.foldl (ackPacket div now) acc).2.config_ = acc.2.config_ := by
  induction acked_packets with
  | nil => intro acc; exact ⟨rfl, rfl, rfl⟩
  | cons packet rest ih =>
    intro acc
    rw [List.foldl_cons]
    obtain ⟨h1, h2, h3⟩ := ih (ackPacket div now acc packet)
    exact ⟨h1, h2, h3⟩

theorem ShouldExtendMinRttExpiry_default (s : BbrNetworkController)
    (h1 : s.config_.probe_rtt_disabled_if_app_limited = false)
    (h2 : s.config_.probe_rtt_skipped_if_similar_rtt = false) :
    s.ShouldExtendMinRttExpiry = false := by
  unfold ShouldExtendMinRttExpiry
  rw [h1, h2]
  rfl

end BbrNetworkController

/-- C35: `UpdateBandwidthAndMinRtt(now, acked_packets)` without the extensions
of the min-RTT expiry, as in the default configuration, when some sample of the
loop has an rtt that is not zero. The `sample_rtt` of the loop is the least of
those rtts. If it is below `min_rtt_`, or `min_rtt_` is zero, or `now` is more
than 10 s after `min_rtt_timestamp_`, then `min_rtt_` becomes `sample_rtt` and
`min_rtt_timestamp_` becomes `now`; otherwise both stay. The call returns true
exactly when `min_rtt_` was not zero and `now` is more than 10 s after
`min_rtt_timestamp_`. Afterwards `min_rtt_ <= last_rtt_ = sample_rtt`. -/
theorem update_bandwidth_and_min_rtt_spec (div : Int → Int → DataRate)
    (s : BbrNetworkController) (now : Int) (acked_packets : List PacketResult)
    (h1 : s.config_.probe_rtt_disabled_if_app_limited = false)
    (h2 : s.config_.probe_rtt_skipped_if_similar_rtt = false)
    (hex : ∃ x ∈ s.sampleRtts div now acked_packets, x ≠ 0) :
    ∃ sample_rtt : Int,
      sample_rtt ∈ s.sampleRtts div now acked_packets ∧ sample_rtt ≠ 0 ∧
      (∀ x ∈ s.sampleRtts div now acked_packets, x ≠ 0 → sample_rtt ≤ x) ∧
      ((TimeDelta.finite sample_rtt < s.min_rtt_ ∨ s.min_rtt_.IsZero = true ∨
          Timestamp.finite now > s.min_rtt_timestamp_.add (TimeDelta.seconds 10)) →
        (s.UpdateBandwidthAndMinRtt div now acked_packets).2.min_rtt_ =
          TimeDelta.finite sample_rtt ∧
        (s.UpdateBandwidthAndMinRtt div now acked_packets).2.min_rtt_timestamp_ =
          Timestamp.finite now) ∧
      (¬ (TimeDelta.finite sample_rtt < s.min_rtt_ ∨ s.min_rtt_.IsZero = true ∨
          Timestamp.finite now > s.min_rtt_timestamp_.add (TimeDelta.seconds 10)) →
        (s.UpdateBandwidthAndMinRtt div now acked_packets).2.min_rtt_ = s.min_rtt_ ∧
        (s.UpdateBandwidthAndMinRtt div now acked_packets).2.min_rtt_timestamp_ =
          s.min_rtt_timestamp_) ∧
      ((s.UpdateBandwidthAndMinRtt div now acked_packets).1 = true ↔
        s.min_rtt_.IsZero = false ∧
          Timestamp.finite now > s.min_rtt_timestamp_.add (TimeDelta.seconds 10)) ∧
      (s.UpdateBandwidthAndMinRtt div now acked_packets).2.min_rtt_ ≤
        (s.UpdateBandwidthAndMinRtt div now acked_packets).2.last_rtt_ ∧
      (s.UpdateBandwidthAndMinRtt div now acked_packets).2.last_rtt_ =
        TimeDelta.finite sample_rtt := by
  have hs := BbrNetworkController.ackPackets_sample div now acked_packets
    (TimeDelta.plusInfinity, s)
  obtain ⟨f1, f2, f3⟩ := BbrNetworkController.minRtt_ackPackets div now acked_packets
    (TimeDelta.plusInfinity, s)
  unfold BbrNetworkController.UpdateBandwidthAndMinRtt
  generalize acked_packets.foldl (BbrNetworkController.ackPacket div now)
    (TimeDelta.plusInfinity, s) = f at hs f1 f2 f3 ⊢
  simp only at hs f1 f2 f3
  rcases BbrNetworkController.minRtt_fold (s.sampleRtts div now acked_packets)
    TimeDelta.plusInfinity with ⟨-, hall⟩ | ⟨m, hm, hm0, hfold, -, hmin⟩
  · obtain ⟨x, hx, hx0⟩ := hex
    have := hall x hx hx0
    simp [TimeDelta.le_iff_le, TimeDelta.le] at this
  · rw [hfold] at hs
    have hexp : f.2.minRttExpired now =
        (!s.min_rtt_.IsZero &&
          decide (Timestamp.finite now > s.min_rtt_timestamp_.add (TimeDelta.seconds 10))) := by
      unfold BbrNetworkController.minRttExpired
      rw [f1, f2]
      rfl
    have hext : (f.2.withSampleRtt (TimeDelta.finite m)).ShouldExtendMinRttExpiry = false := by
      apply BbrNetworkController.ShouldExtendMinRttExpiry_default
      · show f.2.config_.probe_rtt_disabled_if_app_limited = false
        rw [f3]; exact h1
      · show f.2.config_.probe_rtt_skipped_if_similar_rtt = false
        rw [f3]; exact h2
    have hret : (s.min_rtt_.IsZero = false ∧
          Timestamp.finite now > s.min_rtt_timestamp_.add (TimeDelta.seconds 10)) ↔
        f.2.minRttExpired now = true := by
      rw [hexp]
      cases s.min_rtt_.IsZero <;> simp
    have hcond : (f.2.minRttExpired now = true ∨ TimeDelta.finite m < f.2.min_rtt_ ∨
          f.2.min_rtt_.IsZero = true) ↔
        (TimeDelta.finite m < s.min_rtt_ ∨ s.min_rtt_.IsZero = true ∨
          Timestamp.finite now > s.min_rtt_timestamp_.add (TimeDelta.seconds 10)) := by
      rw [f1, ← hret]
      cases hz : s.min_rtt_.IsZero <;> simp
      tauto
    refine ⟨m, hm, hm0, hmin, ?_⟩
    rw [hs]
    unfold BbrNetworkController.updateMinRtt
    rw [if_neg (by simp [TimeDelta.IsInfinite])]
    by_cases hc : TimeDelta.finite m < s.min_rtt_ ∨ s.min_rtt_.IsZero = true ∨
        Timestamp.finite now > s.min_rtt_timestamp_.add (TimeDelta.seconds 10)
    · rw [if_pos (hcond.mpr hc), hext, if_neg Bool.false_ne_true]
      refine ⟨fun _ => ⟨rfl, rfl⟩, fun h => absurd hc h, hret.symm, le_refl _, rfl⟩
    · rw [if_neg (fun h => hc (hcond.mp h))]
      refine ⟨fun h => absurd h hc, fun _ => ⟨f1, f2⟩, hret.symm, ?_, rfl⟩
      show f.2.min_rtt_ ≤ TimeDelta.finite m
      rw [f1]
      push_neg at hc
      exact hc.1

/-- Witness of C35: the acknowledgement at 250 ms of the third packet of the
controller `stallS1`, sent at 200 ms. -/
theorem update_bandwidth_and_min_rtt_spec_witness :
    stallS1.config_.probe_rtt_disabled_if_app_limited = false ∧
    stallS1.config_.probe_rtt_skipped_if_similar_rtt = false ∧
    stallS1.sampleRtts DataSize.div 250000 [⟨⟨200000, 1000, 3, 1000⟩, some 250000⟩] = [50000] ∧
    ∃ sample_rtt : Int,
      sample_rtt ∈ stallS1.sampleRtts DataSize.div 250000 [⟨⟨200000, 1000, 3, 1000⟩, some 250000⟩] ∧
      (stallS1.UpdateBandwidthAndMinRtt DataSize.div 250000
        [⟨⟨200000, 1000, 3, 1000⟩, some 250000⟩]).2.last_rtt_ = TimeDelta.finite sample_rtt := by
  refine ⟨by decide, by decide, by decide, ?_⟩
  obtain ⟨m, h1, -, -, -, -, -, -, h8⟩ :=
    update_bandwidth_and_min_rtt_spec DataSize.div stallS1 250000
      [⟨⟨200000, 1000, 3, 1000⟩, some 250000⟩] (by decide) (by decide)
      ⟨50000, by decide, by decide⟩
  exact ⟨m, h1, h8⟩

/-! ## The window reported to the transport -/

namespace BbrNetworkController

/-- After `CalculateRecoveryWindow` without `rate_based_recovery` and
`rate_based_startup`, the recovery window of a controller in recovery is at
least the minimum window, whatever it was before. -/
theorem recoveryBounded_CalculateRecoveryWindow (s : BbrNetworkController)
    (hc : s.config_ = BbrControllerConfig.default) (bytes_acked bytes_lost bytes_in_flight : Int) :
    (s.CalculateRecoveryWindow bytes_acked bytes_lost bytes_in_flight).RecoveryBounded := by
  have h0 : ¬ (s.config_.rate_based_recovery = true ∨
      (s.config_.rate_based_startup = true ∧ s.mode_ = Mode.STARTUP)) := by
    rw [hc]
    rintro (h | ⟨h, -⟩) <;> cases h
  unfold CalculateRecoveryWindow
  rw [if_neg h0]
  split_ifs with h1 h2
  · exact Or.inl h1
  · exact Or.inr (le_max_left _ _)
  · exact Or.inr (le_max_left _ _)

theorem RecoveryBounded.of_fields {s t : BbrNetworkController} (h : s.RecoveryBounded)
    (h1 : t.recovery_state_ = s.recovery_state_) (h2 : t.recovery_window_ = s.recovery_window_)
    (h3 : t.min_congestion_window_ = s.min_congestion_window_) : t.RecoveryBounded := by
  unfold RecoveryBounded
  rw [h1, h2, h3]
  exact h

theorem recoveryBounded_removeObsolete {s t : BbrNetworkController}
    (msg : TransportPacketsFeedback) (h : s.RecoveryBounded)
    (ht : s.removeObsolete msg = some t) : t.RecoveryBounded := by
  unfold removeObsolete at ht
  split at ht
  · cases ht
    exact h
  · split at ht
    · cases ht
    · cases ht
      exact h.of_fields rfl rfl rfl

theorem recoveryBounded_Reset {s : BbrNetworkController} (h : s.RecoveryBounded) :
    s.Reset.RecoveryBounded := by
  unfold Reset
  split_ifs
  · exact h.of_fields rfl rfl rfl
  · exact h.of_fields rfl rfl rfl

theorem recoveryBounded_feedback (div : Int → Int → DataRate) {s t : BbrNetworkController}
    (h : s.RecoveryBounded) (hc : s.config_ = BbrControllerConfig.default)
    (msg : TransportPacketsFeedback) (ht : s.OnTransportPacketsFeedback div msg = some t) :
    t.RecoveryBounded := by
  unfold OnTransportPacketsFeedback at ht
  split at ht
  · cases ht
    exact h
  · rename_i last _
    unfold feedbackWith at ht
    refine recoveryBounded_removeObsolete msg ?_ ht
    unfold updateWindows
    apply recoveryBounded_CalculateRecoveryWindow
    rw [(keeps_CalculateCongestionWindow _ _ ⟨true, true, true, true, true⟩).1,
      (keeps_CalculatePacingRate _).1, (keeps_updateModes _ _ _ _).1,
      (keeps_feedModel div _ _ _).1, (keeps_beforeModel s msg last).1]
    exact hc

theorem recoveryBounded_event (div : Int → Int → DataRate) {s t : BbrNetworkController}
    (h : s.RecoveryBounded) (hc : s.config_ = BbrControllerConfig.default) (e : ControllerEvent)
    (ht : s.event div e = some t) : t.RecoveryBounded := by
  cases e with
  | sent msg =>
    cases ht
    exact h.of_fields rfl rfl rfl
  | feedback msg => exact recoveryBounded_feedback div h hc msg ht
  | availability =>
    cases ht
    exact (recoveryBounded_Reset h).of_fields rfl rfl rfl
  | routeChange msg =>
    cases ht
    exact (recoveryBounded_Reset (s := { s with constraints_ := some msg.constraints })
      (h.of_fields rfl rfl rfl)).of_fields rfl rfl rfl
  | processInterval =>
    cases ht
    exact h
  | constraints msg =>
    cases ht
    exact h.of_fields rfl rfl rfl

/-- From a state of the default configuration with a valid sampler, a window
within its limits and a bounded recovery window, every sequence of events
returns and leads to such a state. -/
theorem reportedWindow_events (div : Int → Int → DataRate) (es : List ControllerEvent) :
    ∀ s : BbrNetworkController, s.SamplerValid → s.WindowBounded → s.RecoveryBounded →
      s.config_ = BbrControllerConfig.default →
      ∃ t, s.events div es = some t ∧ t.SamplerValid ∧ t.WindowBounded ∧ t.RecoveryBounded ∧
        t.config_ = BbrControllerConfig.default ∧
        t.min_congestion_window_ = s.min_congestion_window_ ∧
        t.max_congestion_window_ = s.max_congestion_window_ := by
  induction es with
  | nil => intro s hv h hr hc; exact ⟨s, rfl, hv, h, hr, hc, rfl, rfl⟩
  | cons e es ih =>
    intro s hv h hr hc
    obtain ⟨s1, h1, hv1, hb1, a1, -, a3, a4⟩ := h.controller_event div hv e
    obtain ⟨t, ht, hvt, hbt, hrt, b1, b3, b4⟩ :=
      ih s1 hv1 hb1 (recoveryBounded_event div hr hc e h1) (a1.trans hc)
    refine ⟨t, ?_, hvt, hbt, hrt, b1, b3.trans a3, b4.trans a4⟩
    simp [events, h1, ht]

/-- The window that `GetCongestionWindow()` reports for a state of the default
configuration with a window within its limits and a bounded recovery window. -/
theorem reportedWindow_bounds {s : BbrNetworkController} (h : s.WindowBounded)
    (hr : s.RecoveryBounded) (hc : s.config_ = BbrControllerConfig.default) :
    s.min_congestion_window_ ≤ s.GetCongestionWindow ∧
    s.GetCongestionWindow ≤ s.max_congestion_window_ := by
  unfold GetCongestionWindow
  split_ifs with hm hrec
  · unfold ProbeRttCongestionWindow
    rw [hc, if_neg (by decide)]
    exact ⟨le_refl _, le_trans h.1 h.2⟩
  · have hin : s.recovery_state_ ≠ RecoveryState.NOT_IN_RECOVERY := by
      intro hn
      simp [InRecovery, hn] at hrec
    rcases hr with hr | hr
    · exact absurd hr hin
    · exact ⟨le_min h.1 hr, le_trans (min_le_left _ _) h.2⟩
  · exact h

end BbrNetworkController

/-- C38: for the controller constructed with the default configuration, every
sequence of events returns, and so does an `OnTransportPacketsFeedback` after
it; the window that `GetCongestionWindow()` reports after that call, and after
the sequence, is at least `min_congestion_window_ = 20 * 1460` and at most
`max_congestion_window_ = 2000 * 1460`, in every mode and recovery state. -/
theorem reported_window_bounded (div : Int → Int → DataRate) (random_ : Random)
    (config : NetworkControllerConfig) (es : List ControllerEvent)
    (msg : TransportPacketsFeedback) :
    ∃ t, (BbrNetworkController.new BbrControllerConfig.default random_ config).events div es =
        some t ∧
      t.min_congestion_window_ = 20 * 1460 ∧ t.max_congestion_window_ = 2000 * 1460 ∧
      t.min_congestion_window_ ≤ t.GetCongestionWindow ∧
      t.GetCongestionWindow ≤ t.max_congestion_window_ ∧
      ∃ u, t.OnTransportPacketsFeedback div msg = some u ∧
        u.min_congestion_window_ = 20 * 1460 ∧ u.max_congestion_window_ = 2000 * 1460 ∧
        u.min_congestion_window_ ≤ u.GetCongestionWindow ∧
        u.GetCongestionWindow ≤ u.max_congestion_window_ := by
  obtain ⟨n1, -, n3, n4, n5, n6⟩ :=
    BbrNetworkController.sameWindow_new BbrControllerConfig.default random_ config
  have hv : (BbrNetworkController.new BbrControllerConfig.default random_ config).SamplerValid := by
    unfold BbrNetworkController.SamplerValid
    rw [n6]
    exact PacketNumberIndexedQueue.valid_new
  have hb : (BbrNetworkController.new BbrControllerConfig.default random_ config).WindowBounded := by
    unfold BbrNetworkController.WindowBounded
    rw [n3, n4, n5]
    decide
  have hr : (BbrNetworkController.new BbrControllerConfig.default random_
      config).RecoveryBounded := by
    unfold BbrNetworkController.new
    apply BbrNetworkController.recoveryBounded_Reset
    exact Or.inl rfl
  obtain ⟨t, ht, hvt, hbt, hrt, t1, t3, t4⟩ :=
    BbrNetworkController.reportedWindow_events div es _ hv hb hr n1
  obtain ⟨u, hu, -, hbu, u1, -, u3, u4⟩ := hbt.feedback div hvt msg
  have hru := BbrNetworkController.recoveryBounded_feedback div hrt t1 msg hu
  have tmin : t.min_congestion_window_ = 20 * 1460 := by rw [t3, n3]; decide
  have tmax : t.max_congestion_window_ = 2000 * 1460 := by rw [t4, n4]; decide
  obtain ⟨b1, b2⟩ := BbrNetworkController.reportedWindow_bounds hbt hrt t1
  obtain ⟨c1, c2⟩ := BbrNetworkController.reportedWindow_bounds hbu hru (u1.trans t1)
  exact ⟨t, ht, tmin, tmax, b1, b2, u, hu, u3.trans tmin, u4.trans tmax, c1, c2⟩

/-! ## Feedback before any packet was sent -/

theorem WindowedFilter.Update_uninitialised {T : Type} [DecidableEq T] (Compare : T → T → Bool)
    (f : WindowedFilter T) (s : T) (t : Int) (h : f.estimates_0.sample = f.zero_value_) :
    f.Update Compare s t = f.Reset s t := by
  unfold WindowedFilter.Update
  rw [if_pos (Or.inl h)]

theorem PacketNumberIndexedQueue.GetEntry_new {T : Type} (n : Int) :
    (PacketNumberIndexedQueue.new : PacketNumberIndexedQueue T).GetEntry n = none := by
  rw [PacketNumberIndexedQueue.GetEntry_eq_slotData]
  unfold PacketNumberIndexedQueue.slot PacketNumberIndexedQueue.new
  split_ifs <;> rfl

theorem BandwidthSampler.OnPacketLost_of_none (s : BandwidthSampler) (n : Int)
    (h : s.connection_state_map_.GetEntry n = none) : s.OnPacketLost n = s := by
  unfold BandwidthSampler.OnPacketLost
  rw [PacketNumberIndexedQueue.Remove_of_none _ n h]

theorem BandwidthSampler.OnPacketLost_new (n : Int) :
    BandwidthSampler.new.OnPacketLost n = BandwidthSampler.new :=
  BandwidthSampler.OnPacketLost_of_none _ n (PacketNumberIndexedQueue.GetEntry_new n)

theorem BandwidthSampler.OnPacketAcknowledged_new (div : Int → Int → DataRate)
    (ack_time n : Int) :
    BandwidthSampler.new.OnPacketAcknowledged div ack_time n =
      (BandwidthSample.new, BandwidthSampler.new) :=
  BandwidthSampler.OnPacketAcknowledged_of_none div _ ack_time n
    (PacketNumberIndexedQueue.GetEntry_new n)

theorem BandwidthSampler.RemoveObsoletePackets_new (least_unacked : Int) :
    BandwidthSampler.new.RemoveObsoletePackets least_unacked = some BandwidthSampler.new := rfl

namespace BbrNetworkController

theorem Unsent.beforeModel_unsent {r : RttStats} {recovery : RecoveryState}
    {s : BbrNetworkController} (h : s.Unsent r recovery) (msg : TransportPacketsFeedback)
    (last : PacketResult) :
    (s.beforeModel msg last).Unsent
      (r.UpdateRtt (TimeDelta.finite (msg.feedback_time - last.sent_packet.send_time))
        TimeDelta.Zero msg.feedback_time) recovery := by
  have hl : ∀ lost_packets : List PacketResult,
      lost_packets.foldl
        (fun sampler packet => BandwidthSampler.OnPacketLost sampler
          packet.sent_packet.sequence_number) BandwidthSampler.new = BandwidthSampler.new := by
    intro lost_packets
    induction lost_packets with
    | nil => rfl
    | cons packet rest ih => rw [List.foldl_cons, BandwidthSampler.OnPacketLost_new, ih]
  refine { h with stats := ?_, sampler := ?_ }
  · show s.rtt_stats_.UpdateRtt
      (TimeDelta.finite (msg.feedback_time - last.sent_packet.send_time)) TimeDelta.Zero
      msg.feedback_time = _
    rw [h.stats]
  · show List.foldl _ s.sampler_ _ = _
    rw [h.sampler, hl]

theorem Unsent.roundCounter_unsent {r : RttStats} {recovery : RecoveryState}
    {s : BbrNetworkController} (h : s.Unsent r recovery) (last_acked_packet : Int) :
    (s.UpdateRoundTripCounter last_acked_packet).2.Unsent r recovery := by
  unfold UpdateRoundTripCounter
  split_ifs
  · exact { h with roundEnd := h.lastSent }
  · exact h

theorem Unsent.ackPackets_unsent (div : Int → Int → DataRate) (now : Int)
    {r : RttStats} {recovery : RecoveryState} (acked_packets : List PacketResult) :
    ∀ acc : TimeDelta × BbrNetworkController, acc.2.Unsent r recovery →
      (acked_packets.foldl (ackPacket div now) acc).2.Unsent r recovery ∧
      (acked_packets.foldl (ackPacket div now) acc).1 = acc.1 := by
  induction acked_packets with
  | nil => intro acc h; exact ⟨h, rfl⟩
  | cons packet rest ih =>
    intro acc h
    rw [List.foldl_cons]
    have hs : acc.2.sampler_.OnPacketAcknowledged div now packet.sent_packet.sequence_number =
        (BandwidthSample.new, BandwidthSampler.new) := by
      rw [h.sampler]
      exact BandwidthSampler.OnPacketAcknowledged_new div now _
    have hfilter : (ackPacket div now acc packet).2.max_bandwidth_ =
        if (acc.2.sampler_.OnPacketAcknowledged div now
              packet.sent_packet.sequence_number).1.is_app_limited = false ∨
            (acc.2.sampler_.OnPacketAcknowledged div now
              packet.sent_packet.sequence_number).1.bandwidth > acc.2.BandwidthEstimate then
          acc.2.max_bandwidth_.Update MaxFilter
            (acc.2.sampler_.OnPacketAcknowledged div now
              packet.sent_packet.sequence_number).1.bandwidth acc.2.round_trip_count_
        else acc.2.max_bandwidth_ := rfl
    rw [hs] at hfilter
    dsimp only at hfilter
    rw [if_pos (show BandwidthSample.new.is_app_limited = false ∨
        BandwidthSample.new.bandwidth > acc.2.BandwidthEstimate from Or.inl rfl),
      WindowedFilter.Update_uninitialised _ _ _ _ (h.best.trans h.zero.symm)] at hfilter
    have hsample : (ackPacket div now acc packet).1 =
        if (acc.2.sampler_.OnPacketAcknowledged div now
            packet.sent_packet.sequence_number).1.rtt ≠ 0 then
          min acc.1 (TimeDelta.finite (acc.2.sampler_.OnPacketAcknowledged div now
            packet.sent_packet.sequence_number).1.rtt)
        else acc.1 := rfl
    rw [hs] at hsample
    dsimp only at hsample
    rw [if_neg (show ¬ BandwidthSample.new.rtt ≠ 0 from fun hn => hn rfl)] at hsample
    have hstep : (ackPacket div now acc packet).2.Unsent r recovery ∧
        (ackPacket div now acc packet).1 = acc.1 := by
      refine ⟨{ h with sampler := ?_, appLimited := ?_, zero := ?_, best := ?_ }, hsample⟩
      · show (acc.2.sampler_.OnPacketAcknowledged div now
          packet.sent_packet.sequence_number).2 = _
        rw [hs]
      · rw [hfilter]
        exact h.zero
      · rw [hfilter]
        rfl
      · show (acc.2.sampler_.OnPacketAcknowledged div now
          packet.sent_packet.sequence_number).1.is_app_limited = _
        rw [hs]
        rfl
    obtain ⟨i1, i2⟩ := ih _ hstep.1
    exact ⟨i1, i2.trans hstep.2⟩

theorem updateMinRtt_plusInfinity (s : BbrNetworkController) (now : Int) :
    s.updateMinRtt now TimeDelta.plusInfinity = (false, s) := rfl

theorem Unsent.recoveryState_unsent {r : RttStats} {s : BbrNetworkController}
    (h : s.Unsent r RecoveryState.NOT_IN_RECOVERY) (last_acked_packet : Int)
    (has_losses is_round_start : Bool) :
    (s.UpdateRecoveryState last_acked_packet has_losses is_round_start).Unsent r
      (if has_losses = true then RecoveryState.CONSERVATION
        else RecoveryState.NOT_IN_RECOVERY) := by
  unfold UpdateRecoveryState recoverySwitch
  cases has_losses
  · simp only [Bool.false_eq_true, if_false]
    rw [h.state]
    exact h
  · simp only [if_true]
    show Unsent r RecoveryState.CONSERVATION
      (match s.recovery_state_ with
        | RecoveryState.NOT_IN_RECOVERY => _
        | RecoveryState.GROWTH => _
        | _ => _)
    rw [h.state]
    refine { h with state := ?_, roundEnd := h.lastSent }
    show (if s.mode_ = Mode.STARTUP then s.config_.initial_conservation_in_startup
      else RecoveryState.CONSERVATION) = _
    rw [if_pos h.mode, h.config]
    rfl

theorem Unsent.aggregation_same {r : RttStats} {recovery : RecoveryState}
    {s : BbrNetworkController} (h : s.Unsent r recovery) (ack_time newly_acked_bytes : Int) :
    s.UpdateAckAggregationBytes ack_time newly_acked_bytes = s := by
  unfold UpdateAckAggregationBytes
  rw [h.epoch]

theorem Unsent.drained_same {r : RttStats} {recovery : RecoveryState}
    {s : BbrNetworkController} (h : s.Unsent r recovery) (msg : TransportPacketsFeedback)
    (data_acked : Int) : s.drainedBytes msg data_acked = s := by
  unfold drainedBytes
  rw [h.multiplier, if_neg (by decide)]

theorem Unsent.gainCycle_same {r : RttStats} {recovery : RecoveryState}
    {s : BbrNetworkController} (h : s.Unsent r recovery) (msg : TransportPacketsFeedback) :
    s.gainCycleStage msg = s := by
  unfold gainCycleStage
  rw [if_neg (by rw [h.mode]; decide)]

end BbrNetworkController

namespace BbrNetworkController

theorem Unsent.fullBandwidth_same {r : RttStats} {recovery : RecoveryState}
    {s : BbrNetworkController} (h : s.Unsent r recovery) (is_round_start : Bool) :
    s.fullBandwidthStage is_round_start = s := by
  have hb : s.BandwidthEstimate = DataRate.Zero := h.best
  have hset : ∀ (v : DataRate) (n : Int), s.bandwidth_at_last_round_ = v →
      s.rounds_without_bandwidth_gain_ = n →
      ({ s with bandwidth_at_last_round_ := v, rounds_without_bandwidth_gain_ := n } :
        BbrNetworkController) = s := by
    intro v n hv hn
    subst hv hn
    rfl
  unfold fullBandwidthStage
  split_ifs
  · unfold CheckIfFullBandwidthReached
    rw [if_neg (by rw [h.appLimited]; decide),
      if_pos (by rw [hb, h.lastRound]; decide)]
    exact hset _ _ (h.lastRound.trans hb.symm) h.rounds
  · rfl

theorem Unsent.exitStartup_same {r : RttStats} {recovery : RecoveryState}
    {s : BbrNetworkController} (h : s.Unsent r recovery) (msg : TransportPacketsFeedback) :
    s.MaybeExitStartupOrDrain msg = s := by
  have he : s.exitStartup = s := by
    unfold exitStartup
    rw [if_neg (by rw [h.mode, h.full, h.lastRtt, h.minRtt, h.config]; decide)]
  unfold MaybeExitStartupOrDrain
  rw [he, if_neg]
  rintro ⟨hm, -⟩
  rw [h.mode] at hm
  cases hm

theorem Unsent.probeRtt_same {r : RttStats} {recovery : RecoveryState}
    {s : BbrNetworkController} (h : s.Unsent r recovery) (msg : TransportPacketsFeedback)
    (is_round_start : Bool) : s.MaybeEnterOrExitProbeRtt msg is_round_start false = s := by
  have he : s.enterProbeRtt false = s := by
    unfold enterProbeRtt
    rw [if_neg]
    rintro ⟨hf, -⟩
    cases hf
  have hset : ∀ b : Bool, s.exiting_quiescence_ = b →
      ({ s with exiting_quiescence_ := b } : BbrNetworkController) = s := by
    intro b hb
    subst hb
    rfl
  rw [probeRtt_outside s msg is_round_start false (by rw [he, h.mode]; decide), he]
  exact hset _ h.quiescence

theorem Unsent.pacingRate_same {r : RttStats} {recovery : RecoveryState}
    {s : BbrNetworkController} (h : s.Unsent r recovery) : s.CalculatePacingRate = s := by
  have hb : s.BandwidthEstimate = DataRate.Zero := h.best
  unfold CalculatePacingRate
  rw [if_pos (by rw [hb]; decide)]

theorem Unsent.congestionWindow_same {r : RttStats} {recovery : RecoveryState}
    {s : BbrNetworkController} (h : s.Unsent r recovery) :
    s.CalculateCongestionWindow 0 = s := by
  have hg : s.grownWindow 0 = s.congestion_window_ := by
    unfold grownWindow
    rw [h.full]
    simp only [Bool.false_eq_true, if_false, add_zero, ite_self]
  have hset : ∀ v : Int, s.congestion_window_ = v →
      ({ s with congestion_window_ := v } : BbrNetworkController) = s := by
    intro v hv
    subst hv
    rfl
  unfold CalculateCongestionWindow
  rw [if_neg (by rw [h.mode]; decide)]
  apply hset
  rw [hg, h.window, h.least, h.most]
  decide

theorem Unsent.recoveryWindow_unsent {r : RttStats} {recovery : RecoveryState}
    {s : BbrNetworkController} (h : s.Unsent r recovery)
    (bytes_acked bytes_lost bytes_in_flight : Int) :
    (s.CalculateRecoveryWindow bytes_acked bytes_lost bytes_in_flight).Unsent r recovery := by
  unfold CalculateRecoveryWindow
  split_ifs
  · exact h
  · exact h
  · exact { h with }
  · exact { h with }

theorem Unsent.removeObsolete_same {r : RttStats} {recovery : RecoveryState}
    {s : BbrNetworkController} (h : s.Unsent r recovery) (msg : TransportPacketsFeedback) :
    s.removeObsolete msg = some s := by
  have hset : ∀ v : BandwidthSampler, s.sampler_ = v →
      ({ s with sampler_ := v } : BbrNetworkController) = s := by
    intro v hv
    subst hv
    rfl
  unfold removeObsolete
  split
  · rfl
  · rw [h.sampler, BandwidthSampler.RemoveObsoletePackets_new]
    exact congrArg some (hset _ h.sampler)

end BbrNetworkController

namespace BbrNetworkController

theorem Unsent.feedModel_unsent (div : Int → Int → DataRate) {r : RttStats}
    {s : BbrNetworkController} (h : s.Unsent r RecoveryState.NOT_IN_RECOVERY)
    (msg : TransportPacketsFeedback) (total_data_acked_before : Int) :
    (s.feedModel div msg total_data_acked_before).2.1 = false ∧
    (s.feedModel div msg total_data_acked_before).2.2.Unsent r
      (if msg.ReceivedWithSendInfo.getLast?.isSome = true ∧
          (!msg.LostWithSendInfo.isEmpty) = true then RecoveryState.CONSERVATION
        else RecoveryState.NOT_IN_RECOVERY) := by
  cases hr : msg.ReceivedWithSendInfo.getLast? with
  | none =>
    have hf : s.feedModel div msg total_data_acked_before = (false, false, s) := by
      unfold feedModel
      rw [hr]
    rw [hf, if_neg (by rintro ⟨hn, -⟩; cases hn)]
    exact ⟨rfl, h⟩
  | some packet =>
    have h1 := h.roundCounter_unsent packet.sent_packet.sequence_number
    obtain ⟨h2, h2s⟩ := Unsent.ackPackets_unsent div msg.feedback_time msg.ReceivedWithSendInfo
      (TimeDelta.plusInfinity, (s.UpdateRoundTripCounter packet.sent_packet.sequence_number).2) h1
    have hub : s.roundAndBandwidth div msg packet.sent_packet.sequence_number =
        (false, (msg.ReceivedWithSendInfo.foldl (ackPacket div msg.feedback_time)
          (TimeDelta.plusInfinity,
            (s.UpdateRoundTripCounter packet.sent_packet.sequence_number).2)).2) := by
      unfold roundAndBandwidth UpdateBandwidthAndMinRtt
      rw [h2s]
      rfl
    have h3 : (s.afterRecovery div msg packet.sent_packet.sequence_number).Unsent r
        (if (!msg.LostWithSendInfo.isEmpty) = true then RecoveryState.CONSERVATION
          else RecoveryState.NOT_IN_RECOVERY) := by
      unfold afterRecovery
      rw [hub]
      exact h2.recoveryState_unsent _ _ _
    have hf : (s.feedModel div msg total_data_acked_before).2.1 =
          (s.roundAndBandwidth div msg packet.sent_packet.sequence_number).1 ∧
        (s.feedModel div msg total_data_acked_before).2.2 =
          drainedBytes
            ((s.afterRecovery div msg
              packet.sent_packet.sequence_number).UpdateAckAggregationBytes msg.feedback_time
              ((s.afterRecovery div msg
                  packet.sent_packet.sequence_number).sampler_.total_data_acked -
                total_data_acked_before))
            msg
            ((s.afterRecovery div msg
                packet.sent_packet.sequence_number).sampler_.total_data_acked -
              total_data_acked_before) := by
      unfold feedModel
      rw [hr]
      exact ⟨rfl, rfl⟩
    rw [hf.1, hf.2, hub, h3.aggregation_same, h3.drained_same]
    refine ⟨rfl, ?_⟩
    by_cases hl : (!msg.LostWithSendInfo.isEmpty) = true
    · rw [if_pos ⟨rfl, hl⟩]
      rw [if_pos hl] at h3
      exact h3
    · rw [if_neg (fun hn => hl hn.2)]
      rw [if_neg hl] at h3
      exact h3

/-- A feedback on a controller to which no packet was reported as sent returns
and leaves such a controller; the round-trip statistics take the sample of the
last packet of the batch, and a batch with received and lost packets starts
`CONSERVATION`. -/
theorem Unsent.feedback_unsent (div : Int → Int → DataRate) {r : RttStats}
    {s : BbrNetworkController} (h : s.Unsent r RecoveryState.NOT_IN_RECOVERY)
    (msg : TransportPacketsFeedback) (last : PacketResult)
    (hl : msg.PacketsWithFeedback.getLast? = some last) :
    ∃ t, s.OnTransportPacketsFeedback div msg = some t ∧
      t.Unsent
        (r.UpdateRtt (TimeDelta.finite (msg.feedback_time - last.sent_packet.send_time))
          TimeDelta.Zero msg.feedback_time)
        (if msg.ReceivedWithSendInfo.getLast?.isSome = true ∧
            (!msg.LostWithSendInfo.isEmpty) = true then RecoveryState.CONSERVATION
          else RecoveryState.NOT_IN_RECOVERY) := by
  have hb := h.beforeModel_unsent msg last
  obtain ⟨f1, f2⟩ := hb.feedModel_unsent div msg s.sampler_.total_data_acked
  have hm : updateModes
      (feedModel div (s.beforeModel msg last) msg s.sampler_.total_data_acked).2.2 msg
      (feedModel div (s.beforeModel msg last) msg s.sampler_.total_data_acked).1
      (feedModel div (s.beforeModel msg last) msg s.sampler_.total_data_acked).2.1 =
      (feedModel div (s.beforeModel msg last) msg s.sampler_.total_data_acked).2.2 := by
    unfold updateModes
    rw [f1, f2.gainCycle_same, f2.fullBandwidth_same, f2.exitStartup_same, f2.probeRtt_same]
  have hd : (feedModel div (s.beforeModel msg last) msg
      s.sampler_.total_data_acked).2.2.sampler_.total_data_acked -
      s.sampler_.total_data_acked = 0 := by
    rw [f2.sampler, h.sampler]
    rfl
  have hw : (updateWindows
      (feedModel div (s.beforeModel msg last) msg s.sampler_.total_data_acked).2.2 msg
      s.sampler_.total_data_acked).Unsent
      (r.UpdateRtt (TimeDelta.finite (msg.feedback_time - last.sent_packet.send_time))
        TimeDelta.Zero msg.feedback_time)
      (if msg.ReceivedWithSendInfo.getLast?.isSome = true ∧
          (!msg.LostWithSendInfo.isEmpty) = true then RecoveryState.CONSERVATION
        else RecoveryState.NOT_IN_RECOVERY) := by
    unfold updateWindows
    rw [hd, f2.pacingRate_same, f2.congestionWindow_same]
    exact f2.recoveryWindow_unsent _ _ _
  refine ⟨_, ?_, hw⟩
  unfold OnTransportPacketsFeedback
  rw [hl]
  show feedbackWith div s msg last = _
  unfold feedbackWith
  rw [hm]
  exact hw.removeObsolete_same msg

theorem unsent_new (random_ : Random) (config : NetworkControllerConfig) :
    (new BbrControllerConfig.default random_ config).Unsent RttStats.new
      RecoveryState.NOT_IN_RECOVERY := by
  unfold new Reset
  rw [if_pos (show BbrControllerConfig.default.num_startup_rtts > 0 by decide)]
  exact ⟨rfl, rfl, rfl, rfl, rfl, rfl, rfl, rfl, rfl, rfl, rfl, rfl, rfl, rfl, rfl, rfl, rfl,
    rfl, rfl, rfl, rfl, rfl, rfl⟩

end BbrNetworkController

/-- The feedback that packet 1 was received, given to a newly constructed
controller, is not a no-op: the round count becomes 1, the round-trip
statistics take the sample of 50 ms and the estimates of the bandwidth filter
are stamped with the round 1. -/
theorem feedback_before_send_counterexample :
    (ackOf 50000 ⟨0, 1000, 1, 1000⟩).packet_feedbacks ≠ [] ∧
    startupController.OnTransportPacketsFeedback DataSize.div (ackOf 50000 ⟨0, 1000, 1, 1000⟩) =
      some unsentAcked ∧
    startupController.round_trip_count_ = 0 ∧ unsentAcked.round_trip_count_ = 1 ∧
    startupController.rtt_stats_.latest_rtt = TimeDelta.Zero ∧
    unsentAcked.rtt_stats_.latest_rtt = TimeDelta.finite 50000 ∧
    startupController.max_bandwidth_.estimates_0 = ⟨DataRate.Zero, 0⟩ ∧
    unsentAcked.max_bandwidth_.estimates_0 = ⟨DataRate.Zero, 1⟩ ∧
    unsentAcked ≠ startupController := by
  decide

/-- C34, amended: `OnTransportPacketsFeedback` with a batch that is not empty,
on a newly constructed controller of the default configuration, returns and
leaves the mode, `current_round_trip_end_`, `min_rtt_`, `congestion_window_`,
`pacing_rate_`, the bandwidth estimate and the sampler as they were. The
round-trip statistics are updated with `feedback_time - send_time` of the last
packet of the batch; `round_trip_count_` becomes 1 when the last received packet
of the batch has a number above 0 and stays 0 otherwise; and `recovery_state_`
becomes `CONSERVATION` when the batch has received and lost packets and stays
`NOT_IN_RECOVERY` otherwise. -/
theorem feedback_before_send (div : Int → Int → DataRate) (random_ : Random)
    (config : NetworkControllerConfig) (msg : TransportPacketsFeedback)
    (hne : msg.packet_feedbacks ≠ []) :
    ∃ t last,
      (BbrNetworkController.new BbrControllerConfig.default random_
        config).OnTransportPacketsFeedback div msg = some t ∧
      msg.PacketsWithFeedback.getLast? = some last ∧
      t.mode_ = (BbrNetworkController.new BbrControllerConfig.default random_ config).mode_ ∧
      t.current_round_trip_end_ =
        (BbrNetworkController.new BbrControllerConfig.default random_
          config).current_round_trip_end_ ∧
      t.min_rtt_ = (BbrNetworkController.new BbrControllerConfig.default random_ config).min_rtt_ ∧
      t.congestion_window_ =
        (BbrNetworkController.new BbrControllerConfig.default random_
          config).congestion_window_ ∧
      t.pacing_rate_ =
        (BbrNetworkController.new BbrControllerConfig.default random_ config).pacing_rate_ ∧
      t.BandwidthEstimate =
        (BbrNetworkController.new BbrControllerConfig.default random_
          config).BandwidthEstimate ∧
      t.sampler_ = (BbrNetworkController.new BbrControllerConfig.default random_ config).sampler_ ∧
      t.rtt_stats_ =
        (BbrNetworkController.new BbrControllerConfig.default random_ config).rtt_stats_.UpdateRtt
          (TimeDelta.finite (msg.feedback_time - last.sent_packet.send_time)) TimeDelta.Zero
          msg.feedback_time ∧
      t.round_trip_count_ =
        (if ∃ packet, msg.ReceivedWithSendInfo.getLast? = some packet ∧
            packet.sent_packet.sequence_number > 0 then 1 else 0) ∧
      t.recovery_state_ =
        (if msg.ReceivedWithSendInfo ≠ [] ∧ msg.LostWithSendInfo ≠ [] then
          RecoveryState.CONSERVATION
        else RecoveryState.NOT_IN_RECOVERY) := by
  have h := BbrNetworkController.unsent_new random_ config
  obtain ⟨last, hl⟩ : ∃ last, msg.PacketsWithFeedback.getLast? = some last := by
    cases hg : msg.PacketsWithFeedback.getLast? with
    | none => exact absurd (List.getLast?_eq_none_iff.mp hg) hne
    | some last => exact ⟨last, rfl⟩
  obtain ⟨t, ht, hu⟩ := h.feedback_unsent div msg last hl
  obtain ⟨c1, c2⟩ := BbrNetworkController.roundCount_feedback div _ t msg ht
  have hs0 : (BbrNetworkController.new BbrControllerConfig.default random_
      config).rtt_stats_ = RttStats.new := h.stats
  refine ⟨t, last, ht, hl, hu.mode.trans h.mode.symm, hu.roundEnd.trans h.roundEnd.symm,
    hu.minRtt.trans h.minRtt.symm, hu.window.trans h.window.symm, hu.rate.trans h.rate.symm,
    (show t.max_bandwidth_.estimates_0.sample = _ from hu.best).trans h.best.symm,
    hu.sampler.trans h.sampler.symm, ?_, ?_, ?_⟩
  · rw [hu.stats, hs0]
  · have hcount : (BbrNetworkController.new BbrControllerConfig.default random_
        config).round_trip_count_ = 0 := by
      unfold BbrNetworkController.new BbrNetworkController.Reset
      split_ifs <;> rfl
    rw [h.roundEnd] at c2
    rw [c1, hcount, zero_add]
    by_cases hi : BbrNetworkController.isRoundStart div
        (BbrNetworkController.new BbrControllerConfig.default random_ config) msg = true
    · rw [if_pos hi, if_pos (c2.mp hi)]
    · rw [if_neg hi, if_neg (fun hn => hi (c2.mpr hn))]
  · rw [hu.state]
    have e1 : (msg.ReceivedWithSendInfo.getLast?.isSome = true) ↔
        msg.ReceivedWithSendInfo ≠ [] := by
      cases hrl : msg.ReceivedWithSendInfo with
      | nil => simp
      | cons a l => simp [List.getLast?_cons_cons, List.getLast?]
    have e2 : ((!msg.LostWithSendInfo.isEmpty) = true) ↔ msg.LostWithSendInfo ≠ [] := by
      cases msg.LostWithSendInfo <;> simp
    by_cases hc : msg.ReceivedWithSendInfo ≠ [] ∧ msg.LostWithSendInfo ≠ []
    · rw [if_pos hc, if_pos ⟨e1.mpr hc.1, e2.mpr hc.2⟩]
    · rw [if_neg hc, if_neg (fun hn => hc ⟨e1.mp hn.1, e2.mp hn.2⟩)]

/-- Witness of C34 (amended): the feedback that packet 1 was received, on the
newly constructed controller. -/
theorem feedback_before_send_witness :
    (ackOf 50000 ⟨0, 1000, 1, 1000⟩).packet_feedbacks ≠ [] ∧
    ∃ t, startupController.OnTransportPacketsFeedback DataSize.div
        (ackOf 50000 ⟨0, 1000, 1, 1000⟩) = some t ∧
      t.sampler_ = startupController.sampler_ ∧ t.round_trip_count_ = 1 := by
  refine ⟨by decide, ?_⟩
  obtain ⟨t, last, h1, -, -, -, -, -, -, -, h9, -, h11, -⟩ :=
    feedback_before_send DataSize.div ⟨[]⟩ ⟨⟨Timestamp.finite 0, none, none, none⟩⟩
      (ackOf 50000 ⟨0, 1000, 1, 1000⟩) (by decide)
  refine ⟨t, h1, h9, ?_⟩
  rw [h11]
  decide

namespace BbrNetworkController

theorem constrainRate_mono (constraints : Option TargetRateConstraints) {a b : DataRate}
    (h : a ≤ b) : constrainRate constraints a ≤ constrainRate constraints b := by
  unfold constrainRate
  cases constraints with
  | none => exact h
  | some c =>
    obtain ⟨t0, min_rate, max_rate, r0⟩ := c
    cases min_rate <;> cases max_rate <;> dsimp only
    · exact h
    · exact min_le_min h le_rfl
    · exact max_le_max h le_rfl
    · exact max_le_max (min_le_min h le_rfl) le_rfl

theorem constrainRate_le_max {c : TargetRateConstraints} {max_rate : DataRate}
    (hmax : c.max_data_rate = some max_rate)
    (hmin : c.min_data_rate = none ∨
      ∃ min_rate, c.min_data_rate = some min_rate ∧ min_rate ≤ max_rate)
    (rate : DataRate) : constrainRate (some c) rate ≤ max_rate := by
  unfold constrainRate
  dsimp only
  rw [hmax]
  rcases hmin with h | ⟨min_rate, h, hle⟩
  · rw [h]
    exact min_le_right _ _
  · rw [h]
    exact max_le (min_le_right _ _) hle

theorem le_constrainRate {c : TargetRateConstraints} {min_rate : DataRate}
    (hmin : c.min_data_rate = some min_rate) (rate : DataRate) :
    min_rate ≤ constrainRate (some c) rate := by
  unfold constrainRate
  dsimp only
  rw [hmin]
  exact le_max_right _ _

theorem encoderTarget_le (div : Int → Int → DataRate) (s : BbrNetworkController) :
    s.encoderTarget div ≤ s.PacingRate div := by
  unfold encoderTarget
  exact min_le_right _ _

theorem probing_iff (s : BbrNetworkController) :
    s.IsProbingForMoreBandwidth = true ↔
      (s.mode_ = Mode.STARTUP ∨
        (s.mode_ = Mode.PROBE_BW ∧ (Double.ofInt 1).lt s.pacing_gain_ = true)) := by
  unfold IsProbingForMoreBandwidth
  simp only [Bool.or_eq_true, Bool.and_eq_true, decide_eq_true_eq]
  exact Or.comm

theorem feedback_returns (div : Int → Int → DataRate) {s : BbrNetworkController}
    (hv : s.SamplerValid) (msg : TransportPacketsFeedback) :
    ∃ t, s.OnTransportPacketsFeedback div msg = some t := by
  unfold OnTransportPacketsFeedback
  split
  · exact ⟨s, rfl⟩
  · rename_i last _
    have hvalid := samplerValid_updateWindows
      (samplerValid_updateModes
        (samplerValid_feedModel div (samplerValid_beforeModel hv msg last) msg
          s.sampler_.total_data_acked) msg
        (feedModel div (s.beforeModel msg last) msg s.sampler_.total_data_acked).1
        (feedModel div (s.beforeModel msg last) msg s.sampler_.total_data_acked).2.1)
      msg s.sampler_.total_data_acked
    obtain ⟨t, ht, -⟩ := removeObsolete_returns hvalid msg
    exact ⟨t, ht⟩

end BbrNetworkController

/-- C32: for every controller state and time, the update of `CreateRateUpdate`
has all three fields; its `time_window` is `GetMinRtt()` times 0.25 (for a
finite rtt the quarter rounded to the microsecond), `data_window` is
`time_window` times the pacing rate of the update (`PacingRate()` after the
constraints, the `local_data_rate` of the pacer), `bwe_period` is the rtt
times 8 and `congestion_window` is `GetCongestionWindow()`. When the
controller is probing (mode STARTUP, or PROBE_BW with a pacing gain above 1)
`pad_window` is `data_window` and the pad rate is the pacing rate; otherwise
both are zero; and for a pacing rate that is not zero the two equalities hold
exactly when the controller is probing. -/
theorem create_rate_update_spec (div : Int → Int → DataRate) (s : BbrNetworkController)
    (at_time : Timestamp) :
    ∃ target pacer,
      s.CreateRateUpdate div at_time =
        ⟨some target, some pacer, some s.GetCongestionWindow⟩ ∧
      pacer.time_window = TimeDelta.scale ⟨1, 4⟩ s.GetMinRtt ∧
      (∀ us, s.GetMinRtt = TimeDelta.finite us →
        pacer.time_window = TimeDelta.finite (roundDiv us 4) ∧
        target.network_estimate.bwe_period = TimeDelta.finite (us * 8)) ∧
      pacer.local_data_rate =
        BbrNetworkController.constrainRate s.constraints_ (s.PacingRate div) ∧
      pacer.data_window = pacer.time_window.mulRate pacer.local_data_rate ∧
      target.network_estimate.round_trip_time = s.GetMinRtt ∧
      target.network_estimate.bwe_period = s.GetMinRtt.mulInt 8 ∧
      ((s.mode_ = Mode.STARTUP ∨
          (s.mode_ = Mode.PROBE_BW ∧ (Double.ofInt 1).lt s.pacing_gain_ = true)) →
        pacer.pad_window = pacer.data_window ∧
        pacer.local_pad_rate = pacer.local_data_rate) ∧
      (¬ (s.mode_ = Mode.STARTUP ∨
          (s.mode_ = Mode.PROBE_BW ∧ (Double.ofInt 1).lt s.pacing_gain_ = true)) →
        pacer.pad_window = 0 ∧ pacer.local_pad_rate = DataRate.Zero) ∧
      (pacer.local_data_rate ≠ DataRate.Zero →
        ((pacer.pad_window = pacer.data_window ∧
            pacer.local_pad_rate = pacer.local_data_rate) ↔
          (s.mode_ = Mode.STARTUP ∨
            (s.mode_ = Mode.PROBE_BW ∧ (Double.ofInt 1).lt s.pacing_gain_ = true)))) := by
  refine ⟨_, s.pacerConfig div at_time, rfl, rfl, ?_, rfl, rfl, rfl, rfl, ?_, ?_, ?_⟩
  · intro us hus
    dsimp only [BbrNetworkController.pacerConfig]
    rw [hus]
    refine ⟨?_, rfl⟩
    show TimeDelta.finite (roundDiv (1 * us) 4) = _
    rw [one_mul]
  · intro hp
    have hp1 := (BbrNetworkController.probing_iff s).mpr hp
    dsimp only [BbrNetworkController.pacerConfig]
    rw [if_pos hp1, if_pos hp1]
    exact ⟨rfl, rfl⟩
  · intro hp
    have hp1 : ¬ s.IsProbingForMoreBandwidth = true :=
      fun h => hp ((BbrNetworkController.probing_iff s).mp h)
    dsimp only [BbrNetworkController.pacerConfig]
    rw [if_neg hp1, if_neg hp1]
    exact ⟨rfl, rfl⟩
  · intro hz
    constructor
    · rintro ⟨-, hr⟩
      by_contra hp
      have hp1 : ¬ s.IsProbingForMoreBandwidth = true :=
        fun h => hp ((BbrNetworkController.probing_iff s).mp h)
      dsimp only [BbrNetworkController.pacerConfig] at hr hz
      rw [if_neg hp1] at hr
      exact hz hr.symm
    · intro hp
      have hp1 := (BbrNetworkController.probing_iff s).mpr hp
      dsimp only [BbrNetworkController.pacerConfig]
      rw [if_pos hp1, if_pos hp1]
      exact ⟨rfl, rfl⟩

/-- C39: for every controller state, with any constraints, and every time, the
target rate of the update of `CreateRateUpdate` is at most the data rate of its
pacer configuration; when `max_data_rate` is present and `min_data_rate` is
absent or at most `max_data_rate`, both rates are at most `max_data_rate`; and
when `min_data_rate` is present both are at least `min_data_rate`. -/
theorem create_rate_update_constraints (div : Int → Int → DataRate)
    (s : BbrNetworkController) (at_time : Timestamp) :
    ∃ target pacer,
      (s.CreateRateUpdate div at_time).target_rate = some target ∧
      (s.CreateRateUpdate div at_time).pacer_config = some pacer ∧
      target.target_rate ≤ pacer.local_data_rate ∧
      (∀ c max_rate, s.constraints_ = some c → c.max_data_rate = some max_rate →
        (c.min_data_rate = none ∨
          ∃ min_rate, c.min_data_rate = some min_rate ∧ min_rate ≤ max_rate) →
        target.target_rate ≤ max_rate ∧ pacer.local_data_rate ≤ max_rate) ∧
      (∀ c min_rate, s.constraints_ = some c → c.min_data_rate = some min_rate →
        min_rate ≤ target.target_rate ∧ min_rate ≤ pacer.local_data_rate) := by
  refine ⟨_, _, rfl, rfl, ?_, ?_, ?_⟩
  · exact BbrNetworkController.constrainRate_mono _ (BbrNetworkController.encoderTarget_le div s)
  · intro c max_rate hc hmax hmin
    dsimp only [BbrNetworkController.pacerConfig]
    rw [hc]
    exact ⟨BbrNetworkController.constrainRate_le_max hmax hmin _,
      BbrNetworkController.constrainRate_le_max hmax hmin _⟩
  · intro c min_rate hc hmin
    dsimp only [BbrNetworkController.pacerConfig]
    rw [hc]
    exact ⟨BbrNetworkController.le_constrainRate hmin _,
      BbrNetworkController.le_constrainRate hmin _⟩

/-- C33, on the code: `OnSentPacket` returns an update without any field, which
is not the update of `CreateRateUpdate` on the state after the packet; and so
does `OnTransportPacketsFeedback` for an empty batch. -/
theorem entrypoints_return_update_counterexample :
    BbrNetworkController.updateOnSentPacket startupController ⟨0, 1000, 1, 1000⟩ ≠
        (startupController.OnSentPacket ⟨0, 1000, 1, 1000⟩).CreateRateUpdate DataSize.div
          (Timestamp.finite 0) ∧
      (BbrNetworkController.updateOnSentPacket startupController ⟨0, 1000, 1, 1000⟩).target_rate
        = none ∧
      (BbrNetworkController.updateOnSentPacket startupController
        ⟨0, 1000, 1, 1000⟩).pacer_config = none ∧
      (BbrNetworkController.updateOnSentPacket startupController
        ⟨0, 1000, 1, 1000⟩).congestion_window = none ∧
      BbrNetworkController.updateOnTransportPacketsFeedback DataSize.div startupController
        ⟨0, 0, 0, []⟩ = some NetworkControlUpdate.empty := by
  refine ⟨?_, rfl, rfl, rfl, rfl⟩
  intro h
  have h1 := congrArg NetworkControlUpdate.target_rate h
  exact Option.noConfusion h1

/-- C33, as the code has it: on a state whose sampler is consistent,
`OnNetworkAvailability`, `OnNetworkRouteChange`, `OnProcessInterval`,
`OnTargetRateConstraints`, and `OnTransportPacketsFeedback` with a batch that is
not empty, return the update of `CreateRateUpdate` on the state after the event
at the time of the event, in which all three fields are present;
`OnSentPacket`, and `OnTransportPacketsFeedback` with an empty batch, return an
update without any field. -/
theorem entrypoints_return_update (div : Int → Int → DataRate) (s : BbrNetworkController)
    (hv : s.SamplerValid) :
    (∀ at_time, ∃ t, s.event div .availability = some t ∧
      s.updateOnNetworkAvailability div at_time = t.CreateRateUpdate div at_time) ∧
    (∀ msg : NetworkRouteChange, ∃ t, s.event div (.routeChange msg) = some t ∧
      s.updateOnNetworkRouteChange div msg = t.CreateRateUpdate div msg.at_time) ∧
    (∀ at_time, ∃ t, s.event div .processInterval = some t ∧
      s.updateOnProcessInterval div at_time = t.CreateRateUpdate div at_time) ∧
    (∀ msg : TargetRateConstraints, ∃ t, s.event div (.constraints msg) = some t ∧
      s.updateOnTargetRateConstraints div msg = t.CreateRateUpdate div msg.at_time) ∧
    (∀ msg : TransportPacketsFeedback, msg.packet_feedbacks ≠ [] →
      ∃ t, s.event div (.feedback msg) = some t ∧
        s.updateOnTransportPacketsFeedback div msg =
          some (t.CreateRateUpdate div (Timestamp.finite msg.feedback_time))) ∧
    (∀ msg : TransportPacketsFeedback, msg.packet_feedbacks = [] →
      s.event div (.feedback msg) = some s ∧
      s.updateOnTransportPacketsFeedback div msg = some ⟨none, none, none⟩) ∧
    (∀ msg : SentPacket, s.updateOnSentPacket msg = ⟨none, none, none⟩) ∧
    (∀ (t : BbrNetworkController) (at_time : Timestamp),
      (t.CreateRateUpdate div at_time).target_rate.isSome = true ∧
      (t.CreateRateUpdate div at_time).pacer_config.isSome = true ∧
      (t.CreateRateUpdate div at_time).congestion_window.isSome = true) := by
  refine ⟨fun _ => ⟨_, rfl, rfl⟩, fun _ => ⟨_, rfl, rfl⟩, fun _ => ⟨_, rfl, rfl⟩,
    fun _ => ⟨_, rfl, rfl⟩, ?_, ?_, fun _ => rfl, fun _ _ => ⟨rfl, rfl, rfl⟩⟩
  · intro msg hne
    obtain ⟨t, ht⟩ := BbrNetworkController.feedback_returns div hv msg
    refine ⟨t, ht, ?_⟩
    unfold BbrNetworkController.updateOnTransportPacketsFeedback
    rw [if_neg (by simpa using hne), ht]
  · intro msg he
    refine ⟨?_, ?_⟩
    · show s.OnTransportPacketsFeedback div msg = some s
      unfold BbrNetworkController.OnTransportPacketsFeedback
        TransportPacketsFeedback.PacketsWithFeedback
      rw [he]
      rfl
    · unfold BbrNetworkController.updateOnTransportPacketsFeedback
      rw [he]
      rfl

theorem entrypoints_return_update_witness :
    startupController.SamplerValid ∧
      (∀ msg : TransportPacketsFeedback, msg.packet_feedbacks ≠ [] →
        ∃ t, startupController.event DataSize.div (.feedback msg) = some t ∧
          startupController.updateOnTransportPacketsFeedback DataSize.div msg =
            some (t.CreateRateUpdate DataSize.div (Timestamp.finite msg.feedback_time))) := by
  have hv : startupController.SamplerValid := by
    unfold BbrNetworkController.SamplerValid startupController
    rw [(BbrNetworkController.sameWindow_new BbrControllerConfig.default _ _).2.2.2.2.2]
    exact PacketNumberIndexedQueue.valid_new
  exact ⟨hv, (entrypoints_return_update DataSize.div startupController hv).2.2.2.2.1⟩

end Bifrost
